import Mathlib

/-!
# SCSI disk emulation (`hw/scsi-disk.c`): shallow embedding

The C code is embedded as pure functions over an explicit `World`:
the device (`SCSIDiskState`), the block backend (`BlockBackend`), the request
(`SCSIDiskReq`) and a chronological trace of the calls made into the external
collaborators (block layer, SCSI bus / transport, VM run state).

Machine integers are natural numbers reduced explicitly to their width
(`uint32_t` fields modulo `2^32`, `uint64_t` and `size_t` modulo `2^64`);
`int32_t` results are integers obtained through `toInt32`.
-/

namespace ScsiDisk

/-! ## Constants -/

/-- `SCSI_DMA_BUF_SIZE` of `scsi-disk.c`. -/
def SCSI_DMA_BUF_SIZE : Nat := 131072
/-- `SCSI_MAX_INQUIRY_LEN` of `scsi-disk.c`. -/
def SCSI_MAX_INQUIRY_LEN : Nat := 256
/-- `SCSI_DISK_F_REMOVABLE` of `scsi-disk.c` (a bit number of `features`). -/
def SCSI_DISK_F_REMOVABLE : Nat := 0
/-- `SCSI_DISK_F_DPOFUA` of `scsi-disk.c` (a bit number of `features`). -/
def SCSI_DISK_F_DPOFUA : Nat := 1
/-- `BDRV_SECTOR_SIZE` of the block layer. -/
def BDRV_SECTOR_SIZE : Nat := 512

/-! Operation codes of `scsi-defs.h` (the header is not part of the sources at
hand; the values are those of the SCSI command set, `INQUIRY = 0x12` being the
one the specification's scenario S1 shows). -/

@[simp] def TEST_UNIT_READY : Nat := 0x00
@[simp] def REQUEST_SENSE : Nat := 0x03
@[simp] def READ_6 : Nat := 0x08
@[simp] def WRITE_6 : Nat := 0x0a
@[simp] def INQUIRY : Nat := 0x12
@[simp] def MODE_SELECT : Nat := 0x15
@[simp] def RESERVE : Nat := 0x16
@[simp] def RELEASE : Nat := 0x17
@[simp] def MODE_SENSE : Nat := 0x1a
@[simp] def START_STOP : Nat := 0x1b
@[simp] def ALLOW_MEDIUM_REMOVAL : Nat := 0x1e
@[simp] def READ_CAPACITY_10 : Nat := 0x25
@[simp] def READ_10 : Nat := 0x28
@[simp] def WRITE_10 : Nat := 0x2a
@[simp] def SEEK_10 : Nat := 0x2b
@[simp] def WRITE_VERIFY_10 : Nat := 0x2e
@[simp] def VERIFY_10 : Nat := 0x2f
@[simp] def SYNCHRONIZE_CACHE : Nat := 0x35
@[simp] def WRITE_SAME_10 : Nat := 0x41
@[simp] def READ_TOC : Nat := 0x43
@[simp] def GET_CONFIGURATION : Nat := 0x46
@[simp] def GET_EVENT_STATUS_NOTIFICATION : Nat := 0x4a
@[simp] def READ_DISC_INFORMATION : Nat := 0x51
@[simp] def MODE_SELECT_10 : Nat := 0x55
@[simp] def RESERVE_10 : Nat := 0x56
@[simp] def RELEASE_10 : Nat := 0x57
@[simp] def MODE_SENSE_10 : Nat := 0x5a
@[simp] def READ_16 : Nat := 0x88
@[simp] def WRITE_16 : Nat := 0x8a
@[simp] def WRITE_VERIFY_16 : Nat := 0x8e
@[simp] def VERIFY_16 : Nat := 0x8f
@[simp] def WRITE_SAME_16 : Nat := 0x93
@[simp] def SERVICE_ACTION_IN_16 : Nat := 0x9e
@[simp] def READ_12 : Nat := 0xa8
@[simp] def WRITE_12 : Nat := 0xaa
@[simp] def READ_DVD_STRUCTURE : Nat := 0xad
@[simp] def WRITE_VERIFY_12 : Nat := 0xae
@[simp] def VERIFY_12 : Nat := 0xaf
@[simp] def MECHANISM_STATUS : Nat := 0xbd

/-- `SAI_READ_CAPACITY_16` of `scsi-defs.h`. -/
@[simp] def SAI_READ_CAPACITY_16 : Nat := 0x10

/-- `TYPE_DISK` of `scsi-defs.h`. -/
@[simp] def TYPE_DISK : Nat := 0x00
/-- `TYPE_ROM` of `scsi-defs.h`. -/
@[simp] def TYPE_ROM : Nat := 0x05

/-- `GOOD` status byte. -/
def GOOD : Int := 0
/-- `CHECK_CONDITION` status byte. -/
def CHECK_CONDITION : Int := 2

/-! Mode page codes of `scsi-defs.h`. -/

@[simp] def MODE_PAGE_R_W_ERROR : Nat := 0x01
@[simp] def MODE_PAGE_HD_GEOMETRY : Nat := 0x04
@[simp] def MODE_PAGE_FLEXIBLE_DISK_GEOMETRY : Nat := 0x05
@[simp] def MODE_PAGE_CACHING : Nat := 0x08
@[simp] def MODE_PAGE_AUDIO_CTL : Nat := 0x0e
@[simp] def MODE_PAGE_CAPABILITIES : Nat := 0x2a

/-! MMC constants (`scsi-defs.h`, `hw/ide/internal.h`, `cdrom.h`). -/

@[simp] def MMC_PROFILE_CD_ROM : Nat := 0x0008
@[simp] def MMC_PROFILE_DVD_ROM : Nat := 0x0010
@[simp] def CD_MAX_SECTORS : Nat := 80 * 60 * 75 * 2048 / 512
@[simp] def MS_TRAY_OPEN : Nat := 1
@[simp] def MS_MEDIA_PRESENT : Nat := 2
@[simp] def MEC_NO_CHANGE : Nat := 0
@[simp] def MEC_EJECT_REQUESTED : Nat := 1
@[simp] def MEC_NEW_MEDIA : Nat := 2
@[simp] def GESN_MEDIA : Nat := 4

/-! Error numbers (`errno.h`, Linux values). -/

def ENOMEM : Int := 12
def EINVAL : Int := 22
def ENOSPC : Int := 28
def ENOMEDIUM : Int := 123

/-! ## Data model -/

/-- Sense codes named by `SENSE_CODE(...)` (the table lives in `scsi-bus.c`). -/
inductive SenseCode where
  | NO_SENSE
  | LUN_NOT_READY
  | NO_MEDIUM
  | NOT_READY_REMOVAL_PREVENTED
  | TARGET_FAILURE
  | INVALID_OPCODE
  | LBA_OUT_OF_RANGE
  | INVALID_FIELD
  | SAVING_PARAMS_NOT_SUPPORTED
  | INCOMPATIBLE_FORMAT
  | ILLEGAL_REQ_REMOVAL_PREVENTED
  | IO_ERROR
  | UNIT_ATTENTION_NO_MEDIUM
  | MEDIUM_CHANGED
  | RESET
  deriving DecidableEq, Repr

/-- `SCSIXferMode` of `scsi.h`. -/
inductive SCSIXferMode where
  | SCSI_XFER_NONE
  | SCSI_XFER_FROM_DEV
  | SCSI_XFER_TO_DEV
  deriving DecidableEq, Repr

/-- The integer value of an `SCSIXferMode` enumerator (declaration order). -/
def SCSIXferMode.val : SCSIXferMode → Nat
  | .SCSI_XFER_NONE => 0
  | .SCSI_XFER_FROM_DEV => 1
  | .SCSI_XFER_TO_DEV => 2

/-- `BlockErrorAction`, the per-direction error policy of the block backend. -/
inductive BlockErrorAction where
  | BLOCK_ERR_REPORT
  | BLOCK_ERR_IGNORE
  | BLOCK_ERR_STOP_ENOSPC
  | BLOCK_ERR_STOP_ANY
  | BLOCK_ERR_RETRY
  deriving DecidableEq, Repr

/-- The action reported with `bdrv_emit_qmp_error_event`. -/
inductive BlockQMPEventAction where
  | BDRV_ACTION_REPORT
  | BDRV_ACTION_IGNORE
  | BDRV_ACTION_STOP
  deriving DecidableEq, Repr

/-- The accounting kind passed to `bdrv_acct_start`. -/
inductive BlockAcctType where
  | BDRV_ACCT_READ
  | BDRV_ACCT_WRITE
  | BDRV_ACCT_FLUSH
  deriving DecidableEq, Repr

/-- The completion callbacks of `scsi-disk.c` that are handed to the block
layer with an asynchronous submission. -/
inductive Callback where
  | scsi_flush_complete
  | scsi_dma_complete
  | scsi_read_complete
  | scsi_do_read
  | scsi_write_complete
  deriving DecidableEq, Repr

/-- An outstanding asynchronous handle (`BlockDriverAIOCB *`): the identity
the backend gave it and the callback it will run. -/
structure AIOCB where
  id : Nat
  cb : Callback
  deriving DecidableEq, Repr

/-- Calls into the external collaborators, in the order they are made. -/
inductive Event where
  | scsi_req_build_sense (sense : SenseCode)
  | scsi_req_complete (status : Int)
  | scsi_req_data (len : Int)
  | scsi_req_retry
  | bdrv_aio_readv (sector : Nat) (nb_sectors : Nat) (cb : Callback)
  | bdrv_aio_writev (sector : Nat) (nb_sectors : Nat) (cb : Callback)
  | bdrv_aio_flush (cb : Callback)
  | dma_bdrv_read (sector : Nat) (cb : Callback)
  | dma_bdrv_write (sector : Nat) (cb : Callback)
  | bdrv_aio_cancel (acb : AIOCB)
  | bdrv_acct_start (bytes : Nat) (type : BlockAcctType)
  | dma_acct_start (type : BlockAcctType)
  | bdrv_acct_done
  | bdrv_discard (sector : Nat) (nb_sectors : Int)
  | bdrv_eject (eject_flag : Bool)
  | bdrv_lock_medium (locked : Bool)
  | bdrv_emit_qmp_error_event (action : BlockQMPEventAction) (is_read : Bool)
  | vm_stop
  | bdrv_iostatus_set_err (error : Int)
  /-- `abort()`, called by an `assert` whose condition is false. -/
  | abort
  deriving DecidableEq, Repr

/-- A byte buffer addressed by offset (`uint8_t *`). -/
abbrev Buf := Nat → Nat

/-- The fields of `BlockConf` the disk emulation reads, with the result of
`get_physical_block_exp` (`hw/block-common.h`) taken as given. -/
structure BlockConf where
  cyls : Nat
  heads : Nat
  secs : Nat
  min_io_size : Nat
  opt_io_size : Nat
  discard_granularity : Nat
  physical_block_exp : Nat
  deriving DecidableEq, Repr

/-- The block backend as the disk emulation observes it: the answers of the
query functions and the identity of the next asynchronous handle. -/
structure BlockBackend where
  is_inserted : Bool
  nb_sectors : Nat
  is_read_only : Bool
  enable_write_cache : Bool
  on_read_error : BlockErrorAction
  on_write_error : BlockErrorAction
  discard_ret : Int
  device_name : List Nat
  next_aiocb : Nat
  /-- What `bdrv_aio_cancel` does with the operation it is given: `none` when
  it returns without completing it, `some ret` when the operation completes
  with the result `ret` before the call returns. -/
  cancel_completes : Option Int := none
  deriving DecidableEq, Repr

/-- `SCSIDiskState` together with the fields of its `SCSIDevice` parent that
`scsi-disk.c` uses (`type`, `blocksize`, `max_lba`, `unit_attention`, `conf`)
and the bus capability `tcq`. -/
structure SCSIDiskState where
  type : Nat
  blocksize : Nat
  max_lba : Nat
  unit_attention : SenseCode
  conf : BlockConf
  tcq : Bool
  features : Nat
  media_changed : Bool
  media_event : Bool
  eject_request : Bool
  wwn : Nat
  version : List Nat
  serial : Option (List Nat)
  tray_open : Bool
  tray_locked : Bool
  deriving DecidableEq, Repr

/-- `SCSICommand` of `scsi.h`: the CDB bytes and what the bus parsed from
them. -/
structure SCSICommand where
  buf : List Nat
  len : Nat
  xfer : Nat
  lba : Nat
  mode : SCSIXferMode
  deriving DecidableEq, Repr

/-- `SCSIDiskReq` with the fields of its `SCSIRequest` parent that
`scsi-disk.c` uses. `iov_base = none` is the null pointer; `sg` holds the
size of the scatter/gather list when one was supplied. -/
structure SCSIDiskReq where
  cmd : SCSICommand
  status : Int
  sense : Option SenseCode
  aiocb : Option AIOCB
  refcount : Int
  io_canceled : Bool
  retry : Bool
  sg : Option Nat
  resid : Nat
  sector : Nat
  sector_count : Nat
  buflen : Nat
  started : Bool
  iov_base : Option Buf
  iov_len : Nat
  qiov_size : Nat

/-- Functions of other compilation units whose results the emulation copies
into its response buffer, and the contents of freshly allocated memory. -/
structure Host where
  /-- `qemu_blockalign(bs, size)`: the (arbitrary) contents of new memory. -/
  qemu_blockalign : Nat → Buf
  /-- `cdrom_read_toc(nb_sectors, buf, msf, start_track)`: length and bytes. -/
  cdrom_read_toc : Nat → Nat → Nat → Int × List Nat
  /-- `cdrom_read_toc_raw(nb_sectors, buf, msf, session_num)`. -/
  cdrom_read_toc_raw : Nat → Nat → Nat → Int × List Nat
  /-- `scsi_build_sense(NULL, 0, buf, len, fixed)`: length and bytes. -/
  scsi_build_sense : Nat → Bool → Nat × List Nat

/-- Everything a function of `scsi-disk.c` can read or change. -/
structure World where
  s : SCSIDiskState
  bs : BlockBackend
  r : SCSIDiskReq
  host : Host
  trace : List Event

/-! ## Machine arithmetic -/

/-- Conversion to `uint32_t`. -/
def u32 (n : Nat) : Nat := n % 2 ^ 32
/-- Conversion to `uint64_t` / `size_t`. -/
def u64 (n : Nat) : Nat := n % 2 ^ 64
/-- Unsigned subtraction in a field of `2^32` values. -/
def sub32 (a b : Nat) : Nat := (((a : Int) - (b : Int)) % 2 ^ 32).toNat
/-- Unsigned subtraction in a field of `2^64` values. -/
def sub64 (a b : Nat) : Nat := (((a : Int) - (b : Int)) % 2 ^ 64).toNat
/-- Conversion of an unsigned value to `int32_t` (two's complement). -/
def toInt32 (n : Nat) : Int :=
  if n % 2 ^ 32 < 2 ^ 31 then ((n % 2 ^ 32 : Nat) : Int) else ((n % 2 ^ 32 : Nat) : Int) - 2 ^ 32
/-- Negation of an `int32_t`. -/
def neg32 (i : Int) : Int := toInt32 ((-i) % 2 ^ 32).toNat
/-- The byte at offset `i` of a CDB. -/
def cdb (buf : List Nat) (i : Nat) : Nat := buf.getD i 0

/-! ## Buffers -/

/-- The assignment `buf[i] = v` to a `uint8_t` element. -/
def Buf.set (b : Buf) (i v : Nat) : Buf := fun j => if j = i then v % 256 else b j
/-- The call `memset(buf + off, c, n)`. -/
def Buf.memset (b : Buf) (off c n : Nat) : Buf :=
  fun j => if off ≤ j ∧ j < off + n then c % 256 else b j
/-- The call `memcpy(buf + off, src, src.length)`. -/
def Buf.memcpy (b : Buf) (off : Nat) (src : List Nat) : Buf :=
  fun j => if off ≤ j ∧ j < off + src.length then src.getD (j - off) 0 % 256 else b j
/-- Big-endian 16-bit store, `stw_be_p`. -/
def stw_be_p (b : Buf) (off v : Nat) : Buf :=
  (b.set off (v / 2 ^ 8)).set (off + 1) v
/-- Big-endian 32-bit store, `stl_be_p`. -/
def stl_be_p (b : Buf) (off v : Nat) : Buf :=
  (((b.set off (v / 2 ^ 24)).set (off + 1) (v / 2 ^ 16)).set (off + 2) (v / 2 ^ 8)).set (off + 3) v
/-- Big-endian 64-bit store, `stq_be_p`. -/
def stq_be_p (b : Buf) (off v : Nat) : Buf :=
  stl_be_p (stl_be_p b off (v / 2 ^ 32)) (off + 4) v
/-- Big-endian 16-bit load from a CDB, `lduw_be_p`. -/
def lduw_be_p (buf : List Nat) (off : Nat) : Nat :=
  cdb buf off % 256 * 2 ^ 8 + cdb buf (off + 1) % 256
/-- Big-endian 32-bit load from a CDB, `ldl_be_p`. -/
def ldl_be_p (buf : List Nat) (off : Nat) : Nat :=
  cdb buf off % 256 * 2 ^ 24 + cdb buf (off + 1) % 256 * 2 ^ 16
    + cdb buf (off + 2) % 256 * 2 ^ 8 + cdb buf (off + 3) % 256

/-! ## Primitives: the trace and the SCSI bus entry points -/

/-- Record a call into an external collaborator. -/
def World.emit (w : World) (e : Event) : World :=
  { w with trace := w.trace ++ [e] }

/-- Modelled from the spec: `scsi_req_build_sense` of `scsi-bus.c` (not part
of the sources at hand) stores the sense into the request. -/
def scsi_req_build_sense (w : World) (sense : SenseCode) : World :=
  ({ w with r := { w.r with sense := some sense } }).emit (.scsi_req_build_sense sense)

/-- Modelled from the spec: `scsi_req_complete` of `scsi-bus.c` (not part of
the sources at hand) records the status byte in the request and hands the
completion to the transport. -/
def scsi_req_complete (w : World) (status : Int) : World :=
  ({ w with r := { w.r with status := status } }).emit (.scsi_req_complete status)

/-- Modelled from the spec: `scsi_req_data` of `scsi-bus.c` (not part of the
sources at hand) tells the transport that `len` bytes are ready (or wanted). -/
def scsi_req_data (w : World) (len : Int) : World :=
  w.emit (.scsi_req_data len)

/-- Modelled from the spec: `scsi_req_ref` of `scsi-bus.c` (not part of the
sources at hand) adds one reference. -/
def scsi_req_ref (w : World) : World :=
  { w with r := { w.r with refcount := w.r.refcount + 1 } }

/-- Modelled from the spec: `scsi_req_unref` of `scsi-bus.c` (not part of the
sources at hand) removes one reference. -/
def scsi_req_unref (w : World) : World :=
  { w with r := { w.r with refcount := w.r.refcount - 1 } }

/-- Modelled from the spec: `scsi_req_retry` of `scsi-bus.c` (not part of the
sources at hand) marks the request for retry. -/
def scsi_req_retry (w : World) : World :=
  ({ w with r := { w.r with retry := true } }).emit .scsi_req_retry

/-- Modelled from the spec: `bdrv_get_on_error` of the block layer (not part
of the sources at hand) returns the error policy of the given direction. -/
def bdrv_get_on_error (bs : BlockBackend) (is_read : Bool) : BlockErrorAction :=
  if is_read then bs.on_read_error else bs.on_write_error

/-- Helper function for command completion with sense. -/
def scsi_check_condition (w : World) (sense : SenseCode) : World :=
  scsi_req_complete (scsi_req_build_sense w sense) CHECK_CONDITION

/-- An asynchronous submission: the call is recorded, the backend hands out
its next handle, which `r->req.aiocb` receives. -/
def World.submit (w : World) (e : Event) (cb : Callback) : World :=
  let w1 := w.emit e
  { w1 with
    bs := { w1.bs with next_aiocb := w1.bs.next_aiocb + 1 }
    r := { w1.r with aiocb := some { id := w1.bs.next_aiocb, cb := cb } } }

/-! ## The data path -/

/-- `scsi_init_iovec(r, size)`: the new state and the returned sector count. -/
def scsi_init_iovec (w : World) (size : Nat) : World × Nat :=
  let w1 := match w.r.iov_base with
    | none =>
      { w with r := { w.r with buflen := u32 size,
                               iov_base := some (w.host.qemu_blockalign (u32 size)) } }
    | some _ => w
  let iov_len := min (u32 (w1.r.sector_count * 512)) w1.r.buflen
  let w2 := { w1 with r := { w1.r with iov_len := iov_len, qiov_size := iov_len } }
  (w2, u32 (w2.r.qiov_size / 512))

/-- `scsi_is_cmd_fua(cmd)`. -/
def scsi_is_cmd_fua (cmd : SCSICommand) : Bool :=
  let op := cdb cmd.buf 0
  if op = READ_10 ∨ op = READ_12 ∨ op = READ_16 ∨ op = WRITE_10 ∨ op = WRITE_12
      ∨ op = WRITE_16 then
    decide (cdb cmd.buf 1 &&& 8 ≠ 0)
  else if op = VERIFY_10 ∨ op = VERIFY_12 ∨ op = VERIFY_16 ∨ op = WRITE_VERIFY_10
      ∨ op = WRITE_VERIFY_12 ∨ op = WRITE_VERIFY_16 then
    true
  else
    false

/-- `scsi_handle_rw_error(r, error)`: the new state and the return value
(0: the error must be ignored; 1: the error has been processed). -/
def scsi_handle_rw_error (w : World) (error : Int) : World × Int :=
  let is_read : Bool := decide (w.r.cmd.xfer = SCSIXferMode.SCSI_XFER_FROM_DEV.val)
  let action := bdrv_get_on_error w.bs is_read
  if action = .BLOCK_ERR_IGNORE then
    (w.emit (.bdrv_emit_qmp_error_event .BDRV_ACTION_IGNORE is_read), 0)
  else if (error = ENOSPC ∧ action = .BLOCK_ERR_STOP_ENOSPC)
      ∨ action = .BLOCK_ERR_STOP_ANY then
    let w1 := w.emit (.bdrv_emit_qmp_error_event .BDRV_ACTION_STOP is_read)
    let w2 := w1.emit .vm_stop
    let w3 := w2.emit (.bdrv_iostatus_set_err error)
    (scsi_req_retry w3, 1)
  else
    let w1 :=
      if error = ENOMEDIUM then scsi_check_condition w .NO_MEDIUM
      else if error = ENOMEM then scsi_check_condition w .TARGET_FAILURE
      else if error = EINVAL then scsi_check_condition w .INVALID_FIELD
      else scsi_check_condition w .IO_ERROR
    (w1.emit (.bdrv_emit_qmp_error_event .BDRV_ACTION_REPORT is_read), 1)

/-- The `done:` label of the completion callbacks: the reference of the
submission is dropped unless the request was cancelled. -/
def label_done (w : World) : World :=
  if w.r.io_canceled then w else scsi_req_unref w

/-- The opening of every data completion callback: an outstanding handle is
cleared and its accounting closed. -/
def clear_aiocb (w : World) : World :=
  match w.r.aiocb with
  | some _ => ({ w with r := { w.r with aiocb := none } }).emit .bdrv_acct_done
  | none => w

/-- The error test of the completion callbacks: with `ret < 0` the error
policy runs; the second component tells whether the callback goes to `done`. -/
def check_ret (w : World) (ret : Int) : World × Bool :=
  if ret < 0 then
    let p := scsi_handle_rw_error w (-ret)
    (p.1, decide (p.2 ≠ 0))
  else (w, false)

/-- `scsi_flush_complete(opaque, ret)`. -/
def scsi_flush_complete (w : World) (ret : Int) : World :=
  let w1 := w.emit .bdrv_acct_done
  let p := check_ret w1 ret
  if p.2 then label_done p.1
  else label_done (scsi_req_complete p.1 GOOD)

/-- `scsi_write_do_fua(r)`. -/
def scsi_write_do_fua (w : World) : World :=
  if scsi_is_cmd_fua w.r.cmd then
    (w.emit (.bdrv_acct_start 0 .BDRV_ACCT_FLUSH)).submit
      (.bdrv_aio_flush .scsi_flush_complete) .scsi_flush_complete
  else
    label_done (scsi_req_complete w GOOD)

/-- `scsi_dma_complete(opaque, ret)`. -/
def scsi_dma_complete (w : World) (ret : Int) : World :=
  let p := check_ret (clear_aiocb w) ret
  if p.2 then label_done p.1
  else
    let w2 := p.1
    let w3 := { w2 with r := { w2.r with sector := u64 (w2.r.sector + w2.r.sector_count),
                                         sector_count := 0 } }
    if w3.r.cmd.mode = .SCSI_XFER_TO_DEV then scsi_write_do_fua w3
    else label_done (scsi_req_complete w3 GOOD)

/-- `scsi_read_complete(opaque, ret)`; `n` is an `int`. -/
def scsi_read_complete (w : World) (ret : Int) : World :=
  let p := check_ret (clear_aiocb w) ret
  if p.2 then label_done p.1
  else
    let w2 := p.1
    let n : Int := toInt32 (w2.r.qiov_size / 512)
    let w3 := { w2 with r := { w2.r with
                  sector := (((w2.r.sector : Int) + n) % 2 ^ 64).toNat,
                  sector_count := (((w2.r.sector_count : Int) - n) % 2 ^ 32).toNat } }
    label_done (scsi_req_data w3 (toInt32 w3.r.qiov_size))

/-- Actually issue a read to the block device: `scsi_do_read(opaque, ret)`. -/
def scsi_do_read (w : World) (ret : Int) : World :=
  let p := check_ret (clear_aiocb w) ret
  if p.2 then label_done p.1
  else
    let w2 := p.1
    if w2.r.io_canceled then w2
    else
      let w3 := scsi_req_ref w2
      let w4 := match w3.r.sg with
        | some size =>
          let w5 := w3.emit (.dma_acct_start .BDRV_ACCT_READ)
          let w6 := { w5 with r := { w5.r with resid := sub64 w5.r.resid size } }
          w6.submit (.dma_bdrv_read w6.r.sector .scsi_dma_complete) .scsi_dma_complete
        | none =>
          let q := scsi_init_iovec w3 SCSI_DMA_BUF_SIZE
          let w6 := q.1.emit (.bdrv_acct_start (q.2 * BDRV_SECTOR_SIZE) .BDRV_ACCT_READ)
          w6.submit (.bdrv_aio_readv w6.r.sector q.2 .scsi_read_complete) .scsi_read_complete
      label_done w4

/-- The assertion of `scsi_read_data` and `scsi_write_data`: no data transfer
may already be in progress. -/
def assert_no_transfer (w : World) : Prop := w.r.aiocb = none

/-- Read more data from scsi device into buffer: `scsi_read_data(req)`. -/
def scsi_read_data (w : World) : World :=
  if w.r.sector_count = 0xFFFFFFFF then
    let w1 := { w with r := { w.r with sector_count := 0, started := true } }
    scsi_req_data w1 (toInt32 w1.r.iov_len)
  else if w.r.sector_count = 0 then
    scsi_req_complete w GOOD
  else
    let w1 := scsi_req_ref w
    if w1.r.cmd.mode = .SCSI_XFER_TO_DEV then scsi_read_complete w1 (-EINVAL)
    else if w1.s.tray_open then scsi_read_complete w1 (-ENOMEDIUM)
    else
      let first := !w1.r.started
      let w2 := { w1 with r := { w1.r with started := true } }
      if first && scsi_is_cmd_fua w2.r.cmd then
        (w2.emit (.bdrv_acct_start 0 .BDRV_ACCT_FLUSH)).submit
          (.bdrv_aio_flush .scsi_do_read) .scsi_do_read
      else
        scsi_do_read w2 0

/-- `scsi_write_complete(opaque, ret)`; `n` is a `uint32_t`. -/
def scsi_write_complete (w : World) (ret : Int) : World :=
  let p := check_ret (clear_aiocb w) ret
  if p.2 then label_done p.1
  else
    let w2 := p.1
    let n := u32 (w2.r.qiov_size / 512)
    let w3 := { w2 with r := { w2.r with sector := u64 (w2.r.sector + n),
                                         sector_count := sub32 w2.r.sector_count n } }
    if w3.r.sector_count = 0 then scsi_write_do_fua w3
    else
      let w4 := (scsi_init_iovec w3 SCSI_DMA_BUF_SIZE).1
      label_done (scsi_req_data w4 (toInt32 w4.r.qiov_size))

/-- `scsi_write_data(req)`. -/
def scsi_write_data (w : World) : World :=
  let w1 := scsi_req_ref w
  if w1.r.cmd.mode ≠ .SCSI_XFER_TO_DEV then scsi_write_complete w1 (-EINVAL)
  else if w1.r.sg = none ∧ w1.r.qiov_size = 0 then
    scsi_write_complete { w1 with r := { w1.r with started := true } } 0
  else if w1.s.tray_open then scsi_write_complete w1 (-ENOMEDIUM)
  else if cdb w1.r.cmd.buf 0 = VERIFY_10 ∨ cdb w1.r.cmd.buf 0 = VERIFY_12
      ∨ cdb w1.r.cmd.buf 0 = VERIFY_16 then
    if w1.r.sg.isSome then scsi_dma_complete w1 0 else scsi_write_complete w1 0
  else
    match w1.r.sg with
    | some size =>
      let w2 := w1.emit (.dma_acct_start .BDRV_ACCT_WRITE)
      let w3 := { w2 with r := { w2.r with resid := sub64 w2.r.resid size } }
      w3.submit (.dma_bdrv_write w3.r.sector .scsi_dma_complete) .scsi_dma_complete
    | none =>
      let n := u32 (w1.r.qiov_size / 512)
      let w2 := w1.emit (.bdrv_acct_start (n * BDRV_SECTOR_SIZE) .BDRV_ACCT_WRITE)
      w2.submit (.bdrv_aio_writev w2.r.sector n .scsi_write_complete) .scsi_write_complete

/-- The completion callback `cb` as the backend invokes it, with the result
`ret` of the operation. -/
def run_callback (cb : Callback) (w : World) (ret : Int) : World :=
  match cb with
  | .scsi_flush_complete => scsi_flush_complete w ret
  | .scsi_dma_complete => scsi_dma_complete w ret
  | .scsi_read_complete => scsi_read_complete w ret
  | .scsi_do_read => scsi_do_read w ret
  | .scsi_write_complete => scsi_write_complete w ret

/-- Modelled from the spec: `bdrv_aio_cancel(acb)` of the block layer (not
part of the sources at hand) cancels the outstanding asynchronous handle.
The call is recorded. The block layer may complete the operation before the
call returns (`scsi_cancel_io` drops its reference "independent of whether
bdrv_aio_cancel completes the request or not"): the completion callback of
the handle then runs inside the call, with the result the backend gives. -/
def bdrv_aio_cancel (w : World) (acb : AIOCB) : World :=
  let w1 := w.emit (.bdrv_aio_cancel acb)
  match w1.bs.cancel_completes with
  | none => w1
  | some ret => run_callback acb.cb w1 ret

/-- Cancel a pending data transfer. -/
def scsi_cancel_io (w : World) : World :=
  let w1 := match w.r.aiocb with
    | some acb =>
      /- This reference was left in by scsi_*_data. We take ownership of
         it the moment scsi_req_cancel is called, independent of whether
         bdrv_aio_cancel completes the request or not. -/
      scsi_req_unref (bdrv_aio_cancel w acb)
    | none => w
  { w1 with r := { w1.r with aiocb := none } }

/-! ## Emulated commands -/

/-- The bytes of a C string literal. -/
def cstr (t : String) : List Nat := t.toList.map Char.toNat

/-- `scsi_disk_emulate_inquiry(req, outbuf)`: the returned length (`-1` on
failure) and the buffer. -/
def scsi_disk_emulate_inquiry (s : SCSIDiskState) (bs : BlockBackend) (cmd : SCSICommand)
    (outbuf : Buf) : Int × Buf :=
  if cdb cmd.buf 1 &&& 0x1 ≠ 0 then
    /- Vital product data -/
    let page_code := cdb cmd.buf 2
    let o := (((outbuf.set 0 (s.type &&& 0x1f)).set 1 page_code).set 2 0x00).set 3 0x00
    let start : Nat := 4
    let res : Option Nat × Buf :=
      if page_code = 0x00 then
        /- Supported page codes, mandatory -/
        let o1 := o.set 4 0x00
        let q2 : Nat × Buf := if s.serial.isSome then (6, o1.set 5 0x80) else (5, o1)
        let o3 := q2.2.set q2.1 0x83
        if s.type = TYPE_DISK then
          (some (q2.1 + 3), (o3.set (q2.1 + 1) 0xb0).set (q2.1 + 2) 0xb2)
        else (some (q2.1 + 1), o3)
      else if page_code = 0x80 then
        /- Device serial number, optional -/
        match s.serial with
        | none => (none, o)
        | some serial =>
          let l := if serial.length > 20 then 20 else serial.length
          (some (4 + l), o.memcpy 4 (serial.take l))
      else if page_code = 0x83 then
        /- Device identification page, mandatory -/
        let str := match s.serial with
          | some serial => serial
          | none => bs.device_name
        let max_len := if s.serial.isSome then 20 else 255 - 8
        let id_len := if str.length > max_len then max_len else str.length
        let o1 := (((o.set 4 0x2).set 5 0).set 6 0).set 7 id_len
        let o2 := o1.memcpy 8 (str.take id_len)
        let buflen := 8 + id_len
        if s.wwn ≠ 0 then
          let o3 := (((o2.set buflen 0x1).set (buflen + 1) 0x3).set (buflen + 2) 0).set
            (buflen + 3) 8
          (some (buflen + 12), stq_be_p o3 (buflen + 4) s.wwn)
        else (some buflen, o2)
      else if page_code = 0xb0 then
        /- block limits -/
        let unmap_sectors := u32 (s.conf.discard_granularity / s.blocksize)
        let min_io_size := u32 (s.conf.min_io_size / s.blocksize)
        let opt_io_size := u32 (s.conf.opt_io_size / s.blocksize)
        if s.type = TYPE_ROM then (none, o)
        else
          let o1 := o.memset 4 0 (0x40 - 4)
          let o2 := (o1.set 6 ((min_io_size >>> 8) &&& 0xff)).set 7 (min_io_size &&& 0xff)
          let o3 := (((o2.set 12 ((opt_io_size >>> 24) &&& 0xff)).set 13
            ((opt_io_size >>> 16) &&& 0xff)).set 14 ((opt_io_size >>> 8) &&& 0xff)).set 15
            (opt_io_size &&& 0xff)
          let o4 := (((o3.set 28 ((unmap_sectors >>> 24) &&& 0xff)).set 29
            ((unmap_sectors >>> 16) &&& 0xff)).set 30 ((unmap_sectors >>> 8) &&& 0xff)).set 31
            (unmap_sectors &&& 0xff)
          (some 0x40, o4)
      else if page_code = 0xb2 then
        /- thin provisioning -/
        (some 8, (((o.set 4 0).set 5 0x60).set 6
          (if s.conf.discard_granularity ≠ 0 then 2 else 1)).set 7 0)
      else (none, o)
    match res.1 with
    | none => (-1, res.2)
    | some buflen => ((buflen : Int), res.2.set (start - 1) (buflen - start))
  else if cdb cmd.buf 2 ≠ 0 then
    /- Standard INQUIRY data -/
    (-1, outbuf)
  else
    /- PAGE CODE == 0 -/
    let buflen0 : Int := toInt32 cmd.xfer
    let buflen : Int := if buflen0 > SCSI_MAX_INQUIRY_LEN then SCSI_MAX_INQUIRY_LEN else buflen0
    let o0 := outbuf.memset 0 0 (buflen % 2 ^ 64).toNat
    let o1 := (o0.set 0 (s.type &&& 0x1f)).set 1
      (if s.features &&& (1 <<< SCSI_DISK_F_REMOVABLE) ≠ 0 then 0x80 else 0)
    let o2 :=
      if s.type = TYPE_ROM then o1.memcpy 16 (cstr "QEMU CD-ROM     ")
      else o1.memcpy 16 (cstr "QEMU HARDDISK   ")
    let o3 := o2.memcpy 8 (cstr "QEMU    ")
    let o4 := o3.memset 32 0 4
    let o5 := o4.memcpy 32 (s.version.take (min 4 s.version.length))
    let o6 := (o5.set 2 5).set 3 2
    let o7 := if buflen > 36 then o6.set 4 (buflen - 5).toNat else o6.set 4 (36 - 5)
    let o8 := o7.set 7 (0x10 ||| (if s.tcq then 0x02 else 0))
    (buflen, o8)

/-- `media_is_dvd(s)`. -/
def media_is_dvd (s : SCSIDiskState) (bs : BlockBackend) : Bool :=
  if s.type ≠ TYPE_ROM then false
  else if !bs.is_inserted then false
  else decide (bs.nb_sectors > CD_MAX_SECTORS)

/-- `media_is_cd(s)`. -/
def media_is_cd (s : SCSIDiskState) (bs : BlockBackend) : Bool :=
  if s.type ≠ TYPE_ROM then false
  else if !bs.is_inserted then false
  else decide (bs.nb_sectors ≤ CD_MAX_SECTORS)

/-- The outcome of an emulation helper that can post a sense: the new state,
the returned length (`-1` on failure) and the response buffer. -/
structure EmuResult where
  w : World
  ret : Int
  outbuf : Buf

/-- `scsi_read_disc_information(s, r, outbuf)`. -/
def scsi_read_disc_information (w : World) (outbuf : Buf) : EmuResult :=
  let type := cdb w.r.cmd.buf 1 &&& 7
  if w.s.type ≠ TYPE_ROM then ⟨w, -1, outbuf⟩
  /- Types 1/2 are only defined for Blu-Ray. -/
  else if type ≠ 0 then ⟨scsi_check_condition w .INVALID_FIELD, -1, outbuf⟩
  else
    let o := outbuf.memset 0 0 34
    let o := (((((((o.set 1 32).set 2 0xe).set 3 1).set 4 1).set 5 1).set 6 1).set 7 0x20).set
      8 0x00
    ⟨w, 34, o⟩

/-- The table `rds_caps_size` of `scsi_read_dvd_structure`. -/
def rds_caps_size (i : Nat) : Nat :=
  if i = 0 then 2048 + 4 else if i = 1 then 4 + 4 else if i = 3 then 188 + 4
  else if i = 4 then 2048 + 4 else 0

/-- The capability list loop of `scsi_read_dvd_structure` (format `0xff`):
from the state `(size, outbuf)`, one entry per supported format index. -/
def rds_list_caps (q : Nat × Buf) (i : Nat) : Nat × Buf :=
  if rds_caps_size i = 0 then q
  else
    (q.1 + 4, stw_be_p ((q.2.set q.1 i).set (q.1 + 1) 0x40) (q.1 + 2) (rds_caps_size i))

/-- The `switch (format)` of `scsi_read_dvd_structure`, entered with the
zeroed buffer `o` and `size` (`-1` for the capability list). -/
def scsi_read_dvd_structure_format (w : World) (o : Buf) (size0 : Int) : EmuResult :=
  let layer := cdb w.r.cmd.buf 6
  let format := cdb w.r.cmd.buf 7
  if format = 0x00 then
    /- Physical format information -/
    if layer ≠ 0 then ⟨w, -1, o⟩
    else
      let o1 := (((o.set 4 1).set 5 0xf).set 6 1).set 7 0
      let o2 := stl_be_p o1 12 (sub64 (u64 (w.bs.nb_sectors >>> 2)) 1)
      let o3 := stl_be_p o2 16 (sub64 (u64 (w.bs.nb_sectors >>> 2)) 1)
      ⟨w, size0, stw_be_p o3 0 (size0 - 2).toNat⟩
  else if format = 0x01 then
    /- DVD copyright information, all zeros -/
    ⟨w, size0, stw_be_p o 0 (size0 - 2).toNat⟩
  else if format = 0x03 then
    /- BCA information - invalid field for no BCA info -/
    ⟨w, -1, o⟩
  else if format = 0x04 then
    /- DVD disc manufacturing information, all zeros -/
    ⟨w, size0, stw_be_p o 0 (size0 - 2).toNat⟩
  else if format = 0xff then
    /- List capabilities -/
    let q := (List.range 5).foldl rds_list_caps (4, o)
    ⟨w, (q.1 : Int), stw_be_p q.2 0 (q.1 - 2)⟩
  else ⟨w, -1, o⟩

/-- `scsi_read_dvd_structure(s, r, outbuf)`. -/
def scsi_read_dvd_structure (w : World) (outbuf : Buf) : EmuResult :=
  let media := cdb w.r.cmd.buf 1
  let format := cdb w.r.cmd.buf 7
  if w.s.type ≠ TYPE_ROM then ⟨w, -1, outbuf⟩
  else if media ≠ 0 then ⟨scsi_check_condition w .INVALID_FIELD, -1, outbuf⟩
  else if format ≠ 0xff then
    if w.s.tray_open ∨ !w.bs.is_inserted then
      ⟨scsi_check_condition w .NO_MEDIUM, -1, outbuf⟩
    else if media_is_cd w.s w.bs then
      ⟨scsi_check_condition w .INCOMPATIBLE_FORMAT, -1, outbuf⟩
    else if format ≥ 5 then ⟨w, -1, outbuf⟩
    else
      scsi_read_dvd_structure_format w (outbuf.memset 0 0 (rds_caps_size format))
        (rds_caps_size format)
  else scsi_read_dvd_structure_format w outbuf (-1)

/-- `scsi_event_status_media(s, outbuf)`, writing at offset `off`: the device
afterwards, the buffer and the returned length. -/
def scsi_event_status_media (s : SCSIDiskState) (bs : BlockBackend) (outbuf : Buf)
    (off : Nat) : SCSIDiskState × Buf × Nat :=
  let media_status :=
    if s.tray_open then MS_TRAY_OPEN
    else if bs.is_inserted then MS_MEDIA_PRESENT
    else 0
  /- Event notification descriptor -/
  let q : Nat × SCSIDiskState :=
    if media_status ≠ MS_TRAY_OPEN then
      if s.media_event then (MEC_NEW_MEDIA, { s with media_event := false })
      else if s.eject_request then (MEC_EJECT_REQUESTED, { s with eject_request := false })
      else (MEC_NO_CHANGE, s)
    else (MEC_NO_CHANGE, s)
  let o := (((outbuf.set off q.1).set (off + 1) media_status).set (off + 2) 0).set (off + 3) 0
  (q.2, o, 4)

/-- `scsi_get_event_status_notification(s, r, outbuf)`. -/
def scsi_get_event_status_notification (w : World) (outbuf : Buf) : EmuResult :=
  let buf := w.r.cmd.buf
  let notification_class_request := cdb buf 4
  if w.s.type ≠ TYPE_ROM then ⟨w, -1, outbuf⟩
  else if cdb buf 1 &&& 1 = 0 then
    /- asynchronous -/
    ⟨w, -1, outbuf⟩
  else
    let o := ((outbuf.set 1 0).set 0 0).set 3 (1 <<< GESN_MEDIA)
    if notification_class_request &&& (1 <<< GESN_MEDIA) ≠ 0 then
      let o1 := o.set 2 GESN_MEDIA
      let q := scsi_event_status_media w.s w.bs o1 4
      let size := 4 + q.2.2
      ⟨{ w with s := q.1 }, (size : Int), stw_be_p q.2.1 0 (size - 4)⟩
    else
      let o1 := o.set 2 0x80
      ⟨w, 4, stw_be_p o1 0 (4 - 4)⟩

/-- `scsi_get_configuration(s, outbuf)`. -/
def scsi_get_configuration (s : SCSIDiskState) (bs : BlockBackend) (outbuf : Buf) :
    Int × Buf :=
  if s.type ≠ TYPE_ROM then (-1, outbuf)
  else
    let current := if media_is_dvd s bs then MMC_PROFILE_DVD_ROM else MMC_PROFILE_CD_ROM
    let o := outbuf.memset 0 0 40
    let o := stl_be_p o 0 36
    let o := stw_be_p o 6 current
    /- Feature 0 - Profile list -/
    let o := (o.set 10 0x03).set 11 8
    let o := stw_be_p o 12 MMC_PROFILE_DVD_ROM
    let o := o.set 14 (if current = MMC_PROFILE_DVD_ROM then 1 else 0)
    let o := stw_be_p o 16 MMC_PROFILE_CD_ROM
    let o := o.set 18 (if current = MMC_PROFILE_CD_ROM then 1 else 0)
    /- Feature 1 - Core feature -/
    let o := stw_be_p o 20 1
    let o := (o.set 22 (0x08 ||| 0x03)).set 23 8
    let o := stl_be_p o 24 1
    let o := o.set 28 1
    /- Feature 3 - Removable media feature -/
    let o := stw_be_p o 32 3
    let o := ((o.set 34 (0x08 ||| 0x03)).set 35 4).set 36 0x39
    (40, o)

/-- `scsi_emulate_mechanism_status(s, outbuf)`. -/
def scsi_emulate_mechanism_status (s : SCSIDiskState) (outbuf : Buf) : Int × Buf :=
  if s.type ≠ TYPE_ROM then (-1, outbuf)
  else (8, (outbuf.memset 0 0 8).set 5 1)

/-- The table `mode_sense_valid` of `mode_sense_page`. -/
def mode_sense_valid (page : Nat) : Nat :=
  if page = MODE_PAGE_HD_GEOMETRY then 1 <<< TYPE_DISK
  else if page = MODE_PAGE_FLEXIBLE_DISK_GEOMETRY then 1 <<< TYPE_DISK
  else if page = MODE_PAGE_CACHING then (1 <<< TYPE_DISK) ||| (1 <<< TYPE_ROM)
  else if page = MODE_PAGE_R_W_ERROR then (1 <<< TYPE_DISK) ||| (1 <<< TYPE_ROM)
  else if page = MODE_PAGE_AUDIO_CTL then 1 <<< TYPE_ROM
  else if page = MODE_PAGE_CAPABILITIES then 1 <<< TYPE_ROM
  else 0

/-- The body of one mode page, written at offset `p` (the `switch` of
`mode_sense_page`); `none` is the `default` case. -/
def mode_sense_page_body (s : SCSIDiskState) (bs : BlockBackend) (page : Nat) (b : Buf)
    (p : Nat) (page_control : Nat) : Option Buf :=
  if page = MODE_PAGE_HD_GEOMETRY then
    let b := b.set (p + 1) 0x16
    if page_control = 1 then some b
    else
      /- if a geometry hint is available, use it -/
      let b := (((b.set (p + 2) ((s.conf.cyls >>> 16) &&& 0xff)).set (p + 3)
        ((s.conf.cyls >>> 8) &&& 0xff)).set (p + 4) (s.conf.cyls &&& 0xff)).set (p + 5)
        (s.conf.heads &&& 0xff)
      /- Write precomp start cylinder, disabled -/
      let b := ((b.set (p + 6) ((s.conf.cyls >>> 16) &&& 0xff)).set (p + 7)
        ((s.conf.cyls >>> 8) &&& 0xff)).set (p + 8) (s.conf.cyls &&& 0xff)
      /- Reduced current start cylinder, disabled -/
      let b := ((b.set (p + 9) ((s.conf.cyls >>> 16) &&& 0xff)).set (p + 10)
        ((s.conf.cyls >>> 8) &&& 0xff)).set (p + 11) (s.conf.cyls &&& 0xff)
      /- Device step rate [ns], 200ns -/
      let b := (b.set (p + 12) 0).set (p + 13) 200
      /- Landing zone cylinder -/
      let b := ((b.set (p + 14) 0xff).set (p + 15) 0xff).set (p + 16) 0xff
      /- Medium rotation rate [rpm], 5400 rpm -/
      some ((b.set (p + 20) ((5400 >>> 8) &&& 0xff)).set (p + 21) (5400 &&& 0xff))
  else if page = MODE_PAGE_FLEXIBLE_DISK_GEOMETRY then
    let b := b.set (p + 1) 0x1e
    if page_control = 1 then some b
    else
      /- Transfer rate [kbit/s], 5Mbit/s -/
      let b := (b.set (p + 2) (5000 >>> 8)).set (p + 3) (5000 &&& 0xff)
      /- if a geometry hint is available, use it -/
      let b := ((b.set (p + 4) (s.conf.heads &&& 0xff)).set (p + 5) (s.conf.secs &&& 0xff)).set
        (p + 6) (s.blocksize >>> 8)
      let b := (b.set (p + 8) ((s.conf.cyls >>> 8) &&& 0xff)).set (p + 9) (s.conf.cyls &&& 0xff)
      /- Write precomp start cylinder, disabled -/
      let b := (b.set (p + 10) ((s.conf.cyls >>> 8) &&& 0xff)).set (p + 11)
        (s.conf.cyls &&& 0xff)
      /- Reduced current start cylinder, disabled -/
      let b := (b.set (p + 12) ((s.conf.cyls >>> 8) &&& 0xff)).set (p + 13)
        (s.conf.cyls &&& 0xff)
      /- Device step rate [100us], 100us -/
      let b := (b.set (p + 14) 0).set (p + 15) 1
      /- Device step pulse width [us], 1us -/
      let b := b.set (p + 16) 1
      /- Device head settle delay [100us], 100us -/
      let b := (b.set (p + 17) 0).set (p + 18) 1
      /- Motor on delay [0.1s], 0.1s -/
      let b := b.set (p + 19) 1
      /- Motor off delay [0.1s], 0.1s -/
      let b := b.set (p + 20) 1
      /- Medium rotation rate [rpm], 5400 rpm -/
      some ((b.set (p + 28) ((5400 >>> 8) &&& 0xff)).set (p + 29) (5400 &&& 0xff))
  else if page = MODE_PAGE_CACHING then
    let b := (b.set p 8).set (p + 1) 0x12
    if page_control = 1 then some b
    else if bs.enable_write_cache then some (b.set (p + 2) 4)
    else some b
  else if page = MODE_PAGE_R_W_ERROR then
    let b := (b.set (p + 1) 10).set (p + 2) 0x80
    if s.type = TYPE_ROM then some (b.set (p + 3) 0x20) else some b
  else if page = MODE_PAGE_AUDIO_CTL then
    some (b.set (p + 1) 14)
  else if page = MODE_PAGE_CAPABILITIES then
    let b := b.set (p + 1) 0x14
    if page_control = 1 then some b
    else
      let b := (((b.set (p + 2) 0x3b).set (p + 3) 0).set (p + 4) 0x7f).set (p + 5) 0xff
      let b := (b.set (p + 6) (0x2d ||| (if s.tray_locked then 2 else 0))).set (p + 7) 0
      let b := (b.set (p + 8) ((50 * 176) >>> 8)).set (p + 9) ((50 * 176) &&& 0xff)
      let b := (b.set (p + 10) (2 >>> 8)).set (p + 11) (2 &&& 0xff)
      let b := (b.set (p + 12) (2048 >>> 8)).set (p + 13) (2048 &&& 0xff)
      let b := (b.set (p + 14) ((16 * 176) >>> 8)).set (p + 15) ((16 * 176) &&& 0xff)
      let b := (b.set (p + 18) ((16 * 176) >>> 8)).set (p + 19) ((16 * 176) &&& 0xff)
      some ((b.set (p + 20) ((16 * 176) >>> 8)).set (p + 21) ((16 * 176) &&& 0xff))
  else none

/-- `mode_sense_page(s, page, p_outbuf, page_control)`: the return value, the
buffer and the advanced write position `*p_outbuf` (an offset into the
response buffer). -/
def mode_sense_page (s : SCSIDiskState) (bs : BlockBackend) (page : Nat) (b : Buf) (p : Nat)
    (page_control : Nat) : Int × Buf × Nat :=
  if mode_sense_valid page &&& (1 <<< s.type) = 0 then (-1, b, p)
  else
    match mode_sense_page_body s bs page (b.set p page) p page_control with
    | none => (-1, b.set p page, p)
    | some b1 => (((b1 (p + 1) + 2 : Nat) : Int), b1, p + (b1 (p + 1) + 2))

/-- `scsi_disk_emulate_mode_sense(r, outbuf)`. -/
def scsi_disk_emulate_mode_sense (w : World) (outbuf : Buf) : EmuResult :=
  let s := w.s
  let buf := w.r.cmd.buf
  let dbd0 : Bool := decide (cdb buf 1 &&& 0x8 ≠ 0)
  let page := cdb buf 2 &&& 0x3f
  let page_control := (cdb buf 2 &&& 0xc0) >>> 6
  let o := outbuf.memset 0 0 w.r.cmd.xfer
  let dev_specific_param : Nat :=
    if s.type = TYPE_DISK then
      (if s.features &&& (1 <<< SCSI_DISK_F_DPOFUA) ≠ 0 then 0x10 else 0)
        ||| (if w.bs.is_read_only then 0x80 else 0)
    else 0x00
  /- MMC prescribes that CD/DVD drives have no block descriptors. -/
  let dbd : Bool := if s.type = TYPE_DISK then dbd0 else true
  let hdr : Buf × Nat :=
    if cdb buf 0 = MODE_SENSE then
      (((o.set 1 0).set 2 dev_specific_param).set 3 0, 4)
    else
      ((((o.set 2 0).set 3 dev_specific_param).set 7 0).set 6 0, 8)
  let blk : Buf × Nat :=
    if !dbd ∧ w.bs.nb_sectors ≠ 0 then
      let o1 := if cdb buf 0 = MODE_SENSE then hdr.1.set 3 8 else hdr.1.set 7 8
      let nb0 := w.bs.nb_sectors / (s.blocksize / 512)
      let nb := if nb0 > 0xffffff then 0 else nb0
      let p := hdr.2
      let o2 := (((o1.set p 0).set (p + 1) ((nb >>> 16) &&& 0xff)).set (p + 2)
        ((nb >>> 8) &&& 0xff)).set (p + 3) (nb &&& 0xff)
      let o3 := (((o2.set (p + 4) 0).set (p + 5) 0).set (p + 6) (s.blocksize >>> 8)).set (p + 7) 0
      (o3, p + 8)
    else hdr
  if page_control = 3 then
    /- Saved Values -/
    ⟨scsi_check_condition w .SAVING_PARAMS_NOT_SUPPORTED, -1, blk.1⟩
  else
    let pages : Option (Buf × Nat) :=
      if page = 0x3f then
        some ((List.range 0x3f).foldl
          (fun q pg => (mode_sense_page s w.bs pg q.1 q.2 page_control).2) blk)
      else
        let m := mode_sense_page s w.bs page blk.1 blk.2 page_control
        if m.1 = -1 then none else some m.2
    match pages with
    | none =>
      ⟨w, -1, (mode_sense_page s w.bs page blk.1 blk.2 page_control).2.1⟩
    | some q =>
      let buflen := q.2
      let o4 :=
        if cdb buf 0 = MODE_SENSE then q.1.set 0 (buflen - 1)
        else (q.1.set 0 (((buflen - 2) >>> 8) &&& 0xff)).set 1 ((buflen - 2) &&& 0xff)
      ⟨w, (buflen : Int), o4⟩

/-- `scsi_disk_emulate_read_toc(req, outbuf)`. -/
def scsi_disk_emulate_read_toc (s : SCSIDiskState) (bs : BlockBackend) (host : Host)
    (cmd : SCSICommand) (outbuf : Buf) : Int × Buf :=
  let msf := cdb cmd.buf 1 &&& 2
  let format := cdb cmd.buf 2 &&& 0xf
  let start_track := cdb cmd.buf 6
  let nb_sectors := bs.nb_sectors / (s.blocksize / 512)
  if format = 0 then
    let t := host.cdrom_read_toc nb_sectors msf start_track
    (t.1, outbuf.memcpy 0 t.2)
  else if format = 1 then
    /- multi session : only a single session defined -/
    (12, (((outbuf.memset 0 0 12).set 1 0x0a).set 2 0x01).set 3 0x01)
  else if format = 2 then
    let t := host.cdrom_read_toc_raw nb_sectors msf start_track
    (t.1, outbuf.memcpy 0 t.2)
  else (-1, outbuf)

/-- `scsi_disk_emulate_start_stop(r)`: the new state and the return value. -/
def scsi_disk_emulate_start_stop (w : World) : World × Int :=
  let start : Bool := decide (cdb w.r.cmd.buf 4 &&& 1 ≠ 0)
  /- load on start, eject on !start -/
  let loej : Bool := decide (cdb w.r.cmd.buf 4 &&& 2 ≠ 0)
  if w.s.type = TYPE_ROM ∧ loej then
    if !start ∧ !w.s.tray_open ∧ w.s.tray_locked then
      (scsi_check_condition w
        (if w.bs.is_inserted then .ILLEGAL_REQ_REMOVAL_PREVENTED
         else .NOT_READY_REMOVAL_PREVENTED), -1)
    else if w.s.tray_open ≠ !start then
      let w1 := w.emit (.bdrv_eject (!start))
      ({ w1 with s := { w1.s with tray_open := !start } }, 0)
    else (w, 0)
  else (w, 0)

/-- How a case of the `switch` of `scsi_disk_emulate_command` ends. -/
inductive EmuExit where
  | brk (buflen : Int)
  | illegal_request
  | fail
  deriving DecidableEq, Repr

/-- The state, the response buffer and the exit of a case of
`scsi_disk_emulate_command`. -/
structure EmuCase where
  w : World
  outbuf : Buf
  exit : EmuExit

/-- The pattern `buflen = f(...); if (buflen < 0) goto illegal_request; break;`. -/
def EmuCase.ofLen (w : World) (buflen : Int) (outbuf : Buf) : EmuCase :=
  if buflen < 0 then ⟨w, outbuf, .illegal_request⟩ else ⟨w, outbuf, .brk buflen⟩

/-- The macro `MIN(buflen, req->cmd.xfer)` on an `int` and a `size_t`, the
result converted back to `int`. -/
def MIN_int_size (a : Int) (b : Nat) : Int :=
  if (a % 2 ^ 64).toNat < b then a else toInt32 b

/-- The assertion of the `TEST_UNIT_READY` case. -/
def assert_test_unit_ready (w : World) : Prop :=
  w.s.tray_open = false ∧ w.bs.is_inserted = true

/-- The macro `assert(c)`: when the condition is false `abort()` is called.
The call is recorded; what follows it in the model is what a build without
assertions would do. The `switch` of `scsi_disk_emulate_command` uses it for
the assertion of `TEST_UNIT_READY`; the other assertions of the file are
stated as predicates on the state they test (`assert_no_transfer`,
`assert_evpd_length`, `assert_load_request`). -/
def c_assert (w : World) (c : Bool) : World :=
  if c then w else w.emit .abort

/-- The payload of READ CAPACITY(10): the bytes the case `READ_CAPACITY_10`
stores into the zeroed buffer `o` for the last block address `nb_sectors`. -/
def read_capacity_10_data (s : SCSIDiskState) (o : Buf) (nb_sectors : Nat) : Buf :=
  /- Clip to 2TB, instead of returning capacity modulo 2TB. -/
  let nb := if nb_sectors > 0xFFFFFFFF then 0xFFFFFFFF else nb_sectors
  let o1 := (((o.set 0 ((nb >>> 24) &&& 0xff)).set 1 ((nb >>> 16) &&& 0xff)).set 2
    ((nb >>> 8) &&& 0xff)).set 3 (nb &&& 0xff)
  (((o1.set 4 0).set 5 0).set 6 (s.blocksize >>> 8)).set 7 0

/-- The case `READ_CAPACITY_10` of `scsi_disk_emulate_command`. -/
def scsi_disk_emulate_read_capacity_10 (w : World) (outbuf : Buf) : EmuCase :=
  /- The normal LEN field for this command is zero. -/
  if w.bs.nb_sectors = 0 then
    ⟨scsi_check_condition w .LUN_NOT_READY, outbuf.memset 0 0 8, .fail⟩
  else if cdb w.r.cmd.buf 8 &&& 1 = 0 ∧ w.r.cmd.lba ≠ 0 then
    ⟨w, outbuf.memset 0 0 8, .illegal_request⟩
  else
    /- Returned value is the address of the last sector.
       Remember the new size for read/write sanity checking. -/
    ⟨{ w with s := { w.s with
         max_lba := sub64 (w.bs.nb_sectors / (w.s.blocksize / 512)) 1 } },
     read_capacity_10_data w.s (outbuf.memset 0 0 8)
       (sub64 (w.bs.nb_sectors / (w.s.blocksize / 512)) 1),
     .brk 8⟩

/-- The payload of READ CAPACITY(16): the bytes the case
`SERVICE_ACTION_IN_16` stores into the zeroed buffer `o` for the last block
address `nb`. -/
def read_capacity_16_data (s : SCSIDiskState) (o : Buf) (nb : Nat) : Buf :=
  let o1 := (((o.set 0 ((nb >>> 56) &&& 0xff)).set 1 ((nb >>> 48) &&& 0xff)).set 2
    ((nb >>> 40) &&& 0xff)).set 3 ((nb >>> 32) &&& 0xff)
  let o2 := (((o1.set 4 ((nb >>> 24) &&& 0xff)).set 5 ((nb >>> 16) &&& 0xff)).set 6
    ((nb >>> 8) &&& 0xff)).set 7 (nb &&& 0xff)
  let o3 := (((o2.set 8 0).set 9 0).set 10 (s.blocksize >>> 8)).set 11 0
  let o4 := (o3.set 12 0).set 13 s.conf.physical_block_exp
  /- set TPE bit if the format supports discard -/
  if s.conf.discard_granularity ≠ 0 then o4.set 14 0x80 else o4

/-- The case `SERVICE_ACTION_IN_16` of `scsi_disk_emulate_command`. -/
def scsi_disk_emulate_service_action_in_16 (w : World) (outbuf : Buf) : EmuCase :=
  /- Service Action In subcommands. -/
  if cdb w.r.cmd.buf 1 &&& 31 = SAI_READ_CAPACITY_16 then
    if w.bs.nb_sectors = 0 then
      ⟨scsi_check_condition w .LUN_NOT_READY, outbuf.memset 0 0 w.r.cmd.xfer, .fail⟩
    else if cdb w.r.cmd.buf 14 &&& 1 = 0 ∧ w.r.cmd.lba ≠ 0 then
      ⟨w, outbuf.memset 0 0 w.r.cmd.xfer, .illegal_request⟩
    else
      /- Returned value is the address of the last sector.
         Remember the new size for read/write sanity checking.
         Protection, exponent and lowest lba field left blank. -/
      ⟨{ w with s := { w.s with
           max_lba := sub64 (w.bs.nb_sectors / (w.s.blocksize / 512)) 1 } },
       read_capacity_16_data w.s (outbuf.memset 0 0 w.r.cmd.xfer)
         (sub64 (w.bs.nb_sectors / (w.s.blocksize / 512)) 1),
       .brk (toInt32 w.r.cmd.xfer)⟩
  else ⟨w, outbuf, .illegal_request⟩

/-- The `switch` of `scsi_disk_emulate_command`, on the opcode `req->cmd.buf[0]`. -/
def scsi_disk_emulate_switch (w : World) (outbuf : Buf) : EmuCase :=
  let buf := w.r.cmd.buf
  let op := cdb buf 0
  let s := w.s
  if op = TEST_UNIT_READY then
    ⟨c_assert w (!s.tray_open && w.bs.is_inserted), outbuf, .brk 0⟩
  else if op = INQUIRY then
    let q := scsi_disk_emulate_inquiry s w.bs w.r.cmd outbuf
    EmuCase.ofLen w q.1 q.2
  else if op = MODE_SENSE ∨ op = MODE_SENSE_10 then
    let e := scsi_disk_emulate_mode_sense w outbuf
    EmuCase.ofLen e.w e.ret e.outbuf
  else if op = READ_TOC then
    let q := scsi_disk_emulate_read_toc s w.bs w.host w.r.cmd outbuf
    EmuCase.ofLen w q.1 q.2
  else if op = RESERVE then
    if cdb buf 1 &&& 1 ≠ 0 then ⟨w, outbuf, .illegal_request⟩ else ⟨w, outbuf, .brk 0⟩
  else if op = RESERVE_10 then
    if cdb buf 1 &&& 3 ≠ 0 then ⟨w, outbuf, .illegal_request⟩ else ⟨w, outbuf, .brk 0⟩
  else if op = RELEASE then
    if cdb buf 1 &&& 1 ≠ 0 then ⟨w, outbuf, .illegal_request⟩ else ⟨w, outbuf, .brk 0⟩
  else if op = RELEASE_10 then
    if cdb buf 1 &&& 3 ≠ 0 then ⟨w, outbuf, .illegal_request⟩ else ⟨w, outbuf, .brk 0⟩
  else if op = START_STOP then
    let q := scsi_disk_emulate_start_stop w
    if q.2 < 0 then ⟨q.1, outbuf, .fail⟩ else ⟨q.1, outbuf, .brk 0⟩
  else if op = ALLOW_MEDIUM_REMOVAL then
    let locked : Bool := decide (cdb buf 4 &&& 1 ≠ 0)
    let w1 := { w with s := { w.s with tray_locked := locked } }
    ⟨w1.emit (.bdrv_lock_medium locked), outbuf, .brk 0⟩
  else if op = READ_CAPACITY_10 then scsi_disk_emulate_read_capacity_10 w outbuf
  else if op = REQUEST_SENSE then
    /- Just return "NO SENSE". -/
    let t := w.host.scsi_build_sense w.r.buflen (decide (cdb buf 1 &&& 1 = 0))
    ⟨w, outbuf.memcpy 0 t.2, .brk (t.1 : Int)⟩
  else if op = MECHANISM_STATUS then
    let q := scsi_emulate_mechanism_status s outbuf
    EmuCase.ofLen w q.1 q.2
  else if op = GET_CONFIGURATION then
    let q := scsi_get_configuration s w.bs outbuf
    EmuCase.ofLen w q.1 q.2
  else if op = GET_EVENT_STATUS_NOTIFICATION then
    let e := scsi_get_event_status_notification w outbuf
    EmuCase.ofLen e.w e.ret e.outbuf
  else if op = READ_DISC_INFORMATION then
    let e := scsi_read_disc_information w outbuf
    EmuCase.ofLen e.w e.ret e.outbuf
  else if op = READ_DVD_STRUCTURE then
    let e := scsi_read_dvd_structure w outbuf
    EmuCase.ofLen e.w e.ret e.outbuf
  else if op = SERVICE_ACTION_IN_16 then scsi_disk_emulate_service_action_in_16 w outbuf
  else ⟨scsi_check_condition w .INVALID_OPCODE, outbuf, .fail⟩

/-- The allocation of the response buffer at the head of
`scsi_disk_emulate_command`, when the request has none yet. -/
def scsi_disk_emulate_alloc (w : World) : World :=
  match w.r.iov_base with
  | none =>
    { w with r := { w.r with buflen := u32 (max 4096 w.r.cmd.xfer),
                             iov_base := some (w.host.qemu_blockalign
                               (u32 (max 4096 w.r.cmd.xfer))) } }
  | some _ => w

/-- `scsi_disk_emulate_command(r)`: the new state and the return value (the
length of the response, `-1` on failure). -/
def scsi_disk_emulate_command (w : World) : World × Int :=
  if w.r.iov_base.isNone ∧ w.r.cmd.xfer > 65536 then
    /- do not allow CDBs with a very large ALLOCATION LENGTH -/
    ((if w.r.status = -1 then scsi_check_condition w .INVALID_FIELD else w), -1)
  else
    let w0 := scsi_disk_emulate_alloc w
    let c := scsi_disk_emulate_switch w0 (w0.r.iov_base.getD (fun _ => 0))
    let w1 := { c.w with r := { c.w.r with iov_base := some c.outbuf } }
    match c.exit with
    | .brk buflen => (w1, MIN_int_size buflen w1.r.cmd.xfer)
    | .illegal_request =>
      ((if w1.r.status = -1 then scsi_check_condition w1 .INVALID_FIELD else w1), -1)
    | .fail => (w1, -1)

/-! ## Command dispatch -/

/-- The opcodes of the first `switch` of `scsi_send_command`, for which the
medium is not checked. -/
def no_medium_check (command : Nat) : Bool :=
  command = INQUIRY ∨ command = MODE_SENSE ∨ command = MODE_SENSE_10 ∨ command = RESERVE
    ∨ command = RESERVE_10 ∨ command = RELEASE ∨ command = RELEASE_10 ∨ command = START_STOP
    ∨ command = ALLOW_MEDIUM_REMOVAL ∨ command = GET_CONFIGURATION
    ∨ command = GET_EVENT_STATUS_NOTIFICATION ∨ command = MECHANISM_STATUS
    ∨ command = REQUEST_SENSE

/-- The opcodes `scsi_send_command` passes to `scsi_disk_emulate_command`. -/
def is_emulated (command : Nat) : Bool :=
  command = TEST_UNIT_READY ∨ command = INQUIRY ∨ command = MODE_SENSE
    ∨ command = MODE_SENSE_10 ∨ command = RESERVE ∨ command = RESERVE_10
    ∨ command = RELEASE ∨ command = RELEASE_10 ∨ command = START_STOP
    ∨ command = ALLOW_MEDIUM_REMOVAL ∨ command = READ_CAPACITY_10 ∨ command = READ_TOC
    ∨ command = READ_DISC_INFORMATION ∨ command = READ_DVD_STRUCTURE
    ∨ command = GET_CONFIGURATION ∨ command = GET_EVENT_STATUS_NOTIFICATION
    ∨ command = MECHANISM_STATUS ∨ command = SERVICE_ACTION_IN_16 ∨ command = REQUEST_SENSE

/-- The cases `READ_6`, `READ_10`, `READ_12`, `READ_16`. -/
def is_read_op (command : Nat) : Bool :=
  command = READ_6 ∨ command = READ_10 ∨ command = READ_12 ∨ command = READ_16

/-- The cases `VERIFY_*`, `WRITE_*` and `WRITE_VERIFY_*`. -/
def is_write_op (command : Nat) : Bool :=
  command = VERIFY_10 ∨ command = VERIFY_12 ∨ command = VERIFY_16 ∨ command = WRITE_6
    ∨ command = WRITE_10 ∨ command = WRITE_12 ∨ command = WRITE_16
    ∨ command = WRITE_VERIFY_10 ∨ command = WRITE_VERIFY_12 ∨ command = WRITE_VERIFY_16

/-- The body of the `READ_*`, `VERIFY_*` and `WRITE_*` cases: the state and
whether the case ends in `break` (`false`: it returned 0 through
`illegal_lba`). `len` is an `int32_t`, the products are reduced to the width
of the fields they are stored in. -/
def scsi_send_command_rw (w : World) : World × Bool :=
  let len : Int := toInt32 (w.r.cmd.xfer / w.s.blocksize)
  if w.r.cmd.lba > w.s.max_lba then
    (scsi_check_condition w .LBA_OUT_OF_RANGE, false)
  else
    ({ w with r := { w.r with
        sector := u64 (w.r.cmd.lba * (w.s.blocksize / 512)),
        sector_count := ((len * ((w.s.blocksize / 512 : Nat) : Int)) % 2 ^ 32).toNat } }, true)

/-- The second `switch` of `scsi_send_command`: the state and whether the
case ends in `break` (`false`: the function returned 0). -/
def scsi_send_command_switch (w : World) : World × Bool :=
  let buf := w.r.cmd.buf
  let command := cdb buf 0
  if is_emulated command then
    let q := scsi_disk_emulate_command w
    if q.2 < 0 then (q.1, false)
    else ({ q.1 with r := { q.1.r with iov_len := (q.2 % 2 ^ 64).toNat } }, true)
  else if command = SYNCHRONIZE_CACHE then
    /- The request is used as the AIO opaque value, so add a ref. -/
    let w1 := scsi_req_ref w
    let w2 := w1.emit (.bdrv_acct_start 0 .BDRV_ACCT_FLUSH)
    (w2.submit (.bdrv_aio_flush .scsi_flush_complete) .scsi_flush_complete, false)
  else if is_read_op command then scsi_send_command_rw w
  else if is_write_op command then scsi_send_command_rw w
  else if command = MODE_SELECT then
    /- We don't support mode parameter changes.
       Allow the mode parameter header + block descriptors only. -/
    if w.r.cmd.xfer > 12 then (scsi_check_condition w .INVALID_FIELD, false) else (w, true)
  else if command = MODE_SELECT_10 then
    if w.r.cmd.xfer > 16 then (scsi_check_condition w .INVALID_FIELD, false) else (w, true)
  else if command = SEEK_10 then
    if w.r.cmd.lba > w.s.max_lba then (scsi_check_condition w .LBA_OUT_OF_RANGE, false)
    else (w, true)
  else if command = WRITE_SAME_10 ∨ command = WRITE_SAME_16 then
    let len : Int :=
      if command = WRITE_SAME_10 then toInt32 (lduw_be_p buf 7)
      else toInt32 (ldl_be_p buf 10 &&& 0xffffffff)
    if w.r.cmd.lba > w.s.max_lba then (scsi_check_condition w .LBA_OUT_OF_RANGE, false)
    /- We only support WRITE SAME with the unmap bit set for now. -/
    else if cdb buf 1 &&& 0x8 = 0 then (scsi_check_condition w .INVALID_FIELD, false)
    else
      let w1 := w.emit (.bdrv_discard (u64 (w.r.cmd.lba * (w.s.blocksize / 512)))
        (toInt32 ((len * ((w.s.blocksize / 512 : Nat) : Int)) % 2 ^ 32).toNat))
      if w1.bs.discard_ret < 0 then (scsi_check_condition w1 .INVALID_FIELD, false)
      else (w1, true)
  else (scsi_check_condition w .INVALID_OPCODE, false)

/-- The end of `scsi_send_command`, after the `switch`: the completion of a
command without data and the signed length that is returned. -/
def scsi_send_command_tail (w : World) : World × Int :=
  let w1 := if w.r.sector_count = 0 ∧ w.r.iov_len = 0 then scsi_req_complete w GOOD else w
  let len : Int := toInt32 (u64 (u32 (w1.r.sector_count * 512) + w1.r.iov_len))
  if w1.r.cmd.mode = .SCSI_XFER_TO_DEV then (w1, neg32 len)
  else
    let w2 :=
      if w1.r.sector_count = 0 then { w1 with r := { w1.r with sector_count := 0xFFFFFFFF } }
      else w1
    (w2, len)

/-- Execute a scsi command: `scsi_send_command(req, buf)`. Returns the length
of the data expected by the command: positive for data transfers from the
device, negative for transfers to the device, zero if the command does not
transfer any data. -/
def scsi_send_command (w : World) : World × Int :=
  let command := cdb w.r.cmd.buf 0
  if !no_medium_check command ∧ (w.s.tray_open ∨ !w.bs.is_inserted) then
    (scsi_check_condition w .NO_MEDIUM, 0)
  else
    let q := scsi_send_command_switch w
    if q.2 then scsi_send_command_tail q.1 else (q.1, 0)

/-! ## Migration of a request -/

/-- Modelled from the spec: the migration stream `QEMUFile` (`savevm.c`, not
part of the sources at hand) as the list of its bytes. Writers append at the
end, readers consume from the front, a read past the end yields zero bytes. -/
abbrev QEMUFile := List Nat

/-- Modelled from the spec: `qemu_put_be32s`, most significant byte first. -/
def qemu_put_be32s (f : QEMUFile) (v : Nat) : QEMUFile :=
  f ++ [v / 2 ^ 24 % 256, v / 2 ^ 16 % 256, v / 2 ^ 8 % 256, v % 256]

/-- Modelled from the spec: `qemu_put_be64s`, most significant byte first. -/
def qemu_put_be64s (f : QEMUFile) (v : Nat) : QEMUFile :=
  qemu_put_be32s (qemu_put_be32s f (v / 2 ^ 32)) v

/-- Modelled from the spec: `qemu_put_buffer(f, buf, size)` writes the first
`size` bytes of `buf`. -/
def qemu_put_buffer (f : QEMUFile) (buf : Buf) (size : Nat) : QEMUFile :=
  f ++ (List.range size).map buf

/-- Modelled from the spec: `qemu_get_be32s`: the value and the rest of the
stream. -/
def qemu_get_be32s (f : QEMUFile) : Nat × QEMUFile := (ldl_be_p f 0, f.drop 4)

/-- Modelled from the spec: `qemu_get_be64s`: the value and the rest of the
stream. -/
def qemu_get_be64s (f : QEMUFile) : Nat × QEMUFile :=
  ((qemu_get_be32s f).1 * 2 ^ 32 + (qemu_get_be32s (qemu_get_be32s f).2).1,
   (qemu_get_be32s (qemu_get_be32s f).2).2)

/-- Modelled from the spec: `qemu_get_buffer(f, buf, size)` reads `size`
bytes into `buf`: the buffer and the rest of the stream. -/
def qemu_get_buffer (f : QEMUFile) (buf : Buf) (size : Nat) : Buf × QEMUFile :=
  (buf.memcpy 0 ((List.range size).map (fun i => f.getD i 0)), f.drop size)

/-- `scsi_disk_save_request(f, req)`: the stream after the request was
written. A null `iov_base` is read as zero bytes. -/
def scsi_disk_save_request (f : QEMUFile) (r : SCSIDiskReq) : QEMUFile :=
  let f1 := qemu_put_be64s f r.sector
  let f2 := qemu_put_be32s f1 r.sector_count
  let f3 := qemu_put_be32s f2 r.buflen
  if r.buflen ≠ 0 then
    if r.cmd.mode = .SCSI_XFER_TO_DEV then
      qemu_put_buffer f3 (r.iov_base.getD (fun _ => 0)) r.iov_len
    else if !r.retry then
      let len := u32 r.iov_len
      let f4 := qemu_put_be32s f3 len
      qemu_put_buffer f4 (r.iov_base.getD (fun _ => 0)) r.iov_len
    else f3
  else f3

/-- The assertion of `scsi_disk_load_request`, on the length `len` read from
the stream: `r->iov.iov_len <= r->buflen`. -/
def assert_load_request (buflen len : Nat) : Prop := len ≤ buflen

/-- `scsi_disk_load_request(f, req)`: the new state and the rest of the
stream. -/
def scsi_disk_load_request (w : World) (f : QEMUFile) : World × QEMUFile :=
  let q1 := qemu_get_be64s f
  let q2 := qemu_get_be32s q1.2
  let q3 := qemu_get_be32s q2.2
  let w1 := { w with r := { w.r with sector := q1.1, sector_count := q2.1, buflen := q3.1 } }
  let p : World × QEMUFile :=
    if w1.r.buflen ≠ 0 then
      let w2 := (scsi_init_iovec w1 w1.r.buflen).1
      if w2.r.cmd.mode = .SCSI_XFER_TO_DEV then
        let g := qemu_get_buffer q3.2 (w2.r.iov_base.getD (fun _ => 0)) w2.r.iov_len
        ({ w2 with r := { w2.r with iov_base := some g.1 } }, g.2)
      else if !w2.r.retry then
        let q4 := qemu_get_be32s q3.2
        let w3 := { w2 with r := { w2.r with iov_len := q4.1 } }
        let g := qemu_get_buffer q4.2 (w3.r.iov_base.getD (fun _ => 0)) w3.r.iov_len
        ({ w3 with r := { w3.r with iov_base := some g.1 } }, g.2)
      else (w2, q3.2)
    else (w1, q3.2)
  ({ p.1 with r := { p.1.r with qiov_size := p.1.r.iov_len } }, p.2)

/-! ## The transport and the backend around a request -/

/-- Modelled from the spec: `scsi_req_alloc` of `scsi-bus.c` (not part of the
sources at hand) returns a zeroed request holding one reference, with no
status yet (`-1`), for the parsed command `cmd` and the scatter/gather list
the transport supplied, if any. -/
def fresh_request (cmd : SCSICommand) (sg : Option Nat) : SCSIDiskReq :=
  { cmd := cmd, status := -1, sense := none, aiocb := none, refcount := 1,
    io_canceled := false, retry := false, sg := sg, resid := cmd.xfer, sector := 0,
    sector_count := 0, buflen := 0, started := false, iov_base := none, iov_len := 0,
    qiov_size := 0 }

/-- The backend completes the outstanding submission of the request with the
result `ret`: the callback registered with the submission runs. Without an
outstanding submission nothing happens. -/
def backend_complete (w : World) (ret : Int) : World :=
  match w.r.aiocb with
  | none => w
  | some acb =>
    match acb.cb with
    | .scsi_flush_complete => scsi_flush_complete w ret
    | .scsi_dma_complete => scsi_dma_complete w ret
    | .scsi_read_complete => scsi_read_complete w ret
    | .scsi_do_read => scsi_do_read w ret
    | .scsi_write_complete => scsi_write_complete w ret

/-- One turn of the read cycle with a backend whose operations all succeed:
the transport calls `scsi_read_data`, then the backend completes the flush
(if one was submitted) and the read with `ret = 0`. -/
def read_turn (w : World) : World :=
  backend_complete (backend_complete (scsi_read_data w) 0) 0

/-- The read cycle: the transport calls `scsi_read_data` again after every
turn until the request has a status; `fuel` bounds the number of turns. -/
def read_cycle : Nat → World → World
  | 0, w => w
  | fuel + 1, w => if w.r.status ≠ -1 then w else read_cycle fuel (read_turn w)

/-- The size an event passes to `scsi_req_data`, if it is such a call. -/
def Event.data_size : Event → Option Int
  | .scsi_req_data len => some len
  | _ => none

/-- The sense an event posts with `scsi_req_build_sense`, if it is such a call. -/
def Event.sense : Event → Option SenseCode
  | .scsi_req_build_sense sense => some sense
  | _ => none

/-- The status byte an event posts with `scsi_req_complete`, if it is such a
call. -/
def Event.status : Event → Option Int
  | .scsi_req_complete status => some status
  | _ => none

/-- The sizes passed to `scsi_req_data`, in order. -/
def data_sizes (es : List Event) : List Int := es.filterMap Event.data_size

/-- The senses posted with `scsi_req_build_sense`, in order. -/
def senses (es : List Event) : List SenseCode := es.filterMap Event.sense

/-- The status bytes posted with `scsi_req_complete`, in order. -/
def statuses (es : List Event) : List Int := es.filterMap Event.status

/-- Whether an event is a call into the block backend that starts I/O,
discards, ejects or locks (accounting and queries apart). -/
def Event.is_backend_op : Event → Bool
  | .bdrv_aio_readv _ _ _ => true
  | .bdrv_aio_writev _ _ _ => true
  | .bdrv_aio_flush _ => true
  | .dma_bdrv_read _ _ => true
  | .dma_bdrv_write _ _ => true
  | .bdrv_aio_cancel _ => true
  | .bdrv_discard _ _ => true
  | .bdrv_eject _ => true
  | .bdrv_lock_medium _ => true
  | _ => false

/-- Whether an event submits a flush. -/
def Event.is_flush : Event → Bool
  | .bdrv_aio_flush _ => true
  | _ => false

/-! ## Concrete configurations -/

/-- A host whose new memory is filled with `0xAA` and whose TOC and sense
builders produce nothing. -/
def example_host : Host :=
  { qemu_blockalign := fun _ _ => 0xAA, cdrom_read_toc := fun _ _ _ => (-1, []),
    cdrom_read_toc_raw := fun _ _ _ => (-1, []), scsi_build_sense := fun _ _ => (0, []) }

/-- A block configuration without hints. -/
def example_conf : BlockConf :=
  { cyls := 0, heads := 0, secs := 0, min_io_size := 0, opt_io_size := 0,
    discard_granularity := 0, physical_block_exp := 0 }

/-- A backend with a medium of 4096 sectors that reports every error. -/
def example_backend : BlockBackend :=
  { is_inserted := true, nb_sectors := 4096, is_read_only := false,
    enable_write_cache := true, on_read_error := .BLOCK_ERR_REPORT,
    on_write_error := .BLOCK_ERR_REPORT, discard_ret := 0, device_name := [],
    next_aiocb := 0 }

/-- A hard disk of 4096 blocks of 512 bytes, tray closed. -/
def example_disk : SCSIDiskState :=
  { type := TYPE_DISK, blocksize := 512, max_lba := 4095, unit_attention := .NO_SENSE,
    conf := example_conf, tcq := false, features := 0, media_changed := false,
    media_event := false, eject_request := false, wwn := 0, version := cstr "1.5.0",
    serial := none, tray_open := false, tray_locked := false }

/-- The world of a fresh bounce-buffer request for `cmd` on `example_disk`. -/
def example_world (cmd : SCSICommand) : World :=
  { s := example_disk, bs := example_backend, r := fresh_request cmd none,
    host := example_host, trace := [] }

/-- READ(10) of one block at LBA 0 (512 bytes from the device). -/
def cmd_read10_one : SCSICommand :=
  { buf := [0x28, 0, 0, 0, 0, 0, 0, 0, 1, 0], len := 10, xfer := 512, lba := 0,
    mode := .SCSI_XFER_FROM_DEV }

/-- A READ(10) of one block in flight on a backend that ignores read errors
and reports write errors. -/
def world_read_ignore : World :=
  { example_world cmd_read10_one with
    bs := { example_backend with on_read_error := .BLOCK_ERR_IGNORE } }

/-- A request with the outstanding handle 7 of a read, holding two
references. -/
def world_outstanding : World :=
  { example_world cmd_read10_one with
    r := { fresh_request cmd_read10_one none with
           aiocb := some { id := 7, cb := .scsi_read_complete }, refcount := 2,
           sector_count := 1 } }

/-- The case labels of the second `switch` of `scsi_send_command`: every
opcode that is handled by a case other than `default`. -/
def handled_opcodes : List Nat :=
  [TEST_UNIT_READY, INQUIRY, MODE_SENSE, MODE_SENSE_10, RESERVE, RESERVE_10, RELEASE,
   RELEASE_10, START_STOP, ALLOW_MEDIUM_REMOVAL, READ_CAPACITY_10, READ_TOC,
   READ_DISC_INFORMATION, READ_DVD_STRUCTURE, GET_CONFIGURATION,
   GET_EVENT_STATUS_NOTIFICATION, MECHANISM_STATUS, SERVICE_ACTION_IN_16, REQUEST_SENSE,
   SYNCHRONIZE_CACHE, READ_6, READ_10, READ_12, READ_16, VERIFY_10, VERIFY_12, VERIFY_16,
   WRITE_6, WRITE_10, WRITE_12, WRITE_16, WRITE_VERIFY_10, WRITE_VERIFY_12, WRITE_VERIFY_16,
   MODE_SELECT, MODE_SELECT_10, SEEK_10, WRITE_SAME_10, WRITE_SAME_16]

/-- READ(10) of one block at LBA 1,000,000. -/
def cmd_read10_far : SCSICommand :=
  { buf := [0x28, 0, 0x00, 0x0f, 0x42, 0x40, 0, 0, 1, 0], len := 10, xfer := 512,
    lba := 1000000, mode := .SCSI_XFER_FROM_DEV }

/-- READ(10) at LBA 0 with transfer length 0 (no data is transferred). -/
def cmd_read10_zero : SCSICommand :=
  { buf := [0x28, 0, 0, 0, 0, 0, 0, 0, 0, 0], len := 10, xfer := 0, lba := 0,
    mode := .SCSI_XFER_NONE }

/-- SYNCHRONIZE CACHE(10). -/
def cmd_synchronize_cache : SCSICommand :=
  { buf := [0x35, 0, 0, 0, 0, 0, 0, 0, 0, 0], len := 10, xfer := 0, lba := 0,
    mode := .SCSI_XFER_NONE }

/-- TEST UNIT READY. -/
def cmd_test_unit_ready : SCSICommand :=
  { buf := [0x00, 0, 0, 0, 0, 0], len := 6, xfer := 0, lba := 0, mode := .SCSI_XFER_NONE }

/-- A CDB with the opcode `0xff`, which no case handles. -/
def cmd_unknown : SCSICommand :=
  { buf := [0xff, 0, 0, 0, 0, 0], len := 6, xfer := 0, lba := 0, mode := .SCSI_XFER_NONE }

/-- WRITE(10) of one block at LBA 0 with the FUA bit set. -/
def cmd_write10_fua : SCSICommand :=
  { buf := [0x2a, 8, 0, 0, 0, 0, 0, 0, 1, 0], len := 10, xfer := 512, lba := 0,
    mode := .SCSI_XFER_TO_DEV }

/-- The last write of a WRITE(10) with FUA in flight: one sector remains and
the bounce buffer holds 512 bytes. -/
def world_write_fua : World :=
  { example_world cmd_write10_fua with
    r := { fresh_request cmd_write10_fua none with
           aiocb := some { id := 0, cb := .scsi_write_complete }, refcount := 2,
           sector_count := 1, buflen := 131072, started := true,
           iov_base := some (fun _ => 0), iov_len := 512, qiov_size := 512 }
    bs := { example_backend with next_aiocb := 1 } }

/-- The fresh request of `cmd` on `example_disk` with the tray open. -/
def world_tray_open (cmd : SCSICommand) : World :=
  { example_world cmd with s := { example_disk with tray_open := true } }

/-- READ(16) at LBA 0 of `2^23` blocks of 512 bytes (4 GiB). -/
def cmd_read16_4g : SCSICommand :=
  { buf := [0x88, 0, 0, 0, 0, 0, 0, 0, 0, 0, 0x00, 0x80, 0x00, 0x00, 0, 0], len := 16,
    xfer := 2 ^ 23 * 512, lba := 0, mode := .SCSI_XFER_FROM_DEV }

/-- The bus cancels the request: `io_canceled` is set, then `scsi_cancel_io`
runs. -/
def cancel_request (w : World) : World :=
  scsi_cancel_io { w with r := { w.r with io_canceled := true } }

/-- SYNCHRONIZE CACHE submitted on `example_disk` and cancelled while its
flush is in flight. -/
def world_cancelled_flush : World :=
  cancel_request (scsi_send_command (example_world cmd_synchronize_cache)).1

/-- The step from `w` to `v` submits exactly one asynchronous operation to
the backend, and the request holds its handle. -/
def submits_one (w v : World) : Prop :=
  v.bs.next_aiocb = w.bs.next_aiocb + 1 ∧ ∃ cb, v.r.aiocb = some ⟨w.bs.next_aiocb, cb⟩

/-- The step from `w` to `v` submits nothing to the backend. -/
def submits_none (w v : World) : Prop := v.bs.next_aiocb = w.bs.next_aiocb

/-- The last write of a WRITE(10) with FUA in flight, as `world_write_fua`,
on a backend that stops the machine on write errors. -/
def world_write_fua_stop : World :=
  { world_write_fua with
    bs := { world_write_fua.bs with on_write_error := .BLOCK_ERR_STOP_ANY } }

/-- The write of `world_write_fua_stop` succeeds and the flush that follows
fails with errno 5: the machine is stopped and the request waits for its
retry. -/
def world_flush_retry : World :=
  backend_complete (scsi_write_complete world_write_fua_stop 0) (-5)

/-- The request the migration target allocates for the saved request of
`world_flush_retry`: same command, marked for retry, otherwise fresh. -/
def world_load_retry : World :=
  { example_world cmd_write10_fua with
    r := { fresh_request cmd_write10_fua none with retry := true } }

/-- READ CAPACITY(10) with PMI and LBA zero; the bus sets the length to 8. -/
def cmd_read_capacity_10 : SCSICommand :=
  { buf := [0x25, 0, 0, 0, 0, 0, 0, 0, 0, 0], len := 10, xfer := 8, lba := 0,
    mode := .SCSI_XFER_FROM_DEV }

/-- SERVICE ACTION IN(16) with service action READ CAPACITY(16), PMI and LBA
zero, allocation length 32. -/
def cmd_read_capacity_16 : SCSICommand :=
  { buf := [0x9e, 0x10, 0, 0, 0, 0, 0, 0, 0, 0, 0, 0, 0, 32, 0, 0], len := 16, xfer := 32,
    lba := 0, mode := .SCSI_XFER_FROM_DEV }

/-- A fresh request for `cmd` on a device with 2048-byte blocks and a medium
of 1,000,000 sectors of 512 bytes. -/
def world_capacity_2048 (cmd : SCSICommand) : World :=
  { example_world cmd with
    s := { example_disk with blocksize := 2048 }
    bs := { example_backend with nb_sectors := 1000000 } }

/-- Standard INQUIRY with allocation length 36 (CDB 12 00 00 00 24 00). -/
def cmd_inquiry_36 : SCSICommand :=
  { buf := [0x12, 0, 0, 0, 0x24, 0], len := 6, xfer := 36, lba := 0,
    mode := .SCSI_XFER_FROM_DEV }

/-- Standard INQUIRY with allocation length 300 (CDB 12 00 00 01 2C 00). -/
def cmd_inquiry_300 : SCSICommand :=
  { buf := [0x12, 0, 0, 0x01, 0x2C, 0], len := 6, xfer := 300, lba := 0,
    mode := .SCSI_XFER_FROM_DEV }

/-- INQUIRY with EVPD set for the page `page`, allocation length 255. -/
def cmd_inquiry_evpd (page : Nat) : SCSICommand :=
  { buf := [0x12, 1, page, 0, 0xff, 0], len := 6, xfer := 255, lba := 0,
    mode := .SCSI_XFER_FROM_DEV }

/-- A hard disk as `example_disk`, with the serial "QM00001" and a WWN. -/
def example_disk_serial : SCSIDiskState :=
  { example_disk with serial := some (cstr "QM00001"), wwn := 0x5000c50015ea71ac }

/-- A backend as `example_backend` whose device name has 247 characters. -/
def example_backend_long_name : BlockBackend :=
  { example_backend with device_name := List.replicate 247 0x61 }

/-- A hard disk as `example_disk`, without serial, with a WWN. -/
def example_disk_wwn : SCSIDiskState :=
  { example_disk with wwn := 0x5000c50015ea71ac }

/-- The assertion at the end of the EVPD branch of
`scsi_disk_emulate_inquiry`: `buflen - start <= 255`, with `start = 4`. -/
def assert_evpd_length (buflen : Int) : Prop := buflen - 4 ≤ 255

/-- A live FROM_DEV request on the bounce buffer with no transfer in progress
and no status yet, on a device with the tray closed: the state in which the
transport calls `scsi_read_data`. The bounce buffer is either not allocated
yet or has the size `SCSI_DMA_BUF_SIZE`. -/
def read_ready (w : World) : Prop :=
  w.r.status = -1 ∧ w.r.cmd.mode = .SCSI_XFER_FROM_DEV ∧ w.r.sg = none ∧
  w.s.tray_open = false ∧ w.r.io_canceled = false ∧ w.r.aiocb = none ∧
  (w.r.iov_base = none ∨ w.r.buflen = 131072)

/-! ## MODE SENSE in parts -/

/-- The page length `p[1]` that `mode_sense_page` stores for a page code (zero
for the codes without a case in its `switch`). -/
def mode_page_length (page : Nat) : Nat :=
  if page = MODE_PAGE_HD_GEOMETRY then 0x16
  else if page = MODE_PAGE_FLEXIBLE_DISK_GEOMETRY then 0x1e
  else if page = MODE_PAGE_CACHING then 0x12
  else if page = MODE_PAGE_R_W_ERROR then 10
  else if page = MODE_PAGE_AUDIO_CTL then 14
  else if page = MODE_PAGE_CAPABILITIES then 0x14
  else 0

/-- The test at the head of `mode_sense_page`: the page is valid for the
device type. -/
def mode_page_valid (s : SCSIDiskState) (page : Nat) : Bool :=
  decide (mode_sense_valid page &&& (1 <<< s.type) ≠ 0)

/-- The device-specific parameter that `scsi_disk_emulate_mode_sense`
computes: DPOFUA and read-only bits on a DISK, zero otherwise. -/
def mode_sense_dev_specific_param (s : SCSIDiskState) (bs : BlockBackend) : Nat :=
  if s.type = TYPE_DISK then
    (if s.features &&& (1 <<< SCSI_DISK_F_DPOFUA) ≠ 0 then 0x10 else 0)
      ||| (if bs.is_read_only then 0x80 else 0)
  else 0x00

/-- The test `!dbd && nb_sectors` of `scsi_disk_emulate_mode_sense`, `dbd`
being forced to true on a device that is not a DISK. -/
def mode_sense_has_descriptor (w : World) : Bool :=
  decide (w.s.type = TYPE_DISK ∧ cdb w.r.cmd.buf 1 &&& 0x8 = 0 ∧ w.bs.nb_sectors ≠ 0)

/-- The length of the mode parameter header: 4 bytes for MODE SENSE(6), 8 for
MODE SENSE(10). -/
def mode_sense_header_length (cmd : SCSICommand) : Nat :=
  if cdb cmd.buf 0 = MODE_SENSE then 4 else 8

/-- The block count `scsi_disk_emulate_mode_sense` stores in the block
descriptor. -/
def mode_sense_block_count (w : World) : Nat :=
  if w.bs.nb_sectors / (w.s.blocksize / 512) > 0xffffff then 0
  else w.bs.nb_sectors / (w.s.blocksize / 512)

/-- The first part of `scsi_disk_emulate_mode_sense`, up to the test of the
page control: the zeroed buffer with the header and the block descriptor, and
the write position `p` behind them. -/
def mode_sense_head (w : World) (outbuf : Buf) : Buf × Nat :=
  let s := w.s
  let buf := w.r.cmd.buf
  let dbd0 : Bool := decide (cdb buf 1 &&& 0x8 ≠ 0)
  let o := outbuf.memset 0 0 w.r.cmd.xfer
  let dev_specific_param : Nat := mode_sense_dev_specific_param s w.bs
  let dbd : Bool := if s.type = TYPE_DISK then dbd0 else true
  let hdr : Buf × Nat :=
    if cdb buf 0 = MODE_SENSE then
      (((o.set 1 0).set 2 dev_specific_param).set 3 0, 4)
    else
      ((((o.set 2 0).set 3 dev_specific_param).set 7 0).set 6 0, 8)
  if !dbd ∧ w.bs.nb_sectors ≠ 0 then
    let o1 := if cdb buf 0 = MODE_SENSE then hdr.1.set 3 8 else hdr.1.set 7 8
    let nb := mode_sense_block_count w
    let p := hdr.2
    let o2 := (((o1.set p 0).set (p + 1) ((nb >>> 16) &&& 0xff)).set (p + 2)
      ((nb >>> 8) &&& 0xff)).set (p + 3) (nb &&& 0xff)
    let o3 := (((o2.set (p + 4) 0).set (p + 5) 0).set (p + 6) (s.blocksize >>> 8)).set (p + 7) 0
    (o3, p + 8)
  else hdr

/-- The second part of `scsi_disk_emulate_mode_sense`, from the test of the
page control: the pages written from the position `blk.2` on, and the mode
data length stored last. -/
def mode_sense_pages (w : World) (blk : Buf × Nat) : EmuResult :=
  let s := w.s
  let buf := w.r.cmd.buf
  let page := cdb buf 2 &&& 0x3f
  let page_control := (cdb buf 2 &&& 0xc0) >>> 6
  if page_control = 3 then
    /- Saved Values -/
    ⟨scsi_check_condition w .SAVING_PARAMS_NOT_SUPPORTED, -1, blk.1⟩
  else
    let pages : Option (Buf × Nat) :=
      if page = 0x3f then
        some ((List.range 0x3f).foldl
          (fun q pg => (mode_sense_page s w.bs pg q.1 q.2 page_control).2) blk)
      else
        let m := mode_sense_page s w.bs page blk.1 blk.2 page_control
        if m.1 = -1 then none else some m.2
    match pages with
    | none =>
      ⟨w, -1, (mode_sense_page s w.bs page blk.1 blk.2 page_control).2.1⟩
    | some q =>
      let buflen := q.2
      let o4 :=
        if cdb buf 0 = MODE_SENSE then q.1.set 0 (buflen - 1)
        else (q.1.set 0 (((buflen - 2) >>> 8) &&& 0xff)).set 1 ((buflen - 2) &&& 0xff)
      ⟨w, (buflen : Int), o4⟩

/-- The pages a MODE SENSE asks for: all page codes below 0x3f for the page
code 0x3f (the loop of `scsi_disk_emulate_mode_sense`), the page itself
otherwise. -/
def mode_pages_requested (page : Nat) : List Nat :=
  if page = 0x3f then List.range 0x3f else [page]

/-- The pages of a request that `mode_sense_page` emits for the device. -/
def mode_pages_emitted (s : SCSIDiskState) (page : Nat) : List Nat :=
  (mode_pages_requested page).filter (mode_page_valid s)

/-- MODE SENSE(6) with the given DBD byte and page byte (page control and page
code), allocation length 192; the bus takes the LBA from bytes 1..3. -/
def cmd_mode_sense_6 (b1 page_byte : Nat) : SCSICommand :=
  { buf := [0x1a, b1, page_byte, 0, 192, 0], len := 6, xfer := 192,
    lba := (b1 % 32) * 65536 + page_byte * 256, mode := .SCSI_XFER_FROM_DEV }

/-- A hard disk with the DPOFUA feature. -/
def example_disk_dpofua : SCSIDiskState :=
  { example_disk with features := 1 <<< SCSI_DISK_F_DPOFUA }

/-- The world of a fresh request for `cmd` on `example_disk_dpofua`. -/
def world_dpofua (cmd : SCSICommand) : World :=
  { example_world cmd with s := example_disk_dpofua }

/-- A backend with a medium of `2^25` sectors (16 GiB). -/
def example_backend_16g : BlockBackend :=
  { example_backend with nb_sectors := 33554432 }

/-- The world of a fresh request for `cmd` on `example_disk` with a medium of
`2^25` sectors. -/
def world_16g (cmd : SCSICommand) : World :=
  { example_world cmd with bs := example_backend_16g }

/-- GET CONFIGURATION with an allocation length of 40 bytes. -/
def cmd_get_configuration : SCSICommand :=
  { buf := [0x46, 0, 0, 0, 0, 0, 0, 0, 40, 0], len := 10, xfer := 40, lba := 0,
    mode := .SCSI_XFER_FROM_DEV }

/-- READ TOC, format 1 (session information), allocation length 12. -/
def cmd_read_toc_sessions : SCSICommand :=
  { buf := [0x43, 0, 1, 0, 0, 0, 0, 0, 12, 0], len := 10, xfer := 12, lba := 0x01000000,
    mode := .SCSI_XFER_FROM_DEV }

/-- START STOP UNIT with the given byte 4 (START in bit 0, LOEJ in bit 1). -/
def cmd_start_stop (b4 : Nat) : SCSICommand :=
  { buf := [0x1b, 0, 0, 0, b4, 0], len := 6, xfer := 0, lba := 0,
    mode := .SCSI_XFER_NONE }

/-- A CD-ROM drive with 2048-byte blocks, tray closed and locked. -/
def example_cdrom_locked : SCSIDiskState :=
  { example_disk with type := TYPE_ROM, blocksize := 2048, max_lba := 1023,
                      tray_locked := true }

/-- The world of a fresh request for `cmd` on `example_cdrom_locked`. -/
def world_cdrom_locked (cmd : SCSICommand) : World :=
  { example_world cmd with s := example_cdrom_locked }

/-- WRITE SAME(16) with the given byte 1 (UNMAP in bit 3), an LBA below 256
and the count bytes `c3 00 00 c0`; the bus announces one block to the
device. -/
def cmd_write_same_16 (b1 lba c3 c0 : Nat) : SCSICommand :=
  { buf := [0x93, b1, 0, 0, 0, 0, 0, 0, 0, lba, c3, 0, 0, c0, 0, 0], len := 16, xfer := 512,
    lba := lba, mode := .SCSI_XFER_TO_DEV }

/-! ## The buffered rate-limited sink (`buffered_file.c`) -/

/-- `EAGAIN` of `errno.h` (Linux value). -/
def EAGAIN : Int := 11
/-- `INT_MAX` of `limits.h`. -/
def INT_MAX : Nat := 2147483647

/-- The call `memmove(buf + dst, buf + src, n)`. -/
def Buf.memmove (b : Buf) (dst src n : Nat) : Buf :=
  fun j => if dst ≤ j ∧ j < dst + n then b (src + (j - dst)) else b j

/-- The `n` bytes of a buffer from the offset `off` on. -/
def Buf.slice (b : Buf) (off n : Nat) : List Nat :=
  (List.range n).map (fun i => b (off + i))

/-- Modelled from the spec: the downstream sink `migrate_fd_put_buffer`
(`migration.c`, not part of the sources at hand). The answer to the call
number `k` that offers `n` bytes: a positive number of bytes accepted,
`-EAGAIN` when the sink would block, another value `<= 0` for a fatal
error. -/
abbrev Sink := Nat → Nat → Int

/-- The contract of the downstream sink: it accepts no more than it is
offered. -/
def Sink.within_offer (sink : Sink) : Prop := ∀ k n, sink k n ≤ (n : Int)

/-- `QEMUFileBuffered`, together with what its collaborators hold: the error
recorded in `s->file` (`qemu_file_get_error`, `qemu_file_set_error`), the bytes
the downstream sink has accepted and the number of calls it has answered, the
number of `migrate_fd_put_ready` notifications, the expiry of `s->timer`
(`none` once deleted) and whether the sink has been closed and freed. A
pointer with its length (`buf`, `size`) is the list of the bytes. -/
structure QEMUFileBuffered where
  freeze_output : Int
  bytes_xfer : Nat
  xfer_limit : Nat
  buffer : Buf
  buffer_size : Nat
  buffer_capacity : Nat
  file_error : Int
  sent : List Nat
  calls : Nat
  put_ready : Nat
  timer : Option Int
  closed : Bool

/-- The bytes held in the buffer: `buffer[0 .. buffer_size)`. -/
def QEMUFileBuffered.contents (s : QEMUFileBuffered) : List Nat :=
  s.buffer.slice 0 s.buffer_size

/-- `buffered_append(s, buf, size)`. -/
def buffered_append (s : QEMUFileBuffered) (buf : List Nat) : QEMUFileBuffered :=
  let size := buf.length
  let s1 :=
    if size > sub64 s.buffer_capacity s.buffer_size then
      { s with buffer_capacity := u64 (s.buffer_capacity + (size + 1024)) }
    else s
  { s1 with buffer := s1.buffer.memcpy s1.buffer_size buf,
            buffer_size := u64 (s1.buffer_size + size) }

/-- The `while` loop of `buffered_flush`, from the offset `offset`: the state
and the offset it ends with. The first argument bounds the number of
iterations; `buffered_flush` passes `buffer_size`, which the loop cannot
exceed since every iteration that does not leave the loop advances the offset. -/
def buffered_flush_loop (sink : Sink) : Nat → QEMUFileBuffered → Nat → QEMUFileBuffered × Nat
  | 0, s, offset => (s, offset)
  | n + 1, s, offset =>
    if s.bytes_xfer < s.xfer_limit ∧ offset < s.buffer_size then
      let ret := sink s.calls (sub64 s.buffer_size offset)
      let s1 := { s with calls := s.calls + 1 }
      if ret = -EAGAIN then
        /- backend not ready, freezing -/
        ({ s1 with freeze_output := 1 }, offset)
      else if ret ≤ 0 then
        /- error flushing data -/
        ({ s1 with file_error := ret }, offset)
      else
        buffered_flush_loop sink n
          { s1 with
            bytes_xfer := u64 (s1.bytes_xfer + ret.toNat)
            sent := s1.sent ++ s1.buffer.slice offset ret.toNat }
          (u64 (offset + ret.toNat))
    else (s, offset)

/-- `buffered_flush(s)`. -/
def buffered_flush (sink : Sink) (s : QEMUFileBuffered) : QEMUFileBuffered :=
  if s.file_error ≠ 0 then
    /- flush when error, bailing -/
    s
  else
    let q := buffered_flush_loop sink s.buffer_size s 0
    { q.1 with buffer := q.1.buffer.memmove 0 q.2 (sub64 q.1.buffer_size q.2),
               buffer_size := sub64 q.1.buffer_size q.2 }

/-- `buffered_put_buffer(opaque, buf, pos, size)`: the new state and the
return value. -/
def buffered_put_buffer (sink : Sink) (s : QEMUFileBuffered) (buf : List Nat) (pos : Int) :
    QEMUFileBuffered × Int :=
  let size : Int := buf.length
  if s.file_error ≠ 0 then
    /- flush when error, bailing -/
    (s, s.file_error)
  else
    /- unfreezing output -/
    let s1 := { s with freeze_output := 0 }
    let s2 := if size > 0 then buffered_append s1 buf else s1
    let s3 := buffered_flush sink s2
    let s4 :=
      if pos = 0 ∧ size = 0 then
        /- file is ready -/
        if s3.freeze_output = 0 ∧ s3.bytes_xfer < s3.xfer_limit then
          { s3 with put_ready := s3.put_ready + 1 }
        else s3
      else s3
    (s4, size)

/-- The `while` loop of `buffered_close`, followed for at most the given
number of rounds (`migrate_fd_wait_for_unfreeze` only waits). -/
def buffered_close_loop (sink : Sink) : Nat → QEMUFileBuffered → QEMUFileBuffered
  | 0, s => s
  | n + 1, s =>
    if s.file_error = 0 ∧ s.buffer_size ≠ 0 then
      buffered_close_loop sink n (buffered_flush sink s)
    else s

/-- `buffered_close(opaque)`, its drain loop followed for at most `rounds`
rounds: the timer is deleted and the state freed. -/
def buffered_close (sink : Sink) (rounds : Nat) (s : QEMUFileBuffered) : QEMUFileBuffered :=
  let s1 := buffered_close_loop sink rounds { s with xfer_limit := INT_MAX }
  { s1 with timer := none, closed := true }

/-- `buffered_rate_tick(opaque)` at the time `now` of the clock `rt_clock`. With
a pending error the drain loop of `buffered_close` does not run. -/
def buffered_rate_tick (sink : Sink) (s : QEMUFileBuffered) (now : Int) : QEMUFileBuffered :=
  if s.file_error ≠ 0 then buffered_close sink 0 s
  else
    let s1 := { s with timer := some (now + 100) }
    if s1.freeze_output ≠ 0 then s1
    else (buffered_put_buffer sink { s1 with bytes_xfer := 0 } [] 0).1

/-- An entry point of the buffered sink, as the event loop calls it. -/
inductive BufferedOp where
  | put_buffer (buf : List Nat) (pos : Int)
  | rate_tick (now : Int)

/-- One call from the event loop: the new state and the bytes the call took
over (those of a `put_buffer` that returned its size). Nothing is called on a
sink that has been closed: its memory is freed and its timer deleted. -/
def buffered_step (sink : Sink) (s : QEMUFileBuffered) (op : BufferedOp) :
    QEMUFileBuffered × List Nat :=
  if s.closed then (s, [])
  else
    match op with
    | .put_buffer buf pos =>
      let q := buffered_put_buffer sink s buf pos
      (q.1, if q.2 = (buf.length : Int) then buf else [])
    | .rate_tick now => (buffered_rate_tick sink s now, [])

/-- A sequence of calls from the event loop: the final state and all the
bytes taken over, in order. -/
def buffered_run (sink : Sink) : QEMUFileBuffered → List BufferedOp → QEMUFileBuffered × List Nat
  | s, [] => (s, [])
  | s, op :: ops =>
    let q := buffered_step sink s op
    let q2 := buffered_run sink q.1 ops
    (q2.1, q.2 ++ q2.2)

/-- A list of byte values. -/
def is_bytes (l : List Nat) : Prop := ∀ b ∈ l, b < 256

/-- The size of a `put_buffer` is an `int`, the buffered bytes stay within
`size_t`, and the data are bytes. -/
def BufferedOp.fits (s : QEMUFileBuffered) : BufferedOp → Prop
  | .put_buffer buf _ =>
    buf.length < 2 ^ 31 ∧ s.buffer_size + buf.length < 2 ^ 64 ∧ is_bytes buf
  | .rate_tick _ => True

/-- Every call of a sequence fits, in the state it is made in. -/
def buffered_run_fits (sink : Sink) : QEMUFileBuffered → List BufferedOp → Prop
  | _, [] => True
  | s, op :: ops => op.fits s ∧ buffered_run_fits sink (buffered_step sink s op).1 ops

/-- `qemu_fopen_ops_buffered(migration_state)` at the time `now`: the zeroed
state with the limit of a tenth of the bandwidth and the timer armed. -/
def qemu_fopen_ops_buffered (bandwidth_limit : Nat) (now : Int) : QEMUFileBuffered :=
  { freeze_output := 0, bytes_xfer := 0, xfer_limit := bandwidth_limit / 10,
    buffer := fun _ => 0, buffer_size := 0, buffer_capacity := 0, file_error := 0,
    sent := [], calls := 0, put_ready := 0, timer := some (now + 100), closed := false }

/-- A downstream sink: the first call takes at most two bytes, the second
would block, the third takes at most one byte, every later call fails with
`-EIO`. -/
def example_sink : Sink := fun k n =>
  if k = 0 then min (n : Int) 2 else if k = 1 then -EAGAIN else if k = 2 then min (n : Int) 1
  else -5

/-- Five bytes are put, a tick passes, two bytes are put, a tick passes. -/
def example_ops : List BufferedOp :=
  [.put_buffer [1, 2, 3, 4, 5] 0, .rate_tick 100, .put_buffer [6, 7] 5, .rate_tick 200]

/-- A downstream sink that takes everything it is offered. -/
def greedy_sink : Sink := fun _ n => (n : Int)

/-- The downstream sink of the scenario S6: it takes 400,000 bytes at the
first call and would block afterwards. -/
def sink_s6 : Sink := fun k _ => if k = 0 then 400000 else -EAGAIN

/-- `buffered_rate_limit(opaque)`: the state it leaves and the value it
returns (0: we can continue sending, 1: time to stop, negative: there has
been an error). -/
def buffered_rate_limit (s : QEMUFileBuffered) : QEMUFileBuffered × Int :=
  if s.file_error ≠ 0 then (s, s.file_error)
  else if s.freeze_output ≠ 0 then (s, 1)
  else if s.bytes_xfer > s.xfer_limit then (s, 1)
  else (s, 0)

/-- A downstream sink that takes at most ten bytes per call. -/
def sink_ten : Sink := fun _ n => min (n : Int) 10

/-- The sink opened with `xfer_limit = 10` after one `put_buffer` of 30 bytes
to `sink_ten`: ten bytes are sent, twenty are buffered, the counter has
reached the limit. -/
def buffered_at_limit : QEMUFileBuffered :=
  (buffered_put_buffer sink_ten (qemu_fopen_ops_buffered 100 0) (List.replicate 30 0) 0).1

/-- A sink whose output is frozen, with five bytes counted in the window. -/
def buffered_frozen : QEMUFileBuffered :=
  { qemu_fopen_ops_buffered 100 0 with freeze_output := 1, bytes_xfer := 5 }
/-! ## Media change and reset -/

/-- `scsi_cd_change_media_cb(opaque, load)`. -/
def scsi_cd_change_media_cb (s : SCSIDiskState) (load : Bool) : SCSIDiskState :=
  /- media_changed governs the state machine used for unit attention
     report. media_event is used by GET EVENT STATUS NOTIFICATION. -/
  { s with media_changed := load, tray_open := !load,
           unit_attention := .UNIT_ATTENTION_NO_MEDIUM, media_event := true,
           eject_request := false }

/-- `scsi_cd_eject_request_cb(opaque, force)`. -/
def scsi_cd_eject_request_cb (s : SCSIDiskState) (force : Bool) : SCSIDiskState :=
  let s1 := { s with eject_request := true }
  if force then { s1 with tray_locked := false } else s1

/-- `scsi_disk_unit_attention_reported(dev)`. -/
def scsi_disk_unit_attention_reported (s : SCSIDiskState) : SCSIDiskState :=
  if s.media_changed then { s with media_changed := false, unit_attention := .MEDIUM_CHANGED }
  else s
/-- READ(10) of two blocks at LBA 4095, the last block of the example disk
(1024 bytes from the device). -/
def cmd_read10_last_two : SCSICommand :=
  { buf := [0x28, 0, 0, 0, 0x0f, 0xff, 0, 0, 2, 0], len := 10, xfer := 1024, lba := 4095,
    mode := .SCSI_XFER_FROM_DEV }
/-- Modelled from the spec: `scsi_device_purge_requests(dev, sense)` of
`scsi-bus.c` (not part of the sources at hand) cancels all outstanding
requests on a device and posts the given sense; on the device state the
sense becomes the pending unit attention. -/
def scsi_device_purge_requests (s : SCSIDiskState) (sense : SenseCode) : SCSIDiskState :=
  { s with unit_attention := sense }

/-- `scsi_disk_reset(dev)`. -/
def scsi_disk_reset (s : SCSIDiskState) (bs : BlockBackend) : SCSIDiskState :=
  let s1 := scsi_device_purge_requests s .RESET
  let nb_sectors := bs.nb_sectors / (s1.blocksize / 512)
  let nb_sectors := if nb_sectors ≠ 0 then sub64 nb_sectors 1 else nb_sectors
  { s1 with max_lba := nb_sectors }

/-- A medium of three sectors, less than one block, in a device with
2048-byte blocks. -/
def world_small_medium (cmd : SCSICommand) : World :=
  { example_world cmd with
    s := { example_disk with blocksize := 2048 }
    bs := { example_backend with nb_sectors := 3 } }

/-- A disk of `2^25` blocks of 512 bytes with its capacity known. -/
def world_big_disk (cmd : SCSICommand) : World :=
  { example_world cmd with
    s := { example_disk with max_lba := 33554431 }
    bs := example_backend_16g }
/-- A backend as `example_backend` whose device name has 240 characters. -/
def example_backend_name_240 : BlockBackend :=
  { example_backend with device_name := List.replicate 240 0x61 }

/-! ## The life of a request -/

/-- What the transport and the backend do with a request once
`scsi_send_command` has run: the transport asks for the next chunk
(`scsi_read_data`, `scsi_write_data`), or a completion callback runs with the
result `ret` of a backend operation. -/
inductive RequestOp where
  | read_data
  | write_data
  | complete (cb : Callback) (ret : Int)

/-- One step in the life of a request. -/
def request_step (w : World) : RequestOp → World
  | .read_data => scsi_read_data w
  | .write_data => scsi_write_data w
  | .complete cb ret => run_callback cb w ret

/-- The life of a request: `scsi_send_command`, which the bus calls once,
then the steps `ops` in order. -/
def request_run (w : World) (ops : List RequestOp) : World :=
  ops.foldl request_step (scsi_send_command w).1

/-- The invariant of the bounce buffer: the iovec lies inside the buffer
(`iov_len <= buflen`) and `buflen` fits its 32-bit field. -/
def iov_within_buffer (r : SCSIDiskReq) : Prop :=
  r.iov_len ≤ r.buflen ∧ r.buflen < 2 ^ 32

/-- The assertion `r->iov.iov_len <= r->buflen` of
`scsi_disk_load_request(f, req)`, in the state in which the function tests
it; the paths that do not reach the assertion pass. -/
def scsi_disk_load_request_assertion (w : World) (f : QEMUFile) : Prop :=
  let q1 := qemu_get_be64s f
  let q2 := qemu_get_be32s q1.2
  let q3 := qemu_get_be32s q2.2
  let w1 := { w with r := { w.r with sector := q1.1, sector_count := q2.1, buflen := q3.1 } }
  if w1.r.buflen ≠ 0 then
    let w2 := (scsi_init_iovec w1 w1.r.buflen).1
    if w2.r.cmd.mode = .SCSI_XFER_TO_DEV then True
    else if !w2.r.retry then
      let q4 := qemu_get_be32s q3.2
      let w3 := { w2 with r := { w2.r with iov_len := q4.1 } }
      assert_load_request w3.r.buflen w3.r.iov_len
    else True
  else True

/-- A request that no run produces: a response buffer of 4096 bytes with an
iovec of 5000 bytes. -/
def request_iov_too_long : SCSIDiskReq :=
  { fresh_request cmd_inquiry_36 none with
    buflen := 4096, iov_base := some (fun _ => 0), iov_len := 5000 }

/-- The handles `bdrv_aio_cancel` was called on, in order. -/
def cancels (es : List Event) : List AIOCB :=
  es.filterMap (fun e => match e with
    | .bdrv_aio_cancel acb => some acb
    | _ => none)

/-- A backend as `example_backend` whose `bdrv_aio_cancel` completes the
operation with the result 0 before it returns. -/
def example_backend_cancel_completes : BlockBackend :=
  { example_backend with cancel_completes := some 0 }

/-- A READ(10) of one block in flight on `example_backend_cancel_completes`:
`scsi_read_data` has submitted the read. -/
def world_read_cancel_completes : World :=
  scsi_read_data (scsi_send_command
    { example_world cmd_read10_one with bs := example_backend_cancel_completes }).1
/-- SYNCHRONIZE CACHE on `example_disk`, on a backend that stops the machine
on write errors. -/
def world_sync_stop : World :=
  { example_world cmd_synchronize_cache with
    bs := { example_backend with on_write_error := .BLOCK_ERR_STOP_ANY } }

/-- The flush of `world_sync_stop` is submitted and fails with errno 5: the
machine is stopped and the request waits for its retry. -/
def world_sync_retry : World :=
  backend_complete (scsi_send_command world_sync_stop).1 (-5)
/-- A fresh request for `cmd` on a device with 4096-byte blocks and a medium
of 7 sectors of 512 bytes, less than one block. -/
def world_capacity_4096_7 (cmd : SCSICommand) : World :=
  { example_world cmd with
    s := { example_disk with blocksize := 4096 }
    bs := { example_backend with nb_sectors := 7 } }

/-- A fresh request for `cmd` on a device with 1024-byte blocks and a medium
of one sector of 512 bytes, less than one block. -/
def world_capacity_1024_1 (cmd : SCSICommand) : World :=
  { example_world cmd with
    s := { example_disk with blocksize := 1024 }
    bs := { example_backend with nb_sectors := 1 } }

/-- SERVICE ACTION IN(16) with service action READ CAPACITY(16), PMI and LBA
zero, allocation length 65537 (CDB bytes 10..13 = 00 01 00 01). -/
def cmd_read_capacity_16_64k : SCSICommand :=
  { buf := [0x9e, 0x10, 0, 0, 0, 0, 0, 0, 0, 0, 0, 1, 0, 1, 0, 0], len := 16, xfer := 65537,
    lba := 0, mode := .SCSI_XFER_FROM_DEV }

/-! # Theorems -/

/-! ## Basic facts about the primitives -/

@[simp] theorem emit_trace (w : World) (e : Event) : (w.emit e).trace = w.trace ++ [e] := rfl
@[simp] theorem emit_s (w : World) (e : Event) : (w.emit e).s = w.s := rfl
@[simp] theorem emit_bs (w : World) (e : Event) : (w.emit e).bs = w.bs := rfl
@[simp] theorem emit_r (w : World) (e : Event) : (w.emit e).r = w.r := rfl
@[simp] theorem emit_host (w : World) (e : Event) : (w.emit e).host = w.host := rfl

theorem and_eight_ne_zero (n : Nat) : n &&& 8 ≠ 0 ↔ n.testBit 3 = true := by
  have h := Nat.and_two_pow n 3
  norm_num at h
  rw [h]
  cases n.testBit 3 <;> simp

/-! ## C6 -/

/-- C6: `scsi_is_cmd_fua` is true for READ(10/12/16) and WRITE(10/12/16)
exactly when bit 3 of CDB byte 1 is set, always true for VERIFY(10/12/16) and
WRITE VERIFY(10/12/16), and false for every other opcode (READ(6) and
WRITE(6) among them), whatever byte 1 holds. -/
theorem scsi_is_cmd_fua_classification (cmd : SCSICommand) :
    (cdb cmd.buf 0 ∈ [READ_10, READ_12, READ_16, WRITE_10, WRITE_12, WRITE_16] →
      (scsi_is_cmd_fua cmd = true ↔ (cdb cmd.buf 1).testBit 3 = true)) ∧
    (cdb cmd.buf 0 ∈ [VERIFY_10, VERIFY_12, VERIFY_16, WRITE_VERIFY_10, WRITE_VERIFY_12,
        WRITE_VERIFY_16] → scsi_is_cmd_fua cmd = true) ∧
    (cdb cmd.buf 0 ∉ [READ_10, READ_12, READ_16, WRITE_10, WRITE_12, WRITE_16, VERIFY_10,
        VERIFY_12, VERIFY_16, WRITE_VERIFY_10, WRITE_VERIFY_12, WRITE_VERIFY_16] →
      scsi_is_cmd_fua cmd = false) ∧
    (cdb cmd.buf 0 = READ_6 ∨ cdb cmd.buf 0 = WRITE_6 → scsi_is_cmd_fua cmd = false) := by
  refine ⟨?_, ?_, ?_, ?_⟩
  · intro h
    simp only [List.mem_cons, List.mem_singleton, List.not_mem_nil, or_false] at h
    have h' : cdb cmd.buf 0 = READ_10 ∨ cdb cmd.buf 0 = READ_12 ∨ cdb cmd.buf 0 = READ_16
        ∨ cdb cmd.buf 0 = WRITE_10 ∨ cdb cmd.buf 0 = WRITE_12 ∨ cdb cmd.buf 0 = WRITE_16 := h
    simp only [scsi_is_cmd_fua, h', if_true, decide_eq_true_eq]
    exact and_eight_ne_zero _
  · intro h
    simp only [List.mem_cons, List.mem_singleton, List.not_mem_nil, or_false] at h
    rcases h with h | h | h | h | h | h <;> simp [scsi_is_cmd_fua, h]
  · intro h
    simp at h
    simp [scsi_is_cmd_fua, h]
  · intro h
    rcases h with h | h <;> simp [scsi_is_cmd_fua, h]

/-! ## C8 -/

/-- C8: for every errno and every error action the backend answers,
`scsi_handle_rw_error` returns 0 exactly when the action is IGNORE (no sense
or status is then posted and the request is unchanged); for STOP_ANY, or
STOP_ENOSPC with errno ENOSPC, it stops the VM, sets the backend iostatus,
marks the request for retry, posts no sense and returns 1; in every remaining
case it completes the request with CHECK_CONDITION and returns 1, with sense
NO_MEDIUM for ENOMEDIUM, TARGET_FAILURE for ENOMEM, INVALID_FIELD for EINVAL
and IO_ERROR for every other errno. -/
theorem scsi_handle_rw_error_actions (w : World) (error : Int) (action : BlockErrorAction)
    (h : bdrv_get_on_error w.bs
      (decide (w.r.cmd.xfer = SCSIXferMode.SCSI_XFER_FROM_DEV.val)) = action) :
    ((scsi_handle_rw_error w error).2 = 0 ↔ action = .BLOCK_ERR_IGNORE) ∧
    (action = .BLOCK_ERR_IGNORE →
      (scsi_handle_rw_error w error).1.r = w.r ∧
      senses (scsi_handle_rw_error w error).1.trace = senses w.trace ∧
      statuses (scsi_handle_rw_error w error).1.trace = statuses w.trace) ∧
    (action = .BLOCK_ERR_STOP_ANY ∨ (action = .BLOCK_ERR_STOP_ENOSPC ∧ error = ENOSPC) →
      (scsi_handle_rw_error w error).2 = 1 ∧
      (∃ is_read, (scsi_handle_rw_error w error).1.trace = w.trace ++
        [.bdrv_emit_qmp_error_event .BDRV_ACTION_STOP is_read, .vm_stop,
         .bdrv_iostatus_set_err error, .scsi_req_retry]) ∧
      (scsi_handle_rw_error w error).1.r = { w.r with retry := true }) ∧
    (action ≠ .BLOCK_ERR_IGNORE → action ≠ .BLOCK_ERR_STOP_ANY →
      ¬ (action = .BLOCK_ERR_STOP_ENOSPC ∧ error = ENOSPC) →
      (scsi_handle_rw_error w error).2 = 1 ∧
      (∃ is_read, (scsi_handle_rw_error w error).1.trace = w.trace ++
        [.scsi_req_build_sense
           (if error = ENOMEDIUM then .NO_MEDIUM else if error = ENOMEM then .TARGET_FAILURE
            else if error = EINVAL then .INVALID_FIELD else .IO_ERROR),
         .scsi_req_complete CHECK_CONDITION,
         .bdrv_emit_qmp_error_event .BDRV_ACTION_REPORT is_read]) ∧
      (scsi_handle_rw_error w error).1.r = { w.r with
        status := CHECK_CONDITION
        sense := some (if error = ENOMEDIUM then .NO_MEDIUM
          else if error = ENOMEM then .TARGET_FAILURE
          else if error = EINVAL then .INVALID_FIELD else .IO_ERROR) }) := by
  refine ⟨?_, ?_, ?_, ?_⟩
  · cases action <;> simp [scsi_handle_rw_error, h] <;> split <;> simp
  · intro ha
    subst ha
    simp [scsi_handle_rw_error, h, senses, statuses, List.filterMap_append, Event.sense,
      Event.status]
  · intro ha
    have h1 : action ≠ .BLOCK_ERR_IGNORE := by rcases ha with ha | ⟨ha, _⟩ <;> simp [ha]
    have h2 : (error = ENOSPC ∧ action = .BLOCK_ERR_STOP_ENOSPC) ∨ action = .BLOCK_ERR_STOP_ANY := by
      rcases ha with ha | ⟨ha, he⟩
      · exact Or.inr ha
      · exact Or.inl ⟨he, ha⟩
    simp only [scsi_handle_rw_error, h, h1, h2, if_false, if_true]
    refine ⟨trivial, ⟨decide (w.r.cmd.xfer = SCSIXferMode.SCSI_XFER_FROM_DEV.val), ?_⟩, ?_⟩
    · simp [scsi_req_retry]
    · simp [scsi_req_retry]
  · intro h1 h2 h3
    have h4 : ¬ ((error = ENOSPC ∧ action = .BLOCK_ERR_STOP_ENOSPC) ∨ action = .BLOCK_ERR_STOP_ANY) := by
      rintro (⟨he, ha⟩ | ha)
      · exact h3 ⟨ha, he⟩
      · exact h2 ha
    simp only [scsi_handle_rw_error, h, h1, h4, if_false]
    refine ⟨trivial, ⟨decide (w.r.cmd.xfer = SCSIXferMode.SCSI_XFER_FROM_DEV.val), ?_⟩, ?_⟩
    · split_ifs <;> simp [scsi_check_condition, scsi_req_complete, scsi_req_build_sense]
    · split_ifs <;> simp [scsi_check_condition, scsi_req_complete, scsi_req_build_sense]

/-- C8 at a concrete input: a READ(10) on a backend that reports errors, with
errno 5 (EIO), completes with CHECK_CONDITION and returns 1. -/
theorem scsi_handle_rw_error_actions_witness :
    (scsi_handle_rw_error (example_world cmd_read10_one) 5).2 = 1 :=
  ((scsi_handle_rw_error_actions (example_world cmd_read10_one) 5 .BLOCK_ERR_REPORT rfl).2.2.2
    (by decide) (by decide) (by decide)).1

/-! ## C9 -/

/-- C9 (the code at the failing input): a READ(10) of one block (direction
FROM_DEV, transfer length 512) fails with errno 5 on a backend whose read
policy is IGNORE and whose write policy is REPORT. `scsi_handle_rw_error`
compares the transfer length `cmd.xfer` (512) with `SCSI_XFER_FROM_DEV`,
queries the write policy, reports IO_ERROR and returns 1. -/
theorem scsi_handle_rw_error_queries_write_policy :
    world_read_ignore.r.cmd.mode = .SCSI_XFER_FROM_DEV ∧
    world_read_ignore.bs.on_read_error = .BLOCK_ERR_IGNORE ∧
    (scsi_handle_rw_error world_read_ignore 5).2 = 1 ∧
    (scsi_handle_rw_error world_read_ignore 5).1.trace =
      [.scsi_req_build_sense .IO_ERROR, .scsi_req_complete CHECK_CONDITION,
       .bdrv_emit_qmp_error_event .BDRV_ACTION_REPORT false] := by
  refine ⟨rfl, rfl, ?_, ?_⟩ <;> decide

/-! ## Facts about the completion callbacks -/

theorem clear_aiocb_r (w : World) : (clear_aiocb w).r = { w.r with aiocb := none } := by
  unfold clear_aiocb
  cases h : w.r.aiocb with
  | none => cases hw : w.r; simp [hw] at h; simp [h]
  | some a => simp

theorem clear_aiocb_trace (w : World) :
    (clear_aiocb w).trace = w.trace ++ (if w.r.aiocb.isSome then [.bdrv_acct_done] else []) := by
  unfold clear_aiocb
  cases h : w.r.aiocb <;> simp

@[simp] theorem clear_aiocb_s (w : World) : (clear_aiocb w).s = w.s := by
  unfold clear_aiocb
  cases h : w.r.aiocb <;> simp

@[simp] theorem clear_aiocb_bs (w : World) : (clear_aiocb w).bs = w.bs := by
  unfold clear_aiocb
  cases h : w.r.aiocb <;> simp

@[simp] theorem clear_aiocb_host (w : World) : (clear_aiocb w).host = w.host := by
  unfold clear_aiocb
  cases h : w.r.aiocb <;> simp

theorem check_ret_nonneg (w : World) (ret : Int) (h : 0 ≤ ret) : check_ret w ret = (w, false) := by
  simp [check_ret, not_lt.mpr h]

@[simp] theorem check_ret_zero (w : World) : check_ret w 0 = (w, false) := by
  simp [check_ret]

theorem acct_done_not_flush (b : Bool) :
    List.filter Event.is_flush (if b then [Event.bdrv_acct_done] else []) = [] := by
  cases b <;> simp [Event.is_flush]

theorem acct_done_no_status (b : Bool) :
    statuses (if b then [Event.bdrv_acct_done] else []) = [] := by
  cases b <;> simp [statuses, Event.status]

/-! ## C7 -/

/-- C7: for a TO_DEV request, when the write completion that brings
`sector_count` to 0 succeeds (`scsi_write_complete` on the bounce-buffer path,
`scsi_dma_complete` on the scatter/gather path): if the command is FUA,
exactly one backend flush is submitted, no status is posted by the write
completion, and GOOD is posted by the completion callback of that flush; if
the command is not FUA, no flush is submitted and GOOD is posted by the write
completion itself. -/
theorem fua_flush_before_good (w : World) (ret : Int)
    (hmode : w.r.cmd.mode = .SCSI_XFER_TO_DEV) (hret : 0 ≤ ret) :
    (sub32 w.r.sector_count (u32 (w.r.qiov_size / 512)) = 0 →
      (scsi_is_cmd_fua w.r.cmd = true →
        ∃ new, (scsi_write_complete w ret).trace = w.trace ++ new ∧
          new.filter Event.is_flush = [.bdrv_aio_flush .scsi_flush_complete] ∧
          statuses new = [] ∧ (scsi_write_complete w ret).r.status = w.r.status ∧
          (scsi_write_complete w ret).r.aiocb =
            some { id := w.bs.next_aiocb, cb := .scsi_flush_complete } ∧
          statuses (backend_complete (scsi_write_complete w ret) 0).trace =
            statuses w.trace ++ [GOOD]) ∧
      (scsi_is_cmd_fua w.r.cmd = false →
        ∃ new, (scsi_write_complete w ret).trace = w.trace ++ new ∧
          new.filter Event.is_flush = [] ∧ statuses new = [GOOD])) ∧
    (scsi_is_cmd_fua w.r.cmd = true →
      ∃ new, (scsi_dma_complete w ret).trace = w.trace ++ new ∧
        new.filter Event.is_flush = [.bdrv_aio_flush .scsi_flush_complete] ∧
        statuses new = [] ∧ (scsi_dma_complete w ret).r.status = w.r.status ∧
        (scsi_dma_complete w ret).r.aiocb =
          some { id := w.bs.next_aiocb, cb := .scsi_flush_complete } ∧
        statuses (backend_complete (scsi_dma_complete w ret) 0).trace =
          statuses w.trace ++ [GOOD]) ∧
    (scsi_is_cmd_fua w.r.cmd = false →
      ∃ new, (scsi_dma_complete w ret).trace = w.trace ++ new ∧
        new.filter Event.is_flush = [] ∧ statuses new = [GOOD]) := by
  refine ⟨fun hz => ⟨fun hf => ?_, fun hf => ?_⟩, fun hf => ?_, fun hf => ?_⟩ <;>
    cases hc : w.r.io_canceled
  · refine ⟨(if w.r.aiocb.isSome then [.bdrv_acct_done] else []) ++
      [.bdrv_acct_start 0 .BDRV_ACCT_FLUSH, .bdrv_aio_flush .scsi_flush_complete], ?_⟩
    simp [scsi_write_complete, check_ret_nonneg _ _ hret, clear_aiocb_r, hz, scsi_write_do_fua,
      hf, World.submit, clear_aiocb_trace, acct_done_not_flush, Event.is_flush, statuses,
      List.filterMap_append, hc, backend_complete, scsi_flush_complete, label_done,
      scsi_req_complete, scsi_req_unref, Event.status]
  · refine ⟨(if w.r.aiocb.isSome then [.bdrv_acct_done] else []) ++
      [.bdrv_acct_start 0 .BDRV_ACCT_FLUSH, .bdrv_aio_flush .scsi_flush_complete], ?_⟩
    simp [scsi_write_complete, check_ret_nonneg _ _ hret, clear_aiocb_r, hz, scsi_write_do_fua,
      hf, World.submit, clear_aiocb_trace, acct_done_not_flush, Event.is_flush, statuses,
      List.filterMap_append, hc, backend_complete, scsi_flush_complete, label_done,
      scsi_req_complete, scsi_req_unref, Event.status]
  · refine ⟨(if w.r.aiocb.isSome then [.bdrv_acct_done] else []) ++
      [.scsi_req_complete GOOD], ?_⟩
    simp [scsi_write_complete, check_ret_nonneg _ _ hret, clear_aiocb_r, hz, scsi_write_do_fua,
      hf, clear_aiocb_trace, acct_done_not_flush, Event.is_flush, statuses,
      List.filterMap_append, hc, label_done, scsi_req_complete, scsi_req_unref, Event.status]
  · refine ⟨(if w.r.aiocb.isSome then [.bdrv_acct_done] else []) ++
      [.scsi_req_complete GOOD], ?_⟩
    simp [scsi_write_complete, check_ret_nonneg _ _ hret, clear_aiocb_r, hz, scsi_write_do_fua,
      hf, clear_aiocb_trace, acct_done_not_flush, Event.is_flush, statuses,
      List.filterMap_append, hc, label_done, scsi_req_complete, scsi_req_unref, Event.status]
  · refine ⟨(if w.r.aiocb.isSome then [.bdrv_acct_done] else []) ++
      [.bdrv_acct_start 0 .BDRV_ACCT_FLUSH, .bdrv_aio_flush .scsi_flush_complete], ?_⟩
    simp [scsi_dma_complete, check_ret_nonneg _ _ hret, clear_aiocb_r, hmode, scsi_write_do_fua,
      hf, World.submit, clear_aiocb_trace, acct_done_not_flush, Event.is_flush, statuses,
      List.filterMap_append, hc, backend_complete, scsi_flush_complete, label_done,
      scsi_req_complete, scsi_req_unref, Event.status]
  · refine ⟨(if w.r.aiocb.isSome then [.bdrv_acct_done] else []) ++
      [.bdrv_acct_start 0 .BDRV_ACCT_FLUSH, .bdrv_aio_flush .scsi_flush_complete], ?_⟩
    simp [scsi_dma_complete, check_ret_nonneg _ _ hret, clear_aiocb_r, hmode, scsi_write_do_fua,
      hf, World.submit, clear_aiocb_trace, acct_done_not_flush, Event.is_flush, statuses,
      List.filterMap_append, hc, backend_complete, scsi_flush_complete, label_done,
      scsi_req_complete, scsi_req_unref, Event.status]
  · refine ⟨(if w.r.aiocb.isSome then [.bdrv_acct_done] else []) ++
      [.scsi_req_complete GOOD], ?_⟩
    simp [scsi_dma_complete, check_ret_nonneg _ _ hret, clear_aiocb_r, hmode, scsi_write_do_fua,
      hf, clear_aiocb_trace, acct_done_not_flush, Event.is_flush, statuses,
      List.filterMap_append, hc, label_done, scsi_req_complete, scsi_req_unref, Event.status]
  · refine ⟨(if w.r.aiocb.isSome then [.bdrv_acct_done] else []) ++
      [.scsi_req_complete GOOD], ?_⟩
    simp [scsi_dma_complete, check_ret_nonneg _ _ hret, clear_aiocb_r, hmode, scsi_write_do_fua,
      hf, clear_aiocb_trace, acct_done_not_flush, Event.is_flush, statuses,
      List.filterMap_append, hc, label_done, scsi_req_complete, scsi_req_unref, Event.status]


/-! ## Facts about the emulated commands -/

theorem senses_nil : senses [] = [] := rfl
theorem statuses_nil : statuses [] = [] := rfl

theorem check_condition_trace (w : World) (sense : SenseCode) :
    (scsi_check_condition w sense).trace =
      w.trace ++ [.scsi_req_build_sense sense, .scsi_req_complete CHECK_CONDITION] := by
  simp [scsi_check_condition, scsi_req_complete, scsi_req_build_sense]

theorem check_condition_r (w : World) (sense : SenseCode) :
    (scsi_check_condition w sense).r =
      { w.r with status := CHECK_CONDITION, sense := some sense } := by
  simp [scsi_check_condition, scsi_req_complete, scsi_req_build_sense]

@[simp] theorem check_condition_s (w : World) (sense : SenseCode) :
    (scsi_check_condition w sense).s = w.s := rfl

@[simp] theorem check_condition_bs (w : World) (sense : SenseCode) :
    (scsi_check_condition w sense).bs = w.bs := rfl

@[simp] theorem check_condition_host (w : World) (sense : SenseCode) :
    (scsi_check_condition w sense).host = w.host := rfl

theorem ofLen_w (w : World) (n : Int) (o : Buf) : (EmuCase.ofLen w n o).w = w := by
  unfold EmuCase.ofLen; split <;> rfl

theorem ofLen_exit (w : World) (n : Int) (o : Buf) :
    (n < 0 ∧ (EmuCase.ofLen w n o).exit = .illegal_request) ∨
    (0 ≤ n ∧ (EmuCase.ofLen w n o).exit = .brk n) := by
  unfold EmuCase.ofLen
  by_cases h : n < 0
  · simp [h]
  · simp [h, not_lt.mp h]

theorem mode_sense_summary (w : World) (o : Buf) :
    (scsi_disk_emulate_mode_sense w o).w = w ∨
    ((scsi_disk_emulate_mode_sense w o).w =
        scsi_check_condition w .SAVING_PARAMS_NOT_SUPPORTED ∧
      (scsi_disk_emulate_mode_sense w o).ret = -1) := by
  unfold scsi_disk_emulate_mode_sense
  simp only []
  split
  · right; exact ⟨rfl, rfl⟩
  · left; split <;> rfl

theorem read_disc_information_summary (w : World) (o : Buf) :
    (scsi_read_disc_information w o).w = w ∨
    ((scsi_read_disc_information w o).w = scsi_check_condition w .INVALID_FIELD ∧
      (scsi_read_disc_information w o).ret = -1) := by
  unfold scsi_read_disc_information
  simp only []
  split_ifs
  · left; rfl
  · right; exact ⟨rfl, rfl⟩
  · left; rfl

theorem read_dvd_structure_format_w (w : World) (o : Buf) (size0 : Int) :
    (scsi_read_dvd_structure_format w o size0).w = w := by
  unfold scsi_read_dvd_structure_format
  simp only []
  split_ifs <;> rfl

theorem read_dvd_structure_summary (w : World) (o : Buf) :
    (scsi_read_dvd_structure w o).w = w ∨
    (∃ sense, (scsi_read_dvd_structure w o).w = scsi_check_condition w sense ∧
      (scsi_read_dvd_structure w o).ret = -1) := by
  unfold scsi_read_dvd_structure
  simp only []
  split_ifs
  all_goals first
    | (left; rfl)
    | (left; exact read_dvd_structure_format_w _ _ _)
    | (right; exact ⟨_, rfl, rfl⟩)

theorem get_event_status_notification_summary (w : World) (o : Buf) :
    (scsi_get_event_status_notification w o).w.r = w.r ∧
    (scsi_get_event_status_notification w o).w.host = w.host ∧
    (scsi_get_event_status_notification w o).w.trace = w.trace ∧
    (scsi_get_event_status_notification w o).w.bs = w.bs := by
  unfold scsi_get_event_status_notification
  simp only []
  split_ifs <;> exact ⟨rfl, rfl, rfl, rfl⟩

theorem start_stop_summary (w : World) :
    ((scsi_disk_emulate_start_stop w).2 = 0 ∧ (scsi_disk_emulate_start_stop w).1.r = w.r ∧
      (scsi_disk_emulate_start_stop w).1.host = w.host ∧
      (scsi_disk_emulate_start_stop w).1.bs = w.bs ∧
      ∃ new, (scsi_disk_emulate_start_stop w).1.trace = w.trace ++ new ∧ senses new = [] ∧
        statuses new = []) ∨
    ((scsi_disk_emulate_start_stop w).2 = -1 ∧
      ∃ sense, (scsi_disk_emulate_start_stop w).1 = scsi_check_condition w sense ∧
        sense ≠ .NO_MEDIUM) := by
  unfold scsi_disk_emulate_start_stop
  simp only []
  split_ifs
  · right; exact ⟨rfl, _, rfl, by simp⟩
  · right; exact ⟨rfl, _, rfl, by simp⟩
  · left; exact ⟨rfl, rfl, rfl, rfl, [.bdrv_eject _], rfl, rfl, rfl⟩
  · left; exact ⟨rfl, rfl, rfl, rfl, [], by simp, rfl, rfl⟩
  · left; exact ⟨rfl, rfl, rfl, rfl, [], by simp, rfl, rfl⟩

theorem toInt32_of_lt (n : Nat) (h : n < 2 ^ 31) : toInt32 n = (n : Int) := by
  unfold toInt32
  have h1 : n % 2 ^ 32 = n := Nat.mod_eq_of_lt (by omega)
  rw [h1, if_pos h]

theorem read_capacity_10_summary (w : World) (o : Buf) :
    ((scsi_disk_emulate_read_capacity_10 w o).w = scsi_check_condition w .LUN_NOT_READY ∧
      (scsi_disk_emulate_read_capacity_10 w o).exit = .fail) ∨
    ((scsi_disk_emulate_read_capacity_10 w o).w.r = w.r ∧
      (scsi_disk_emulate_read_capacity_10 w o).w.host = w.host ∧
      (scsi_disk_emulate_read_capacity_10 w o).w.trace = w.trace ∧
      (scsi_disk_emulate_read_capacity_10 w o).w.bs = w.bs ∧
      ((scsi_disk_emulate_read_capacity_10 w o).exit = .brk 8 ∨
        (scsi_disk_emulate_read_capacity_10 w o).exit = .illegal_request)) := by
  unfold scsi_disk_emulate_read_capacity_10
  split_ifs
  · left; exact ⟨rfl, rfl⟩
  · right; exact ⟨rfl, rfl, rfl, rfl, Or.inr rfl⟩
  · right; exact ⟨rfl, rfl, rfl, rfl, Or.inl rfl⟩

theorem service_action_in_16_summary (w : World) (o : Buf) :
    ((scsi_disk_emulate_service_action_in_16 w o).w = scsi_check_condition w .LUN_NOT_READY ∧
      (scsi_disk_emulate_service_action_in_16 w o).exit = .fail) ∨
    ((scsi_disk_emulate_service_action_in_16 w o).w.r = w.r ∧
      (scsi_disk_emulate_service_action_in_16 w o).w.host = w.host ∧
      (scsi_disk_emulate_service_action_in_16 w o).w.trace = w.trace ∧
      (scsi_disk_emulate_service_action_in_16 w o).w.bs = w.bs ∧
      ((scsi_disk_emulate_service_action_in_16 w o).exit = .brk (toInt32 w.r.cmd.xfer) ∨
        (scsi_disk_emulate_service_action_in_16 w o).exit = .illegal_request)) := by
  unfold scsi_disk_emulate_service_action_in_16
  split_ifs
  · left; exact ⟨rfl, rfl⟩
  · right; exact ⟨rfl, rfl, rfl, rfl, Or.inr rfl⟩
  · right; exact ⟨rfl, rfl, rfl, rfl, Or.inl rfl⟩
  · right; exact ⟨rfl, rfl, rfl, rfl, Or.inr rfl⟩

/-- What a case of the `switch` of `scsi_disk_emulate_command` can do: either
it leaves the request alone, posts neither sense nor status and ends in
`break` with a non-negative length or in `illegal_request`; or it posts
exactly one CHECK_CONDITION and ends in `return -1` or in `illegal_request`.
NO_MEDIUM is posted by READ DVD STRUCTURE only. -/
theorem emulate_switch_summary (w : World) (outbuf : Buf) :
    ((scsi_disk_emulate_switch w outbuf).w.r = w.r ∧
      (scsi_disk_emulate_switch w outbuf).w.host = w.host ∧
      (∃ new, (scsi_disk_emulate_switch w outbuf).w.trace = w.trace ++ new ∧
        senses new = [] ∧ statuses new = []) ∧
      ((∃ n, (scsi_disk_emulate_switch w outbuf).exit = .brk n ∧ (w.r.cmd.xfer < 2 ^ 31 → 0 ≤ n)) ∨
        (scsi_disk_emulate_switch w outbuf).exit = .illegal_request)) ∨
    (∃ sense, (scsi_disk_emulate_switch w outbuf).w = scsi_check_condition w sense ∧
      ((scsi_disk_emulate_switch w outbuf).exit = .fail ∨
        (scsi_disk_emulate_switch w outbuf).exit = .illegal_request) ∧
      (sense = .NO_MEDIUM → cdb w.r.cmd.buf 0 = READ_DVD_STRUCTURE)) := by
  suffices hs : ∀ c : EmuCase, c = scsi_disk_emulate_switch w outbuf →
      ((c.w.r = w.r ∧ c.w.host = w.host ∧
        (∃ new, c.w.trace = w.trace ++ new ∧ senses new = [] ∧ statuses new = []) ∧
        ((∃ n, c.exit = .brk n ∧ (w.r.cmd.xfer < 2 ^ 31 → 0 ≤ n)) ∨ c.exit = .illegal_request)) ∨
      (∃ sense, c.w = scsi_check_condition w sense ∧
        (c.exit = .fail ∨ c.exit = .illegal_request) ∧
        (sense = .NO_MEDIUM → cdb w.r.cmd.buf 0 = READ_DVD_STRUCTURE))) from hs _ rfl
  intro c hc
  have pure' : ∀ (w' : World) (n : Int) (o : Buf), c = EmuCase.ofLen w' n o →
      w'.r = w.r → w'.host = w.host → w'.trace = w.trace →
      (c.w.r = w.r ∧ c.w.host = w.host ∧
        (∃ new, c.w.trace = w.trace ++ new ∧ senses new = [] ∧ statuses new = []) ∧
        ((∃ n, c.exit = .brk n ∧ (w.r.cmd.xfer < 2 ^ 31 → 0 ≤ n)) ∨ c.exit = .illegal_request)) := by
    intro w' n o h hr hh ht
    subst h
    rw [ofLen_w]
    refine ⟨hr, hh, ⟨[], by simp [ht], rfl, rfl⟩, ?_⟩
    rcases ofLen_exit w' n o with ⟨_, h⟩ | ⟨h1, h⟩
    · exact Or.inr h
    · exact Or.inl ⟨n, h, fun _ => h1⟩
  have pure : ∀ (n : Int) (o : Buf), c = EmuCase.ofLen w n o →
      (c.w.r = w.r ∧ c.w.host = w.host ∧
        (∃ new, c.w.trace = w.trace ++ new ∧ senses new = [] ∧ statuses new = []) ∧
        ((∃ n, c.exit = .brk n ∧ (w.r.cmd.xfer < 2 ^ 31 → 0 ≤ n)) ∨ c.exit = .illegal_request)) :=
    fun n o h => pure' w n o h rfl rfl rfl
  have plain : ∀ (o : Buf) (e : EmuExit), c = ⟨w, o, e⟩ →
      ((∃ n, e = .brk n ∧ (w.r.cmd.xfer < 2 ^ 31 → 0 ≤ n)) ∨ e = .illegal_request) →
      (c.w.r = w.r ∧ c.w.host = w.host ∧
        (∃ new, c.w.trace = w.trace ++ new ∧ senses new = [] ∧ statuses new = []) ∧
        ((∃ n, c.exit = .brk n ∧ (w.r.cmd.xfer < 2 ^ 31 → 0 ≤ n)) ∨ c.exit = .illegal_request)) := by
    intro o e h he
    subst h
    exact ⟨rfl, rfl, ⟨[], by simp, rfl, rfl⟩, he⟩
  have posted : ∀ (n : Int) (o : Buf) (sense : SenseCode),
      c = EmuCase.ofLen (scsi_check_condition w sense) n o → n = -1 →
      (sense = .NO_MEDIUM → cdb w.r.cmd.buf 0 = READ_DVD_STRUCTURE) →
      (∃ sense, c.w = scsi_check_condition w sense ∧
        (c.exit = .fail ∨ c.exit = .illegal_request) ∧
        (sense = .NO_MEDIUM → cdb w.r.cmd.buf 0 = READ_DVD_STRUCTURE)) := by
    intro n o sense h hn hs
    subst h
    subst hn
    exact ⟨sense, by rw [ofLen_w], Or.inr (by simp [EmuCase.ofLen]), hs⟩
  have flag : ∀ (o : Buf) (k : Nat), c = (if cdb w.r.cmd.buf 1 &&& k ≠ 0
        then (⟨w, o, .illegal_request⟩ : EmuCase) else ⟨w, o, .brk 0⟩) →
      (c.w.r = w.r ∧ c.w.host = w.host ∧
        (∃ new, c.w.trace = w.trace ++ new ∧ senses new = [] ∧ statuses new = []) ∧
        ((∃ n, c.exit = .brk n ∧ (w.r.cmd.xfer < 2 ^ 31 → 0 ≤ n)) ∨ c.exit = .illegal_request)) := by
    intro o k h
    split_ifs at h
    · exact plain _ _ h (Or.inr rfl)
    · exact plain _ _ h (Or.inl ⟨0, rfl, fun _ => le_refl _⟩)
  by_cases h0 : cdb w.r.cmd.buf 0 = TEST_UNIT_READY
  · simp only [scsi_disk_emulate_switch, h0] at hc
    simp only [TEST_UNIT_READY, INQUIRY, MODE_SENSE, MODE_SENSE_10, READ_TOC, RESERVE,
      RESERVE_10, RELEASE, RELEASE_10, START_STOP, ALLOW_MEDIUM_REMOVAL, READ_CAPACITY_10,
      REQUEST_SENSE, MECHANISM_STATUS, GET_CONFIGURATION, GET_EVENT_STATUS_NOTIFICATION,
      READ_DISC_INFORMATION, READ_DVD_STRUCTURE, SERVICE_ACTION_IN_16, Nat.reduceEqDiff,
      if_false, if_true, or_self, or_false, false_or] at hc
    subst hc
    refine Or.inl ⟨?_, ?_, ?_, Or.inl ⟨0, rfl, fun _ => le_refl _⟩⟩
    · simp only [c_assert]; split_ifs <;> rfl
    · simp only [c_assert]; split_ifs <;> rfl
    · simp only [c_assert]
      split_ifs
      · exact ⟨[], by simp, rfl, rfl⟩
      · exact ⟨[.abort], rfl, rfl, rfl⟩
  by_cases h1 : cdb w.r.cmd.buf 0 = INQUIRY
  · simp only [scsi_disk_emulate_switch, h1] at hc
    simp only [TEST_UNIT_READY, INQUIRY, MODE_SENSE, MODE_SENSE_10, READ_TOC, RESERVE,
      RESERVE_10, RELEASE, RELEASE_10, START_STOP, ALLOW_MEDIUM_REMOVAL, READ_CAPACITY_10,
      REQUEST_SENSE, MECHANISM_STATUS, GET_CONFIGURATION, GET_EVENT_STATUS_NOTIFICATION,
      READ_DISC_INFORMATION, READ_DVD_STRUCTURE, SERVICE_ACTION_IN_16, Nat.reduceEqDiff,
      if_false, if_true, or_self, or_false, false_or] at hc
    exact Or.inl (pure _ _ hc)
  by_cases h2 : cdb w.r.cmd.buf 0 = MODE_SENSE ∨ cdb w.r.cmd.buf 0 = MODE_SENSE_10
  · have hc' : c = EmuCase.ofLen (scsi_disk_emulate_mode_sense w outbuf).w
        (scsi_disk_emulate_mode_sense w outbuf).ret
        (scsi_disk_emulate_mode_sense w outbuf).outbuf := by
      rcases h2 with h2 | h2
      · simp only [scsi_disk_emulate_switch, h2] at hc
        simp only [TEST_UNIT_READY, INQUIRY, MODE_SENSE, MODE_SENSE_10, READ_TOC, RESERVE,
      RESERVE_10, RELEASE, RELEASE_10, START_STOP, ALLOW_MEDIUM_REMOVAL, READ_CAPACITY_10,
      REQUEST_SENSE, MECHANISM_STATUS, GET_CONFIGURATION, GET_EVENT_STATUS_NOTIFICATION,
      READ_DISC_INFORMATION, READ_DVD_STRUCTURE, SERVICE_ACTION_IN_16, Nat.reduceEqDiff,
      if_false, if_true, or_self, or_false, false_or] at hc
        exact hc
      · simp only [scsi_disk_emulate_switch, h2] at hc
        simp only [TEST_UNIT_READY, INQUIRY, MODE_SENSE, MODE_SENSE_10, READ_TOC, RESERVE,
      RESERVE_10, RELEASE, RELEASE_10, START_STOP, ALLOW_MEDIUM_REMOVAL, READ_CAPACITY_10,
      REQUEST_SENSE, MECHANISM_STATUS, GET_CONFIGURATION, GET_EVENT_STATUS_NOTIFICATION,
      READ_DISC_INFORMATION, READ_DVD_STRUCTURE, SERVICE_ACTION_IN_16, Nat.reduceEqDiff,
      if_false, if_true, or_self, or_false, false_or] at hc
        exact hc
    rcases mode_sense_summary w outbuf with h | ⟨h, hr⟩
    · rw [h] at hc'
      exact Or.inl (pure _ _ hc')
    · rw [h] at hc'
      exact Or.inr (posted _ _ _ hc' hr (by simp))
  have h2a : cdb w.r.cmd.buf 0 ≠ MODE_SENSE := fun h => h2 (Or.inl h)
  have h2b : cdb w.r.cmd.buf 0 ≠ MODE_SENSE_10 := fun h => h2 (Or.inr h)
  by_cases h3 : cdb w.r.cmd.buf 0 = READ_TOC
  · simp only [scsi_disk_emulate_switch, h3] at hc
    simp only [TEST_UNIT_READY, INQUIRY, MODE_SENSE, MODE_SENSE_10, READ_TOC, RESERVE,
      RESERVE_10, RELEASE, RELEASE_10, START_STOP, ALLOW_MEDIUM_REMOVAL, READ_CAPACITY_10,
      REQUEST_SENSE, MECHANISM_STATUS, GET_CONFIGURATION, GET_EVENT_STATUS_NOTIFICATION,
      READ_DISC_INFORMATION, READ_DVD_STRUCTURE, SERVICE_ACTION_IN_16, Nat.reduceEqDiff,
      if_false, if_true, or_self, or_false, false_or] at hc
    exact Or.inl (pure _ _ hc)
  by_cases h4 : cdb w.r.cmd.buf 0 = RESERVE
  · simp only [scsi_disk_emulate_switch, h4] at hc
    simp only [TEST_UNIT_READY, INQUIRY, MODE_SENSE, MODE_SENSE_10, READ_TOC, RESERVE,
      RESERVE_10, RELEASE, RELEASE_10, START_STOP, ALLOW_MEDIUM_REMOVAL, READ_CAPACITY_10,
      REQUEST_SENSE, MECHANISM_STATUS, GET_CONFIGURATION, GET_EVENT_STATUS_NOTIFICATION,
      READ_DISC_INFORMATION, READ_DVD_STRUCTURE, SERVICE_ACTION_IN_16, Nat.reduceEqDiff,
      if_false, if_true, or_self, or_false, false_or] at hc
    exact Or.inl (flag _ _ hc)
  by_cases h5 : cdb w.r.cmd.buf 0 = RESERVE_10
  · simp only [scsi_disk_emulate_switch, h5] at hc
    simp only [TEST_UNIT_READY, INQUIRY, MODE_SENSE, MODE_SENSE_10, READ_TOC, RESERVE,
      RESERVE_10, RELEASE, RELEASE_10, START_STOP, ALLOW_MEDIUM_REMOVAL, READ_CAPACITY_10,
      REQUEST_SENSE, MECHANISM_STATUS, GET_CONFIGURATION, GET_EVENT_STATUS_NOTIFICATION,
      READ_DISC_INFORMATION, READ_DVD_STRUCTURE, SERVICE_ACTION_IN_16, Nat.reduceEqDiff,
      if_false, if_true, or_self, or_false, false_or] at hc
    exact Or.inl (flag _ _ hc)
  by_cases h6 : cdb w.r.cmd.buf 0 = RELEASE
  · simp only [scsi_disk_emulate_switch, h6] at hc
    simp only [TEST_UNIT_READY, INQUIRY, MODE_SENSE, MODE_SENSE_10, READ_TOC, RESERVE,
      RESERVE_10, RELEASE, RELEASE_10, START_STOP, ALLOW_MEDIUM_REMOVAL, READ_CAPACITY_10,
      REQUEST_SENSE, MECHANISM_STATUS, GET_CONFIGURATION, GET_EVENT_STATUS_NOTIFICATION,
      READ_DISC_INFORMATION, READ_DVD_STRUCTURE, SERVICE_ACTION_IN_16, Nat.reduceEqDiff,
      if_false, if_true, or_self, or_false, false_or] at hc
    exact Or.inl (flag _ _ hc)
  by_cases h7 : cdb w.r.cmd.buf 0 = RELEASE_10
  · simp only [scsi_disk_emulate_switch, h7] at hc
    simp only [TEST_UNIT_READY, INQUIRY, MODE_SENSE, MODE_SENSE_10, READ_TOC, RESERVE,
      RESERVE_10, RELEASE, RELEASE_10, START_STOP, ALLOW_MEDIUM_REMOVAL, READ_CAPACITY_10,
      REQUEST_SENSE, MECHANISM_STATUS, GET_CONFIGURATION, GET_EVENT_STATUS_NOTIFICATION,
      READ_DISC_INFORMATION, READ_DVD_STRUCTURE, SERVICE_ACTION_IN_16, Nat.reduceEqDiff,
      if_false, if_true, or_self, or_false, false_or] at hc
    exact Or.inl (flag _ _ hc)
  by_cases h8 : cdb w.r.cmd.buf 0 = START_STOP
  · simp only [scsi_disk_emulate_switch, h8] at hc
    simp only [TEST_UNIT_READY, INQUIRY, MODE_SENSE, MODE_SENSE_10, READ_TOC, RESERVE,
      RESERVE_10, RELEASE, RELEASE_10, START_STOP, ALLOW_MEDIUM_REMOVAL, READ_CAPACITY_10,
      REQUEST_SENSE, MECHANISM_STATUS, GET_CONFIGURATION, GET_EVENT_STATUS_NOTIFICATION,
      READ_DISC_INFORMATION, READ_DVD_STRUCTURE, SERVICE_ACTION_IN_16, Nat.reduceEqDiff,
      if_false, if_true, or_self, or_false, false_or] at hc
    rcases start_stop_summary w with ⟨hz, hr, hh, _, new, ht, hs1, hs2⟩ | ⟨hz, sense, hw, hs⟩
    · rw [hz, if_neg (by decide)] at hc
      subst hc
      exact Or.inl ⟨hr, hh, ⟨new, ht, hs1, hs2⟩, Or.inl ⟨0, rfl, fun _ => le_refl _⟩⟩
    · rw [hz, if_pos (by decide)] at hc
      subst hc
      exact Or.inr ⟨sense, hw, Or.inl rfl, fun h => absurd h hs⟩
  by_cases h9 : cdb w.r.cmd.buf 0 = ALLOW_MEDIUM_REMOVAL
  · simp only [scsi_disk_emulate_switch, h9] at hc
    simp only [TEST_UNIT_READY, INQUIRY, MODE_SENSE, MODE_SENSE_10, READ_TOC, RESERVE,
      RESERVE_10, RELEASE, RELEASE_10, START_STOP, ALLOW_MEDIUM_REMOVAL, READ_CAPACITY_10,
      REQUEST_SENSE, MECHANISM_STATUS, GET_CONFIGURATION, GET_EVENT_STATUS_NOTIFICATION,
      READ_DISC_INFORMATION, READ_DVD_STRUCTURE, SERVICE_ACTION_IN_16, Nat.reduceEqDiff,
      if_false, if_true, or_self, or_false, false_or] at hc
    subst hc
    exact Or.inl ⟨rfl, rfl, ⟨[.bdrv_lock_medium _], rfl, rfl, rfl⟩, Or.inl ⟨0, rfl, fun _ => le_refl _⟩⟩
  by_cases h10 : cdb w.r.cmd.buf 0 = READ_CAPACITY_10
  · simp only [scsi_disk_emulate_switch, h10] at hc
    simp only [TEST_UNIT_READY, INQUIRY, MODE_SENSE, MODE_SENSE_10, READ_TOC, RESERVE,
      RESERVE_10, RELEASE, RELEASE_10, START_STOP, ALLOW_MEDIUM_REMOVAL, READ_CAPACITY_10,
      REQUEST_SENSE, MECHANISM_STATUS, GET_CONFIGURATION, GET_EVENT_STATUS_NOTIFICATION,
      READ_DISC_INFORMATION, READ_DVD_STRUCTURE, SERVICE_ACTION_IN_16, Nat.reduceEqDiff,
      if_false, if_true, or_self, or_false, false_or] at hc
    subst hc
    rcases read_capacity_10_summary w outbuf with ⟨hw, he⟩ | ⟨hr, hh, ht, _, he⟩
    · exact Or.inr ⟨_, hw, Or.inl he, by simp⟩
    · refine Or.inl ⟨hr, hh, ⟨[], by simp [ht], rfl, rfl⟩, ?_⟩
      rcases he with he | he
      · exact Or.inl ⟨8, he, fun _ => by norm_num⟩
      · exact Or.inr he
  by_cases h11 : cdb w.r.cmd.buf 0 = REQUEST_SENSE
  · simp only [scsi_disk_emulate_switch, h11] at hc
    simp only [TEST_UNIT_READY, INQUIRY, MODE_SENSE, MODE_SENSE_10, READ_TOC, RESERVE,
      RESERVE_10, RELEASE, RELEASE_10, START_STOP, ALLOW_MEDIUM_REMOVAL, READ_CAPACITY_10,
      REQUEST_SENSE, MECHANISM_STATUS, GET_CONFIGURATION, GET_EVENT_STATUS_NOTIFICATION,
      READ_DISC_INFORMATION, READ_DVD_STRUCTURE, SERVICE_ACTION_IN_16, Nat.reduceEqDiff,
      if_false, if_true, or_self, or_false, false_or] at hc
    exact Or.inl (plain _ _ hc (Or.inl ⟨_, rfl, fun _ => Int.natCast_nonneg _⟩))
  by_cases h12 : cdb w.r.cmd.buf 0 = MECHANISM_STATUS
  · simp only [scsi_disk_emulate_switch, h12] at hc
    simp only [TEST_UNIT_READY, INQUIRY, MODE_SENSE, MODE_SENSE_10, READ_TOC, RESERVE,
      RESERVE_10, RELEASE, RELEASE_10, START_STOP, ALLOW_MEDIUM_REMOVAL, READ_CAPACITY_10,
      REQUEST_SENSE, MECHANISM_STATUS, GET_CONFIGURATION, GET_EVENT_STATUS_NOTIFICATION,
      READ_DISC_INFORMATION, READ_DVD_STRUCTURE, SERVICE_ACTION_IN_16, Nat.reduceEqDiff,
      if_false, if_true, or_self, or_false, false_or] at hc
    exact Or.inl (pure _ _ hc)
  by_cases h13 : cdb w.r.cmd.buf 0 = GET_CONFIGURATION
  · simp only [scsi_disk_emulate_switch, h13] at hc
    simp only [TEST_UNIT_READY, INQUIRY, MODE_SENSE, MODE_SENSE_10, READ_TOC, RESERVE,
      RESERVE_10, RELEASE, RELEASE_10, START_STOP, ALLOW_MEDIUM_REMOVAL, READ_CAPACITY_10,
      REQUEST_SENSE, MECHANISM_STATUS, GET_CONFIGURATION, GET_EVENT_STATUS_NOTIFICATION,
      READ_DISC_INFORMATION, READ_DVD_STRUCTURE, SERVICE_ACTION_IN_16, Nat.reduceEqDiff,
      if_false, if_true, or_self, or_false, false_or] at hc
    exact Or.inl (pure _ _ hc)
  by_cases h14 : cdb w.r.cmd.buf 0 = GET_EVENT_STATUS_NOTIFICATION
  · simp only [scsi_disk_emulate_switch, h14] at hc
    simp only [TEST_UNIT_READY, INQUIRY, MODE_SENSE, MODE_SENSE_10, READ_TOC, RESERVE,
      RESERVE_10, RELEASE, RELEASE_10, START_STOP, ALLOW_MEDIUM_REMOVAL, READ_CAPACITY_10,
      REQUEST_SENSE, MECHANISM_STATUS, GET_CONFIGURATION, GET_EVENT_STATUS_NOTIFICATION,
      READ_DISC_INFORMATION, READ_DVD_STRUCTURE, SERVICE_ACTION_IN_16, Nat.reduceEqDiff,
      if_false, if_true, or_self, or_false, false_or] at hc
    obtain ⟨hr, hh, ht, _⟩ := get_event_status_notification_summary w outbuf
    exact Or.inl (pure' _ _ _ hc hr hh ht)
  by_cases h15 : cdb w.r.cmd.buf 0 = READ_DISC_INFORMATION
  · simp only [scsi_disk_emulate_switch, h15] at hc
    simp only [TEST_UNIT_READY, INQUIRY, MODE_SENSE, MODE_SENSE_10, READ_TOC, RESERVE,
      RESERVE_10, RELEASE, RELEASE_10, START_STOP, ALLOW_MEDIUM_REMOVAL, READ_CAPACITY_10,
      REQUEST_SENSE, MECHANISM_STATUS, GET_CONFIGURATION, GET_EVENT_STATUS_NOTIFICATION,
      READ_DISC_INFORMATION, READ_DVD_STRUCTURE, SERVICE_ACTION_IN_16, Nat.reduceEqDiff,
      if_false, if_true, or_self, or_false, false_or] at hc
    rcases read_disc_information_summary w outbuf with h | ⟨h, hr⟩
    · rw [h] at hc
      exact Or.inl (pure _ _ hc)
    · rw [h] at hc
      exact Or.inr (posted _ _ _ hc hr (by simp))
  by_cases h16 : cdb w.r.cmd.buf 0 = READ_DVD_STRUCTURE
  · have h16' := h16
    simp only [scsi_disk_emulate_switch, h16] at hc
    simp only [TEST_UNIT_READY, INQUIRY, MODE_SENSE, MODE_SENSE_10, READ_TOC, RESERVE,
      RESERVE_10, RELEASE, RELEASE_10, START_STOP, ALLOW_MEDIUM_REMOVAL, READ_CAPACITY_10,
      REQUEST_SENSE, MECHANISM_STATUS, GET_CONFIGURATION, GET_EVENT_STATUS_NOTIFICATION,
      READ_DISC_INFORMATION, READ_DVD_STRUCTURE, SERVICE_ACTION_IN_16, Nat.reduceEqDiff,
      if_false, if_true, or_self, or_false, false_or] at hc
    rcases read_dvd_structure_summary w outbuf with h | ⟨sense, h, hr⟩
    · rw [h] at hc
      exact Or.inl (pure _ _ hc)
    · rw [h] at hc
      exact Or.inr (posted _ _ _ hc hr (fun _ => h16'))
  by_cases h17 : cdb w.r.cmd.buf 0 = SERVICE_ACTION_IN_16
  · simp only [scsi_disk_emulate_switch, h17] at hc
    simp only [TEST_UNIT_READY, INQUIRY, MODE_SENSE, MODE_SENSE_10, READ_TOC, RESERVE,
      RESERVE_10, RELEASE, RELEASE_10, START_STOP, ALLOW_MEDIUM_REMOVAL, READ_CAPACITY_10,
      REQUEST_SENSE, MECHANISM_STATUS, GET_CONFIGURATION, GET_EVENT_STATUS_NOTIFICATION,
      READ_DISC_INFORMATION, READ_DVD_STRUCTURE, SERVICE_ACTION_IN_16, Nat.reduceEqDiff,
      if_false, if_true, or_self, or_false, false_or] at hc
    subst hc
    rcases service_action_in_16_summary w outbuf with ⟨hw, he⟩ | ⟨hr, hh, ht, _, he⟩
    · exact Or.inr ⟨_, hw, Or.inl he, by simp⟩
    · refine Or.inl ⟨hr, hh, ⟨[], by simp [ht], rfl, rfl⟩, ?_⟩
      rcases he with he | he
      · exact Or.inl ⟨_, he, fun hx => by rw [toInt32_of_lt _ hx]; exact Int.natCast_nonneg _⟩
      · exact Or.inr he
  · simp only [scsi_disk_emulate_switch, if_neg h0, if_neg h1, if_neg h2, if_neg h3, if_neg h4,
      if_neg h5, if_neg h6, if_neg h7, if_neg h8, if_neg h9, if_neg h10, if_neg h11, if_neg h12,
      if_neg h13, if_neg h14, if_neg h15, if_neg h16, if_neg h17] at hc
    subst hc
    exact Or.inr ⟨_, rfl, Or.inl rfl, by simp⟩

theorem emulate_alloc_r (w : World) :
    (scsi_disk_emulate_alloc w).r =
      { w.r with buflen := (scsi_disk_emulate_alloc w).r.buflen,
                 iov_base := (scsi_disk_emulate_alloc w).r.iov_base } ∧
    (scsi_disk_emulate_alloc w).trace = w.trace ∧
    (scsi_disk_emulate_alloc w).host = w.host ∧
    (scsi_disk_emulate_alloc w).s = w.s ∧ (scsi_disk_emulate_alloc w).bs = w.bs := by
  unfold scsi_disk_emulate_alloc
  cases h : w.r.iov_base <;> simp

/-- What `scsi_disk_emulate_command` can do: it returns a length without
posting anything; or `-1` after posting exactly one CHECK_CONDITION; or `-1`
without posting, on a request that already has a status. Apart from status
and sense only `buflen` and the buffer of the request change. -/
theorem emulate_command_summary (w : World) :
    ∃ new bl ib, (scsi_disk_emulate_command w).1.trace = w.trace ++ new ∧
      (scsi_disk_emulate_command w).1.host = w.host ∧
      ((senses new = [] ∧ statuses new = [] ∧
          (scsi_disk_emulate_command w).1.r = { w.r with buflen := bl, iov_base := ib } ∧
          ((∃ n, (scsi_disk_emulate_command w).2 = MIN_int_size n w.r.cmd.xfer ∧
              (w.r.cmd.xfer < 2 ^ 31 → 0 ≤ n) ∧
              (w.r.iov_base.isNone = true → w.r.cmd.xfer ≤ 65536)) ∨
            ((scsi_disk_emulate_command w).2 = -1 ∧ w.r.status ≠ -1))) ∨
        (∃ sense, senses new = [sense] ∧ statuses new = [CHECK_CONDITION] ∧
          (scsi_disk_emulate_command w).2 = -1 ∧
          (scsi_disk_emulate_command w).1.r =
            { w.r with status := CHECK_CONDITION, sense := some sense, buflen := bl,
                       iov_base := ib } ∧
          (sense = .NO_MEDIUM → cdb w.r.cmd.buf 0 = READ_DVD_STRUCTURE))) := by
  unfold scsi_disk_emulate_command
  by_cases hbig : w.r.iov_base.isNone ∧ w.r.cmd.xfer > 65536
  · rw [if_pos hbig]
    by_cases hst : w.r.status = -1
    · rw [if_pos hst]
      exact ⟨_, w.r.buflen, w.r.iov_base, check_condition_trace _ _, rfl,
        Or.inr ⟨.INVALID_FIELD, rfl, rfl, rfl, by rw [check_condition_r], by simp⟩⟩
    · rw [if_neg hst]
      exact ⟨[], w.r.buflen, w.r.iov_base, by simp, rfl, Or.inl ⟨rfl, rfl, rfl, Or.inr ⟨rfl, hst⟩⟩⟩
  · rw [if_neg hbig]
    simp only []
    have hx : w.r.iov_base.isNone = true → w.r.cmd.xfer ≤ 65536 := by
      intro h
      by_contra h'
      exact hbig ⟨h, by omega⟩
    obtain ⟨har, hat, hah, _, _⟩ := emulate_alloc_r w
    have hxa : (scsi_disk_emulate_alloc w).r.cmd = w.r.cmd := by rw [har]
    have hsa : (scsi_disk_emulate_alloc w).r.status = w.r.status := by rw [har]
    generalize hw0 : scsi_disk_emulate_alloc w = w0 at *
    generalize ho : (w0.r.iov_base.getD fun _ => 0) = o
    rcases emulate_switch_summary w0 o with ⟨hr, hh, ⟨new, ht, hs1, hs2⟩, he⟩ | ⟨sense, hcw, he, hnm⟩
    · generalize hc : scsi_disk_emulate_switch w0 o = c at *
      have hcr := hr.trans har
      rcases he with ⟨n, he, hn⟩ | he
      · rw [he]
        simp only []
        refine ⟨new, w0.r.buflen, some c.outbuf, by rw [ht, hat], by rw [hh, hah],
          Or.inl ⟨hs1, hs2, by rw [hcr], Or.inl ⟨n, by rw [hcr], ?_, hx⟩⟩⟩
        rw [hxa] at hn
        exact hn
      · rw [he]
        simp only []
        by_cases hst : w.r.status = -1
        · have hst' : c.w.r.status = -1 := by rw [hr, hsa]; exact hst
          rw [if_pos hst']
          refine ⟨new ++ [.scsi_req_build_sense .INVALID_FIELD,
            .scsi_req_complete CHECK_CONDITION], w0.r.buflen, some c.outbuf, ?_, ?_, ?_⟩
          · rw [check_condition_trace]; simp [ht, hat]
          · simp [hh, hah]
          · refine Or.inr ⟨.INVALID_FIELD, ?_, ?_, by first | rfl | trivial, ?_, by simp⟩
            · simp [senses, List.filterMap_append, Event.sense] at hs1 ⊢
              exact hs1
            · simp [statuses, List.filterMap_append, Event.status] at hs2 ⊢
              exact hs2
            · rw [check_condition_r]; simp only []; rw [hcr]
        · have hst' : ¬ c.w.r.status = -1 := by rw [hr, hsa]; exact hst
          rw [if_neg hst']
          exact ⟨new, w0.r.buflen, some c.outbuf, by rw [ht, hat], by rw [hh, hah],
            Or.inl ⟨hs1, hs2, by rw [hcr], Or.inr ⟨by first | rfl | trivial, hst⟩⟩⟩
    · generalize hc : scsi_disk_emulate_switch w0 o = c at *
      have hex : (match c.exit with
          | EmuExit.brk buflen =>
            (({ c.w with r := { c.w.r with iov_base := some c.outbuf } } : World),
              MIN_int_size buflen c.w.r.cmd.xfer)
          | EmuExit.illegal_request =>
            ((if c.w.r.status = -1 then
                scsi_check_condition { c.w with r := { c.w.r with iov_base := some c.outbuf } }
                  .INVALID_FIELD
              else { c.w with r := { c.w.r with iov_base := some c.outbuf } }), -1)
          | EmuExit.fail => ({ c.w with r := { c.w.r with iov_base := some c.outbuf } }, -1)) =
          (({ c.w with r := { c.w.r with iov_base := some c.outbuf } } : World), (-1 : Int)) := by
        have hst : ¬ c.w.r.status = -1 := by
          rw [hcw, check_condition_r]; simp [CHECK_CONDITION]
        rcases he with he | he
        · rw [he]
        · rw [he]; simp only []; rw [if_neg hst]
      rw [hex]
      refine ⟨[.scsi_req_build_sense sense, .scsi_req_complete CHECK_CONDITION],
        w0.r.buflen, some c.outbuf, ?_, ?_, Or.inr ⟨sense, rfl, rfl, rfl, ?_, ?_⟩⟩
      · simp only []; rw [hcw, check_condition_trace, hat]
      · simp only []; rw [hcw]; exact hah
      · simp only []; rw [hcw, check_condition_r]; simp only []; rw [har]
      · intro h; rw [← hxa]; exact hnm h

/-! ## Facts about `scsi_send_command` -/

theorem tail_trace (w : World) :
    (scsi_send_command_tail w).1.trace =
      w.trace ++ (if w.r.sector_count = 0 ∧ w.r.iov_len = 0
        then [.scsi_req_complete GOOD] else []) := by
  unfold scsi_send_command_tail
  by_cases h : w.r.sector_count = 0 ∧ w.r.iov_len = 0
  · simp only [h, and_self, if_true]
    split_ifs <;> simp [scsi_req_complete]
  · simp only [h, if_false]
    split_ifs <;> simp

theorem no_medium_check_emulated (c : Nat) (h : no_medium_check c = true) :
    is_emulated c = true ∧ c ≠ READ_DVD_STRUCTURE := by
  simp [no_medium_check] at h
  rcases h with h | h | h | h | h | h | h | h | h | h | h | h | h <;> simp [is_emulated, h]

theorem switch_emulated (w : World) (h : is_emulated (cdb w.r.cmd.buf 0) = true) :
    scsi_send_command_switch w =
      if (scsi_disk_emulate_command w).2 < 0 then ((scsi_disk_emulate_command w).1, false)
      else ({ (scsi_disk_emulate_command w).1 with
                r := { (scsi_disk_emulate_command w).1.r with
                  iov_len := ((scsi_disk_emulate_command w).2 % 2 ^ 64).toNat } }, true) := by
  unfold scsi_send_command_switch
  simp only [h, if_true]

/-! ## C1 -/

/-- C1: for a CDB whose opcode is not exempt from the medium check, when the
tray is open or the backend reports no medium, `scsi_send_command` posts the
sense NO_MEDIUM, completes the request with CHECK_CONDITION, returns 0 and has
no other effect (no other call is made, the device and the backend are
unchanged, and only status and sense of the request change). For an exempt
opcode no NO_MEDIUM sense is posted by `scsi_send_command` at all. -/
theorem medium_check_no_medium (w : World) :
    (no_medium_check (cdb w.r.cmd.buf 0) = false →
      (w.s.tray_open = true ∨ w.bs.is_inserted = false) →
      (scsi_send_command w).2 = 0 ∧
      (scsi_send_command w).1.trace = w.trace ++
        [.scsi_req_build_sense .NO_MEDIUM, .scsi_req_complete CHECK_CONDITION] ∧
      (scsi_send_command w).1.r =
        { w.r with status := CHECK_CONDITION, sense := some .NO_MEDIUM } ∧
      (scsi_send_command w).1.s = w.s ∧ (scsi_send_command w).1.bs = w.bs) ∧
    (no_medium_check (cdb w.r.cmd.buf 0) = true →
      ∃ new, (scsi_send_command w).1.trace = w.trace ++ new ∧
        SenseCode.NO_MEDIUM ∉ senses new) := by
  constructor
  · intro hop hmed
    have hc : (!no_medium_check (cdb w.r.cmd.buf 0)) = true ∧
        (w.s.tray_open = true ∨ (!w.bs.is_inserted) = true) := by
      refine ⟨by simp [hop], ?_⟩
      rcases hmed with h | h
      · exact Or.inl h
      · exact Or.inr (by simp [h])
    unfold scsi_send_command
    simp only []
    rw [if_pos hc]
    exact ⟨rfl, check_condition_trace _ _, check_condition_r _ _, rfl, rfl⟩
  · intro hop
    obtain ⟨hem, hdvd⟩ := no_medium_check_emulated _ hop
    have hc : ¬ ((!no_medium_check (cdb w.r.cmd.buf 0)) = true ∧
        (w.s.tray_open = true ∨ (!w.bs.is_inserted) = true)) := by
      simp [hop]
    unfold scsi_send_command
    simp only []
    rw [if_neg hc, switch_emulated w hem]
    obtain ⟨new, bl, ib, ht, _, hsh⟩ := emulate_command_summary w
    have hnew : SenseCode.NO_MEDIUM ∉ senses new := by
      rcases hsh with ⟨hs, _⟩ | ⟨sense, hs, _, _, _, hnm⟩
      · simp [hs]
      · rw [hs]
        simp only [List.mem_singleton]
        intro h
        exact hdvd (hnm h.symm)
    by_cases hneg : (scsi_disk_emulate_command w).2 < 0
    · rw [if_pos hneg]
      simp only [Bool.false_eq_true, if_false]
      exact ⟨new, ht, hnew⟩
    · rw [if_neg hneg]
      simp only [if_true]
      rw [tail_trace]
      simp only []
      rw [ht]
      refine ⟨new ++ _, (List.append_assoc _ _ _), ?_⟩
      intro hmem
      apply hnew
      simp only [senses, List.filterMap_append, List.mem_append] at hmem ⊢
      rcases hmem with h | h
      · exact h
      · exfalso
        split_ifs at h <;> simp [Event.sense] at h


/-- C1 at a concrete input: READ(10) on a disk whose tray is open. -/
theorem medium_check_no_medium_witness :
    (scsi_send_command (world_tray_open cmd_read10_one)).2 = 0 ∧
    (scsi_send_command (world_tray_open cmd_read10_one)).1.trace =
      [.scsi_req_build_sense .NO_MEDIUM, .scsi_req_complete CHECK_CONDITION] :=
  ⟨((medium_check_no_medium (world_tray_open cmd_read10_one)).1 (by decide) (Or.inl rfl)).1,
   ((medium_check_no_medium (world_tray_open cmd_read10_one)).1 (by decide) (Or.inl rfl)).2.1⟩

/-! ## C4 -/

theorem medium_present (w : World) (hmed : w.bs.is_inserted = true)
    (htray : w.s.tray_open = false) :
    ¬ ((!no_medium_check (cdb w.r.cmd.buf 0)) = true ∧
        (w.s.tray_open = true ∨ (!w.bs.is_inserted) = true)) := by
  simp [hmed, htray]

/-- C4: for every opcode that no case of `scsi_send_command` handles, with a
medium present and the tray closed, the request completes with
CHECK_CONDITION and sense INVALID_OPCODE, `scsi_send_command` returns 0, and
nothing else happens: no call into the backend is made, the device and the
backend are unchanged. -/
theorem unknown_opcode_invalid (w : World) (hop : cdb w.r.cmd.buf 0 ∉ handled_opcodes)
    (hmed : w.bs.is_inserted = true) (htray : w.s.tray_open = false) :
    (scsi_send_command w).2 = 0 ∧
    (scsi_send_command w).1.trace = w.trace ++
      [.scsi_req_build_sense .INVALID_OPCODE, .scsi_req_complete CHECK_CONDITION] ∧
    (scsi_send_command w).1.r =
      { w.r with status := CHECK_CONDITION, sense := some .INVALID_OPCODE } ∧
    (scsi_send_command w).1.s = w.s ∧ (scsi_send_command w).1.bs = w.bs := by
  have hsw : scsi_send_command_switch w = (scsi_check_condition w .INVALID_OPCODE, false) := by
    simp [handled_opcodes] at hop
    simp [scsi_send_command_switch, is_emulated, is_read_op, is_write_op, hop]
  unfold scsi_send_command
  simp only []
  rw [if_neg (medium_present w hmed htray), hsw]
  simp only [Bool.false_eq_true, if_false]
  exact ⟨trivial, check_condition_trace _ _, check_condition_r _ _, rfl, rfl⟩

/-- C4 at a concrete input: the opcode `0xff` on a disk with a medium. -/
theorem unknown_opcode_invalid_witness :
    (scsi_send_command (example_world cmd_unknown)).2 = 0 ∧
    (scsi_send_command (example_world cmd_unknown)).1.trace =
      [.scsi_req_build_sense .INVALID_OPCODE, .scsi_req_complete CHECK_CONDITION] :=
  ⟨(unknown_opcode_invalid (example_world cmd_unknown) (by decide) rfl rfl).1,
   (unknown_opcode_invalid (example_world cmd_unknown) (by decide) rfl rfl).2.1⟩


/-! ## C2 -/

theorem toInt32_modEq (a : Nat) : (toInt32 a) % 2 ^ 32 = ((a : Int)) % 2 ^ 32 := by
  unfold toInt32
  split_ifs <;> omega

theorem decoded_count (a b : Nat) :
    ((toInt32 a * (b : Int)) % 2 ^ 32).toNat = u32 (a * b) := by
  have h1 : (toInt32 a * (b : Int)) % 2 ^ 32 = ((a : Int) * (b : Int)) % 2 ^ 32 := by
    rw [Int.mul_emod, toInt32_modEq, ← Int.mul_emod]
  rw [h1]
  unfold u32
  have h2 : ((a : Int) * (b : Int)) % 2 ^ 32 = (((a * b) % 2 ^ 32 : Nat) : Int) := by
    push_cast
    rfl
  rw [h2]
  exact Int.toNat_natCast _

theorem switch_rw (w : World)
    (hop : is_read_op (cdb w.r.cmd.buf 0) = true ∨ is_write_op (cdb w.r.cmd.buf 0) = true) :
    scsi_send_command_switch w = scsi_send_command_rw w := by
  have hne : is_emulated (cdb w.r.cmd.buf 0) = false ∧ cdb w.r.cmd.buf 0 ≠ SYNCHRONIZE_CACHE := by
    rcases hop with h | h
    · simp [is_read_op] at h
      rcases h with h | h | h | h <;> simp [is_emulated, h]
    · simp [is_write_op] at h
      rcases h with h | h | h | h | h | h | h | h | h | h <;> simp [is_emulated, h]
  unfold scsi_send_command_switch
  simp only [hne.1, Bool.false_eq_true, if_false, if_neg hne.2]
  rcases hop with h | h
  · rw [if_pos h]
  · split_ifs <;> rfl

theorem tail_sector (w : World) : (scsi_send_command_tail w).1.r.sector = w.r.sector := by
  unfold scsi_send_command_tail
  simp only []
  split_ifs <;> simp [scsi_req_complete]

theorem tail_sector_count (w : World) :
    (scsi_send_command_tail w).1.r.sector_count =
      if w.r.sector_count = 0 ∧ w.r.cmd.mode ≠ .SCSI_XFER_TO_DEV then 0xFFFFFFFF
      else w.r.sector_count := by
  unfold scsi_send_command_tail
  simp only []
  split_ifs <;> simp_all [scsi_req_complete]

/-- C2 (as amended): for every READ(6/10/12/16), WRITE(6/10/12/16),
VERIFY(10/12/16) and WRITE VERIFY(10/12/16) CDB with a medium present and the
tray closed: if `cmd.lba > max_lba` the request completes with
CHECK_CONDITION and sense LBA_OUT_OF_RANGE, `scsi_send_command` returns 0 and
only status and sense of the request change (sector and sector_count are
left as they were); otherwise neither a sense nor a CHECK_CONDITION is
posted, `sector` is `lba * (blocksize/512)` (as a 64-bit value) and the
decoded count is `(xfer / blocksize) * (blocksize/512)` (as a 32-bit value):
`sector_count` holds it, except that a count of 0 on a request whose
direction is not TO_DEV leaves the marker `0xFFFFFFFF` in `sector_count`. -/
theorem read_write_decode (w : World)
    (hop : is_read_op (cdb w.r.cmd.buf 0) = true ∨ is_write_op (cdb w.r.cmd.buf 0) = true)
    (hmed : w.bs.is_inserted = true) (htray : w.s.tray_open = false) :
    (w.r.cmd.lba > w.s.max_lba →
      (scsi_send_command w).2 = 0 ∧
      (scsi_send_command w).1.trace = w.trace ++
        [.scsi_req_build_sense .LBA_OUT_OF_RANGE, .scsi_req_complete CHECK_CONDITION] ∧
      (scsi_send_command w).1.r =
        { w.r with status := CHECK_CONDITION, sense := some .LBA_OUT_OF_RANGE }) ∧
    (w.r.cmd.lba ≤ w.s.max_lba →
      (∃ new, (scsi_send_command w).1.trace = w.trace ++ new ∧ senses new = [] ∧
        CHECK_CONDITION ∉ statuses new) ∧
      (scsi_send_command w).1.r.sector = u64 (w.r.cmd.lba * (w.s.blocksize / 512)) ∧
      (scsi_send_command w).1.r.sector_count =
        if u32 (w.r.cmd.xfer / w.s.blocksize * (w.s.blocksize / 512)) = 0 ∧
            w.r.cmd.mode ≠ .SCSI_XFER_TO_DEV then 0xFFFFFFFF
        else u32 (w.r.cmd.xfer / w.s.blocksize * (w.s.blocksize / 512))) := by
  unfold scsi_send_command
  simp only []
  rw [if_neg (medium_present w hmed htray), switch_rw w hop]
  unfold scsi_send_command_rw
  simp only [decoded_count]
  constructor
  · intro hlba
    rw [if_pos hlba]
    simp only [Bool.false_eq_true, if_false]
    exact ⟨trivial, check_condition_trace _ _, check_condition_r _ _⟩
  · intro hlba
    rw [if_neg (not_lt.mpr hlba)]
    simp only [if_true]
    refine ⟨⟨_, tail_trace _, ?_, ?_⟩, ?_, ?_⟩
    · split_ifs <;> simp [senses, Event.sense]
    · split_ifs <;> simp [statuses, Event.status, GOOD, CHECK_CONDITION]
    · rw [tail_sector]
    · rw [tail_sector_count]

/-- C2 at a concrete input (scenario S3): READ(10) at LBA 1,000,000 on a disk
of 4096 blocks of 512 bytes fails with LBA_OUT_OF_RANGE. -/
theorem read_write_decode_witness :
    (scsi_send_command (example_world cmd_read10_far)).2 = 0 ∧
    (scsi_send_command (example_world cmd_read10_far)).1.trace =
      [.scsi_req_build_sense .LBA_OUT_OF_RANGE, .scsi_req_complete CHECK_CONDITION] :=
  ⟨((read_write_decode (example_world cmd_read10_far) (Or.inl (by decide)) rfl rfl).1
      (by decide)).1,
   ((read_write_decode (example_world cmd_read10_far) (Or.inl (by decide)) rfl rfl).1
      (by decide)).2.1⟩

/-- C2 as stated fails: READ(10) at LBA 0 with transfer length 0 on a disk of
4096 blocks of 512 bytes is accepted (`lba <= max_lba`, no sense posted), yet
afterwards `sector_count` is the marker `0xFFFFFFFF`, not
`(xfer / blocksize) * (blocksize/512) = 0`. -/
theorem read_zero_length_leaves_marker :
    is_read_op (cdb (example_world cmd_read10_zero).r.cmd.buf 0) = true ∧
    (example_world cmd_read10_zero).r.cmd.lba ≤ (example_world cmd_read10_zero).s.max_lba ∧
    senses (scsi_send_command (example_world cmd_read10_zero)).1.trace = [] ∧
    (scsi_send_command (example_world cmd_read10_zero)).1.r.sector_count = 0xFFFFFFFF ∧
    (scsi_send_command (example_world cmd_read10_zero)).1.r.sector_count ≠
      (example_world cmd_read10_zero).r.cmd.xfer / (example_world cmd_read10_zero).s.blocksize *
        ((example_world cmd_read10_zero).s.blocksize / 512) := by
  decide


/-! ## C3 -/

theorem neg32_of_lt (n : Nat) (h : n < 2 ^ 31) : neg32 (n : Int) = -(n : Int) := by
  unfold neg32 toInt32
  have h1 : ((-(n : Int)) % 2 ^ 32).toNat % 2 ^ 32 = ((-(n : Int)) % 2 ^ 32).toNat := by
    apply Nat.mod_eq_of_lt
    omega
  rw [h1]
  split_ifs <;> omega

theorem tail_ret (w : World) (h : w.r.sector_count * 512 + w.r.iov_len < 2 ^ 31) :
    (scsi_send_command_tail w).2 =
      if w.r.cmd.mode = .SCSI_XFER_TO_DEV then -((w.r.sector_count * 512 + w.r.iov_len : Nat) : Int)
      else ((w.r.sector_count * 512 + w.r.iov_len : Nat) : Int) := by
  have hlen : toInt32 (u64 (u32 (w.r.sector_count * 512) + w.r.iov_len)) =
      ((w.r.sector_count * 512 + w.r.iov_len : Nat) : Int) := by
    have h1 : u64 (u32 (w.r.sector_count * 512) + w.r.iov_len) =
        w.r.sector_count * 512 + w.r.iov_len := by
      unfold u64 u32
      omega
    rw [h1, toInt32_of_lt _ h]
  unfold scsi_send_command_tail
  by_cases hz : w.r.sector_count = 0 ∧ w.r.iov_len = 0
  · simp only [hz, and_self, if_true, scsi_req_complete, emit_r]
    simp only [hz] at hlen
    split_ifs
    · rw [hlen, neg32_of_lt _ (by norm_num)]
    · rw [hlen]
  · simp only [hz, if_false]
    split_ifs
    · rw [hlen, neg32_of_lt _ h]
    · rw [hlen]
    · rw [hlen]

theorem tail_status (w : World) :
    (scsi_send_command_tail w).1.r.status =
      if w.r.sector_count = 0 ∧ w.r.iov_len = 0 then GOOD else w.r.status := by
  unfold scsi_send_command_tail
  simp only []
  split_ifs <;> simp_all [scsi_req_complete]

theorem MIN_int_size_nonneg (n : Int) (x : Nat) (hn : 0 ≤ n) (hx : x < 2 ^ 31) :
    0 ≤ MIN_int_size n x := by
  unfold MIN_int_size
  split_ifs
  · exact hn
  · rw [toInt32_of_lt _ hx]
    exact Int.natCast_nonneg _

/-- What the second `switch` of `scsi_send_command` does on a fresh request:
when it ends in `break` nothing has been posted; when the function returns
from inside it, either SYNCHRONIZE CACHE has submitted its flush or exactly
one CHECK_CONDITION has been posted. -/
theorem switch_fresh (w : World) (cmd : SCSICommand) (sg : Option Nat)
    (hfresh : w.r = fresh_request cmd sg) :
    ∃ new, (scsi_send_command_switch w).1.trace = w.trace ++ new ∧
      ((scsi_send_command_switch w).2 = true →
        cdb cmd.buf 0 ≠ SYNCHRONIZE_CACHE ∧ senses new = [] ∧ statuses new = [] ∧
        (scsi_send_command_switch w).1.r.status = -1 ∧
        (scsi_send_command_switch w).1.r.cmd = cmd) ∧
      ((scsi_send_command_switch w).2 = false →
        (cdb cmd.buf 0 = SYNCHRONIZE_CACHE ∧
          new = [.bdrv_acct_start 0 .BDRV_ACCT_FLUSH, .bdrv_aio_flush .scsi_flush_complete] ∧
          (scsi_send_command_switch w).1.r.status = -1) ∨
        (cdb cmd.buf 0 ≠ SYNCHRONIZE_CACHE ∧ statuses new = [CHECK_CONDITION])) := by
  have hst : w.r.status = -1 := by rw [hfresh]; rfl
  have hib : w.r.iov_base.isNone = true := by rw [hfresh]; rfl
  have hcmd : w.r.cmd = cmd := by rw [hfresh]; rfl
  rw [← hcmd]
  by_cases hem : is_emulated (cdb w.r.cmd.buf 0) = true
  · have hns : cdb w.r.cmd.buf 0 ≠ SYNCHRONIZE_CACHE := by
      intro h
      rw [h] at hem
      simp [is_emulated] at hem
    rw [switch_emulated w hem]
    obtain ⟨new, bl, ib, ht, _, hsh⟩ := emulate_command_summary w
    refine ⟨new, ?_, ?_, ?_⟩
    · split_ifs <;> exact ht
    · rcases hsh with ⟨hs1, hs2, hr, ⟨n, hq, hn, hx⟩ | ⟨_, hst'⟩⟩ | ⟨sense, _, _, hq, _, _⟩
      · have hx' := hx hib
        have hq0 : ¬ (scsi_disk_emulate_command w).2 < 0 := by
          rw [hq]
          exact not_lt.mpr (MIN_int_size_nonneg _ _ (hn (by omega)) (by omega))
        rw [if_neg hq0]
        intro _
        refine ⟨hns, hs1, hs2, ?_, ?_⟩
        · simp only []; rw [hr]; exact hst
        · simp only []; rw [hr]
      · exact absurd hst hst'
      · rw [hq, if_pos (by decide)]
        intro h
        simp at h
    · rcases hsh with ⟨hs1, hs2, hr, ⟨n, hq, hn, hx⟩ | ⟨_, hst'⟩⟩ | ⟨sense, _, hs2, hq, _, _⟩
      · have hx' := hx hib
        have hq0 : ¬ (scsi_disk_emulate_command w).2 < 0 := by
          rw [hq]
          exact not_lt.mpr (MIN_int_size_nonneg _ _ (hn (by omega)) (by omega))
        rw [if_neg hq0]
        intro h
        simp at h
      · exact absurd hst hst'
      · intro _
        exact Or.inr ⟨hns, hs2⟩
  · have hem' : is_emulated (cdb w.r.cmd.buf 0) = false := by simpa using hem
    by_cases hsync : cdb w.r.cmd.buf 0 = SYNCHRONIZE_CACHE
    · have hsw : scsi_send_command_switch w =
          ((((scsi_req_ref w).emit (.bdrv_acct_start 0 .BDRV_ACCT_FLUSH)).submit
            (.bdrv_aio_flush .scsi_flush_complete) .scsi_flush_complete), false) := by
        unfold scsi_send_command_switch
        simp only []
        rw [hem']
        simp only [Bool.false_eq_true, if_false]
        rw [if_pos hsync]
      rw [hsw]
      refine ⟨[.bdrv_acct_start 0 .BDRV_ACCT_FLUSH, .bdrv_aio_flush .scsi_flush_complete],
        ?_, ?_, ?_⟩
      · simp [World.submit, scsi_req_ref]
      · intro h; simp at h
      · intro _
        exact Or.inl ⟨hsync, rfl, hst⟩
    by_cases hrw : is_read_op (cdb w.r.cmd.buf 0) = true ∨ is_write_op (cdb w.r.cmd.buf 0) = true
    · rw [switch_rw w hrw]
      unfold scsi_send_command_rw
      by_cases hlba : w.r.cmd.lba > w.s.max_lba
      · simp only [if_pos hlba]
        refine ⟨_, check_condition_trace _ _, ?_, ?_⟩
        · intro h; simp at h
        · intro _
          exact Or.inr ⟨hsync, rfl⟩
      · simp only [if_neg hlba]
        refine ⟨[], by simp, ?_, ?_⟩
        · intro _
          exact ⟨hsync, rfl, rfl, hst, by first | rfl | trivial⟩
        · intro h; simp at h
    · have hr : is_read_op (cdb w.r.cmd.buf 0) = false := by
        cases h : is_read_op (cdb w.r.cmd.buf 0)
        · rfl
        · exact absurd (Or.inl h) hrw
      have hw : is_write_op (cdb w.r.cmd.buf 0) = false := by
        cases h : is_write_op (cdb w.r.cmd.buf 0)
        · rfl
        · exact absurd (Or.inr h) hrw
      unfold scsi_send_command_switch
      simp only [hem', if_neg hsync, hr, hw, Bool.false_eq_true, if_false]
      split_ifs
      · exact ⟨_, check_condition_trace _ _, fun h => absurd h (by simp),
          fun _ => Or.inr ⟨hsync, rfl⟩⟩
      · exact ⟨[], by simp, fun _ => ⟨hsync, rfl, rfl, hst, rfl⟩, fun h => absurd h (by simp)⟩
      · exact ⟨_, check_condition_trace _ _, fun h => absurd h (by simp),
          fun _ => Or.inr ⟨hsync, rfl⟩⟩
      · exact ⟨[], by simp, fun _ => ⟨hsync, rfl, rfl, hst, rfl⟩, fun h => absurd h (by simp)⟩
      · exact ⟨_, check_condition_trace _ _, fun h => absurd h (by simp),
          fun _ => Or.inr ⟨hsync, rfl⟩⟩
      · exact ⟨[], by simp, fun _ => ⟨hsync, rfl, rfl, hst, rfl⟩, fun h => absurd h (by simp)⟩
      · exact ⟨_, check_condition_trace _ _, fun h => absurd h (by simp),
          fun _ => Or.inr ⟨hsync, rfl⟩⟩
      · exact ⟨_, check_condition_trace _ _, fun h => absurd h (by simp),
          fun _ => Or.inr ⟨hsync, rfl⟩⟩
      · generalize he : Event.bdrv_discard _ _ = e
        have hes : Event.status e = none := by rw [← he]; rfl
        have hse : Event.sense e = none := by rw [← he]; rfl
        refine ⟨[e, .scsi_req_build_sense .INVALID_FIELD, .scsi_req_complete CHECK_CONDITION],
          ?_, fun h => absurd h (by simp), fun _ => Or.inr ⟨hsync, ?_⟩⟩
        · rw [check_condition_trace]; simp
        · unfold statuses; rw [List.filterMap_cons_none hes]; rfl
      · generalize he : Event.bdrv_discard _ _ = e
        have hes : Event.status e = none := by rw [← he]; rfl
        have hse : Event.sense e = none := by rw [← he]; rfl
        refine ⟨[e], rfl, fun _ => ⟨hsync, ?_, ?_, hst, rfl⟩, fun h => absurd h (by simp)⟩
        · unfold senses; rw [List.filterMap_cons_none hse]; rfl
        · unfold statuses; rw [List.filterMap_cons_none hes]; rfl
      · generalize he : Event.bdrv_discard _ _ = e
        have hes : Event.status e = none := by rw [← he]; rfl
        have hse : Event.sense e = none := by rw [← he]; rfl
        refine ⟨[e, .scsi_req_build_sense .INVALID_FIELD, .scsi_req_complete CHECK_CONDITION],
          ?_, fun h => absurd h (by simp), fun _ => Or.inr ⟨hsync, ?_⟩⟩
        · rw [check_condition_trace]; simp
        · unfold statuses; rw [List.filterMap_cons_none hes]; rfl
      · generalize he : Event.bdrv_discard _ _ = e
        have hes : Event.status e = none := by rw [← he]; rfl
        have hse : Event.sense e = none := by rw [← he]; rfl
        refine ⟨[e], rfl, fun _ => ⟨hsync, ?_, ?_, hst, rfl⟩, fun h => absurd h (by simp)⟩
        · unfold senses; rw [List.filterMap_cons_none hse]; rfl
        · unfold statuses; rw [List.filterMap_cons_none hes]; rfl
      · exact ⟨_, check_condition_trace _ _, fun h => absurd h (by simp),
          fun _ => Or.inr ⟨hsync, rfl⟩⟩


/-- C3 (as amended): on a fresh request, every path of `scsi_send_command`
that posts a CHECK_CONDITION returns 0. SYNCHRONIZE CACHE, when accepted,
returns 0 with a flush submitted and no status posted yet. For every other
accepted CDB, with `sector_count * 512 + iov_len < 2^31` for the values the
`switch` leaves in the request: the return value is that length, negated
when the direction is TO_DEV; it is 0 exactly when the length is 0; when it
is 0 the request has been completed with GOOD, otherwise no status has been
posted. -/
theorem send_command_return_value (w : World) (cmd : SCSICommand) (sg : Option Nat)
    (hfresh : w.r = fresh_request cmd sg) :
    ∃ new, (scsi_send_command w).1.trace = w.trace ++ new ∧
      (CHECK_CONDITION ∈ statuses new → (scsi_send_command w).2 = 0) ∧
      (CHECK_CONDITION ∉ statuses new → cdb cmd.buf 0 = SYNCHRONIZE_CACHE →
        (scsi_send_command w).2 = 0 ∧
        new = [.bdrv_acct_start 0 .BDRV_ACCT_FLUSH, .bdrv_aio_flush .scsi_flush_complete] ∧
        (scsi_send_command w).1.r.status = -1) ∧
      (CHECK_CONDITION ∉ statuses new → cdb cmd.buf 0 ≠ SYNCHRONIZE_CACHE →
        (scsi_send_command_switch w).1.r.sector_count * 512 +
          (scsi_send_command_switch w).1.r.iov_len < 2 ^ 31 →
        (scsi_send_command w).2 =
          (if cmd.mode = .SCSI_XFER_TO_DEV then
            -(((scsi_send_command_switch w).1.r.sector_count * 512 +
              (scsi_send_command_switch w).1.r.iov_len : Nat) : Int)
           else (((scsi_send_command_switch w).1.r.sector_count * 512 +
              (scsi_send_command_switch w).1.r.iov_len : Nat) : Int)) ∧
        ((scsi_send_command w).2 = 0 ↔
          (scsi_send_command_switch w).1.r.sector_count * 512 +
            (scsi_send_command_switch w).1.r.iov_len = 0) ∧
        ((scsi_send_command w).2 = 0 →
          statuses new = [GOOD] ∧ (scsi_send_command w).1.r.status = GOOD) ∧
        ((scsi_send_command w).2 ≠ 0 → statuses new = [])) := by
  unfold scsi_send_command
  simp only []
  by_cases hmed : (!no_medium_check (cdb w.r.cmd.buf 0)) = true ∧
      (w.s.tray_open = true ∨ (!w.bs.is_inserted) = true)
  · rw [if_pos hmed]
    have hin : CHECK_CONDITION ∈ statuses
        [Event.scsi_req_build_sense .NO_MEDIUM, Event.scsi_req_complete CHECK_CONDITION] := by
      simp [statuses, Event.status]
    exact ⟨_, check_condition_trace _ _, fun _ => rfl, fun h => absurd hin h,
      fun h => absurd hin h⟩
  · rw [if_neg hmed]
    obtain ⟨new, ht, htrue, hfalse⟩ := switch_fresh w cmd sg hfresh
    generalize hsw : scsi_send_command_switch w = sw at *
    cases hb : sw.2
    · simp only [Bool.false_eq_true, if_false]
      refine ⟨new, ht, fun _ => trivial, ?_, ?_⟩
      · intro hacc hs
        rcases hfalse hb with ⟨_, hn, hst⟩ | ⟨hns, _⟩
        · exact ⟨trivial, hn, hst⟩
        · exact absurd hs hns
      · intro hacc hns
        rcases hfalse hb with ⟨hs, _, _⟩ | ⟨_, hcc⟩
        · exact absurd hs hns
        · rw [hcc] at hacc
          simp at hacc
    · obtain ⟨hns, _, hs2, hst, hcmd⟩ := htrue hb
      simp only [if_true]
      have hst2 : statuses (new ++ (if sw.1.r.sector_count = 0 ∧ sw.1.r.iov_len = 0
          then [Event.scsi_req_complete GOOD] else [])) =
          if sw.1.r.sector_count = 0 ∧ sw.1.r.iov_len = 0 then [GOOD] else [] := by
        unfold statuses at hs2 ⊢
        rw [List.filterMap_append, hs2]
        split_ifs <;> rfl
      refine ⟨new ++ _, by rw [tail_trace, ht, List.append_assoc], ?_, ?_, ?_⟩
      · intro h
        rw [hst2] at h
        split_ifs at h <;> simp [GOOD, CHECK_CONDITION] at h
      · intro _ hs
        exact absurd hs hns
      · intro _ _ hlt
        have hret := tail_ret sw.1 hlt
        rw [hcmd] at hret
        refine ⟨hret, ?_, ?_, ?_⟩
        · rw [hret]
          split_ifs <;> omega
        · intro h0
          have hz : sw.1.r.sector_count = 0 ∧ sw.1.r.iov_len = 0 := by
            rw [hret] at h0
            split_ifs at h0 <;> omega
          rw [hst2, tail_status, if_pos hz, if_pos hz]
          exact ⟨rfl, rfl⟩
        · intro h0
          have hz : ¬ (sw.1.r.sector_count = 0 ∧ sw.1.r.iov_len = 0) := by
            rintro ⟨h1, h2⟩
            apply h0
            rw [hret, h1, h2]
            simp
          rw [hst2, if_neg hz]



/-- C3 at a concrete input: READ(10) of one block on a fresh request is
accepted and returns 512. -/
theorem send_command_return_value_witness :
    (scsi_send_command (example_world cmd_read10_one)).2 = 512 := by
  obtain ⟨new, h1, _, _, h4⟩ :=
    send_command_return_value (example_world cmd_read10_one) cmd_read10_one none rfl
  have e : (scsi_send_command (example_world cmd_read10_one)).1.trace = [] := by decide
  have hnew : new = [] := by
    rw [e] at h1
    have h2 : (example_world cmd_read10_one).trace = [] ∧ new = [] := by
      simpa using h1.symm
    exact h2.2
  subst hnew
  have h5 := (h4 (by simp [statuses]) (by decide) (by decide)).1
  rw [h5]
  decide

/-- C3 as stated fails: SYNCHRONIZE CACHE on a fresh request is accepted (no
CHECK_CONDITION is posted) and `scsi_send_command` returns 0, no data being
transferred, yet the request has not been completed: no status has been
posted and the status of the request is still unset; only the flush has been
submitted. -/
theorem synchronize_cache_returns_uncompleted :
    (example_world cmd_synchronize_cache).r = fresh_request cmd_synchronize_cache none ∧
    (scsi_send_command (example_world cmd_synchronize_cache)).2 = 0 ∧
    (scsi_send_command (example_world cmd_synchronize_cache)).1.trace =
      [.bdrv_acct_start 0 .BDRV_ACCT_FLUSH, .bdrv_aio_flush .scsi_flush_complete] ∧
    statuses (scsi_send_command (example_world cmd_synchronize_cache)).1.trace = [] ∧
    (scsi_send_command (example_world cmd_synchronize_cache)).1.r.status ≠ GOOD := by
  refine ⟨rfl, ?_, ?_, ?_, ?_⟩ <;> decide

/-- C7 at a concrete input: the last write of a WRITE(10) with the FUA bit
submits one flush, posts no status, and the flush completion posts GOOD. -/
theorem fua_flush_before_good_witness :
    ∃ new, (scsi_write_complete world_write_fua 0).trace = world_write_fua.trace ++ new ∧
      new.filter Event.is_flush = [.bdrv_aio_flush .scsi_flush_complete] ∧
      statuses new = [] ∧
      (scsi_write_complete world_write_fua 0).r.status = world_write_fua.r.status ∧
      (scsi_write_complete world_write_fua 0).r.aiocb =
        some { id := world_write_fua.bs.next_aiocb, cb := .scsi_flush_complete } ∧
      statuses (backend_complete (scsi_write_complete world_write_fua 0) 0).trace =
        statuses world_write_fua.trace ++ [GOOD] :=
  ((fua_flush_before_good world_write_fua 0 rfl (by decide)).1 (by decide)).1 (by decide)



/-! ## C5: the read cycle -/

/-- In 32 bits, `2^23 * 512` is 0. -/
theorem u32_stalled : u32 4294967296 = 0 := by decide

/-- The 32-bit value of 0. -/
theorem u32_zero : u32 0 = 0 := by decide

/-- With `sector_count = 2^23` the chunk `scsi_init_iovec` prepares is empty,
whatever the size of the buffer. -/
theorem init_iovec_stalled (w : World) (size : Nat) (hsc : w.r.sector_count = 8388608) :
    (scsi_init_iovec w size).2 = 0 ∧ (scsi_init_iovec w size).1.r.qiov_size = 0 ∧
    (scsi_init_iovec w size).1.trace = w.trace ∧ (scsi_init_iovec w size).1.s = w.s ∧
    (scsi_init_iovec w size).1.bs = w.bs ∧
    (scsi_init_iovec w size).1.r.sector = w.r.sector ∧
    (scsi_init_iovec w size).1.r.sector_count = w.r.sector_count ∧
    (scsi_init_iovec w size).1.r.status = w.r.status ∧
    (scsi_init_iovec w size).1.r.cmd = w.r.cmd ∧
    (scsi_init_iovec w size).1.r.sg = w.r.sg ∧
    (scsi_init_iovec w size).1.r.io_canceled = w.r.io_canceled := by
  cases hb : w.r.iov_base
  · simp only [scsi_init_iovec, hb]
    simp only [hsc, Nat.reduceMul, u32_stalled, Nat.zero_min, Nat.zero_div, u32_zero, and_self]
  · simp only [scsi_init_iovec, hb]
    simp only [hsc, Nat.reduceMul, u32_stalled, Nat.zero_min, Nat.zero_div, u32_zero, and_self]

/-- The read `scsi_do_read` submits for a bounce-buffer request with
`sector_count = 2^23` is a read of 0 sectors. -/
theorem do_read_stalled (w : World) (hsc : w.r.sector_count = 8388608)
    (hsg : w.r.sg = none) (hcan : w.r.io_canceled = false) (haio : w.r.aiocb = none) :
    (scsi_do_read w 0).trace = w.trace ++
      [.bdrv_acct_start 0 .BDRV_ACCT_READ, .bdrv_aio_readv w.r.sector 0 .scsi_read_complete] ∧
    (scsi_do_read w 0).r.aiocb = some { id := w.bs.next_aiocb, cb := .scsi_read_complete } ∧
    (scsi_do_read w 0).r.qiov_size = 0 ∧ (scsi_do_read w 0).s = w.s ∧
    (scsi_do_read w 0).r.sector = w.r.sector ∧
    (scsi_do_read w 0).r.sector_count = w.r.sector_count ∧
    (scsi_do_read w 0).r.status = w.r.status ∧ (scsi_do_read w 0).r.cmd = w.r.cmd ∧
    (scsi_do_read w 0).r.sg = w.r.sg ∧
    (scsi_do_read w 0).r.io_canceled = w.r.io_canceled := by
  obtain ⟨h1, h2, h3, h4, h5, h6, h7, h8, h9, h10, h11⟩ :=
    init_iovec_stalled (scsi_req_ref w) SCSI_DMA_BUF_SIZE hsc
  simp only [scsi_do_read, check_ret, lt_self_iff_false, ↓reduceIte, clear_aiocb, haio,
    Bool.false_eq_true, hcan, label_done, scsi_req_ref, hsg, World.submit, World.emit,
    BDRV_SECTOR_SIZE, scsi_req_unref] at h1 h2 h3 h4 h5 h6 h7 h8 h9 h10 h11 ⊢
  generalize scsi_init_iovec _ SCSI_DMA_BUF_SIZE = q at h1 h2 h3 h4 h5 h6 h7 h8 h9 h10 h11 ⊢
  simp [h1, h2, h3, h4, h5, h6, h7, h8, h9, h10, h11, hsg, hcan]

/-- The completion of a read of 0 sectors passes size 0 to `scsi_req_data`
and changes neither `sector` nor `sector_count`. -/
theorem read_complete_stalled (w : World) (a : AIOCB)
    (hsc : w.r.sector_count = 8388608) (hsec : w.r.sector = 0)
    (hcan : w.r.io_canceled = false) (hq : w.r.qiov_size = 0)
    (haio : w.r.aiocb = some a) :
    (scsi_read_complete w 0).trace = w.trace ++ [.bdrv_acct_done, .scsi_req_data 0] ∧
    (scsi_read_complete w 0).r.aiocb = none ∧ (scsi_read_complete w 0).s = w.s ∧
    (scsi_read_complete w 0).r.sector = 0 ∧
    (scsi_read_complete w 0).r.sector_count = 8388608 ∧
    (scsi_read_complete w 0).r.status = w.r.status ∧
    (scsi_read_complete w 0).r.cmd = w.r.cmd ∧
    (scsi_read_complete w 0).r.sg = w.r.sg ∧
    (scsi_read_complete w 0).r.io_canceled = false := by
  simp [scsi_read_complete, clear_aiocb, check_ret, label_done, scsi_req_unref,
    scsi_req_data, World.emit, hsc, hsec, hcan, haio, hq, toInt32]

/-- One turn of the read cycle on a bounce-buffer request with
`sector_count = 2^23`: `sector_count * 512` is 0 in 32 bits, so the chunk is
empty; the turn reads 0 sectors, passes size 0 to `scsi_req_data` and leaves
the request as it was. -/
theorem read_turn_stalled (w : World)
    (hsc : w.r.sector_count = 8388608) (hsec : w.r.sector = 0) (hst : w.r.status = -1)
    (hmode : w.r.cmd.mode = .SCSI_XFER_FROM_DEV) (hsg : w.r.sg = none)
    (htray : w.s.tray_open = false) (hcan : w.r.io_canceled = false)
    (haio : w.r.aiocb = none) (hfua : scsi_is_cmd_fua w.r.cmd = false) :
    ((read_turn w).r.sector_count = 8388608 ∧ (read_turn w).r.sector = 0 ∧
      (read_turn w).r.status = -1 ∧ (read_turn w).r.cmd = w.r.cmd ∧
      (read_turn w).r.sg = none ∧ (read_turn w).s.tray_open = false ∧
      (read_turn w).r.io_canceled = false ∧ (read_turn w).r.aiocb = none) ∧
    (read_turn w).trace = w.trace ++
      [.bdrv_acct_start 0 .BDRV_ACCT_READ, .bdrv_aio_readv 0 0 .scsi_read_complete,
       .bdrv_acct_done, .scsi_req_data 0] := by
  have ha : scsi_read_data w = scsi_do_read
      { scsi_req_ref w with r := { (scsi_req_ref w).r with started := true } } 0 := by
    simp [scsi_read_data, scsi_req_ref, hsc, hmode, htray, hfua]
  obtain ⟨d1, d2, d3, d4, d5, d6, d7, d8, d9, d10⟩ := do_read_stalled
    { scsi_req_ref w with r := { (scsi_req_ref w).r with started := true } } hsc hsg hcan haio
  rw [← ha] at d1 d2 d3 d4 d5 d6 d7 d8 d9 d10
  simp only [scsi_req_ref] at d1 d2 d3 d4 d5 d6 d7 d8 d9 d10
  have hb1 : backend_complete (scsi_read_data w) 0 = scsi_read_complete (scsi_read_data w) 0 := by
    simp only [backend_complete, d2]
  obtain ⟨c1, c2, c3, c4, c5, c6, c7, c8, c9⟩ := read_complete_stalled (scsi_read_data w) _
    (d6.trans hsc) (d5.trans hsec) (d10.trans hcan) d3 d2
  rw [← hb1] at c1 c2 c3 c4 c5 c6 c7 c8 c9
  have hb2 : read_turn w = backend_complete (scsi_read_data w) 0 := by
    simp only [read_turn]
    generalize backend_complete (scsi_read_data w) 0 = x at c2
    simp only [backend_complete, c2]
  rw [hb2]
  refine ⟨⟨c5, c4, c6.trans (d7.trans hst), c7.trans d8, c8.trans (d9.trans hsg), ?_, c9, c2⟩, ?_⟩
  · rw [c3, d4]; exact htray
  · rw [c1, d1, hsec]; simp



/-- The read cycle on a bounce-buffer request with `sector_count = 2^23` never
leaves its first state: after any number of turns no status is posted, the
counters are unchanged and every turn has passed size 0 to `scsi_req_data`. -/
theorem read_cycle_stalled (n : Nat) : ∀ w : World,
    w.r.sector_count = 8388608 → w.r.sector = 0 → w.r.status = -1 →
    w.r.cmd.mode = .SCSI_XFER_FROM_DEV → w.r.sg = none → w.s.tray_open = false →
    w.r.io_canceled = false → w.r.aiocb = none → scsi_is_cmd_fua w.r.cmd = false →
    (read_cycle n w).r.status = -1 ∧ (read_cycle n w).r.sector_count = 8388608 ∧
    (read_cycle n w).r.sector = 0 ∧
    statuses (read_cycle n w).trace = statuses w.trace ∧
    data_sizes (read_cycle n w).trace = data_sizes w.trace ++ List.replicate n 0 := by
  induction n with
  | zero =>
    intro w hsc hsec hst _ _ _ _ _ _
    simp [read_cycle, hsc, hsec, hst]
  | succ n ih =>
    intro w hsc hsec hst hmode hsg htray hcan haio hfua
    obtain ⟨⟨t1, t2, t3, t4, t5, t6, t7, t8⟩, tt⟩ :=
      read_turn_stalled w hsc hsec hst hmode hsg htray hcan haio hfua
    have hstep : read_cycle (n + 1) w = read_cycle n (read_turn w) := by
      simp [read_cycle, hst]
    obtain ⟨i1, i2, i3, i4, i5⟩ := ih (read_turn w) t1 t2 t3 (by rw [t4]; exact hmode) t5 t6 t7 t8
      (by rw [t4]; exact hfua)
    rw [hstep]
    refine ⟨i1, i2, i3, ?_, ?_⟩
    · rw [i4, tt]
      simp [statuses, Event.status]
    · rw [i5, tt]
      simp [data_sizes, Event.data_size, List.replicate_succ]

/-- C5 (code bug): READ(16) of `2^23` blocks at LBA 0 on a disk with 512-byte
blocks is decoded by `scsi_send_command` into a bounce-buffer request from
the device with `sector_count = 2^23` and no status posted. With a backend
whose reads all succeed and a transport that calls `scsi_read_data` after
every turn, the cycle does not terminate: after any number `n` of turns no
status has been posted, `sector_count` is still `2^23`, the sector cursor is
still 0, and the `n` sizes passed to `scsi_req_data` are all 0, so their sum
never reaches `2^23 * 512`. -/
theorem read_cycle_4g_never_completes (n : Nat) :
    (scsi_send_command (example_world cmd_read16_4g)).1.r.sector_count = 8388608 ∧
    (scsi_send_command (example_world cmd_read16_4g)).1.trace = [] ∧
    (read_cycle n (scsi_send_command (example_world cmd_read16_4g)).1).r.status = -1 ∧
    (read_cycle n (scsi_send_command (example_world cmd_read16_4g)).1).r.sector_count
      = 8388608 ∧
    (read_cycle n (scsi_send_command (example_world cmd_read16_4g)).1).r.sector = 0 ∧
    statuses (read_cycle n (scsi_send_command (example_world cmd_read16_4g)).1).trace = [] ∧
    data_sizes (read_cycle n (scsi_send_command (example_world cmd_read16_4g)).1).trace
      = List.replicate n 0 := by
  have h0 : (scsi_send_command (example_world cmd_read16_4g)).1.trace = [] := by decide
  obtain ⟨i1, i2, i3, i4, i5⟩ := read_cycle_stalled n
    (scsi_send_command (example_world cmd_read16_4g)).1 (by decide) (by decide) (by decide)
    (by decide) (by decide) (by decide) (by decide) (by decide) (by decide)
  rw [h0] at i4 i5
  exact ⟨by decide, h0, i1, i2, i3, i4, by simpa [data_sizes] using i5⟩



/-! ## Frames of the data path -/

/-- What `scsi_handle_rw_error` can change: the trace and, in the request,
the status, the sense and the retry mark. -/
theorem handle_rw_error_frame (w : World) (error : Int) :
    ∃ tr st se rt, (scsi_handle_rw_error w error).1 =
      { w with trace := tr, r := { w.r with status := st, sense := se, retry := rt } } := by
  simp only [scsi_handle_rw_error]
  split_ifs <;> exact ⟨_, _, _, _, rfl⟩

/-- What the error test of a completion callback can change. -/
theorem check_ret_frame (w : World) (ret : Int) :
    ∃ tr st se rt, (check_ret w ret).1 =
      { w with trace := tr, r := { w.r with status := st, sense := se, retry := rt } } := by
  unfold check_ret
  split_ifs
  · exact handle_rw_error_frame w (-ret)
  · exact ⟨_, _, _, _, rfl⟩

/-- What `scsi_init_iovec` can change: the buffer, its length and the iovec. -/
theorem init_iovec_frame (w : World) (size : Nat) :
    ∃ bl ib il qs, (scsi_init_iovec w size).1 =
      { w with r := { w.r with buflen := bl, iov_base := ib, iov_len := il, qiov_size := qs } } := by
  cases hb : w.r.iov_base with
  | none =>
    simp only [scsi_init_iovec, hb]
    exact ⟨_, _, _, _, rfl⟩
  | some b =>
    simp only [scsi_init_iovec, hb]
    exact ⟨w.r.buflen, some b, _, _, rfl⟩

/-! ## Completion callbacks on a cancelled request -/

/-- On a cancelled request `scsi_read_complete` keeps the reference count. -/
theorem read_complete_cancelled (w : World) (ret : Int) (hc : w.r.io_canceled = true) :
    (scsi_read_complete w ret).r.refcount = w.r.refcount ∧
    (scsi_read_complete w ret).r.io_canceled = true := by
  obtain ⟨tr, st, se, rt, h⟩ := check_ret_frame (clear_aiocb w) ret
  unfold scsi_read_complete
  generalize check_ret (clear_aiocb w) ret = p at h ⊢
  obtain ⟨p1, p2⟩ := p
  simp only at h
  subst h
  cases p2 <;> simp [label_done, scsi_req_data, World.emit, clear_aiocb_r, hc]

/-- On a cancelled request `scsi_flush_complete` keeps the reference count. -/
theorem flush_complete_cancelled (w : World) (ret : Int) (hc : w.r.io_canceled = true) :
    (scsi_flush_complete w ret).r.refcount = w.r.refcount ∧
    (scsi_flush_complete w ret).r.io_canceled = true := by
  obtain ⟨tr, st, se, rt, h⟩ := check_ret_frame (w.emit .bdrv_acct_done) ret
  simp only [scsi_flush_complete]
  generalize check_ret (w.emit .bdrv_acct_done) ret = p at h ⊢
  obtain ⟨p1, p2⟩ := p
  simp only at h
  subst h
  cases p2 <;> simp [label_done, scsi_req_complete, World.emit, hc]

/-- On a cancelled request `scsi_do_read` keeps the reference count. -/
theorem do_read_cancelled (w : World) (ret : Int) (hc : w.r.io_canceled = true) :
    (scsi_do_read w ret).r.refcount = w.r.refcount ∧
    (scsi_do_read w ret).r.io_canceled = true := by
  obtain ⟨tr, st, se, rt, h⟩ := check_ret_frame (clear_aiocb w) ret
  unfold scsi_do_read
  generalize check_ret (clear_aiocb w) ret = p at h ⊢
  obtain ⟨p1, p2⟩ := p
  simp only at h
  subst h
  cases p2 <;> simp [label_done, World.emit, clear_aiocb_r, hc]

/-- On a cancelled request `scsi_write_do_fua` keeps the reference count. -/
theorem write_do_fua_cancelled (w : World) (hc : w.r.io_canceled = true) :
    (scsi_write_do_fua w).r.refcount = w.r.refcount ∧
    (scsi_write_do_fua w).r.io_canceled = true := by
  unfold scsi_write_do_fua
  split_ifs <;> simp [label_done, scsi_req_complete, World.submit, World.emit, hc]

/-- On a cancelled request `scsi_dma_complete` keeps the reference count. -/
theorem dma_complete_cancelled (w : World) (ret : Int) (hc : w.r.io_canceled = true) :
    (scsi_dma_complete w ret).r.refcount = w.r.refcount ∧
    (scsi_dma_complete w ret).r.io_canceled = true := by
  obtain ⟨tr, st, se, rt, h⟩ := check_ret_frame (clear_aiocb w) ret
  simp only [scsi_dma_complete]
  generalize check_ret (clear_aiocb w) ret = p at h ⊢
  obtain ⟨p1, p2⟩ := p
  simp only at h
  subst h
  cases p2
  · simp only [Bool.false_eq_true, if_false]
    split_ifs
    · refine ⟨((write_do_fua_cancelled _ ?_).1).trans ?_, (write_do_fua_cancelled _ ?_).2⟩ <;>
        simp [clear_aiocb_r, hc]
    · simp [label_done, scsi_req_complete, World.emit, clear_aiocb_r, hc]
  · simp [label_done, clear_aiocb_r, hc]

/-- On a cancelled request `scsi_write_complete` keeps the reference count. -/
theorem write_complete_cancelled (w : World) (ret : Int) (hc : w.r.io_canceled = true) :
    (scsi_write_complete w ret).r.refcount = w.r.refcount ∧
    (scsi_write_complete w ret).r.io_canceled = true := by
  obtain ⟨tr, st, se, rt, h⟩ := check_ret_frame (clear_aiocb w) ret
  simp only [scsi_write_complete]
  generalize check_ret (clear_aiocb w) ret = p at h ⊢
  obtain ⟨p1, p2⟩ := p
  simp only at h
  subst h
  cases p2
  · simp only [Bool.false_eq_true, if_false]
    split_ifs
    · refine ⟨((write_do_fua_cancelled _ ?_).1).trans ?_, (write_do_fua_cancelled _ ?_).2⟩ <;>
        simp [clear_aiocb_r, hc]
    · obtain ⟨bl, ib, il, qs, hi⟩ := init_iovec_frame
        { s := (clear_aiocb w).s, bs := (clear_aiocb w).bs,
          r := { cmd := (clear_aiocb w).r.cmd, status := st, sense := se,
                 aiocb := (clear_aiocb w).r.aiocb, refcount := (clear_aiocb w).r.refcount,
                 io_canceled := (clear_aiocb w).r.io_canceled, retry := rt,
                 sg := (clear_aiocb w).r.sg, resid := (clear_aiocb w).r.resid,
                 sector := u64 ((clear_aiocb w).r.sector + u32 ((clear_aiocb w).r.qiov_size / 512)),
                 sector_count := sub32 (clear_aiocb w).r.sector_count
                   (u32 ((clear_aiocb w).r.qiov_size / 512)),
                 buflen := (clear_aiocb w).r.buflen, started := (clear_aiocb w).r.started,
                 iov_base := (clear_aiocb w).r.iov_base, iov_len := (clear_aiocb w).r.iov_len,
                 qiov_size := (clear_aiocb w).r.qiov_size },
          host := (clear_aiocb w).host, trace := tr } SCSI_DMA_BUF_SIZE
      rw [hi]
      simp [label_done, scsi_req_data, World.emit, clear_aiocb_r, hc]
  · simp [label_done, clear_aiocb_r, hc]

/-- On a cancelled request no completion callback changes the reference
count or the flag. -/
theorem run_callback_cancelled (cb : Callback) (w : World) (ret : Int)
    (hc : w.r.io_canceled = true) :
    (run_callback cb w ret).r.refcount = w.r.refcount ∧
    (run_callback cb w ret).r.io_canceled = true := by
  cases cb
  · exact flush_complete_cancelled w ret hc
  · exact dma_complete_cancelled w ret hc
  · exact read_complete_cancelled w ret hc
  · exact do_read_cancelled w ret hc
  · exact write_complete_cancelled w ret hc

/-! ## C11 -/

@[simp] theorem check_ret_s (w : World) (ret : Int) : (check_ret w ret).1.s = w.s := by
  obtain ⟨tr, st, se, rt, h⟩ := check_ret_frame w ret
  rw [h]

@[simp] theorem check_ret_bs (w : World) (ret : Int) : (check_ret w ret).1.bs = w.bs := by
  obtain ⟨tr, st, se, rt, h⟩ := check_ret_frame w ret
  rw [h]

@[simp] theorem check_ret_host (w : World) (ret : Int) : (check_ret w ret).1.host = w.host := by
  obtain ⟨tr, st, se, rt, h⟩ := check_ret_frame w ret
  rw [h]

@[simp] theorem check_ret_r_cmd (w : World) (ret : Int) :
    (check_ret w ret).1.r.cmd = w.r.cmd := by
  obtain ⟨tr, st, se, rt, h⟩ := check_ret_frame w ret
  rw [h]

@[simp] theorem check_ret_r_aiocb (w : World) (ret : Int) :
    (check_ret w ret).1.r.aiocb = w.r.aiocb := by
  obtain ⟨tr, st, se, rt, h⟩ := check_ret_frame w ret
  rw [h]

@[simp] theorem check_ret_r_refcount (w : World) (ret : Int) :
    (check_ret w ret).1.r.refcount = w.r.refcount := by
  obtain ⟨tr, st, se, rt, h⟩ := check_ret_frame w ret
  rw [h]

@[simp] theorem check_ret_r_io_canceled (w : World) (ret : Int) :
    (check_ret w ret).1.r.io_canceled = w.r.io_canceled := by
  obtain ⟨tr, st, se, rt, h⟩ := check_ret_frame w ret
  rw [h]

@[simp] theorem check_ret_r_sg (w : World) (ret : Int) :
    (check_ret w ret).1.r.sg = w.r.sg := by
  obtain ⟨tr, st, se, rt, h⟩ := check_ret_frame w ret
  rw [h]

@[simp] theorem check_ret_r_resid (w : World) (ret : Int) :
    (check_ret w ret).1.r.resid = w.r.resid := by
  obtain ⟨tr, st, se, rt, h⟩ := check_ret_frame w ret
  rw [h]

@[simp] theorem check_ret_r_sector (w : World) (ret : Int) :
    (check_ret w ret).1.r.sector = w.r.sector := by
  obtain ⟨tr, st, se, rt, h⟩ := check_ret_frame w ret
  rw [h]

@[simp] theorem check_ret_r_sector_count (w : World) (ret : Int) :
    (check_ret w ret).1.r.sector_count = w.r.sector_count := by
  obtain ⟨tr, st, se, rt, h⟩ := check_ret_frame w ret
  rw [h]

@[simp] theorem check_ret_r_buflen (w : World) (ret : Int) :
    (check_ret w ret).1.r.buflen = w.r.buflen := by
  obtain ⟨tr, st, se, rt, h⟩ := check_ret_frame w ret
  rw [h]

@[simp] theorem check_ret_r_started (w : World) (ret : Int) :
    (check_ret w ret).1.r.started = w.r.started := by
  obtain ⟨tr, st, se, rt, h⟩ := check_ret_frame w ret
  rw [h]

@[simp] theorem check_ret_r_iov_base (w : World) (ret : Int) :
    (check_ret w ret).1.r.iov_base = w.r.iov_base := by
  obtain ⟨tr, st, se, rt, h⟩ := check_ret_frame w ret
  rw [h]

@[simp] theorem check_ret_r_iov_len (w : World) (ret : Int) :
    (check_ret w ret).1.r.iov_len = w.r.iov_len := by
  obtain ⟨tr, st, se, rt, h⟩ := check_ret_frame w ret
  rw [h]

@[simp] theorem check_ret_r_qiov_size (w : World) (ret : Int) :
    (check_ret w ret).1.r.qiov_size = w.r.qiov_size := by
  obtain ⟨tr, st, se, rt, h⟩ := check_ret_frame w ret
  rw [h]

@[simp] theorem init_iovec_s (w : World) (size : Nat) :
    (scsi_init_iovec w size).1.s = w.s := by
  obtain ⟨bl, ib, il, qs, h⟩ := init_iovec_frame w size
  rw [h]

@[simp] theorem init_iovec_bs (w : World) (size : Nat) :
    (scsi_init_iovec w size).1.bs = w.bs := by
  obtain ⟨bl, ib, il, qs, h⟩ := init_iovec_frame w size
  rw [h]

@[simp] theorem init_iovec_host (w : World) (size : Nat) :
    (scsi_init_iovec w size).1.host = w.host := by
  obtain ⟨bl, ib, il, qs, h⟩ := init_iovec_frame w size
  rw [h]

@[simp] theorem init_iovec_trace (w : World) (size : Nat) :
    (scsi_init_iovec w size).1.trace = w.trace := by
  obtain ⟨bl, ib, il, qs, h⟩ := init_iovec_frame w size
  rw [h]

@[simp] theorem init_iovec_r_cmd (w : World) (size : Nat) :
    (scsi_init_iovec w size).1.r.cmd = w.r.cmd := by
  obtain ⟨bl, ib, il, qs, h⟩ := init_iovec_frame w size
  rw [h]

@[simp] theorem init_iovec_r_status (w : World) (size : Nat) :
    (scsi_init_iovec w size).1.r.status = w.r.status := by
  obtain ⟨bl, ib, il, qs, h⟩ := init_iovec_frame w size
  rw [h]

@[simp] theorem init_iovec_r_sense (w : World) (size : Nat) :
    (scsi_init_iovec w size).1.r.sense = w.r.sense := by
  obtain ⟨bl, ib, il, qs, h⟩ := init_iovec_frame w size
  rw [h]

@[simp] theorem init_iovec_r_aiocb (w : World) (size : Nat) :
    (scsi_init_iovec w size).1.r.aiocb = w.r.aiocb := by
  obtain ⟨bl, ib, il, qs, h⟩ := init_iovec_frame w size
  rw [h]

@[simp] theorem init_iovec_r_refcount (w : World) (size : Nat) :
    (scsi_init_iovec w size).1.r.refcount = w.r.refcount := by
  obtain ⟨bl, ib, il, qs, h⟩ := init_iovec_frame w size
  rw [h]

@[simp] theorem init_iovec_r_io_canceled (w : World) (size : Nat) :
    (scsi_init_iovec w size).1.r.io_canceled = w.r.io_canceled := by
  obtain ⟨bl, ib, il, qs, h⟩ := init_iovec_frame w size
  rw [h]

@[simp] theorem init_iovec_r_retry (w : World) (size : Nat) :
    (scsi_init_iovec w size).1.r.retry = w.r.retry := by
  obtain ⟨bl, ib, il, qs, h⟩ := init_iovec_frame w size
  rw [h]

@[simp] theorem init_iovec_r_sg (w : World) (size : Nat) :
    (scsi_init_iovec w size).1.r.sg = w.r.sg := by
  obtain ⟨bl, ib, il, qs, h⟩ := init_iovec_frame w size
  rw [h]

@[simp] theorem init_iovec_r_resid (w : World) (size : Nat) :
    (scsi_init_iovec w size).1.r.resid = w.r.resid := by
  obtain ⟨bl, ib, il, qs, h⟩ := init_iovec_frame w size
  rw [h]

@[simp] theorem init_iovec_r_sector (w : World) (size : Nat) :
    (scsi_init_iovec w size).1.r.sector = w.r.sector := by
  obtain ⟨bl, ib, il, qs, h⟩ := init_iovec_frame w size
  rw [h]

@[simp] theorem init_iovec_r_sector_count (w : World) (size : Nat) :
    (scsi_init_iovec w size).1.r.sector_count = w.r.sector_count := by
  obtain ⟨bl, ib, il, qs, h⟩ := init_iovec_frame w size
  rw [h]

@[simp] theorem init_iovec_r_started (w : World) (size : Nat) :
    (scsi_init_iovec w size).1.r.started = w.r.started := by
  obtain ⟨bl, ib, il, qs, h⟩ := init_iovec_frame w size
  rw [h]

/-! ## Completion callbacks on a live request -/

/-- On a live request `scsi_read_complete` releases its reference. -/
theorem read_complete_live (w : World) (ret : Int) (hc : w.r.io_canceled = false) :
    (scsi_read_complete w ret).r.refcount = w.r.refcount - 1 ∧
    submits_none w (scsi_read_complete w ret) ∧
    (scsi_read_complete w ret).r.io_canceled = false := by
  simp only [scsi_read_complete]
  cases (check_ret (clear_aiocb w) ret).2 <;>
    simp [submits_none, label_done, scsi_req_data, scsi_req_unref, World.emit, clear_aiocb_r, hc]

/-- On a live request `scsi_flush_complete` releases its reference. -/
theorem flush_complete_live (w : World) (ret : Int) (hc : w.r.io_canceled = false) :
    (scsi_flush_complete w ret).r.refcount = w.r.refcount - 1 ∧
    submits_none w (scsi_flush_complete w ret) ∧
    (scsi_flush_complete w ret).r.io_canceled = false := by
  simp only [scsi_flush_complete]
  cases (check_ret (w.emit .bdrv_acct_done) ret).2 <;>
    simp [submits_none, label_done, scsi_req_complete, scsi_req_unref, World.emit, hc]

/-- On a live request `scsi_write_do_fua` either releases the reference or
hands it to the flush it submits. -/
theorem write_do_fua_live (w : World) (hc : w.r.io_canceled = false) :
    (((scsi_write_do_fua w).r.refcount = w.r.refcount - 1 ∧
        submits_none w (scsi_write_do_fua w)) ∨
      ((scsi_write_do_fua w).r.refcount = w.r.refcount ∧
        submits_one w (scsi_write_do_fua w))) ∧
    (scsi_write_do_fua w).r.io_canceled = false := by
  unfold scsi_write_do_fua
  split_ifs <;>
    simp [submits_none, submits_one, label_done, scsi_req_complete, scsi_req_unref,
      World.submit, World.emit, hc]

/-- On a live request `scsi_do_read` either releases the reference (the error
was processed) or hands it to the read it submits. -/
theorem do_read_live (w : World) (ret : Int) (hc : w.r.io_canceled = false) :
    (((scsi_do_read w ret).r.refcount = w.r.refcount - 1 ∧
        submits_none w (scsi_do_read w ret)) ∨
      ((scsi_do_read w ret).r.refcount = w.r.refcount ∧
        submits_one w (scsi_do_read w ret))) ∧
    (scsi_do_read w ret).r.io_canceled = false := by
  simp only [scsi_do_read]
  cases (check_ret (clear_aiocb w) ret).2
  · cases hsg : w.r.sg <;>
      simp [submits_none, submits_one, label_done, scsi_req_ref, scsi_req_unref, World.submit,
        World.emit, clear_aiocb_r, hc, hsg]
  · simp [submits_none, label_done, scsi_req_unref, clear_aiocb_r, hc]

/-- On a live request `scsi_dma_complete` either releases the reference or
hands it to the flush it submits. -/
theorem dma_complete_live (w : World) (ret : Int) (hc : w.r.io_canceled = false) :
    (((scsi_dma_complete w ret).r.refcount = w.r.refcount - 1 ∧
        submits_none w (scsi_dma_complete w ret)) ∨
      ((scsi_dma_complete w ret).r.refcount = w.r.refcount ∧
        submits_one w (scsi_dma_complete w ret))) ∧
    (scsi_dma_complete w ret).r.io_canceled = false := by
  simp only [scsi_dma_complete]
  cases (check_ret (clear_aiocb w) ret).2
  · simp only [Bool.false_eq_true, if_false]
    split_ifs
    · have h := write_do_fua_live
        { s := (check_ret (clear_aiocb w) ret).1.s, bs := (check_ret (clear_aiocb w) ret).1.bs,
          r := { (check_ret (clear_aiocb w) ret).1.r with
                 sector := u64 ((check_ret (clear_aiocb w) ret).1.r.sector +
                   (check_ret (clear_aiocb w) ret).1.r.sector_count),
                 sector_count := 0 },
          host := (check_ret (clear_aiocb w) ret).1.host,
          trace := (check_ret (clear_aiocb w) ret).1.trace } (by simp [clear_aiocb_r, hc])
      simpa [submits_none, submits_one, clear_aiocb_r] using h
    · simp [submits_none, label_done, scsi_req_complete, scsi_req_unref, World.emit,
        clear_aiocb_r, hc]
  · simp [submits_none, label_done, scsi_req_unref, clear_aiocb_r, hc]

/-- On a live request `scsi_write_complete` either releases the reference or
hands it to the flush it submits. -/
theorem write_complete_live (w : World) (ret : Int) (hc : w.r.io_canceled = false) :
    (((scsi_write_complete w ret).r.refcount = w.r.refcount - 1 ∧
        submits_none w (scsi_write_complete w ret)) ∨
      ((scsi_write_complete w ret).r.refcount = w.r.refcount ∧
        submits_one w (scsi_write_complete w ret))) ∧
    (scsi_write_complete w ret).r.io_canceled = false := by
  simp only [scsi_write_complete]
  cases (check_ret (clear_aiocb w) ret).2
  · simp only [Bool.false_eq_true, if_false]
    split_ifs
    · have h := write_do_fua_live
        { s := (check_ret (clear_aiocb w) ret).1.s, bs := (check_ret (clear_aiocb w) ret).1.bs,
          r := { (check_ret (clear_aiocb w) ret).1.r with
                 sector := u64 ((check_ret (clear_aiocb w) ret).1.r.sector +
                   u32 ((check_ret (clear_aiocb w) ret).1.r.qiov_size / 512)),
                 sector_count := sub32 (check_ret (clear_aiocb w) ret).1.r.sector_count
                   (u32 ((check_ret (clear_aiocb w) ret).1.r.qiov_size / 512)) },
          host := (check_ret (clear_aiocb w) ret).1.host,
          trace := (check_ret (clear_aiocb w) ret).1.trace } (by simp [clear_aiocb_r, hc])
      simpa [submits_none, submits_one, clear_aiocb_r] using h
    · simp [submits_none, label_done, scsi_req_data, scsi_req_unref, World.emit,
        clear_aiocb_r, hc]
  · simp [submits_none, label_done, scsi_req_unref, clear_aiocb_r, hc]

/-- On a live request every completion callback either releases the
reference of its submission or hands it to the operation it submits. -/
theorem run_callback_live (cb : Callback) (w : World) (ret : Int)
    (hc : w.r.io_canceled = false) :
    (((run_callback cb w ret).r.refcount = w.r.refcount - 1 ∧
        submits_none w (run_callback cb w ret)) ∨
      ((run_callback cb w ret).r.refcount = w.r.refcount ∧
        submits_one w (run_callback cb w ret))) ∧
    (run_callback cb w ret).r.io_canceled = false := by
  cases cb
  · exact ⟨Or.inl ⟨(flush_complete_live w ret hc).1, (flush_complete_live w ret hc).2.1⟩,
      (flush_complete_live w ret hc).2.2⟩
  · exact dma_complete_live w ret hc
  · exact ⟨Or.inl ⟨(read_complete_live w ret hc).1, (read_complete_live w ret hc).2.1⟩,
      (read_complete_live w ret hc).2.2⟩
  · exact do_read_live w ret hc
  · exact write_complete_live w ret hc

/-! ## Submissions on a live request -/

/-- `scsi_read_data` on a live request either leaves the reference count as
it was and submits nothing, or keeps one more reference for the one
operation it submits. -/
theorem read_data_live (w : World) (hc : w.r.io_canceled = false) :
    (((scsi_read_data w).r.refcount = w.r.refcount ∧ submits_none w (scsi_read_data w)) ∨
      ((scsi_read_data w).r.refcount = w.r.refcount + 1 ∧
        submits_one w (scsi_read_data w))) ∧
    (scsi_read_data w).r.io_canceled = false := by
  simp only [scsi_read_data]
  split_ifs with h1 h2 h3 h4 h5
  · simp [submits_none, scsi_req_data, World.emit, hc]
  · simp [submits_none, scsi_req_complete, World.emit, hc]
  · obtain ⟨a, b, c⟩ :=
      read_complete_live (scsi_req_ref w) (-EINVAL) (by simp [scsi_req_ref, hc])
    refine ⟨Or.inl ⟨?_, ?_⟩, c⟩
    · simpa [scsi_req_ref] using a
    · simpa [submits_none, scsi_req_ref] using b
  · obtain ⟨a, b, c⟩ :=
      read_complete_live (scsi_req_ref w) (-ENOMEDIUM) (by simp [scsi_req_ref, hc])
    refine ⟨Or.inl ⟨?_, ?_⟩, c⟩
    · simpa [scsi_req_ref] using a
    · simpa [submits_none, scsi_req_ref] using b
  · simp [submits_one, scsi_req_ref, World.submit, World.emit, hc]
  · have h := do_read_live
      { s := (scsi_req_ref w).s, bs := (scsi_req_ref w).bs,
        r := { (scsi_req_ref w).r with started := true },
        host := (scsi_req_ref w).host, trace := (scsi_req_ref w).trace } 0
      (by simp [scsi_req_ref, hc])
    simpa [submits_none, submits_one, scsi_req_ref] using h

/-- `scsi_write_data` on a live request either leaves the reference count as
it was and submits nothing, or keeps one more reference for the one
operation it submits. -/
theorem write_data_live (w : World) (hc : w.r.io_canceled = false) :
    (((scsi_write_data w).r.refcount = w.r.refcount ∧ submits_none w (scsi_write_data w)) ∨
      ((scsi_write_data w).r.refcount = w.r.refcount + 1 ∧
        submits_one w (scsi_write_data w))) ∧
    (scsi_write_data w).r.io_canceled = false := by
  simp only [scsi_write_data]
  split_ifs with h1 h2 h3 h4 h5
  · have h := write_complete_live (scsi_req_ref w) (-EINVAL) (by simp [scsi_req_ref, hc])
    simpa [submits_none, submits_one, scsi_req_ref] using h
  · have h := write_complete_live
      { s := (scsi_req_ref w).s, bs := (scsi_req_ref w).bs,
        r := { (scsi_req_ref w).r with started := true },
        host := (scsi_req_ref w).host, trace := (scsi_req_ref w).trace } 0
      (by simp [scsi_req_ref, hc])
    simpa [submits_none, submits_one, scsi_req_ref] using h
  · have h := write_complete_live (scsi_req_ref w) (-ENOMEDIUM) (by simp [scsi_req_ref, hc])
    simpa [submits_none, submits_one, scsi_req_ref] using h
  · have h := dma_complete_live (scsi_req_ref w) 0 (by simp [scsi_req_ref, hc])
    simpa [submits_none, submits_one, scsi_req_ref] using h
  · have h := write_complete_live (scsi_req_ref w) 0 (by simp [scsi_req_ref, hc])
    simpa [submits_none, submits_one, scsi_req_ref] using h
  · cases hsg : w.r.sg <;>
      simp [submits_one, scsi_req_ref, World.submit, World.emit, hc, hsg]

/-- SYNCHRONIZE CACHE in `scsi_send_command` on a live request either fails
the medium check, taking no reference and submitting nothing, or keeps one
more reference for the flush it submits. -/
theorem synchronize_cache_live (w : World) (hop : cdb w.r.cmd.buf 0 = SYNCHRONIZE_CACHE)
    (hc : w.r.io_canceled = false) :
    ((((scsi_send_command w).1.r.refcount = w.r.refcount ∧
          submits_none w (scsi_send_command w).1) ∨
      ((scsi_send_command w).1.r.refcount = w.r.refcount + 1 ∧
        submits_one w (scsi_send_command w).1)) ∧
    (scsi_send_command w).1.r.io_canceled = false) := by
  have he : is_emulated (cdb w.r.cmd.buf 0) = false := by rw [hop]; decide
  have hn : no_medium_check (cdb w.r.cmd.buf 0) = false := by rw [hop]; decide
  have hsw : scsi_send_command_switch w =
      (((scsi_req_ref w).emit (.bdrv_acct_start 0 .BDRV_ACCT_FLUSH)).submit
        (.bdrv_aio_flush .scsi_flush_complete) .scsi_flush_complete, false) := by
    simp only [scsi_send_command_switch, he]
    rw [if_pos hop]
    rfl
  simp only [scsi_send_command, hsw, hn]
  split_ifs with h1 h2
  · simp [submits_none, scsi_check_condition, scsi_req_complete, scsi_req_build_sense,
      World.emit, hc]
  · exact h2.elim
  · simp [submits_one, scsi_req_ref, World.submit, World.emit, hc]

/-- `scsi_cancel_io` without an outstanding handle does nothing. -/
theorem scsi_cancel_io_none (w : World) (h : w.r.aiocb = none) : scsi_cancel_io w = w := by
  unfold scsi_cancel_io
  rw [h]
  simp only []
  rw [← h]

/-- `scsi_cancel_io` with an outstanding handle, when `bdrv_aio_cancel`
returns without completing the operation. -/
theorem scsi_cancel_io_plain (w : World) (acb : AIOCB) (h : w.r.aiocb = some acb)
    (hcc : w.bs.cancel_completes = none) :
    scsi_cancel_io w =
      { w.emit (.bdrv_aio_cancel acb) with
        r := { w.r with aiocb := none, refcount := w.r.refcount - 1 } } := by
  have hcc2 : (w.emit (.bdrv_aio_cancel acb)).bs.cancel_completes = none := hcc
  unfold scsi_cancel_io
  rw [h]
  simp only [bdrv_aio_cancel, hcc2, scsi_req_unref, emit_r]

/-- `scsi_cancel_io` with an outstanding handle, when the operation completes
inside `bdrv_aio_cancel`: the callback of the handle has run when the
reference is dropped and the handle cleared. -/
theorem scsi_cancel_io_completes (w : World) (acb : AIOCB) (ret : Int)
    (h : w.r.aiocb = some acb) (hcc : w.bs.cancel_completes = some ret) :
    scsi_cancel_io w =
      { run_callback acb.cb (w.emit (.bdrv_aio_cancel acb)) ret with
        r := { (run_callback acb.cb (w.emit (.bdrv_aio_cancel acb)) ret).r with
          aiocb := none,
          refcount := (run_callback acb.cb (w.emit (.bdrv_aio_cancel acb)) ret).r.refcount - 1 } }
    := by
  have hcc2 : (w.emit (.bdrv_aio_cancel acb)).bs.cancel_completes = some ret := hcc
  unfold scsi_cancel_io
  rw [h]
  simp only [bdrv_aio_cancel, hcc2, scsi_req_unref]

/-- Cancelling a request sets the flag, clears the handle and releases one
reference exactly when a handle was outstanding, whether or not the backend
completes the operation inside the cancel: the callback finds the flag set
and releases nothing. -/
theorem cancel_request_effect (w : World) :
    (cancel_request w).r.io_canceled = true ∧ (cancel_request w).r.aiocb = none ∧
    (cancel_request w).r.refcount = w.r.refcount - (if w.r.aiocb.isSome then 1 else 0) ∧
    (w.bs.cancel_completes = none → (cancel_request w).bs = w.bs) := by
  unfold cancel_request
  generalize hv : ({ w with r := { w.r with io_canceled := true } } : World) = v
  have hio : v.r.io_canceled = true := by rw [← hv]
  have hai : v.r.aiocb = w.r.aiocb := by rw [← hv]
  have hrc : v.r.refcount = w.r.refcount := by rw [← hv]
  have hbs : v.bs = w.bs := by rw [← hv]
  cases h : w.r.aiocb with
  | none =>
    rw [scsi_cancel_io_none v (hai.trans h)]
    exact ⟨hio, hai.trans h, by simp [hrc], fun _ => hbs⟩
  | some acb =>
    cases hcc : w.bs.cancel_completes with
    | none =>
      rw [scsi_cancel_io_plain v acb (hai.trans h) (by rw [hbs]; exact hcc)]
      exact ⟨hio, rfl, by simp [hrc], fun _ => hbs⟩
    | some ret =>
      obtain ⟨c1, c2⟩ := run_callback_cancelled acb.cb
        (v.emit (.bdrv_aio_cancel acb)) ret hio
      rw [scsi_cancel_io_completes v acb ret (hai.trans h) (by rw [hbs]; exact hcc)]
      refine ⟨c2, rfl, ?_, fun hn => by simp at hn⟩
      simp only [Option.isSome_some, if_true]
      rw [c1]
      exact congrArg (fun x => x - 1) hrc

/-! ## The references of a request, step by step -/

/-- The references of a request, one step at a time. On a live
request (`io_canceled` clear), `scsi_read_data`, `scsi_write_data` and
SYNCHRONIZE CACHE either end with the reference count they found and nothing
submitted, or with one more reference and exactly one operation submitted;
every completion callback, on every exit path, either releases one reference
and submits nothing, or keeps the count and hands the reference to the one
operation it submits. Cancelling (`io_canceled` set, then `scsi_cancel_io`)
releases one reference exactly when a handle is outstanding and clears the
handle; and on a cancelled request no completion callback releases a
reference. -/
theorem reference_released_once (w : World) (ret : Int) :
    (w.r.io_canceled = false →
      (∀ v, (v = scsi_read_data w ∨ v = scsi_write_data w ∨
            (cdb w.r.cmd.buf 0 = SYNCHRONIZE_CACHE ∧ v = (scsi_send_command w).1)) →
        ((v.r.refcount = w.r.refcount ∧ submits_none w v) ∨
          (v.r.refcount = w.r.refcount + 1 ∧ submits_one w v)) ∧
        v.r.io_canceled = false) ∧
      (∀ cb : Callback,
        (((run_callback cb w ret).r.refcount = w.r.refcount - 1 ∧
            submits_none w (run_callback cb w ret)) ∨
          ((run_callback cb w ret).r.refcount = w.r.refcount ∧
            submits_one w (run_callback cb w ret))) ∧
        (run_callback cb w ret).r.io_canceled = false)) ∧
    ((cancel_request w).r.io_canceled = true ∧ (cancel_request w).r.aiocb = none ∧
      (cancel_request w).r.refcount = w.r.refcount - (if w.r.aiocb.isSome then 1 else 0) ∧
      (w.bs.cancel_completes = none → (cancel_request w).bs = w.bs)) ∧
    (w.r.io_canceled = true →
      ∀ cb : Callback, (run_callback cb w ret).r.refcount = w.r.refcount ∧
        (run_callback cb w ret).r.io_canceled = true) := by
  refine ⟨fun hc => ⟨?_, fun cb => run_callback_live cb w ret hc⟩, cancel_request_effect w,
    fun hc cb => run_callback_cancelled cb w ret hc⟩
  rintro v (rfl | rfl | ⟨hop, rfl⟩)
  · exact read_data_live w hc
  · exact write_data_live w hc
  · exact synchronize_cache_live w hop hc

/-- The reference count of a READ(10) of one block on `example_disk`.
`scsi_read_data` takes one reference for the read it submits (2 references),
the completion releases it (1); if the request is cancelled instead,
`scsi_cancel_io` releases it (1) and the late completion releases nothing
(still 1). -/
theorem reference_count_example :
    (scsi_send_command (example_world cmd_read10_one)).1.r.refcount = 1 ∧
    (scsi_read_data (scsi_send_command (example_world cmd_read10_one)).1).r.refcount = 2 ∧
    (backend_complete
      (scsi_read_data (scsi_send_command (example_world cmd_read10_one)).1) 0).r.refcount = 1 ∧
    (cancel_request
      (scsi_read_data (scsi_send_command (example_world cmd_read10_one)).1)).r.refcount = 1 ∧
    (scsi_read_complete (cancel_request
      (scsi_read_data (scsi_send_command (example_world cmd_read10_one)).1)) 0).r.refcount
      = 1 := by
  refine ⟨?_, ?_, ?_, ?_, ?_⟩ <;> decide

/-! ## C13: migration of a request -/

set_option maxRecDepth 100000 in
/-- C13 (code bug): a WRITE(10) with FUA whose last write has completed and
whose flush failed under the stop policy waits for its retry with direction
TO_DEV, `sector = 1`, `sector_count = 0`, `buflen = 131072` and 512 bytes in
its iovec. `scsi_disk_save_request` writes the 16 bytes of the three counters
and the 512 buffer bytes. `scsi_disk_load_request` on a fresh request of the
same command and retry flag restores the three counters, but
`scsi_init_iovec` computes the iovec length from `sector_count` (0), so the
restored `iov_len` is 0, no buffer byte is read and 512 bytes of the request
are left in the stream. -/
theorem save_load_loses_write_buffer :
    world_flush_retry.r.cmd.mode = .SCSI_XFER_TO_DEV ∧
    world_flush_retry.r.retry = true ∧ world_flush_retry.r.status = -1 ∧
    world_flush_retry.r.sector = 1 ∧ world_flush_retry.r.sector_count = 0 ∧
    world_flush_retry.r.buflen = 131072 ∧ world_flush_retry.r.iov_len = 512 ∧
    world_load_retry.r.cmd = world_flush_retry.r.cmd ∧
    world_load_retry.r.retry = world_flush_retry.r.retry ∧
    (scsi_disk_save_request [] world_flush_retry.r).length = 16 + 512 ∧
    (scsi_disk_load_request world_load_retry
      (scsi_disk_save_request [] world_flush_retry.r)).1.r.sector = 1 ∧
    (scsi_disk_load_request world_load_retry
      (scsi_disk_save_request [] world_flush_retry.r)).1.r.sector_count = 0 ∧
    (scsi_disk_load_request world_load_retry
      (scsi_disk_save_request [] world_flush_retry.r)).1.r.buflen = 131072 ∧
    (scsi_disk_load_request world_load_retry
      (scsi_disk_save_request [] world_flush_retry.r)).1.r.iov_len = 0 ∧
    (scsi_disk_load_request world_load_retry
      (scsi_disk_save_request [] world_flush_retry.r)).2.length = 512 := by
  refine ⟨?_, ?_, ?_, ?_, ?_, ?_, ?_, ?_, ?_, ?_, ?_, ?_, ?_, ?_, ?_⟩ <;> decide

/-! ## The cases of the emulation switch -/

theorem emulate_switch_inquiry (w : World) (o : Buf) (h : cdb w.r.cmd.buf 0 = INQUIRY) :
    scsi_disk_emulate_switch w o =
      EmuCase.ofLen w (scsi_disk_emulate_inquiry w.s w.bs w.r.cmd o).1
        (scsi_disk_emulate_inquiry w.s w.bs w.r.cmd o).2 := by
  simp only [scsi_disk_emulate_switch, h]
  simp only [TEST_UNIT_READY, INQUIRY, MODE_SENSE, MODE_SENSE_10, READ_TOC, RESERVE,
    RESERVE_10, RELEASE, RELEASE_10, START_STOP, ALLOW_MEDIUM_REMOVAL, READ_CAPACITY_10,
    REQUEST_SENSE, MECHANISM_STATUS, GET_CONFIGURATION, GET_EVENT_STATUS_NOTIFICATION,
    READ_DISC_INFORMATION, READ_DVD_STRUCTURE, SERVICE_ACTION_IN_16, Nat.reduceEqDiff,
    if_false, if_true, or_self, or_false, false_or]

theorem emulate_switch_read_capacity_10 (w : World) (o : Buf)
    (h : cdb w.r.cmd.buf 0 = READ_CAPACITY_10) :
    scsi_disk_emulate_switch w o = scsi_disk_emulate_read_capacity_10 w o := by
  simp only [scsi_disk_emulate_switch, h]
  simp only [TEST_UNIT_READY, INQUIRY, MODE_SENSE, MODE_SENSE_10, READ_TOC, RESERVE,
    RESERVE_10, RELEASE, RELEASE_10, START_STOP, ALLOW_MEDIUM_REMOVAL, READ_CAPACITY_10,
    REQUEST_SENSE, MECHANISM_STATUS, GET_CONFIGURATION, GET_EVENT_STATUS_NOTIFICATION,
    READ_DISC_INFORMATION, READ_DVD_STRUCTURE, SERVICE_ACTION_IN_16, Nat.reduceEqDiff,
    if_false, if_true, or_self, or_false, false_or]

theorem emulate_switch_service_action_in_16 (w : World) (o : Buf)
    (h : cdb w.r.cmd.buf 0 = SERVICE_ACTION_IN_16) :
    scsi_disk_emulate_switch w o = scsi_disk_emulate_service_action_in_16 w o := by
  simp only [scsi_disk_emulate_switch, h]
  simp only [TEST_UNIT_READY, INQUIRY, MODE_SENSE, MODE_SENSE_10, READ_TOC, RESERVE,
    RESERVE_10, RELEASE, RELEASE_10, START_STOP, ALLOW_MEDIUM_REMOVAL, READ_CAPACITY_10,
    REQUEST_SENSE, MECHANISM_STATUS, GET_CONFIGURATION, GET_EVENT_STATUS_NOTIFICATION,
    READ_DISC_INFORMATION, READ_DVD_STRUCTURE, SERVICE_ACTION_IN_16, Nat.reduceEqDiff,
    if_false, if_true, or_self, or_false, false_or]

/-- The low byte of a value. -/
theorem and_ff (n : Nat) : n &&& 0xff = n % 256 := by
  have h := Nat.and_pow_two_sub_one_eq_mod n 8
  norm_num at h
  exact h

/-! ## C14: READ CAPACITY(10) -/

/-- The bytes `read_capacity_10_data` stores. -/
theorem read_capacity_10_data_bytes (s : SCSIDiskState) (o : Buf) (nb : Nat) :
    read_capacity_10_data s o nb 0 = min nb 0xFFFFFFFF / 2 ^ 24 % 256 ∧
    read_capacity_10_data s o nb 1 = min nb 0xFFFFFFFF / 2 ^ 16 % 256 ∧
    read_capacity_10_data s o nb 2 = min nb 0xFFFFFFFF / 2 ^ 8 % 256 ∧
    read_capacity_10_data s o nb 3 = min nb 0xFFFFFFFF % 256 ∧
    read_capacity_10_data s o nb 4 = 0 ∧ read_capacity_10_data s o nb 5 = 0 ∧
    read_capacity_10_data s o nb 6 = s.blocksize / 2 ^ 8 % 256 ∧
    read_capacity_10_data s o nb 7 = 0 := by
  have hm : (if nb > 0xFFFFFFFF then 0xFFFFFFFF else nb) = min nb 0xFFFFFFFF := by
    split_ifs with h
    · exact (Nat.min_eq_right (Nat.le_of_lt h)).symm
    · exact (Nat.min_eq_left (Nat.le_of_not_gt h)).symm
  simp only [read_capacity_10_data, hm]
  generalize min nb 0xFFFFFFFF = m
  simp [Buf.set, and_ff, Nat.shiftRight_eq_div_pow]

/-- The macro `MIN` on a length that fits the allocation length. -/
theorem MIN_int_size_of_le (n x : Nat) (hn : n ≤ x) (hx : x < 2 ^ 31) :
    MIN_int_size (n : Int) x = n := by
  unfold MIN_int_size
  have h1 : ((n : Int) % 2 ^ 64).toNat = n := by omega
  rw [h1]
  split_ifs with h
  · rfl
  · have : x = n := by omega
    rw [this, toInt32_of_lt n (by omega)]

/-- READ CAPACITY(10) with LBA zero, on a medium of `nb_sectors ≠ 0`
sectors of 512 bytes and a block size that is a multiple of 512 up to 32768,
with an allocation length of at least 8: with
`blocks = nb_sectors / (blocksize / 512)`, the command stores the uncapped
`blocks - 1` (in 64 bits) in `max_lba`, posts nothing and returns 8 bytes:
bytes 0..3 are `min(blocks - 1, 0xFFFFFFFF)` and bytes 4..7 the block size,
both big-endian. -/
theorem read_capacity_10_payload (w : World)
    (hop : cdb w.r.cmd.buf 0 = READ_CAPACITY_10)
    (hnb : w.bs.nb_sectors ≠ 0) (hnb64 : w.bs.nb_sectors < 2 ^ 64)
    (hbs : 512 ∣ w.s.blocksize) (hbs1 : w.s.blocksize ≤ 32768)
    (hlba : w.r.cmd.lba = 0) (hx : 8 ≤ w.r.cmd.xfer) (hx2 : w.r.cmd.xfer ≤ 65536) :
    (scsi_disk_emulate_command w).2 = 8 ∧
    (scsi_disk_emulate_command w).1.trace = w.trace ∧
    (scsi_disk_emulate_command w).1.s =
      { w.s with max_lba := sub64 (w.bs.nb_sectors / (w.s.blocksize / 512)) 1 } ∧
    (1 ≤ w.bs.nb_sectors / (w.s.blocksize / 512) →
      sub64 (w.bs.nb_sectors / (w.s.blocksize / 512)) 1 =
        w.bs.nb_sectors / (w.s.blocksize / 512) - 1) ∧
    ∃ o, (scsi_disk_emulate_command w).1.r.iov_base = some o ∧
      o 0 = min (sub64 (w.bs.nb_sectors / (w.s.blocksize / 512)) 1) 0xFFFFFFFF / 2 ^ 24 % 256 ∧
      o 1 = min (sub64 (w.bs.nb_sectors / (w.s.blocksize / 512)) 1) 0xFFFFFFFF / 2 ^ 16 % 256 ∧
      o 2 = min (sub64 (w.bs.nb_sectors / (w.s.blocksize / 512)) 1) 0xFFFFFFFF / 2 ^ 8 % 256 ∧
      o 3 = min (sub64 (w.bs.nb_sectors / (w.s.blocksize / 512)) 1) 0xFFFFFFFF % 256 ∧
      o 4 = w.s.blocksize / 2 ^ 24 % 256 ∧ o 5 = w.s.blocksize / 2 ^ 16 % 256 ∧
      o 6 = w.s.blocksize / 2 ^ 8 % 256 ∧ o 7 = w.s.blocksize % 256 := by
  have hne : ¬(w.r.iov_base.isNone ∧ w.r.cmd.xfer > 65536) := fun h => by omega
  obtain ⟨har, hat, hah, has, hab⟩ := emulate_alloc_r w
  have hcmd : (scsi_disk_emulate_alloc w).r.cmd = w.r.cmd := by rw [har]
  have hnc : ¬(cdb w.r.cmd.buf 8 &&& 1 = 0 ∧ w.r.cmd.lba ≠ 0) := fun h => h.2 hlba
  have hmin : MIN_int_size 8 w.r.cmd.xfer = 8 := MIN_int_size_of_le 8 _ hx (by omega)
  have hsub : 1 ≤ w.bs.nb_sectors / (w.s.blocksize / 512) →
      sub64 (w.bs.nb_sectors / (w.s.blocksize / 512)) 1 =
        w.bs.nb_sectors / (w.s.blocksize / 512) - 1 := by
    intro h1
    have hb : w.bs.nb_sectors / (w.s.blocksize / 512) ≤ w.bs.nb_sectors := Nat.div_le_self _ _
    generalize w.bs.nb_sectors / (w.s.blocksize / 512) = blocks at h1 hb ⊢
    unfold sub64
    omega
  generalize hlast : sub64 (w.bs.nb_sectors / (w.s.blocksize / 512)) 1 = last at hsub ⊢
  have hcase : scsi_disk_emulate_switch (scsi_disk_emulate_alloc w)
      ((scsi_disk_emulate_alloc w).r.iov_base.getD (fun _ => 0)) =
      ⟨{ scsi_disk_emulate_alloc w with s := { w.s with max_lba := last } },
       read_capacity_10_data w.s
         (((scsi_disk_emulate_alloc w).r.iov_base.getD (fun _ => 0)).memset 0 0 8) last,
       .brk 8⟩ := by
    rw [emulate_switch_read_capacity_10 _ _ (by rw [hcmd]; exact hop)]
    simp only [scsi_disk_emulate_read_capacity_10, hab, has, hcmd, hnb, hnc, if_false, hlast]
  obtain ⟨b0, b1, b2, b3, b4, b5, b6, b7⟩ := read_capacity_10_data_bytes w.s
    (((scsi_disk_emulate_alloc w).r.iov_base.getD (fun _ => 0)).memset 0 0 8) last
  simp only [scsi_disk_emulate_command, if_neg hne, hcase, hcmd, hmin]
  refine ⟨trivial, hat, trivial, hsub, _, rfl, b0, b1, b2, b3, ?_, ?_, b6, ?_⟩
  · rw [b4]; omega
  · rw [b5]; omega
  · rw [b7]; omega

/-! ## C15: READ CAPACITY(16) -/

/-- The bytes `read_capacity_16_data` stores into a buffer whose first `x`
bytes were zeroed. -/
theorem read_capacity_16_data_bytes (s : SCSIDiskState) (o : Buf) (x nb : Nat) :
    read_capacity_16_data s (o.memset 0 0 x) nb 0 = nb / 2 ^ 56 % 256 ∧
    read_capacity_16_data s (o.memset 0 0 x) nb 1 = nb / 2 ^ 48 % 256 ∧
    read_capacity_16_data s (o.memset 0 0 x) nb 2 = nb / 2 ^ 40 % 256 ∧
    read_capacity_16_data s (o.memset 0 0 x) nb 3 = nb / 2 ^ 32 % 256 ∧
    read_capacity_16_data s (o.memset 0 0 x) nb 4 = nb / 2 ^ 24 % 256 ∧
    read_capacity_16_data s (o.memset 0 0 x) nb 5 = nb / 2 ^ 16 % 256 ∧
    read_capacity_16_data s (o.memset 0 0 x) nb 6 = nb / 2 ^ 8 % 256 ∧
    read_capacity_16_data s (o.memset 0 0 x) nb 7 = nb % 256 ∧
    read_capacity_16_data s (o.memset 0 0 x) nb 8 = 0 ∧
    read_capacity_16_data s (o.memset 0 0 x) nb 9 = 0 ∧
    read_capacity_16_data s (o.memset 0 0 x) nb 10 = s.blocksize / 2 ^ 8 % 256 ∧
    read_capacity_16_data s (o.memset 0 0 x) nb 11 = 0 ∧
    read_capacity_16_data s (o.memset 0 0 x) nb 12 = 0 ∧
    read_capacity_16_data s (o.memset 0 0 x) nb 13 = s.conf.physical_block_exp % 256 ∧
    (s.conf.discard_granularity ≠ 0 →
      read_capacity_16_data s (o.memset 0 0 x) nb 14 = 0x80) ∧
    (s.conf.discard_granularity = 0 → 14 < x →
      read_capacity_16_data s (o.memset 0 0 x) nb 14 = 0) ∧
    (∀ i, 15 ≤ i → i < x → read_capacity_16_data s (o.memset 0 0 x) nb i = 0) := by
  by_cases hd : s.conf.discard_granularity = 0
  · simp only [read_capacity_16_data, hd, ne_eq, not_true_eq_false, if_false]
    refine ⟨?_, ?_, ?_, ?_, ?_, ?_, ?_, ?_, ?_, ?_, ?_, ?_, ?_, ?_, ?_, ?_, ?_⟩ <;>
      try simp [Buf.set, and_ff, Nat.shiftRight_eq_div_pow]
    · intro h; simp [Buf.memset, h]
    · intro i h1 h2
      have : i ≠ 13 ∧ i ≠ 12 ∧ i ≠ 11 ∧ i ≠ 10 ∧ i ≠ 9 ∧ i ≠ 8 ∧ i ≠ 7 ∧ i ≠ 6 ∧ i ≠ 5 ∧
          i ≠ 4 ∧ i ≠ 3 ∧ i ≠ 2 ∧ i ≠ 1 ∧ i ≠ 0 := by omega
      simp [Buf.set, Buf.memset, this, h2]
  · simp only [read_capacity_16_data, hd, ne_eq, not_false_eq_true, if_true]
    refine ⟨?_, ?_, ?_, ?_, ?_, ?_, ?_, ?_, ?_, ?_, ?_, ?_, ?_, ?_, ?_, ?_, ?_⟩ <;>
      try simp [Buf.set, and_ff, Nat.shiftRight_eq_div_pow]
    · intro i h1 h2
      have : i ≠ 14 ∧ i ≠ 13 ∧ i ≠ 12 ∧ i ≠ 11 ∧ i ≠ 10 ∧ i ≠ 9 ∧ i ≠ 8 ∧ i ≠ 7 ∧ i ≠ 6 ∧
          i ≠ 5 ∧ i ≠ 4 ∧ i ≠ 3 ∧ i ≠ 2 ∧ i ≠ 1 ∧ i ≠ 0 := by omega
      simp [Buf.set, Buf.memset, this, h2]

/-- SERVICE ACTION IN(16) with an allocation length of at most 65536.
With service action READ CAPACITY(16), LBA zero, a medium of
`nb_sectors ≠ 0` sectors and a block size that is a multiple of 512 up to
32768: the command stores `blocks - 1` (in 64 bits,
`blocks = nb_sectors / (blocksize / 512)`) in `max_lba`, posts nothing and
returns the allocation length; within that length bytes 0..7 are `blocks - 1`
and bytes 8..11 the block size, big-endian, byte 13 is `physical_block_exp`,
byte 14 is 0x80 when `discard_granularity` is non-zero and 0 otherwise, and
every other byte is 0. With any other service action, a request without
status completes with CHECK_CONDITION and INVALID_FIELD, the command returns
-1 and the device is unchanged. -/
theorem service_action_in_16_payload (w : World)
    (hop : cdb w.r.cmd.buf 0 = SERVICE_ACTION_IN_16) (hx2 : w.r.cmd.xfer ≤ 65536) :
    (cdb w.r.cmd.buf 1 &&& 31 = SAI_READ_CAPACITY_16 →
      w.bs.nb_sectors ≠ 0 → w.bs.nb_sectors < 2 ^ 64 →
      512 ∣ w.s.blocksize → w.s.blocksize ≤ 32768 → w.s.conf.physical_block_exp < 256 →
      w.r.cmd.lba = 0 →
      (scsi_disk_emulate_command w).2 = w.r.cmd.xfer ∧
      (scsi_disk_emulate_command w).1.trace = w.trace ∧
      (scsi_disk_emulate_command w).1.s =
        { w.s with max_lba := sub64 (w.bs.nb_sectors / (w.s.blocksize / 512)) 1 } ∧
      (1 ≤ w.bs.nb_sectors / (w.s.blocksize / 512) →
        sub64 (w.bs.nb_sectors / (w.s.blocksize / 512)) 1 =
          w.bs.nb_sectors / (w.s.blocksize / 512) - 1) ∧
      ∃ o, (scsi_disk_emulate_command w).1.r.iov_base = some o ∧
        (∀ i, i < 8 → o i =
          sub64 (w.bs.nb_sectors / (w.s.blocksize / 512)) 1 / 2 ^ (8 * (7 - i)) % 256) ∧
        (∀ i, 8 ≤ i → i < 12 → o i = w.s.blocksize / 2 ^ (8 * (11 - i)) % 256) ∧
        o 13 = w.s.conf.physical_block_exp ∧
        (w.s.conf.discard_granularity ≠ 0 → o 14 = 0x80) ∧
        (w.s.conf.discard_granularity = 0 → 14 < w.r.cmd.xfer → o 14 = 0) ∧
        (∀ i, i < w.r.cmd.xfer → i = 12 ∨ 15 ≤ i → o i = 0)) ∧
    (cdb w.r.cmd.buf 1 &&& 31 ≠ SAI_READ_CAPACITY_16 → w.r.status = -1 →
      (scsi_disk_emulate_command w).2 = -1 ∧
      (scsi_disk_emulate_command w).1.trace = w.trace ++
        [.scsi_req_build_sense .INVALID_FIELD, .scsi_req_complete CHECK_CONDITION] ∧
      (scsi_disk_emulate_command w).1.s = w.s) := by
  have hne : ¬(w.r.iov_base.isNone ∧ w.r.cmd.xfer > 65536) := fun h => by omega
  obtain ⟨har, hat, hah, has, hab⟩ := emulate_alloc_r w
  have hcmd : (scsi_disk_emulate_alloc w).r.cmd = w.r.cmd := by rw [har]
  have hstat : (scsi_disk_emulate_alloc w).r.status = w.r.status := by rw [har]
  constructor
  · intro hsa hnb hnb64 hbs hbs1 hpbe hlba
    have hnc : ¬(cdb w.r.cmd.buf 14 &&& 1 = 0 ∧ w.r.cmd.lba ≠ 0) := fun h => h.2 hlba
    have hmin : MIN_int_size (toInt32 w.r.cmd.xfer) w.r.cmd.xfer = w.r.cmd.xfer := by
      rw [toInt32_of_lt _ (by omega)]
      exact MIN_int_size_of_le _ _ (le_refl _) (by omega)
    have hsub : 1 ≤ w.bs.nb_sectors / (w.s.blocksize / 512) →
        sub64 (w.bs.nb_sectors / (w.s.blocksize / 512)) 1 =
          w.bs.nb_sectors / (w.s.blocksize / 512) - 1 := by
      intro h1
      have hb : w.bs.nb_sectors / (w.s.blocksize / 512) ≤ w.bs.nb_sectors :=
        Nat.div_le_self _ _
      generalize w.bs.nb_sectors / (w.s.blocksize / 512) = blocks at h1 hb ⊢
      unfold sub64
      omega
    generalize hlast : sub64 (w.bs.nb_sectors / (w.s.blocksize / 512)) 1 = last at hsub ⊢
    have hcase : scsi_disk_emulate_switch (scsi_disk_emulate_alloc w)
        ((scsi_disk_emulate_alloc w).r.iov_base.getD (fun _ => 0)) =
        ⟨{ scsi_disk_emulate_alloc w with s := { w.s with max_lba := last } },
         read_capacity_16_data w.s
           (((scsi_disk_emulate_alloc w).r.iov_base.getD (fun _ => 0)).memset 0 0
             w.r.cmd.xfer) last,
         .brk (toInt32 w.r.cmd.xfer)⟩ := by
      rw [emulate_switch_service_action_in_16 _ _ (by rw [hcmd]; exact hop)]
      simp only [scsi_disk_emulate_service_action_in_16, hab, has, hcmd, hnb, hnc, hsa,
        if_false, if_true, hlast]
    obtain ⟨b0, b1, b2, b3, b4, b5, b6, b7, b8, b9, b10, b11, b12, b13, b14, b14z, brest⟩ :=
      read_capacity_16_data_bytes w.s
        ((scsi_disk_emulate_alloc w).r.iov_base.getD (fun _ => 0)) w.r.cmd.xfer last
    simp only [scsi_disk_emulate_command, if_neg hne, hcase, hcmd, hmin]
    refine ⟨trivial, hat, trivial, hsub, _, rfl, ?_, ?_, ?_, b14, b14z, ?_⟩
    · intro i hi
      interval_cases i
      · exact b0
      · exact b1
      · exact b2
      · exact b3
      · exact b4
      · exact b5
      · exact b6
      · simpa using b7
    · intro i h1 h2
      interval_cases i
      · rw [b8]; omega
      · rw [b9]; omega
      · exact b10
      · rw [b11]; simp; omega
    · rw [b13]; exact Nat.mod_eq_of_lt hpbe
    · intro i hi h
      rcases h with rfl | h
      · exact b12
      · exact brest i h hi
  · intro hsa hst
    have hcase : scsi_disk_emulate_switch (scsi_disk_emulate_alloc w)
        ((scsi_disk_emulate_alloc w).r.iov_base.getD (fun _ => 0)) =
        ⟨scsi_disk_emulate_alloc w, (scsi_disk_emulate_alloc w).r.iov_base.getD (fun _ => 0),
         .illegal_request⟩ := by
      rw [emulate_switch_service_action_in_16 _ _ (by rw [hcmd]; exact hop)]
      simp only [scsi_disk_emulate_service_action_in_16, hcmd, hsa, if_false]
    simp only [scsi_disk_emulate_command, if_neg hne, hcase, hstat, hst, if_true]
    simp [scsi_check_condition, scsi_req_complete, scsi_req_build_sense, World.emit, hat, has]

/-- READ CAPACITY(10) at a concrete input: 2048-byte blocks and 1,000,000 sectors give the
payload 00 03 D0 8F 00 00 08 00 and `max_lba = 249999`. -/
theorem read_capacity_10_payload_witness :
    (scsi_disk_emulate_command (world_capacity_2048 cmd_read_capacity_10)).2 = 8 ∧
    (scsi_disk_emulate_command (world_capacity_2048 cmd_read_capacity_10)).1.s.max_lba
      = 249999 ∧
    ∃ o, (scsi_disk_emulate_command (world_capacity_2048 cmd_read_capacity_10)).1.r.iov_base
        = some o ∧
      [o 0, o 1, o 2, o 3, o 4, o 5, o 6, o 7] = [0x00, 0x03, 0xD0, 0x8F, 0x00, 0x00, 0x08, 0x00] := by
  obtain ⟨h1, _, h3, _, o, ho, b0, b1, b2, b3, b4, b5, b6, b7⟩ :=
    read_capacity_10_payload (world_capacity_2048 cmd_read_capacity_10) (by decide)
      (by decide) (by decide) (by decide) (by decide) (by decide) (by decide) (by decide)
  refine ⟨h1, by rw [h3]; decide, o, ho, ?_⟩
  rw [b0, b1, b2, b3, b4, b5, b6, b7]
  decide

/-- READ CAPACITY(16) at a concrete input: 2048-byte blocks and 1,000,000 sectors, with an
allocation length of 32, give `max_lba = 249999`, a payload of 32 bytes and
the last block address in bytes 0..7. -/
theorem service_action_in_16_payload_witness :
    (scsi_disk_emulate_command (world_capacity_2048 cmd_read_capacity_16)).2 = 32 ∧
    (scsi_disk_emulate_command (world_capacity_2048 cmd_read_capacity_16)).1.s.max_lba
      = 249999 ∧
    ∃ o, (scsi_disk_emulate_command (world_capacity_2048 cmd_read_capacity_16)).1.r.iov_base
        = some o ∧
      [o 0, o 1, o 2, o 3, o 4, o 5, o 6, o 7] = [0, 0, 0, 0, 0x00, 0x03, 0xD0, 0x8F] ∧
      [o 8, o 9, o 10, o 11, o 12, o 13, o 14, o 15] = [0, 0, 0x08, 0, 0, 0, 0, 0] := by
  obtain ⟨h1, _, h3, _, o, ho, b0, b8, b13, _, b14, br⟩ :=
    (service_action_in_16_payload (world_capacity_2048 cmd_read_capacity_16) (by decide)
      (by decide)).1 (by decide) (by decide) (by decide) (by decide) (by decide) (by decide)
      (by decide)
  refine ⟨h1, by rw [h3]; decide, o, ho, ?_, ?_⟩
  · rw [b0 0 (by decide), b0 1 (by decide), b0 2 (by decide), b0 3 (by decide),
      b0 4 (by decide), b0 5 (by decide), b0 6 (by decide), b0 7 (by decide)]
    decide
  · rw [b8 8 (by decide) (by decide), b8 9 (by decide) (by decide),
      b8 10 (by decide) (by decide), b8 11 (by decide) (by decide), b13,
      b14 (by decide) (by decide), br 12 (by decide) (Or.inl rfl),
      br 15 (by decide) (Or.inr (by decide))]
    decide

/-! ## C16, C17: standard INQUIRY -/

theorem cstr_vendor : cstr "QEMU    " = [81, 69, 77, 85, 32, 32, 32, 32] := by decide

theorem cstr_cdrom : cstr "QEMU CD-ROM     " =
    [81, 69, 77, 85, 32, 67, 68, 45, 82, 79, 77, 32, 32, 32, 32, 32] := by decide

theorem cstr_harddisk : cstr "QEMU HARDDISK   " =
    [81, 69, 77, 85, 32, 72, 65, 82, 68, 68, 73, 83, 75, 32, 32, 32] := by decide

/-- The standard INQUIRY data, for a request with EVPD clear, page code 0 and
an allocation length that fits an `int`. -/
theorem inquiry_standard (s : SCSIDiskState) (bs : BlockBackend) (cmd : SCSICommand)
    (outbuf : Buf) (hevpd : cdb cmd.buf 1 &&& 0x1 = 0) (hpc : cdb cmd.buf 2 = 0)
    (hx : cmd.xfer < 2 ^ 31) :
    scsi_disk_emulate_inquiry s bs cmd outbuf =
      (((min cmd.xfer 256 : Nat) : Int),
       Buf.set (Buf.set (Buf.set (Buf.set (Buf.memcpy (Buf.memset (Buf.memcpy (Buf.memcpy
         (Buf.set (Buf.set (Buf.memset outbuf 0 0 (min cmd.xfer 256)) 0 (s.type &&& 0x1f)) 1
           (if s.features &&& (1 <<< SCSI_DISK_F_REMOVABLE) ≠ 0 then 0x80 else 0))
         16 (if s.type = TYPE_ROM then cstr "QEMU CD-ROM     " else cstr "QEMU HARDDISK   "))
         8 (cstr "QEMU    ")) 32 0 4) 32 (s.version.take (min 4 s.version.length)))
         2 5) 3 2) 4 (max (min cmd.xfer 256) 36 - 5))
         7 (0x10 ||| (if s.tcq then 0x02 else 0))) := by
  have e1 : ¬ (cdb cmd.buf 1 &&& 0x1 ≠ 0) := by simp [hevpd]
  have e2 : ¬ (cdb cmd.buf 2 ≠ 0) := by simp [hpc]
  have hbl : toInt32 cmd.xfer = cmd.xfer := toInt32_of_lt _ hx
  have hb : (if (cmd.xfer : Int) > (SCSI_MAX_INQUIRY_LEN : Nat)
      then ((SCSI_MAX_INQUIRY_LEN : Nat) : Int) else (cmd.xfer : Int)) =
      ((min cmd.xfer 256 : Nat) : Int) := by
    unfold SCSI_MAX_INQUIRY_LEN
    split_ifs <;> omega
  simp only [scsi_disk_emulate_inquiry, if_neg e1, if_neg e2, hbl, hb]
  have hm256 : min cmd.xfer 256 ≤ 256 := Nat.min_le_right _ _
  generalize min cmd.xfer 256 = m at hm256 ⊢
  have h64 : ((m : Int) % 2 ^ 64).toNat = m := by omega
  rw [h64]
  by_cases hr : s.type = TYPE_ROM <;> by_cases h36 : (m : Int) > 36
  · have hm : max m 36 - 5 = ((m : Int) - 5).toNat := by omega
    simp only [hr, h36, if_true, hm]
  · have hm : max m 36 - 5 = 36 - 5 := by omega
    simp only [hr, h36, if_true, if_false, hm]
  · have hm : max m 36 - 5 = ((m : Int) - 5).toNat := by omega
    simp only [hr, h36, if_true, if_false, hm]
  · have hm : max m 36 - 5 = 36 - 5 := by omega
    simp only [hr, h36, if_false, hm]

/-- Reading a prefix. -/
theorem getD_take (l : List Nat) (n i : Nat) (h : i < n) :
    (l.take n).getD i 0 = l.getD i 0 := by
  simp [List.getD_eq_getElem?_getD, List.getElem?_take, h]

/-- C16: the standard INQUIRY data (EVPD clear, CDB byte 2 zero) for an
allocation length of at least 36: byte 0 is the device type in 5 bits, byte
1 is 0x80 when the REMOVABLE feature is set and 0 otherwise, byte 2 is 5,
byte 3 is 2, bytes 5 and 6 are 0, byte 7 is `0x10 | (tcq ? 0x02 : 0)`, bytes
8..15 are "QEMU    ", bytes 16..31 are "QEMU CD-ROM     " for a ROM device
and "QEMU HARDDISK   " otherwise, and bytes 32..35 are the first
`min(4, length)` characters of the version string followed by zero bytes. -/
theorem standard_inquiry_data (s : SCSIDiskState) (bs : BlockBackend) (cmd : SCSICommand)
    (outbuf : Buf) (hevpd : cdb cmd.buf 1 &&& 0x1 = 0) (hpc : cdb cmd.buf 2 = 0)
    (hx36 : 36 ≤ cmd.xfer) (hx : cmd.xfer < 2 ^ 31) :
    (scsi_disk_emulate_inquiry s bs cmd outbuf).2 0 = s.type &&& 0x1f ∧
    (scsi_disk_emulate_inquiry s bs cmd outbuf).2 1 =
      (if s.features &&& (1 <<< SCSI_DISK_F_REMOVABLE) ≠ 0 then 0x80 else 0) ∧
    (scsi_disk_emulate_inquiry s bs cmd outbuf).2 2 = 5 ∧
    (scsi_disk_emulate_inquiry s bs cmd outbuf).2 3 = 2 ∧
    (scsi_disk_emulate_inquiry s bs cmd outbuf).2 5 = 0 ∧
    (scsi_disk_emulate_inquiry s bs cmd outbuf).2 6 = 0 ∧
    (scsi_disk_emulate_inquiry s bs cmd outbuf).2 7 = (0x10 ||| (if s.tcq then 0x02 else 0)) ∧
    (∀ i, i < 8 →
      (scsi_disk_emulate_inquiry s bs cmd outbuf).2 (8 + i) = (cstr "QEMU    ").getD i 0) ∧
    (∀ i, i < 16 →
      (scsi_disk_emulate_inquiry s bs cmd outbuf).2 (16 + i) =
        (if s.type = TYPE_ROM then cstr "QEMU CD-ROM     "
          else cstr "QEMU HARDDISK   ").getD i 0) ∧
    (∀ i, i < 4 →
      (scsi_disk_emulate_inquiry s bs cmd outbuf).2 (32 + i) =
        if i < s.version.length then s.version.getD i 0 % 256 else 0) := by
  rw [inquiry_standard s bs cmd outbuf hevpd hpc hx]
  have hm : 36 ≤ min cmd.xfer 256 := by omega
  generalize min cmd.xfer 256 = m at hm ⊢
  have ht : (s.type &&& 0x1f) % 256 = s.type &&& 0x1f :=
    Nat.mod_eq_of_lt (lt_of_le_of_lt Nat.and_le_right (by decide))
  generalize s.type &&& 0x1f = ty at ht ⊢
  have hrmb : (if s.features &&& (1 <<< SCSI_DISK_F_REMOVABLE) ≠ 0 then 0x80 else 0) % 256 =
      (if s.features &&& (1 <<< SCSI_DISK_F_REMOVABLE) ≠ 0 then 0x80 else 0) := by
    split_ifs <;> rfl
  generalize (if s.features &&& (1 <<< SCSI_DISK_F_REMOVABLE) ≠ 0 then 0x80 else 0) = rmb
    at hrmb ⊢
  have htb : (0x10 ||| (if s.tcq then 0x02 else 0)) % 256 =
      (0x10 ||| (if s.tcq then 0x02 else 0)) := by
    cases s.tcq <;> rfl
  generalize (0x10 ||| (if s.tcq then 0x02 else 0)) = tb at htb ⊢
  refine ⟨?_, ?_, ?_, ?_, ?_, ?_, ?_, ?_, ?_, ?_⟩
  · simp [Buf.set, Buf.memcpy, Buf.memset, ht]
  · simp [Buf.set, Buf.memcpy, Buf.memset, hrmb]
  · simp [Buf.set]
  · simp [Buf.set]
  · have : 5 < m := by omega
    simp [Buf.set, Buf.memcpy, Buf.memset, this]
  · have : 6 < m := by omega
    simp [Buf.set, Buf.memcpy, Buf.memset, this]
  · simp [Buf.set, htb]
  · intro i hi
    interval_cases i <;> simp [Buf.set, Buf.memcpy, Buf.memset, cstr_vendor]
  · intro i hi
    by_cases hr : s.type = TYPE_ROM
    · simp only [hr, if_true]
      interval_cases i <;> simp [Buf.set, Buf.memcpy, Buf.memset, cstr_vendor, cstr_cdrom]
    · simp only [hr, if_false]
      interval_cases i <;> simp [Buf.set, Buf.memcpy, Buf.memset, cstr_vendor, cstr_harddisk]
  · intro i hi
    have h1 : (List.take (min 4 s.version.length) s.version).length = min 4 s.version.length := by
      simp
    by_cases hl : i < s.version.length
    · have h2 : i < min 4 s.version.length := by omega
      simp only [Buf.set, Buf.memcpy, Buf.memset, h1, hl, if_true]
      have e : (32 ≤ 32 + i ∧ 32 + i < 32 + min 4 s.version.length) := by omega
      simp only [show ¬ (32 + i = 7) by omega, show ¬ (32 + i = 4) by omega,
        show ¬ (32 + i = 3) by omega, show ¬ (32 + i = 2) by omega, if_false, e, and_self,
        if_true, Nat.add_sub_cancel_left]
      rw [getD_take _ _ _ h2]
    · have h2 : ¬ i < min 4 s.version.length := by omega
      have e : ¬ (32 ≤ 32 + i ∧ 32 + i < 32 + min 4 s.version.length) := by omega
      have e2 : (32 ≤ 32 + i ∧ 32 + i < 32 + 4) := by omega
      simp only [Buf.set, Buf.memcpy, Buf.memset, h1, hl, if_false]
      have e3 : ¬ (32 + i < 32 + min 4 s.version.length) := by omega
      simp only [show ¬ (32 + i = 7) by omega, show ¬ (32 + i = 4) by omega,
        show ¬ (32 + i = 3) by omega, show ¬ (32 + i = 2) by omega, if_false, e, e2, e3,
        and_self, and_false, true_and, if_true, Nat.zero_mod]

/-- C16 at a concrete input: a hard disk with version "1.5.0" and the CDB
12 00 00 00 24 00 give 00 00 05 02 .. 00 00 10, "QEMU    ",
"QEMU HARDDISK   " and "1.5.". -/
theorem standard_inquiry_data_witness :
    [(scsi_disk_emulate_inquiry example_disk example_backend cmd_inquiry_36 (fun _ => 0)).2 0,
     (scsi_disk_emulate_inquiry example_disk example_backend cmd_inquiry_36 (fun _ => 0)).2 1,
     (scsi_disk_emulate_inquiry example_disk example_backend cmd_inquiry_36 (fun _ => 0)).2 2,
     (scsi_disk_emulate_inquiry example_disk example_backend cmd_inquiry_36 (fun _ => 0)).2 3,
     (scsi_disk_emulate_inquiry example_disk example_backend cmd_inquiry_36 (fun _ => 0)).2 5,
     (scsi_disk_emulate_inquiry example_disk example_backend cmd_inquiry_36 (fun _ => 0)).2 6,
     (scsi_disk_emulate_inquiry example_disk example_backend cmd_inquiry_36 (fun _ => 0)).2 7]
      = [0x00, 0x00, 0x05, 0x02, 0x00, 0x00, 0x10] ∧
    (List.range 4).map (fun i =>
      (scsi_disk_emulate_inquiry example_disk example_backend cmd_inquiry_36
        (fun _ => 0)).2 (32 + i)) = cstr "1.5." := by
  obtain ⟨b0, b1, b2, b3, b5, b6, b7, _, _, bv⟩ :=
    standard_inquiry_data example_disk example_backend cmd_inquiry_36 (fun _ => 0)
      (by decide) (by decide) (by decide) (by decide)
  refine ⟨?_, ?_⟩
  · rw [b0, b1, b2, b3, b5, b6, b7]
    decide
  · simp only [List.range, List.range.loop, List.map]
    rw [bv 0 (by decide), bv 1 (by decide), bv 2 (by decide), bv 3 (by decide)]
    decide

/-! ## C17 -/

/-- C17 (as amended): for every allocation length of a standard INQUIRY (EVPD
clear, CDB byte 2 zero, length up to 65535), the function returns
`min(requested, 256)` and sets the additional-length byte 4 to
`max(min(requested, 256), 36) - 5`; this is `max(requested, 36) - 5` for
lengths up to 256. -/
theorem standard_inquiry_length (s : SCSIDiskState) (bs : BlockBackend) (cmd : SCSICommand)
    (outbuf : Buf) (hevpd : cdb cmd.buf 1 &&& 0x1 = 0) (hpc : cdb cmd.buf 2 = 0)
    (hx : cmd.xfer ≤ 65535) :
    (scsi_disk_emulate_inquiry s bs cmd outbuf).1 = ((min cmd.xfer 256 : Nat) : Int) ∧
    (scsi_disk_emulate_inquiry s bs cmd outbuf).2 4 = max (min cmd.xfer 256) 36 - 5 ∧
    (cmd.xfer ≤ 256 →
      (scsi_disk_emulate_inquiry s bs cmd outbuf).2 4 = max cmd.xfer 36 - 5) := by
  rw [inquiry_standard s bs cmd outbuf hevpd hpc (by omega)]
  have h4 : (max (min cmd.xfer 256) 36 - 5) % 256 = max (min cmd.xfer 256) 36 - 5 := by omega
  refine ⟨rfl, ?_, ?_⟩
  · simp only [Buf.set]
    simp [h4]
  · intro h
    have h5 : max cmd.xfer 36 - 5 < 256 := by omega
    simp only [Buf.set]
    simp [Nat.min_eq_left h, h5]

/-- C17 at a concrete input: allocation length 36 gives 36 bytes and the
additional length 31. -/
theorem standard_inquiry_length_witness :
    (scsi_disk_emulate_inquiry example_disk example_backend cmd_inquiry_36 (fun _ => 0)).1 = 36 ∧
    (scsi_disk_emulate_inquiry example_disk example_backend cmd_inquiry_36 (fun _ => 0)).2 4
      = 31 := by
  obtain ⟨h1, h2, _⟩ :=
    standard_inquiry_length example_disk example_backend cmd_inquiry_36 (fun _ => 0)
      (by decide) (by decide) (by decide)
  exact ⟨by rw [h1]; decide, by rw [h2]; decide⟩

/-- C17 as stated fails: with the allocation length 300 the standard INQUIRY
returns 256 bytes and the additional-length byte is 251, not
`max(300, 36) - 5 = 295` (nor its low byte 39). -/
theorem standard_inquiry_length_300 :
    cmd_inquiry_300.xfer = 300 ∧
    (scsi_disk_emulate_inquiry example_disk example_backend cmd_inquiry_300 (fun _ => 0)).1
      = 256 ∧
    (scsi_disk_emulate_inquiry example_disk example_backend cmd_inquiry_300 (fun _ => 0)).2 4
      = 251 ∧
    max cmd_inquiry_300.xfer 36 - 5 = 295 ∧ 295 % 256 = 39 := by
  refine ⟨?_, ?_, ?_, ?_, ?_⟩ <;> decide

/-! ## C18: INQUIRY, EVPD page 0x00 -/

/-- C18: INQUIRY with EVPD set and page code 0x00 returns, for every device
configuration, the header `type & 0x1f, 0x00, 0x00, n` followed by the `n`
supported page codes in strictly ascending order: 0x00, then 0x80 exactly
when a serial is configured, then 0x83, then 0xb0 and 0xb2 exactly when the
device type is DISK; the returned length is `4 + n`. -/
theorem inquiry_supported_pages (s : SCSIDiskState) (bs : BlockBackend) (cmd : SCSICommand)
    (outbuf : Buf) (hevpd : cdb cmd.buf 1 &&& 0x1 ≠ 0) (hpc : cdb cmd.buf 2 = 0x00) :
    ∃ pages : List Nat,
      pages = [0x00] ++ (if s.serial.isSome then [0x80] else []) ++ [0x83] ++
        (if s.type = TYPE_DISK then [0xb0, 0xb2] else []) ∧
      pages.Pairwise (fun a b => a < b) ∧
      (scsi_disk_emulate_inquiry s bs cmd outbuf).1 = ((4 + pages.length : Nat) : Int) ∧
      (scsi_disk_emulate_inquiry s bs cmd outbuf).2 0 = s.type &&& 0x1f ∧
      (scsi_disk_emulate_inquiry s bs cmd outbuf).2 1 = 0x00 ∧
      (scsi_disk_emulate_inquiry s bs cmd outbuf).2 2 = 0x00 ∧
      (scsi_disk_emulate_inquiry s bs cmd outbuf).2 3 = pages.length ∧
      (∀ i, i < pages.length →
        (scsi_disk_emulate_inquiry s bs cmd outbuf).2 (4 + i) = pages.getD i 0) := by
  have ht : (s.type &&& 0x1f) % 256 = s.type &&& 0x1f :=
    Nat.mod_eq_of_lt (lt_of_le_of_lt Nat.and_le_right (by decide))
  simp only [scsi_disk_emulate_inquiry, if_pos hevpd, hpc, if_true]
  generalize s.type &&& 0x1f = ty at ht ⊢
  cases hs : s.serial.isSome <;> by_cases hd : s.type = TYPE_DISK
  · refine ⟨_, rfl, ?_, ?_⟩
    · simp [hd]
    · simp only [hd, if_true, Bool.false_eq_true, if_false]
      refine ⟨rfl, ?_, ?_, ?_, ?_, ?_⟩
      · simp [Buf.set, ht]
      · simp [Buf.set]
      · simp [Buf.set]
      · simp [Buf.set]
      · intro i hi
        simp at hi
        interval_cases i <;> simp [Buf.set]
  · refine ⟨_, rfl, ?_, ?_⟩
    · have hd0 : ¬ s.type = 0 := hd
      simp [hd0]
    · simp only [hd, if_true, Bool.false_eq_true, if_false]
      refine ⟨rfl, ?_, ?_, ?_, ?_, ?_⟩
      · simp [Buf.set, ht]
      · simp [Buf.set]
      · simp [Buf.set]
      · simp [Buf.set]
      · intro i hi
        simp at hi
        interval_cases i <;> simp [Buf.set]
  · refine ⟨_, rfl, ?_, ?_⟩
    · simp [hd]
    · simp only [hd, if_true, if_false]
      refine ⟨rfl, ?_, ?_, ?_, ?_, ?_⟩
      · simp [Buf.set, ht]
      · simp [Buf.set]
      · simp [Buf.set]
      · simp [Buf.set]
      · intro i hi
        simp at hi
        interval_cases i <;> simp [Buf.set]
  · refine ⟨_, rfl, ?_, ?_⟩
    · have hd0 : ¬ s.type = 0 := hd
      simp [hd0]
    · simp only [hd, if_true, if_false]
      refine ⟨rfl, ?_, ?_, ?_, ?_, ?_⟩
      · simp [Buf.set, ht]
      · simp [Buf.set]
      · simp [Buf.set]
      · simp [Buf.set]
      · intro i hi
        simp at hi
        interval_cases i <;> simp [Buf.set]

/-- C18 at a concrete input: a hard disk with a serial answers page 0x00
with 00 00 00 05 00 80 83 B0 B2. -/
theorem inquiry_supported_pages_witness :
    (scsi_disk_emulate_inquiry example_disk_serial example_backend (cmd_inquiry_evpd 0)
      (fun _ => 0)).1 = 9 ∧
    (List.range 9).map (fun i =>
      (scsi_disk_emulate_inquiry example_disk_serial example_backend (cmd_inquiry_evpd 0)
        (fun _ => 0)).2 i) = [0x00, 0x00, 0x00, 0x05, 0x00, 0x80, 0x83, 0xb0, 0xb2] := by
  obtain ⟨pages, hp, _, h1, b0, b1, b2, b3, bi⟩ :=
    inquiry_supported_pages example_disk_serial example_backend (cmd_inquiry_evpd 0)
      (fun _ => 0) (by decide) (by decide)
  have hp2 : pages = [0x00, 0x80, 0x83, 0xb0, 0xb2] := by rw [hp]; decide
  subst hp2
  refine ⟨by rw [h1]; decide, ?_⟩
  have c0 := bi 0 (by decide)
  have c1 := bi 1 (by decide)
  have c2 := bi 2 (by decide)
  have c3 := bi 3 (by decide)
  have c4 := bi 4 (by decide)
  simp only [List.range, List.range.loop, List.map]
  rw [b0, b1, b2, b3, c0, c1, c2, c3, c4]
  decide

/-! ## Reading a buffer -/

theorem buf_set_eq (b : Buf) (i v : Nat) : Buf.set b i v i = v % 256 := by
  simp [Buf.set]

theorem buf_set_ne (b : Buf) (i v j : Nat) (h : j ≠ i) : Buf.set b i v j = b j := by
  simp [Buf.set, h]

theorem buf_memcpy_in (b : Buf) (off : Nat) (l : List Nat) (j : Nat) (h1 : off ≤ j)
    (h2 : j < off + l.length) : Buf.memcpy b off l j = l.getD (j - off) 0 % 256 := by
  simp [Buf.memcpy, h1, h2]

theorem buf_memcpy_out (b : Buf) (off : Nat) (l : List Nat) (j : Nat)
    (h : j < off ∨ off + l.length ≤ j) : Buf.memcpy b off l j = b j := by
  have : ¬ (off ≤ j ∧ j < off + l.length) := by omega
  simp [Buf.memcpy, this]

/-- The identifier of page 0x83 and the length of the page, as the code
computes them. -/
theorem inquiry_page_83 (s : SCSIDiskState) (bs : BlockBackend) (cmd : SCSICommand)
    (outbuf : Buf) (hevpd : cdb cmd.buf 1 &&& 0x1 ≠ 0) (hpc : cdb cmd.buf 2 = 0x83)
    (str : List Nat) (max_len : Nat)
    (hstr : str = s.serial.getD bs.device_name)
    (hmax : max_len = if s.serial.isSome then 20 else 247) :
    scsi_disk_emulate_inquiry s bs cmd outbuf = 
      (if s.wwn ≠ 0 then
        (((8 + (str.take max_len).length + 12 : Nat) : Int),
          Buf.set (stq_be_p (Buf.set (Buf.set (Buf.set (Buf.set
            (Buf.memcpy (Buf.set (Buf.set (Buf.set (Buf.set (Buf.set (Buf.set (Buf.set (Buf.set
              outbuf 0 (s.type &&& 0x1f)) 1 0x83) 2 0x00) 3 0x00) 4 0x2) 5 0) 6 0) 7
              (str.take max_len).length) 8 (str.take max_len))
            (8 + (str.take max_len).length) 0x1) (8 + (str.take max_len).length + 1) 0x3)
            (8 + (str.take max_len).length + 2) 0) (8 + (str.take max_len).length + 3) 8)
            (8 + (str.take max_len).length + 4) s.wwn) 3
            (8 + (str.take max_len).length + 12 - 4))
      else
        (((8 + (str.take max_len).length : Nat) : Int),
          Buf.set (Buf.memcpy (Buf.set (Buf.set (Buf.set (Buf.set (Buf.set (Buf.set (Buf.set
            (Buf.set outbuf 0 (s.type &&& 0x1f)) 1 0x83) 2 0x00) 3 0x00) 4 0x2) 5 0) 6 0) 7
            (str.take max_len).length) 8 (str.take max_len)) 3
            (8 + (str.take max_len).length - 4))) := by
  have hl : (if str.length > max_len then max_len else str.length) = (str.take max_len).length := by
    rw [List.length_take]
    split_ifs <;> omega
  have ht : str.take (str.take max_len).length = str.take max_len := by
    rw [List.length_take, List.take_eq_take]
    omega
  cases hser : s.serial with
  | none =>
    simp only [hser, Option.getD_none, Option.isSome_none, Bool.false_eq_true, if_false] at hstr hmax
    simp only [scsi_disk_emulate_inquiry, if_pos hevpd, hpc, hser, Option.isSome_none,
      Bool.false_eq_true, if_false, Nat.reduceSub, ← hstr, ← hmax]
    simp only [Nat.reduceEqDiff, if_false, if_true, hl, ht]
    split_ifs <;> rfl
  | some serial =>
    simp only [hser, Option.getD_some, Option.isSome_some, if_true] at hstr hmax
    simp only [scsi_disk_emulate_inquiry, if_pos hevpd, hpc, hser, Option.isSome_some,
      if_true, ← hstr, ← hmax]
    simp only [Nat.reduceEqDiff, if_false, if_true, hl, ht]
    split_ifs <;> rfl

theorem buf_set_at (b : Buf) (i v j : Nat) (h : j = i) : Buf.set b i v j = v % 256 := by
  simp [Buf.set, h]

/-! ## C19: INQUIRY, EVPD page 0x83 -/

/-- INQUIRY with EVPD set and page code 0x83, for every configuration. The
identifier `id` is the serial truncated to 20 bytes when a serial is
configured and the device name truncated to 247 bytes otherwise. After the
4-byte page header come `0x02, 0, 0, id_len` and the bytes of `id`, followed,
exactly when the WWN is non-zero, by `0x01, 0x03, 0, 8` and the 8 bytes of the
WWN, most significant first. The function ends with the assertion that at
most 255 bytes follow the header: it holds whenever a serial is configured,
or the WWN is zero, or the device name has at most 239 bytes; and when it
holds, header byte 3 is the number of bytes after the header. -/
theorem inquiry_device_identification (s : SCSIDiskState) (bs : BlockBackend)
    (cmd : SCSICommand) (outbuf : Buf) (hevpd : cdb cmd.buf 1 &&& 0x1 ≠ 0)
    (hpc : cdb cmd.buf 2 = 0x83) :
    ∃ id : List Nat,
      id = (s.serial.getD bs.device_name).take (if s.serial.isSome then 20 else 247) ∧
      (scsi_disk_emulate_inquiry s bs cmd outbuf).1 =
        ((8 + id.length + (if s.wwn ≠ 0 then 12 else 0) : Nat) : Int) ∧
      (scsi_disk_emulate_inquiry s bs cmd outbuf).2 4 = 0x02 ∧
      (scsi_disk_emulate_inquiry s bs cmd outbuf).2 5 = 0 ∧
      (scsi_disk_emulate_inquiry s bs cmd outbuf).2 6 = 0 ∧
      (scsi_disk_emulate_inquiry s bs cmd outbuf).2 7 = id.length ∧
      (∀ i, i < id.length →
        (scsi_disk_emulate_inquiry s bs cmd outbuf).2 (8 + i) = id.getD i 0 % 256) ∧
      (s.wwn ≠ 0 →
        (scsi_disk_emulate_inquiry s bs cmd outbuf).2 (8 + id.length) = 0x01 ∧
        (scsi_disk_emulate_inquiry s bs cmd outbuf).2 (8 + id.length + 1) = 0x03 ∧
        (scsi_disk_emulate_inquiry s bs cmd outbuf).2 (8 + id.length + 2) = 0 ∧
        (scsi_disk_emulate_inquiry s bs cmd outbuf).2 (8 + id.length + 3) = 8 ∧
        ∀ i, i < 8 →
          (scsi_disk_emulate_inquiry s bs cmd outbuf).2 (8 + id.length + 4 + i) =
            s.wwn / 2 ^ (8 * (7 - i)) % 256) ∧
      (s.serial.isSome ∨ s.wwn = 0 ∨ bs.device_name.length ≤ 239 →
        assert_evpd_length (scsi_disk_emulate_inquiry s bs cmd outbuf).1) ∧
      (assert_evpd_length (scsi_disk_emulate_inquiry s bs cmd outbuf).1 →
        (scsi_disk_emulate_inquiry s bs cmd outbuf).2 3 =
          4 + id.length + (if s.wwn ≠ 0 then 12 else 0)) := by
  refine ⟨_, rfl, ?_⟩
  have hid : ((s.serial.getD bs.device_name).take
      (if s.serial.isSome then 20 else 247)).length ≤ 247 := by
    rw [List.length_take]
    split_ifs <;> omega
  have hid2 : s.serial.isSome ∨ bs.device_name.length ≤ 239 →
      ((s.serial.getD bs.device_name).take
        (if s.serial.isSome then 20 else 247)).length ≤ 239 := by
    intro h
    rw [List.length_take]
    cases hs : s.serial <;> simp [hs] at h ⊢ <;> omega
  rw [inquiry_page_83 s bs cmd outbuf hevpd hpc _ _ rfl rfl]
  generalize (s.serial.getD bs.device_name).take (if s.serial.isSome then 20 else 247) = id
    at hid hid2 ⊢
  by_cases hw : s.wwn = 0
  · have hnw : ¬ (s.wwn ≠ 0) := by simp [hw]
    simp only [if_neg hnw, Nat.add_zero, assert_evpd_length]
    refine ⟨trivial, ?_, ?_, ?_, ?_, ?_, ?_, ?_, ?_⟩
    · simp (disch := omega) only [buf_set_ne, buf_memcpy_out, buf_set_at]
    · simp (disch := omega) only [buf_set_ne, buf_memcpy_out, buf_set_at]
    · simp (disch := omega) only [buf_set_ne, buf_memcpy_out, buf_set_at]
    · simp (disch := omega) only [buf_set_ne, buf_memcpy_out, buf_set_at]
      omega
    · intro i hi
      simp (disch := omega) only [buf_set_ne, buf_memcpy_in, Nat.add_sub_cancel_left]
    · intro h
      exact absurd hw h
    · intro _
      push_cast
      omega
    · intro h
      simp (disch := omega) only [buf_set_at]
      push_cast at h
      omega
  · simp only [if_pos hw, assert_evpd_length, stq_be_p, stl_be_p]
    refine ⟨trivial, ?_, ?_, ?_, ?_, ?_, ?_, ?_, ?_⟩
    · simp (disch := omega) only [buf_set_ne, buf_memcpy_out, buf_set_at]
    · simp (disch := omega) only [buf_set_ne, buf_memcpy_out, buf_set_at]
    · simp (disch := omega) only [buf_set_ne, buf_memcpy_out, buf_set_at]
    · simp (disch := omega) only [buf_set_ne, buf_memcpy_out, buf_set_at]
      omega
    · intro i hi
      simp (disch := omega) only [buf_set_ne, buf_memcpy_in, Nat.add_sub_cancel_left]
    · intro _
      refine ⟨?_, ?_, ?_, ?_, ?_⟩
      · simp (disch := omega) only [buf_set_ne, buf_set_at]
      · simp (disch := omega) only [buf_set_ne, buf_set_at]
      · simp (disch := omega) only [buf_set_ne, buf_set_at]
      · simp (disch := omega) only [buf_set_ne, buf_set_at]
      · intro i hi
        interval_cases i <;> simp (disch := omega) only [buf_set_ne, buf_set_at] <;> omega
    · intro h
      have := hid2 (by tauto)
      push_cast
      omega
    · intro h
      simp (disch := omega) only [buf_set_at]
      push_cast at h
      omega

/-- Page 0x83 at a concrete input: a hard disk with the serial "QM00001" and a WWN
answers page 0x83 with 27 bytes, 23 of them after the header, and an
identifier of 7 bytes. -/
theorem inquiry_device_identification_witness :
    (scsi_disk_emulate_inquiry example_disk_serial example_backend (cmd_inquiry_evpd 0x83)
      (fun _ => 0)).1 = 27 ∧
    (scsi_disk_emulate_inquiry example_disk_serial example_backend (cmd_inquiry_evpd 0x83)
      (fun _ => 0)).2 3 = 23 ∧
    (scsi_disk_emulate_inquiry example_disk_serial example_backend (cmd_inquiry_evpd 0x83)
      (fun _ => 0)).2 7 = 7 := by
  obtain ⟨id, hid, h1, _, _, _, h7, _, _, ha, h3⟩ :=
    inquiry_device_identification example_disk_serial example_backend (cmd_inquiry_evpd 0x83)
      (fun _ => 0) (by decide) (by decide)
  have hid2 : id = cstr "QM00001" := by rw [hid]; decide
  subst hid2
  refine ⟨by rw [h1]; decide, ?_, by rw [h7]; decide⟩
  rw [h3 (ha (Or.inl (by decide)))]
  decide

/-- The INQUIRY requests `scsi_disk_emulate_inquiry` answers with `-1`. -/
theorem inquiry_fails (s : SCSIDiskState) (bs : BlockBackend) (cmd : SCSICommand)
    (outbuf : Buf)
    (hbad : (cdb cmd.buf 1 &&& 0x1 ≠ 0 ∧ cdb cmd.buf 2 ∉ [0x00, 0x80, 0x83, 0xb0, 0xb2]) ∨
      (cdb cmd.buf 1 &&& 0x1 = 0 ∧ cdb cmd.buf 2 ≠ 0) ∨
      (cdb cmd.buf 1 &&& 0x1 ≠ 0 ∧ cdb cmd.buf 2 = 0x80 ∧ s.serial = none) ∨
      (cdb cmd.buf 1 &&& 0x1 ≠ 0 ∧ cdb cmd.buf 2 = 0xb0 ∧ s.type = TYPE_ROM)) :
    (scsi_disk_emulate_inquiry s bs cmd outbuf).1 = -1 := by
  rcases hbad with ⟨he, hp⟩ | ⟨he, hp⟩ | ⟨he, hp, hs⟩ | ⟨he, hp, ht⟩
  · simp only [List.mem_cons, List.mem_singleton, List.not_mem_nil, or_false, not_or] at hp
    obtain ⟨p0, p1, p2, p3, p4⟩ := hp
    simp only [scsi_disk_emulate_inquiry, if_pos he, if_neg p0, if_neg p1, if_neg p2, if_neg p3,
      if_neg p4]
  · have he2 : ¬ (cdb cmd.buf 1 &&& 0x1 ≠ 0) := by simp [he]
    simp only [scsi_disk_emulate_inquiry, if_neg he2, if_pos hp]
  · simp only [scsi_disk_emulate_inquiry, if_pos he, hp, hs]
    simp only [Nat.reduceEqDiff, if_false, if_true]
  · simp only [scsi_disk_emulate_inquiry, if_pos he, hp, ht]
    simp only [Nat.reduceEqDiff, if_false, if_true]

/-- C20: an INQUIRY on a request without status, with EVPD set and a page
code other than 0x00, 0x80, 0x83, 0xb0, 0xb2, or with EVPD clear and CDB byte
2 non-zero, or for page 0x80 without a configured serial, or for page 0xb0
on a ROM device: `scsi_send_command` posts INVALID_FIELD and CHECK_CONDITION
exactly once, and nothing else, and returns 0. -/
theorem inquiry_invalid_field (w : World) (hop : cdb w.r.cmd.buf 0 = INQUIRY)
    (hst : w.r.status = -1)
    (hbad : (cdb w.r.cmd.buf 1 &&& 0x1 ≠ 0 ∧
        cdb w.r.cmd.buf 2 ∉ [0x00, 0x80, 0x83, 0xb0, 0xb2]) ∨
      (cdb w.r.cmd.buf 1 &&& 0x1 = 0 ∧ cdb w.r.cmd.buf 2 ≠ 0) ∨
      (cdb w.r.cmd.buf 1 &&& 0x1 ≠ 0 ∧ cdb w.r.cmd.buf 2 = 0x80 ∧ w.s.serial = none) ∨
      (cdb w.r.cmd.buf 1 &&& 0x1 ≠ 0 ∧ cdb w.r.cmd.buf 2 = 0xb0 ∧ w.s.type = TYPE_ROM)) :
    (scsi_send_command w).2 = 0 ∧
    (scsi_send_command w).1.trace = w.trace ++
      [.scsi_req_build_sense .INVALID_FIELD, .scsi_req_complete CHECK_CONDITION] ∧
    (scsi_send_command w).1.r.status = CHECK_CONDITION ∧
    (scsi_send_command w).1.r.sense = some .INVALID_FIELD ∧
    (scsi_send_command w).1.s = w.s ∧ (scsi_send_command w).1.bs = w.bs := by
  have hn : no_medium_check (cdb w.r.cmd.buf 0) = true := by rw [hop]; decide
  have he : is_emulated (cdb w.r.cmd.buf 0) = true := by rw [hop]; decide
  obtain ⟨har, hat, hah, has, hab⟩ := emulate_alloc_r w
  have hcmd : (scsi_disk_emulate_alloc w).r.cmd = w.r.cmd := by rw [har]
  have hstat : (scsi_disk_emulate_alloc w).r.status = w.r.status := by rw [har]
  have hq : (scsi_disk_emulate_command w).2 = -1 ∧
      (scsi_disk_emulate_command w).1.trace = w.trace ++
        [.scsi_req_build_sense .INVALID_FIELD, .scsi_req_complete CHECK_CONDITION] ∧
      (scsi_disk_emulate_command w).1.r.status = CHECK_CONDITION ∧
      (scsi_disk_emulate_command w).1.r.sense = some .INVALID_FIELD ∧
      (scsi_disk_emulate_command w).1.s = w.s ∧ (scsi_disk_emulate_command w).1.bs = w.bs := by
    by_cases hbig : w.r.iov_base.isNone ∧ w.r.cmd.xfer > 65536
    · simp only [scsi_disk_emulate_command, if_pos hbig, hst, if_true]
      simp [scsi_check_condition, scsi_req_complete, scsi_req_build_sense, World.emit]
    · have hi := inquiry_fails (scsi_disk_emulate_alloc w).s (scsi_disk_emulate_alloc w).bs
        (scsi_disk_emulate_alloc w).r.cmd
        ((scsi_disk_emulate_alloc w).r.iov_base.getD (fun _ => 0))
        (by rw [hcmd, has]; exact hbad)
      have hcase : (scsi_disk_emulate_switch (scsi_disk_emulate_alloc w)
          ((scsi_disk_emulate_alloc w).r.iov_base.getD (fun _ => 0))).exit = .illegal_request ∧
          (scsi_disk_emulate_switch (scsi_disk_emulate_alloc w)
          ((scsi_disk_emulate_alloc w).r.iov_base.getD (fun _ => 0))).w =
            scsi_disk_emulate_alloc w := by
        rw [emulate_switch_inquiry _ _ (by rw [hcmd]; exact hop), hi]
        exact ⟨by simp [EmuCase.ofLen], ofLen_w _ _ _⟩
      simp only [scsi_disk_emulate_command, if_neg hbig, hcase.1, hcase.2, hstat, hst, if_true]
      simp [scsi_check_condition, scsi_req_complete, scsi_req_build_sense, World.emit, hat,
        has, hab]
  obtain ⟨q1, q2, q3, q4, q5, q6⟩ := hq
  have hneg : (scsi_disk_emulate_command w).2 < 0 := by rw [q1]; decide
  simp only [scsi_send_command, scsi_send_command_switch, hn, he, if_true, hneg]
  simp [q2, q3, q4, q5, q6]

/-- C20 at a concrete input: INQUIRY for the unsupported EVPD page 0x12 on a
fresh request returns 0 after posting INVALID_FIELD with CHECK_CONDITION. -/
theorem inquiry_invalid_field_witness :
    (scsi_send_command (example_world (cmd_inquiry_evpd 0x12))).2 = 0 ∧
    (scsi_send_command (example_world (cmd_inquiry_evpd 0x12))).1.trace =
      (example_world (cmd_inquiry_evpd 0x12)).trace ++
        [.scsi_req_build_sense .INVALID_FIELD, .scsi_req_complete CHECK_CONDITION] :=
  ⟨(inquiry_invalid_field (example_world (cmd_inquiry_evpd 0x12)) (by decide) (by decide)
      (Or.inl ⟨by decide, by decide⟩)).1,
   (inquiry_invalid_field (example_world (cmd_inquiry_evpd 0x12)) (by decide) (by decide)
      (Or.inl ⟨by decide, by decide⟩)).2.1⟩

/-! ## The round trip of a request through the migration stream -/

theorem qemu_put_be32s_append (f : QEMUFile) (v : Nat) :
    qemu_put_be32s f v = f ++ qemu_put_be32s [] v := by
  simp [qemu_put_be32s]

theorem qemu_put_be64s_append (f : QEMUFile) (v : Nat) :
    qemu_put_be64s f v = f ++ qemu_put_be64s [] v := by
  simp [qemu_put_be64s, qemu_put_be32s]

theorem qemu_put_buffer_append (f : QEMUFile) (b : Buf) (n : Nat) :
    qemu_put_buffer f b n = f ++ qemu_put_buffer [] b n := by
  simp [qemu_put_buffer]

/-- Reading back a 32-bit value. -/
theorem qemu_get_put_be32s (v : Nat) (rest : QEMUFile) (hv : v < 2 ^ 32) :
    qemu_get_be32s (qemu_put_be32s [] v ++ rest) = (v, rest) := by
  simp only [qemu_get_be32s, qemu_put_be32s, ldl_be_p, cdb, List.nil_append, List.cons_append,
    List.getD_cons_zero, List.getD_cons_succ, List.drop_succ_cons, List.drop_zero,
    Prod.mk.injEq, and_true]
  omega

/-- Reading back a 64-bit value. -/
theorem qemu_get_put_be64s (v : Nat) (rest : QEMUFile) (hv : v < 2 ^ 64) :
    qemu_get_be64s (qemu_put_be64s [] v ++ rest) = (v, rest) := by
  have h1 : qemu_put_be64s [] v ++ rest =
      qemu_put_be32s [] (v / 2 ^ 32) ++ (qemu_put_be32s [] v ++ rest) := by
    simp [qemu_put_be64s, qemu_put_be32s]
  have h2 := qemu_get_put_be32s (v / 2 ^ 32) (qemu_put_be32s [] v ++ rest) (by omega)
  have h3 : qemu_get_be32s (qemu_put_be32s [] v ++ rest) = (v % 2 ^ 32, rest) := by
    simp only [qemu_get_be32s, qemu_put_be32s, ldl_be_p, cdb, List.nil_append, List.cons_append,
      List.getD_cons_zero, List.getD_cons_succ, List.drop_succ_cons, List.drop_zero,
      Prod.mk.injEq, and_true]
    omega
  simp only [qemu_get_be64s, h1, h2, h3, Prod.mk.injEq, and_true]
  omega

/-- Reading back a buffer. -/
theorem qemu_get_put_buffer (b o : Buf) (n : Nat) (rest : QEMUFile) :
    qemu_get_buffer (qemu_put_buffer [] b n ++ rest) o n =
      (o.memcpy 0 ((List.range n).map b), rest) := by
  have hl : ((List.range n).map b).length = n := by simp
  have hm : (List.range n).map (fun i => (List.map b (List.range n) ++ rest).getD i 0) =
      (List.range n).map b := by
    apply List.map_congr_left
    intro i hi
    have hi2 : i < n := List.mem_range.mp hi
    rw [List.getD_eq_getElem?_getD, List.getElem?_append_left (by simp [hi2])]
    simp [hi2]
  simp only [qemu_get_buffer, qemu_put_buffer, List.nil_append, hm, Prod.mk.injEq, true_and]
  rw [List.drop_append_eq_append_drop]
  simp

/-- The round trip of a request through `scsi_disk_save_request` and
`scsi_disk_load_request` on a fresh request of the same direction and retry
flag: the three counters are restored and exactly the bytes written are
consumed, provided that, for TO_DEV, the length of the iovec is the one
`scsi_init_iovec` computes from `sector_count` and `buflen`, and otherwise
that the assertion of the load holds. In these cases the length of the iovec
and the buffer bytes are restored as well. -/
theorem save_load_round_trip (r : SCSIDiskReq) (w : World) (rest : QEMUFile)
    (hs : r.sector < 2 ^ 64) (hsc : r.sector_count < 2 ^ 32) (hbl : r.buflen < 2 ^ 32)
    (hil : r.iov_len < 2 ^ 32)
    (hbytes : ∀ i, i < r.iov_len → (r.iov_base.getD (fun _ => 0)) i < 256)
    (hfresh : w.r.iov_base = none) (hmode : w.r.cmd.mode = r.cmd.mode)
    (hretry : w.r.retry = r.retry)
    (hto : r.cmd.mode = .SCSI_XFER_TO_DEV →
      r.iov_len = min (u32 (r.sector_count * 512)) r.buflen)
    (_ : r.cmd.mode ≠ .SCSI_XFER_TO_DEV → assert_load_request r.buflen r.iov_len) :
    (scsi_disk_load_request w (scsi_disk_save_request [] r ++ rest)).2 = rest ∧
    (scsi_disk_load_request w (scsi_disk_save_request [] r ++ rest)).1.r.sector = r.sector ∧
    (scsi_disk_load_request w (scsi_disk_save_request [] r ++ rest)).1.r.sector_count
      = r.sector_count ∧
    (scsi_disk_load_request w (scsi_disk_save_request [] r ++ rest)).1.r.buflen = r.buflen ∧
    (r.buflen ≠ 0 → (r.cmd.mode = .SCSI_XFER_TO_DEV ∨ r.retry = false) →
      (scsi_disk_load_request w (scsi_disk_save_request [] r ++ rest)).1.r.iov_len
        = r.iov_len ∧
      ∃ o, (scsi_disk_load_request w (scsi_disk_save_request [] r ++ rest)).1.r.iov_base
          = some o ∧
        ∀ i, i < r.iov_len → o i = (r.iov_base.getD (fun _ => 0)) i) := by
  have hu : u32 r.buflen = r.buflen := Nat.mod_eq_of_lt hbl
  have hul : u32 r.iov_len = r.iov_len := Nat.mod_eq_of_lt hil
  have hread : ∀ (o : Buf) (i : Nat), i < r.iov_len →
      (o.memcpy 0 ((List.range r.iov_len).map (r.iov_base.getD (fun _ => 0)))) i =
        (r.iov_base.getD (fun _ => 0)) i := by
    intro o i hi
    rw [buf_memcpy_in _ _ _ _ (Nat.zero_le _) (by simpa using hi)]
    simp only [Nat.sub_zero, List.getD_eq_getElem?_getD]
    rw [List.getElem?_map, List.getElem?_range hi]
    simpa using Nat.mod_eq_of_lt (hbytes i hi)
  generalize hm : u32 (r.sector_count * 512) = m at hto
  by_cases h0 : r.buflen = 0
  · have e : scsi_disk_save_request [] r ++ rest =
        qemu_put_be64s [] r.sector ++ (qemu_put_be32s [] r.sector_count ++
          (qemu_put_be32s [] r.buflen ++ rest)) := by
      simp only [scsi_disk_save_request, h0, ne_eq, not_true_eq_false, if_false]
      rw [qemu_put_be32s_append, qemu_put_be32s_append (qemu_put_be64s [] r.sector)]
      simp only [List.append_assoc]
    simp only [scsi_disk_load_request, e, qemu_get_put_be64s _ _ hs,
      qemu_get_put_be32s _ _ hsc, qemu_get_put_be32s _ _ (h0 ▸ hbl), h0, ne_eq,
      not_true_eq_false, if_false, false_implies, and_self]
  · by_cases ht : r.cmd.mode = .SCSI_XFER_TO_DEV
    · have e : scsi_disk_save_request [] r ++ rest =
          qemu_put_be64s [] r.sector ++ (qemu_put_be32s [] r.sector_count ++
            (qemu_put_be32s [] r.buflen ++
              (qemu_put_buffer [] (r.iov_base.getD (fun _ => 0)) r.iov_len ++ rest))) := by
        simp only [scsi_disk_save_request, h0, ne_eq, not_false_eq_true, if_true, ht]
        rw [qemu_put_buffer_append, qemu_put_be32s_append,
          qemu_put_be32s_append (qemu_put_be64s [] r.sector)]
        simp only [List.append_assoc]
      have hlen := hto ht
      simp only [scsi_disk_load_request, e, qemu_get_put_be64s _ _ hs,
        qemu_get_put_be32s _ _ hsc, qemu_get_put_be32s _ _ hbl, h0, ne_eq,
        not_false_eq_true, if_true, scsi_init_iovec, hfresh, hmode, ht, hu, hm, ← hlen,
        qemu_get_put_buffer]
      refine ⟨trivial, trivial, trivial, trivial, fun _ _ => ⟨trivial, _, rfl, ?_⟩⟩
      intro i hi
      exact hread _ i hi
    · by_cases hr : r.retry = true
      · have e : scsi_disk_save_request [] r ++ rest =
            qemu_put_be64s [] r.sector ++ (qemu_put_be32s [] r.sector_count ++
              (qemu_put_be32s [] r.buflen ++ rest)) := by
          simp only [scsi_disk_save_request, h0, ne_eq, not_false_eq_true, if_true, ht,
            if_false, hr, Bool.not_true, Bool.false_eq_true]
          rw [qemu_put_be32s_append, qemu_put_be32s_append (qemu_put_be64s [] r.sector)]
          simp only [List.append_assoc]
        simp only [scsi_disk_load_request, e, qemu_get_put_be64s _ _ hs,
          qemu_get_put_be32s _ _ hsc, qemu_get_put_be32s _ _ hbl, h0, ne_eq,
          not_false_eq_true, if_true, scsi_init_iovec, hfresh, hmode, ht, hu, hm, hretry, hr,
          if_false, Bool.not_true, Bool.false_eq_true]
        refine ⟨trivial, trivial, trivial, trivial, fun _ h => ?_⟩
        simp at h
      · have hr2 : r.retry = false := by simpa using hr
        have e : scsi_disk_save_request [] r ++ rest =
            qemu_put_be64s [] r.sector ++ (qemu_put_be32s [] r.sector_count ++
              (qemu_put_be32s [] r.buflen ++ (qemu_put_be32s [] r.iov_len ++
                (qemu_put_buffer [] (r.iov_base.getD (fun _ => 0)) r.iov_len ++ rest)))) := by
          simp only [scsi_disk_save_request, h0, ne_eq, not_false_eq_true, if_true, ht,
            if_false, hr2, Bool.not_false, hul]
          rw [qemu_put_buffer_append, qemu_put_be32s_append, qemu_put_be32s_append
            (qemu_put_be32s (qemu_put_be64s [] r.sector) r.sector_count),
            qemu_put_be32s_append (qemu_put_be64s [] r.sector)]
          simp only [List.append_assoc]
        simp only [scsi_disk_load_request, e, qemu_get_put_be64s _ _ hs,
          qemu_get_put_be32s _ _ hsc, qemu_get_put_be32s _ _ hbl,
          qemu_get_put_be32s _ _ hil, h0, ne_eq,
          not_false_eq_true, if_true, scsi_init_iovec, hfresh, hmode, ht, hu, hm, hretry, hr2,
          if_false, Bool.not_false, qemu_get_put_buffer]
        refine ⟨trivial, trivial, trivial, trivial, fun _ _ => ⟨trivial, _, rfl, ?_⟩⟩
        intro i hi
        exact hread _ i hi

/-- The round trip at a concrete input: the WRITE(10) of `world_write_fua`
while its last sector is still to be written (`sector_count = 1`, 512 bytes in
the iovec) is restored with its 512 bytes. -/
theorem save_load_round_trip_example :
    (scsi_disk_load_request (example_world cmd_write10_fua)
      (scsi_disk_save_request [] world_write_fua.r ++ [])).2 = [] ∧
    (scsi_disk_load_request (example_world cmd_write10_fua)
      (scsi_disk_save_request [] world_write_fua.r ++ [])).1.r.iov_len = 512 := by
  have h := save_load_round_trip world_write_fua.r (example_world cmd_write10_fua) []
    (by decide) (by decide) (by decide) (by decide) (fun _ _ => (by decide : (0 : Nat) < 256)) rfl rfl rfl
    (fun _ => by decide) (fun h => absurd rfl h)
  exact ⟨h.1, (h.2.2.2.2 (by decide) (Or.inl rfl)).1⟩

/-! ## The read cycle below `2^23` sectors -/

/-- The chunk `scsi_init_iovec` prepares for a read of fewer than `2^23`
sectors into the bounce buffer: `min(sector_count, 256)` sectors. -/
theorem init_iovec_chunk (w : World) (hsc : w.r.sector_count < 2 ^ 23)
    (hbuf : w.r.iov_base = none ∨ w.r.buflen = 131072) :
    (scsi_init_iovec w SCSI_DMA_BUF_SIZE).2 = min w.r.sector_count 256 ∧
    (scsi_init_iovec w SCSI_DMA_BUF_SIZE).1.r.qiov_size = min w.r.sector_count 256 * 512 ∧
    (scsi_init_iovec w SCSI_DMA_BUF_SIZE).1.r.buflen = 131072 ∧
    (scsi_init_iovec w SCSI_DMA_BUF_SIZE).1.r.iov_base ≠ none := by
  have a1 : u32 (w.r.sector_count * 512) = w.r.sector_count * 512 := by
    unfold u32; omega
  have a2 : u32 SCSI_DMA_BUF_SIZE = 131072 := by decide
  have a3 : min (w.r.sector_count * 512) 131072 = min w.r.sector_count 256 * 512 := by omega
  have a4 : u32 (min w.r.sector_count 256 * 512 / 512) = min w.r.sector_count 256 := by
    unfold u32; omega
  cases hb : w.r.iov_base with
  | none =>
    simp only [scsi_init_iovec, hb]
    rw [a1, a2, a3, a4]
    exact ⟨rfl, rfl, rfl, by simp⟩
  | some b =>
    have hl : w.r.buflen = 131072 := by
      rcases hbuf with h | h
      · rw [hb] at h; cases h
      · exact h
    simp only [scsi_init_iovec, hb]
    rw [a1, hl, a3, a4]
    exact ⟨rfl, rfl, rfl, by simp⟩

/-- The read `scsi_do_read` submits for a live bounce-buffer request of
fewer than `2^23` sectors: `min(sector_count, 256)` sectors at the cursor. -/
theorem do_read_chunk (w : World) (hsc : w.r.sector_count < 2 ^ 23)
    (hbuf : w.r.iov_base = none ∨ w.r.buflen = 131072) (hsg : w.r.sg = none)
    (hcan : w.r.io_canceled = false) :
    (scsi_do_read w 0).trace = w.trace ++
      (if w.r.aiocb.isSome then [.bdrv_acct_done] else []) ++
      [.bdrv_acct_start (min w.r.sector_count 256 * 512) .BDRV_ACCT_READ,
       .bdrv_aio_readv w.r.sector (min w.r.sector_count 256) .scsi_read_complete] ∧
    (scsi_do_read w 0).r.aiocb = some { id := w.bs.next_aiocb, cb := .scsi_read_complete } ∧
    (scsi_do_read w 0).r.qiov_size = min w.r.sector_count 256 * 512 ∧
    (scsi_do_read w 0).r.buflen = 131072 ∧ (scsi_do_read w 0).r.iov_base ≠ none ∧
    (scsi_do_read w 0).s = w.s ∧ (scsi_do_read w 0).r.sector = w.r.sector ∧
    (scsi_do_read w 0).r.sector_count = w.r.sector_count ∧
    (scsi_do_read w 0).r.status = w.r.status ∧ (scsi_do_read w 0).r.cmd = w.r.cmd ∧
    (scsi_do_read w 0).r.sg = w.r.sg ∧
    (scsi_do_read w 0).r.io_canceled = w.r.io_canceled ∧
    (scsi_do_read w 0).r.started = w.r.started := by
  have x1 : (scsi_req_ref (clear_aiocb w)).r.sector_count = w.r.sector_count := by
    simp [scsi_req_ref, clear_aiocb_r]
  have x2 : (scsi_req_ref (clear_aiocb w)).r.iov_base = w.r.iov_base := by
    simp [scsi_req_ref, clear_aiocb_r]
  have x3 : (scsi_req_ref (clear_aiocb w)).r.buflen = w.r.buflen := by
    simp [scsi_req_ref, clear_aiocb_r]
  have x4 : (scsi_req_ref (clear_aiocb w)).r.sg = none := by
    simp [scsi_req_ref, clear_aiocb_r, hsg]
  have x5 : (scsi_req_ref (clear_aiocb w)).r.io_canceled = false := by
    simp [scsi_req_ref, clear_aiocb_r, hcan]
  have x6 : (scsi_req_ref (clear_aiocb w)).trace =
      w.trace ++ (if w.r.aiocb.isSome then [.bdrv_acct_done] else []) := by
    simp [scsi_req_ref, clear_aiocb_trace]
  have x7 : (scsi_req_ref (clear_aiocb w)).bs = w.bs := by simp [scsi_req_ref]
  have x8 : (scsi_req_ref (clear_aiocb w)).s = w.s := by simp [scsi_req_ref]
  have x9 : (scsi_req_ref (clear_aiocb w)).r.sector = w.r.sector := by
    simp [scsi_req_ref, clear_aiocb_r]
  have x10 : (scsi_req_ref (clear_aiocb w)).r.status = w.r.status := by
    simp [scsi_req_ref, clear_aiocb_r]
  have x11 : (scsi_req_ref (clear_aiocb w)).r.cmd = w.r.cmd := by
    simp [scsi_req_ref, clear_aiocb_r]
  have x12 : (scsi_req_ref (clear_aiocb w)).r.started = w.r.started := by
    simp [scsi_req_ref, clear_aiocb_r]
  have x13 : (scsi_req_ref (clear_aiocb w)).r.refcount = w.r.refcount + 1 := by
    simp [scsi_req_ref, clear_aiocb_r]
  have hcan2 : (clear_aiocb w).r.io_canceled = false := by simp [clear_aiocb_r, hcan]
  obtain ⟨h1, h2, h3, h4⟩ := init_iovec_chunk (scsi_req_ref (clear_aiocb w))
    (by rw [x1]; exact hsc) (by rw [x2, x3]; exact hbuf)
  rw [x1] at h1 h2
  simp only [scsi_do_read, check_ret_zero, hcan2, Bool.false_eq_true, if_false]
  generalize scsi_req_ref (clear_aiocb w) = x at *
  simp only [x4]
  simp [label_done, World.submit, World.emit, scsi_req_unref, BDRV_SECTOR_SIZE, h1, h2, h3, h4,
    x1, x4, x5, x6, x7, x8, x9, x10, x11, x12, x13, hsg, hcan]

/-- The completion of a read of `n` sectors: `n * 512` bytes are passed to
`scsi_req_data`, the cursor advances by `n` and `sector_count` falls by `n`. -/
theorem read_complete_chunk (w : World) (a : AIOCB) (n : Nat) (hn : n ≤ 256)
    (hle : n ≤ w.r.sector_count) (hsc : w.r.sector_count < 2 ^ 32)
    (hsec : w.r.sector + n < 2 ^ 64) (hq : w.r.qiov_size = n * 512)
    (haio : w.r.aiocb = some a) (hcan : w.r.io_canceled = false) :
    (scsi_read_complete w 0).trace =
      w.trace ++ [.bdrv_acct_done, .scsi_req_data ((n * 512 : Nat) : Int)] ∧
    (scsi_read_complete w 0).r.aiocb = none ∧ (scsi_read_complete w 0).s = w.s ∧
    (scsi_read_complete w 0).r.sector = w.r.sector + n ∧
    (scsi_read_complete w 0).r.sector_count = w.r.sector_count - n ∧
    (scsi_read_complete w 0).r.status = w.r.status ∧
    (scsi_read_complete w 0).r.cmd = w.r.cmd ∧ (scsi_read_complete w 0).r.sg = w.r.sg ∧
    (scsi_read_complete w 0).r.io_canceled = false ∧
    (scsi_read_complete w 0).r.buflen = w.r.buflen ∧
    (scsi_read_complete w 0).r.iov_base = w.r.iov_base ∧
    (scsi_read_complete w 0).r.started = w.r.started := by
  have e1 : toInt32 (n * 512 / 512) = (n : Int) := by
    rw [Nat.mul_div_cancel _ (by decide), toInt32_of_lt _ (by omega)]
  have e2 : toInt32 (n * 512) = ((n * 512 : Nat) : Int) := toInt32_of_lt _ (by omega)
  have e3 : (((w.r.sector : Int) + (n : Int)) % 2 ^ 64).toNat = w.r.sector + n := by omega
  have e4 : (((w.r.sector_count : Int) - (n : Int)) % 2 ^ 32).toNat = w.r.sector_count - n := by
    omega
  simp only [scsi_read_complete, check_ret_zero, clear_aiocb, haio, hq, e1, e2, e3, e4,
    label_done, scsi_req_data, scsi_req_unref, World.emit, hcan, Bool.false_eq_true, if_false,
    List.append_assoc, List.singleton_append, and_self]

theorem data_sizes_append (a b : List Event) :
    data_sizes (a ++ b) = data_sizes a ++ data_sizes b := by
  simp [data_sizes]

theorem statuses_append (a b : List Event) :
    statuses (a ++ b) = statuses a ++ statuses b := by
  simp [statuses]

/-- A read of one chunk: `scsi_do_read` followed by the completion of the
read it submits. -/
theorem read_chunk (w : World) (hsc : w.r.sector_count < 2 ^ 23)
    (hsec : w.r.sector + w.r.sector_count < 2 ^ 64)
    (hbuf : w.r.iov_base = none ∨ w.r.buflen = 131072) (hsg : w.r.sg = none)
    (hcan : w.r.io_canceled = false) :
    (∃ new, (scsi_read_complete (scsi_do_read w 0) 0).trace = w.trace ++ new ∧
      data_sizes new = [((min w.r.sector_count 256 * 512 : Nat) : Int)] ∧
      statuses new = []) ∧
    (scsi_read_complete (scsi_do_read w 0) 0).r.aiocb = none ∧
    (scsi_read_complete (scsi_do_read w 0) 0).s = w.s ∧
    (scsi_read_complete (scsi_do_read w 0) 0).r.sector =
      w.r.sector + min w.r.sector_count 256 ∧
    (scsi_read_complete (scsi_do_read w 0) 0).r.sector_count =
      w.r.sector_count - min w.r.sector_count 256 ∧
    (scsi_read_complete (scsi_do_read w 0) 0).r.status = w.r.status ∧
    (scsi_read_complete (scsi_do_read w 0) 0).r.cmd = w.r.cmd ∧
    (scsi_read_complete (scsi_do_read w 0) 0).r.sg = none ∧
    (scsi_read_complete (scsi_do_read w 0) 0).r.io_canceled = false ∧
    (scsi_read_complete (scsi_do_read w 0) 0).r.buflen = 131072 := by
  obtain ⟨d1, d2, d3, d4, d5, d6, d7, d8, d9, d10, d11, d12, d13⟩ :=
    do_read_chunk w hsc hbuf hsg hcan
  obtain ⟨c1, c2, c3, c4, c5, c6, c7, c8, c9, c10, c11, c12⟩ :=
    read_complete_chunk (scsi_do_read w 0) _ (min w.r.sector_count 256)
      (Nat.min_le_right _ _) (by rw [d8]; exact Nat.min_le_left _ _) (by rw [d8]; omega)
      (by rw [d7]; omega) d3 d2 (by rw [d12]; exact hcan)
  refine ⟨⟨_, by rw [c1, d1, List.append_assoc, List.append_assoc], ?_, ?_⟩, c2, c3.trans d6,
    by rw [c4, d7], by rw [c5, d8], c6.trans d9, c7.trans d10, by rw [c8, d11, hsg], c9,
    c10.trans d4⟩
  · cases w.r.aiocb.isSome <;> simp [data_sizes, Event.data_size]
  · cases w.r.aiocb.isSome <;> simp [statuses, Event.status]

/-- After `scsi_read_complete` no handle is outstanding. -/
theorem read_complete_aiocb (w : World) (ret : Int) :
    (scsi_read_complete w ret).r.aiocb = none := by
  simp only [scsi_read_complete, label_done]
  cases (check_ret (clear_aiocb w) ret).2 <;> cases hc : w.r.io_canceled <;>
    simp [scsi_req_data, scsi_req_unref, World.emit, clear_aiocb_r, hc]

/-- One turn of the read cycle on a request of `0 < sector_count < 2^23`
sectors is the read of one chunk, after the flush of a FUA command on the
first turn. -/
theorem read_turn_as_chunk (w : World) (hr : read_ready w) (hsc0 : 0 < w.r.sector_count)
    (hsc : w.r.sector_count < 2 ^ 23) :
    ∃ x : World, read_turn w = scsi_read_complete (scsi_do_read x 0) 0 ∧
      x.r.sector_count = w.r.sector_count ∧ x.r.sector = w.r.sector ∧
      x.r.iov_base = w.r.iov_base ∧ x.r.buflen = w.r.buflen ∧ x.r.sg = none ∧
      x.r.io_canceled = false ∧ x.r.status = w.r.status ∧ x.r.cmd = w.r.cmd ∧ x.s = w.s ∧
      ∃ pre, x.trace = w.trace ++ pre ∧ data_sizes pre = [] ∧ statuses pre = [] := by
  obtain ⟨hst, hmode, hsg, htray, hcan, haio, hbuf⟩ := hr
  have h1 : ¬ w.r.sector_count = 0xFFFFFFFF := by omega
  have h2 : ¬ w.r.sector_count = 0 := by omega
  have hm : ¬ (scsi_req_ref w).r.cmd.mode = .SCSI_XFER_TO_DEV := by
    simp [scsi_req_ref, hmode]
  have ht : ¬ (scsi_req_ref w).s.tray_open = true := by simp [scsi_req_ref, htray]
  have tail : ∀ x : World, x.r.sector_count = w.r.sector_count →
      (x.r.iov_base = none ∨ x.r.buflen = 131072) → x.r.sg = none →
      x.r.io_canceled = false →
      backend_complete (scsi_do_read x 0) 0 = scsi_read_complete (scsi_do_read x 0) 0 ∧
      backend_complete (scsi_read_complete (scsi_do_read x 0) 0) 0 =
        scsi_read_complete (scsi_do_read x 0) 0 := by
    intro x e1 e2 e3 e4
    have d2 := (do_read_chunk x (by rw [e1]; exact hsc) e2 e3 e4).2.1
    have c2 := read_complete_aiocb (scsi_do_read x 0) 0
    constructor
    · simp only [backend_complete, d2]
    · generalize scsi_read_complete (scsi_do_read x 0) 0 = y at c2
      simp only [backend_complete, c2]
  by_cases hf : (!(scsi_req_ref w).r.started && scsi_is_cmd_fua (scsi_req_ref w).r.cmd) = true
  · refine ⟨(({ scsi_req_ref w with r := { (scsi_req_ref w).r with started := true } } :
        World).emit (.bdrv_acct_start 0 .BDRV_ACCT_FLUSH)).submit
        (.bdrv_aio_flush .scsi_do_read) .scsi_do_read, ?_, ?_⟩
    · have hrd : scsi_read_data w = (({ scsi_req_ref w with
          r := { (scsi_req_ref w).r with started := true } } :
          World).emit (.bdrv_acct_start 0 .BDRV_ACCT_FLUSH)).submit
          (.bdrv_aio_flush .scsi_do_read) .scsi_do_read := by
        simp only [scsi_read_data, if_neg h1, if_neg h2, if_neg hm, if_neg ht, if_pos hf]
      have hb1 : backend_complete (scsi_read_data w) 0 = scsi_do_read (scsi_read_data w) 0 := by
        rw [hrd]
        simp only [backend_complete, World.submit]
      obtain ⟨t1, t2⟩ := tail (scsi_read_data w)
        (by rw [hrd]; simp [World.submit, World.emit, scsi_req_ref])
        (by rw [hrd]; simpa [World.submit, World.emit, scsi_req_ref] using hbuf)
        (by rw [hrd]; simp [World.submit, World.emit, scsi_req_ref, hsg])
        (by rw [hrd]; simp [World.submit, World.emit, scsi_req_ref, hcan])
      rw [← hrd]
      simp only [read_turn, hb1, t1]
    · simp only [World.submit, World.emit, scsi_req_ref, hsg, hcan, List.append_assoc, true_and]
      exact ⟨_, rfl, by simp [data_sizes, Event.data_size], by simp [statuses, Event.status]⟩
  · refine ⟨{ scsi_req_ref w with r := { (scsi_req_ref w).r with started := true } }, ?_, ?_⟩
    · have hrd : scsi_read_data w = scsi_do_read ({ scsi_req_ref w with
          r := { (scsi_req_ref w).r with started := true } } : World) 0 := by
        simp only [scsi_read_data, if_neg h1, if_neg h2, if_neg hm, if_neg ht, if_neg hf]
      obtain ⟨t1, t2⟩ := tail ({ scsi_req_ref w with
          r := { (scsi_req_ref w).r with started := true } } : World)
        (by simp [scsi_req_ref])
        (by simpa [scsi_req_ref] using hbuf)
        (by simp [scsi_req_ref, hsg])
        (by simp [scsi_req_ref, hcan])
      simp only [read_turn, hrd, t1, t2]
    · simp only [scsi_req_ref, hsg, hcan, true_and]
      exact ⟨[], by simp, rfl, rfl⟩

/-- One turn of the read cycle on a request of `0 < sector_count < 2^23`
sectors passes one chunk of `min(sector_count, 256)` sectors to the transport
and leaves the request ready for the next turn. -/
theorem read_turn_chunk (w : World) (hr : read_ready w) (hsc0 : 0 < w.r.sector_count)
    (hsc : w.r.sector_count < 2 ^ 23) (hsec : w.r.sector + w.r.sector_count < 2 ^ 64) :
    read_ready (read_turn w) ∧
    (read_turn w).r.sector_count = w.r.sector_count - min w.r.sector_count 256 ∧
    (read_turn w).r.sector = w.r.sector + min w.r.sector_count 256 ∧
    ∃ new, (read_turn w).trace = w.trace ++ new ∧
      data_sizes new = [((min w.r.sector_count 256 * 512 : Nat) : Int)] ∧
      statuses new = [] := by
  obtain ⟨x, hx, x1, x2, x3, x4, x5, x6, x7, x8, x9, pre, xt, xd, xs⟩ :=
    read_turn_as_chunk w hr hsc0 hsc
  obtain ⟨hst, hmode, hsg, htray, hcan, haio, hbuf⟩ := hr
  obtain ⟨⟨new, ct, cd, cs⟩, c2, c3, c4, c5, c6, c7, c8, c9, c10⟩ :=
    read_chunk x (by rw [x1]; exact hsc) (by rw [x1, x2]; exact hsec)
      (by rw [x3, x4]; exact hbuf) x5 x6
  rw [hx]
  refine ⟨⟨c6.trans (x7.trans hst), by rw [c7, x8]; exact hmode, c8, by rw [c3, x9]; exact htray,
    c9, c2, Or.inr c10⟩, by rw [c5, x1], by rw [c4, x1, x2], pre ++ new, ?_, ?_, ?_⟩
  · rw [ct, xt, List.append_assoc]
  · rw [data_sizes_append, xd, cd, x1]; rfl
  · rw [statuses_append, xs, cs]; rfl

/-- The turn of the read cycle that finds `sector_count = 0` posts GOOD. -/
theorem read_turn_done (w : World) (hr : read_ready w) (hsc : w.r.sector_count = 0) :
    read_turn w = scsi_req_complete w GOOD := by
  obtain ⟨hst, hmode, hsg, htray, hcan, haio, hbuf⟩ := hr
  have h : scsi_read_data w = scsi_req_complete w GOOD := by
    simp [scsi_read_data, hsc]
  have ha : (scsi_req_complete w GOOD).r.aiocb = none := by
    simp [scsi_req_complete, World.emit, haio]
  simp only [read_turn, h]
  generalize scsi_req_complete w GOOD = y at ha
  simp only [backend_complete, ha]

/-- The read cycle stops at a request that has a status. -/
theorem read_cycle_done (n : Nat) (w : World) (h : w.r.status ≠ -1) : read_cycle n w = w := by
  cases n with
  | zero => rfl
  | succ n => simp [read_cycle, h]

/-- The read cycle on a request of `k < 2^23` sectors terminates: after
`n + 1` turns, for every `n` with `k ≤ 256 * n`, all `k * 512` bytes have been
passed to the transport, the cursor has advanced by `k`, and GOOD has been
posted, once and as the last call. -/
theorem read_cycle_completes (n : Nat) : ∀ w : World, read_ready w →
    w.r.sector_count < 2 ^ 23 → w.r.sector + w.r.sector_count < 2 ^ 64 →
    w.r.sector_count ≤ 256 * n →
    (read_cycle (n + 1) w).r.status = GOOD ∧
    (read_cycle (n + 1) w).r.sector_count = 0 ∧
    (read_cycle (n + 1) w).r.sector = w.r.sector + w.r.sector_count ∧
    ∃ new, (read_cycle (n + 1) w).trace = w.trace ++ new ++ [.scsi_req_complete GOOD] ∧
      statuses new = [] ∧ (data_sizes new).sum = ((w.r.sector_count * 512 : Nat) : Int) := by
  have fin : ∀ (m : Nat) (w : World), read_ready w → w.r.sector_count = 0 →
      (read_cycle (m + 1) w).r.status = GOOD ∧
      (read_cycle (m + 1) w).r.sector_count = 0 ∧
      (read_cycle (m + 1) w).r.sector = w.r.sector + w.r.sector_count ∧
      ∃ new, (read_cycle (m + 1) w).trace = w.trace ++ new ++ [.scsi_req_complete GOOD] ∧
        statuses new = [] ∧ (data_sizes new).sum = ((w.r.sector_count * 512 : Nat) : Int) := by
    intro m w hr h0
    have hst : w.r.status = -1 := hr.1
    have e : read_cycle (m + 1) w = scsi_req_complete w GOOD := by
      simp only [read_cycle, hst, ne_eq, not_true_eq_false, if_false]
      rw [read_turn_done w hr h0]
      exact read_cycle_done m _ (by simp [scsi_req_complete, World.emit, GOOD])
    rw [e]
    refine ⟨by simp [scsi_req_complete, World.emit], by simp [scsi_req_complete, World.emit, h0],
      by simp [scsi_req_complete, World.emit, h0], [], ?_, rfl, by simp [data_sizes, h0]⟩
    simp [scsi_req_complete, World.emit]
  induction n with
  | zero =>
    intro w hr _ _ hk
    exact fin 0 w hr (by omega)
  | succ n ih =>
    intro w hr hsc hsec hk
    by_cases h0 : w.r.sector_count = 0
    · exact fin (n + 1) w hr h0
    · obtain ⟨t1, t2, t3, new, t4, t5, t6⟩ := read_turn_chunk w hr (by omega) hsc hsec
      have hst : w.r.status = -1 := hr.1
      have e : read_cycle (n + 1 + 1) w = read_cycle (n + 1) (read_turn w) := by
        simp only [read_cycle, hst, ne_eq, not_true_eq_false, if_false]
      obtain ⟨i1, i2, i3, rest, i4, i5, i6⟩ := ih (read_turn w) t1 (by rw [t2]; omega)
        (by rw [t2, t3]; omega) (by rw [t2]; omega)
      rw [e]
      refine ⟨i1, i2, by rw [i3, t2, t3]; omega, new ++ rest, ?_, ?_, ?_⟩
      · rw [i4, t4]; simp only [List.append_assoc]
      · rw [statuses_append, t6, i5]; rfl
      · rw [data_sizes_append, List.sum_append, t5, i6, t2]
        simp only [List.sum_cons, List.sum_nil]
        push_cast
        omega

/-- The read cycle at a concrete input: the READ(10) of one block on
`example_disk` ends after two turns with GOOD and the cursor at sector 1. -/
theorem read_cycle_completes_example :
    (read_cycle 2 (scsi_send_command (example_world cmd_read10_one)).1).r.status = GOOD ∧
    (read_cycle 2 (scsi_send_command (example_world cmd_read10_one)).1).r.sector = 1 := by
  have h := read_cycle_completes 1 (scsi_send_command (example_world cmd_read10_one)).1
    ⟨by decide, by decide, by decide, by decide, by decide, by decide, Or.inl rfl⟩
    (by decide) (by decide) (by decide)
  exact ⟨h.1, h.2.2.1.trans (by decide)⟩

/-! ## MODE SENSE: the pages, the header and the block descriptor -/

theorem mode_sense_page_invalid (s : SCSIDiskState) (bs : BlockBackend) (page : Nat) (b : Buf)
    (p pc : Nat) (h : mode_page_valid s page = false) :
    mode_sense_page s bs page b p pc = (-1, b, p) := by
  have h1 : mode_sense_valid page &&& (1 <<< s.type) = 0 := by
    simpa [mode_page_valid] using h
  simp only [mode_sense_page, if_pos h1]

theorem mode_page_valid_cases (s : SCSIDiskState) (page : Nat)
    (h : mode_page_valid s page = true) :
    page = MODE_PAGE_HD_GEOMETRY ∨ page = MODE_PAGE_FLEXIBLE_DISK_GEOMETRY ∨
    page = MODE_PAGE_CACHING ∨ page = MODE_PAGE_R_W_ERROR ∨ page = MODE_PAGE_AUDIO_CTL ∨
    page = MODE_PAGE_CAPABILITIES := by
  by_contra hn
  simp only [not_or] at hn
  obtain ⟨h1, h2, h3, h4, h5, h6⟩ := hn
  have : mode_sense_valid page = 0 := by
    simp only [mode_sense_valid, if_neg h1, if_neg h2, if_neg h3, if_neg h4, if_neg h5, if_neg h6]
  simp [mode_page_valid, this] at h

/-- What `mode_sense_page` does for a page that is valid for the device: it
returns the page length plus two, advances the write position by as much,
stores the page code and the page length, and writes nowhere outside the
page. With `page_control = 1` the body of every page but R_W_ERROR is left
as it was; the body of R_W_ERROR starts with 0x80 for every page control. -/
theorem mode_sense_page_emitted (s : SCSIDiskState) (bs : BlockBackend) (page : Nat) (b : Buf)
    (p pc : Nat) (h : mode_page_valid s page = true) :
    (mode_sense_page s bs page b p pc).1 = ((mode_page_length page + 2 : Nat) : Int) ∧
    (mode_sense_page s bs page b p pc).2.2 = p + (mode_page_length page + 2) ∧
    (mode_sense_page s bs page b p pc).2.1 p = page ∧
    (mode_sense_page s bs page b p pc).2.1 (p + 1) = mode_page_length page ∧
    (∀ j, j < p ∨ p + (mode_page_length page + 2) ≤ j →
      (mode_sense_page s bs page b p pc).2.1 j = b j) ∧
    (pc = 1 → page ≠ MODE_PAGE_R_W_ERROR → ∀ j, p + 2 ≤ j →
      (mode_sense_page s bs page b p pc).2.1 j = b j) ∧
    (page = MODE_PAGE_R_W_ERROR → (mode_sense_page s bs page b p pc).2.1 (p + 2) = 0x80) := by
  have h1 : ¬ (mode_sense_valid page &&& (1 <<< s.type) = 0) := by
    simpa [mode_page_valid] using h
  simp only [mode_sense_page, if_neg h1]
  rcases mode_page_valid_cases s page h with hp | hp | hp | hp | hp | hp
  all_goals subst hp
  all_goals by_cases hc : pc = 1
  all_goals cases hw : bs.enable_write_cache
  all_goals by_cases ht : s.type = 5
  all_goals simp only [mode_sense_page_body, mode_page_length, MODE_PAGE_HD_GEOMETRY,
    MODE_PAGE_FLEXIBLE_DISK_GEOMETRY, MODE_PAGE_CACHING, MODE_PAGE_R_W_ERROR,
    MODE_PAGE_AUDIO_CTL, MODE_PAGE_CAPABILITIES, TYPE_ROM, hc, hw, ht, if_true, Bool.false_eq_true, if_false,
    Nat.reduceEqDiff, ne_eq, not_true_eq_false, not_false_eq_true, forall_true_left,
    false_implies, true_implies, implies_true, and_true]
  all_goals repeat' apply And.intro
  all_goals (try intro j hj)
  all_goals first | rfl | simp (disch := omega) only [buf_set_ne, buf_set_at, Nat.reduceMod, Nat.reduceAdd]

theorem buf_memset_zero (b : Buf) (n j : Nat) :
    Buf.memset b 0 0 n j = if j < n then 0 else b j := by
  simp [Buf.memset]

/-- The two parts make up `scsi_disk_emulate_mode_sense`. -/
theorem mode_sense_parts (w : World) (o : Buf) :
    scsi_disk_emulate_mode_sense w o = mode_sense_pages w (mode_sense_head w o) := rfl

/-- The header and the block descriptor, as `mode_sense_head` leaves them:
the write position, the header bytes for both forms of the command, the
descriptor bytes when there is one, and the zeroed rest of the allocation
length. -/
theorem mode_sense_head_bytes (w : World) (o : Buf) :
    (mode_sense_head w o).2 =
      mode_sense_header_length w.r.cmd + (if mode_sense_has_descriptor w then 8 else 0) ∧
    (∀ j, (mode_sense_head w o).2 ≤ j →
      (mode_sense_head w o).1 j = if j < w.r.cmd.xfer then 0 else o j) ∧
    (cdb w.r.cmd.buf 0 = MODE_SENSE →
      (mode_sense_head w o).1 1 = 0 ∧
      (mode_sense_head w o).1 2 = mode_sense_dev_specific_param w.s w.bs % 256 ∧
      (mode_sense_head w o).1 3 = (if mode_sense_has_descriptor w then 8 else 0)) ∧
    (cdb w.r.cmd.buf 0 ≠ MODE_SENSE →
      (mode_sense_head w o).1 2 = 0 ∧
      (mode_sense_head w o).1 3 = mode_sense_dev_specific_param w.s w.bs % 256 ∧
      (mode_sense_head w o).1 6 = 0 ∧
      (mode_sense_head w o).1 7 = (if mode_sense_has_descriptor w then 8 else 0)) ∧
    (mode_sense_has_descriptor w = true →
      (mode_sense_head w o).1 (mode_sense_header_length w.r.cmd) = 0 ∧
      (mode_sense_head w o).1 (mode_sense_header_length w.r.cmd + 1) =
        (mode_sense_block_count w >>> 16 &&& 0xff) % 256 ∧
      (mode_sense_head w o).1 (mode_sense_header_length w.r.cmd + 2) =
        (mode_sense_block_count w >>> 8 &&& 0xff) % 256 ∧
      (mode_sense_head w o).1 (mode_sense_header_length w.r.cmd + 3) =
        (mode_sense_block_count w &&& 0xff) % 256 ∧
      (mode_sense_head w o).1 (mode_sense_header_length w.r.cmd + 4) = 0 ∧
      (mode_sense_head w o).1 (mode_sense_header_length w.r.cmd + 5) = 0 ∧
      (mode_sense_head w o).1 (mode_sense_header_length w.r.cmd + 6) =
        (w.s.blocksize >>> 8) % 256 ∧
      (mode_sense_head w o).1 (mode_sense_header_length w.r.cmd + 7) = 0) := by
  generalize hD : mode_sense_dev_specific_param w.s w.bs = D
  generalize hN : mode_sense_block_count w = N
  by_cases hop : cdb w.r.cmd.buf 0 = MODE_SENSE
  all_goals by_cases ht : w.s.type = TYPE_DISK
  all_goals by_cases hb : cdb w.r.cmd.buf 1 &&& 0x8 = 0
  all_goals by_cases hn : w.bs.nb_sectors = 0
  all_goals simp only [mode_sense_head, mode_sense_has_descriptor, mode_sense_header_length,
    hD, hN, hop, ht, hb, hn, if_true, if_false, ne_eq, not_true_eq_false, not_false_eq_true,
    decide_True, decide_False, Bool.not_true, Bool.not_false, Bool.false_eq_true, and_true,
    and_false, true_and, false_and, false_implies, true_implies, implies_true,
    decide_not, Bool.not_eq_true', decide_eq_false_iff_not, decide_eq_true_eq]
  all_goals repeat' apply And.intro
  all_goals (try intro j hj)
  all_goals first
    | rfl
    | simp (disch := omega) only [buf_set_ne, buf_set_at, buf_memset_zero, Nat.reduceMod,
        Nat.reduceAdd]

/-- The loop over the pages: the write position advances by the length plus
two of every page that is valid for the device, and nothing before the
starting position is written. -/
theorem mode_sense_fold (s : SCSIDiskState) (bs : BlockBackend) (pc : Nat) (l : List Nat) :
    ∀ (b : Buf) (p : Nat),
    (l.foldl (fun q pg => (mode_sense_page s bs pg q.1 q.2 pc).2) (b, p)).2 =
      p + ((l.filter (mode_page_valid s)).map (fun pg => mode_page_length pg + 2)).sum ∧
    ∀ j, j < p →
      (l.foldl (fun q pg => (mode_sense_page s bs pg q.1 q.2 pc).2) (b, p)).1 j = b j := by
  induction l with
  | nil => intro b p; simp
  | cons pg l ih =>
    intro b p
    simp only [List.foldl_cons]
    cases hv : mode_page_valid s pg
    · rw [mode_sense_page_invalid s bs pg b p pc hv]
      obtain ⟨h1, h2⟩ := ih b p
      simp only [List.filter_cons, hv]
      exact ⟨h1, h2⟩
    · obtain ⟨_, e2, _, _, e5, _, _⟩ := mode_sense_page_emitted s bs pg b p pc hv
      obtain ⟨h1, h2⟩ := ih (mode_sense_page s bs pg b p pc).2.1 (mode_sense_page s bs pg b p pc).2.2
      simp only [List.filter_cons, hv, if_true, List.map_cons, List.sum_cons]
      refine ⟨?_, ?_⟩
      · rw [h1, e2]; omega
      · intro j hj
        rw [h2 j (by rw [e2]; omega), e5 j (Or.inl hj)]

/-- The page control and page code of a MODE SENSE that succeeds. -/
theorem mode_sense_pages_ok_iff (w : World) (blk : Buf × Nat) :
    0 ≤ (mode_sense_pages w blk).ret ↔
      (cdb w.r.cmd.buf 2 &&& 0xc0) >>> 6 ≠ 3 ∧
      (cdb w.r.cmd.buf 2 &&& 0x3f = 0x3f ∨
        mode_page_valid w.s (cdb w.r.cmd.buf 2 &&& 0x3f) = true) := by
  by_cases hc : (cdb w.r.cmd.buf 2 &&& 0xc0) >>> 6 = 3
  · simp [mode_sense_pages, hc]
  · by_cases hp : cdb w.r.cmd.buf 2 &&& 0x3f = 0x3f
    · simp [mode_sense_pages, hc, hp]
    · cases hv : mode_page_valid w.s (cdb w.r.cmd.buf 2 &&& 0x3f)
      · simp [mode_sense_pages, hc, hp, mode_sense_page_invalid _ _ _ _ _ _ hv]
      · obtain ⟨e1, _⟩ := mode_sense_page_emitted w.s w.bs (cdb w.r.cmd.buf 2 &&& 0x3f)
          blk.1 blk.2 ((cdb w.r.cmd.buf 2 &&& 0xc0) >>> 6) hv
        have hne : ¬ ((mode_sense_page w.s w.bs (cdb w.r.cmd.buf 2 &&& 0x3f)
          blk.1 blk.2 ((cdb w.r.cmd.buf 2 &&& 0xc0) >>> 6)).1 = -1) := by
          rw [e1]; omega
        simp only [mode_sense_pages, if_neg hc, if_neg hp, if_neg hne]
        simpa using hc

theorem mode_sense_dev_specific_lt (s : SCSIDiskState) (bs : BlockBackend) :
    mode_sense_dev_specific_param s bs % 256 = mode_sense_dev_specific_param s bs := by
  unfold mode_sense_dev_specific_param
  split_ifs <;> rfl

/-- The response of a MODE SENSE that succeeds: the buffer `q.1` and the end
`q.2` of the pages, the returned length, and the bytes of the response from
offset 2 on. -/
theorem mode_sense_pages_ok (w : World) (blk : Buf × Nat)
    (hok : 0 ≤ (mode_sense_pages w blk).ret) :
    (mode_sense_pages w blk).w = w ∧
    (mode_sense_pages w blk).ret =
      ((blk.2 + ((mode_pages_emitted w.s (cdb w.r.cmd.buf 2 &&& 0x3f)).map
        (fun pg => mode_page_length pg + 2)).sum : Nat) : Int) ∧
    (∀ j, 2 ≤ j → j < blk.2 → (mode_sense_pages w blk).outbuf j = blk.1 j) ∧
    (cdb w.r.cmd.buf 2 &&& 0x3f ≠ 0x3f → ∀ j, 2 ≤ j →
      (mode_sense_pages w blk).outbuf j =
        (mode_sense_page w.s w.bs (cdb w.r.cmd.buf 2 &&& 0x3f) blk.1 blk.2
          ((cdb w.r.cmd.buf 2 &&& 0xc0) >>> 6)).2.1 j) := by
  obtain ⟨hc, hp⟩ := (mode_sense_pages_ok_iff w blk).mp hok
  by_cases hall : cdb w.r.cmd.buf 2 &&& 0x3f = 0x3f
  · obtain ⟨f1, f2⟩ := mode_sense_fold w.s w.bs ((cdb w.r.cmd.buf 2 &&& 0xc0) >>> 6)
      (List.range 0x3f) blk.1 blk.2
    simp only [mode_sense_pages, if_neg hc, hall, if_true, mode_pages_emitted,
      mode_pages_requested, ne_eq, not_true_eq_false, false_implies, and_true]
    refine ⟨trivial, by rw [f1], ?_⟩
    intro j hj1 hj2
    split_ifs
    · rw [buf_set_ne _ _ _ _ (by omega), f2 j hj2]
    · rw [buf_set_ne _ _ _ _ (by omega), buf_set_ne _ _ _ _ (by omega), f2 j hj2]
  · have hv : mode_page_valid w.s (cdb w.r.cmd.buf 2 &&& 0x3f) = true := by
      rcases hp with hp | hp
      · exact absurd hp hall
      · exact hp
    obtain ⟨e1, e2, _, _, e5, _, _⟩ := mode_sense_page_emitted w.s w.bs
      (cdb w.r.cmd.buf 2 &&& 0x3f) blk.1 blk.2 ((cdb w.r.cmd.buf 2 &&& 0xc0) >>> 6) hv
    have hne : ¬ ((mode_sense_page w.s w.bs (cdb w.r.cmd.buf 2 &&& 0x3f)
        blk.1 blk.2 ((cdb w.r.cmd.buf 2 &&& 0xc0) >>> 6)).1 = -1) := by
      rw [e1]; omega
    have hout : ∀ j, 2 ≤ j →
        (mode_sense_pages w blk).outbuf j =
          (mode_sense_page w.s w.bs (cdb w.r.cmd.buf 2 &&& 0x3f) blk.1 blk.2
            ((cdb w.r.cmd.buf 2 &&& 0xc0) >>> 6)).2.1 j := by
      intro j hj
      simp only [mode_sense_pages, if_neg hc, if_neg hall, if_neg hne]
      split_ifs
      · rw [buf_set_ne _ _ _ _ (by omega)]
      · rw [buf_set_ne _ _ _ _ (by omega), buf_set_ne _ _ _ _ (by omega)]
    refine ⟨?_, ?_, ?_, fun _ => hout⟩
    · simp only [mode_sense_pages, if_neg hc, if_neg hall, if_neg hne]
    · simp only [mode_sense_pages, if_neg hc, if_neg hall, if_neg hne, mode_pages_emitted,
        mode_pages_requested, List.filter_cons, hv, if_true, List.filter_nil, List.map_cons,
        List.map_nil, List.sum_cons, List.sum_nil, e2]
      rfl
    · intro j hj1 hj2
      rw [hout j hj1, e5 j (Or.inl hj2)]

/-! ## C21: MODE SENSE, the device-specific parameter -/

/-- C21: in the response of every MODE SENSE(6) or MODE SENSE(10) that
succeeds, the device-specific parameter (byte 2 of the 6-byte form, byte 3 of
the 10-byte form) is `(DPOFUA ? 0x10 : 0) | (read-only ? 0x80 : 0)` on a DISK
and 0 on any other device type (ROM); on such a device the block descriptor
length (byte 3, or bytes 6..7) is 0 and no block descriptor is emitted,
whatever the DBD bit: the returned length is that of the header plus the
pages. -/
theorem mode_sense_device_specific (w : World) (o : Buf)
    (hok : 0 ≤ (scsi_disk_emulate_mode_sense w o).ret) :
    (w.s.type = TYPE_DISK →
      (scsi_disk_emulate_mode_sense w o).outbuf
          (if cdb w.r.cmd.buf 0 = MODE_SENSE then 2 else 3) =
        (if w.s.features &&& (1 <<< SCSI_DISK_F_DPOFUA) ≠ 0 then 0x10 else 0) |||
          (if w.bs.is_read_only then 0x80 else 0)) ∧
    (w.s.type ≠ TYPE_DISK →
      (scsi_disk_emulate_mode_sense w o).outbuf
          (if cdb w.r.cmd.buf 0 = MODE_SENSE then 2 else 3) = 0 ∧
      (cdb w.r.cmd.buf 0 = MODE_SENSE → (scsi_disk_emulate_mode_sense w o).outbuf 3 = 0) ∧
      (cdb w.r.cmd.buf 0 = MODE_SENSE_10 →
        (scsi_disk_emulate_mode_sense w o).outbuf 6 = 0 ∧
        (scsi_disk_emulate_mode_sense w o).outbuf 7 = 0) ∧
      (scsi_disk_emulate_mode_sense w o).ret =
        ((mode_sense_header_length w.r.cmd +
          ((mode_pages_emitted w.s (cdb w.r.cmd.buf 2 &&& 0x3f)).map
            (fun pg => mode_page_length pg + 2)).sum : Nat) : Int)) := by
  rw [mode_sense_parts] at hok ⊢
  obtain ⟨_, r2, r3, _⟩ := mode_sense_pages_ok w (mode_sense_head w o) hok
  obtain ⟨p1, _, p3, p4, _⟩ := mode_sense_head_bytes w o
  have hlen : 4 ≤ mode_sense_header_length w.r.cmd := by
    unfold mode_sense_header_length; split_ifs <;> omega
  have h8 : cdb w.r.cmd.buf 0 = MODE_SENSE_10 → mode_sense_header_length w.r.cmd = 8 := by
    intro h; simp [mode_sense_header_length, h]
  have hdsp := mode_sense_dev_specific_lt w.s w.bs
  have hbyte : (mode_sense_pages w (mode_sense_head w o)).outbuf
      (if cdb w.r.cmd.buf 0 = MODE_SENSE then 2 else 3) =
      mode_sense_dev_specific_param w.s w.bs := by
    by_cases h6 : cdb w.r.cmd.buf 0 = MODE_SENSE
    · rw [if_pos h6, r3 2 (by omega) (by omega), (p3 h6).2.1, hdsp]
    · rw [if_neg h6, r3 3 (by omega) (by omega), (p4 h6).2.1, hdsp]
  refine ⟨fun ht => ?_, fun ht => ?_⟩
  · rw [hbyte]; simp only [mode_sense_dev_specific_param, if_pos ht]
  · have ht0 : ¬ w.s.type = 0 := ht
    have hnd : mode_sense_has_descriptor w = false := by
      simp [mode_sense_has_descriptor, ht0]
    rw [hnd] at p1 p3 p4
    refine ⟨?_, ?_, ?_, ?_⟩
    · rw [hbyte]; simp only [mode_sense_dev_specific_param, if_neg ht]
    · intro h6
      rw [r3 3 (by omega) (by omega), (p3 h6).2.2]; rfl
    · intro h10
      have h6 : cdb w.r.cmd.buf 0 ≠ MODE_SENSE := by rw [h10]; decide
      have := h8 h10
      rw [r3 6 (by omega) (by omega), r3 7 (by omega) (by omega), (p4 h6).2.2.1,
        (p4 h6).2.2.2]
      exact ⟨rfl, rfl⟩
    · rw [r2, p1]; simp

/-- C21 at the scenario S4: MODE SENSE(6) for the CACHING page on a writable
DISK with DPOFUA succeeds with header byte 2 = 0x10. -/
theorem mode_sense_device_specific_witness :
    0 ≤ (scsi_disk_emulate_mode_sense (world_dpofua (cmd_mode_sense_6 0 0x08))
      (fun _ => 0)).ret ∧
    (scsi_disk_emulate_mode_sense (world_dpofua (cmd_mode_sense_6 0 0x08))
      (fun _ => 0)).outbuf 2 = 0x10 :=
  ⟨by decide,
   (mode_sense_device_specific (world_dpofua (cmd_mode_sense_6 0 0x08)) (fun _ => 0)
      (by decide)).1 (by decide)⟩

/-! ## C22: MODE SENSE, the block descriptor -/

/-- Three bytes, most significant first, of a value below `2^24`. -/
theorem be24_bytes (n : Nat) (h : n < 2 ^ 24) :
    (n >>> 16 &&& 0xff) % 256 * 65536 + (n >>> 8 &&& 0xff) % 256 * 256 + (n &&& 0xff) % 256
      = n := by
  simp only [and_ff, Nat.shiftRight_eq_div_pow]
  omega

/-- C22 (as amended): a MODE SENSE that succeeds, on a block size that is a
non-zero multiple of 512 up to 32768. On a DISK with the DBD bit clear and a
medium of non-zero size, the block descriptor length is 8 and the 8-byte
descriptor follows the header: density code 0, the 3-byte big-endian block
count, which is `nb_sectors / (blocksize/512)` when that is at most 0xffffff
and 0 (not 0xffffff) when it is more, a reserved 0, and the 3-byte big-endian
block size; the pages follow the descriptor. Otherwise (DBD set, size 0, or
not a DISK) the block descriptor length is 0 and the pages follow the header
directly. -/
theorem mode_sense_block_descriptor (w : World) (o : Buf)
    (hok : 0 ≤ (scsi_disk_emulate_mode_sense w o).ret)
    (hbs : 512 ∣ w.s.blocksize) (hbs0 : 0 < w.s.blocksize) (hbs1 : w.s.blocksize ≤ 32768) :
    (w.s.type = TYPE_DISK ∧ cdb w.r.cmd.buf 1 &&& 0x8 = 0 ∧ w.bs.nb_sectors ≠ 0 →
      (cdb w.r.cmd.buf 0 = MODE_SENSE → (scsi_disk_emulate_mode_sense w o).outbuf 3 = 8) ∧
      (cdb w.r.cmd.buf 0 ≠ MODE_SENSE →
        (scsi_disk_emulate_mode_sense w o).outbuf 6 = 0 ∧
        (scsi_disk_emulate_mode_sense w o).outbuf 7 = 8) ∧
      (scsi_disk_emulate_mode_sense w o).outbuf (mode_sense_header_length w.r.cmd) = 0 ∧
      (scsi_disk_emulate_mode_sense w o).outbuf (mode_sense_header_length w.r.cmd + 1) * 65536
        + (scsi_disk_emulate_mode_sense w o).outbuf (mode_sense_header_length w.r.cmd + 2) * 256
        + (scsi_disk_emulate_mode_sense w o).outbuf (mode_sense_header_length w.r.cmd + 3) =
          (if w.bs.nb_sectors / (w.s.blocksize / 512) ≤ 0xffffff
            then w.bs.nb_sectors / (w.s.blocksize / 512) else 0) ∧
      (scsi_disk_emulate_mode_sense w o).outbuf (mode_sense_header_length w.r.cmd + 4) = 0 ∧
      (scsi_disk_emulate_mode_sense w o).outbuf (mode_sense_header_length w.r.cmd + 5) * 65536
        + (scsi_disk_emulate_mode_sense w o).outbuf (mode_sense_header_length w.r.cmd + 6) * 256
        + (scsi_disk_emulate_mode_sense w o).outbuf (mode_sense_header_length w.r.cmd + 7) =
          w.s.blocksize ∧
      (scsi_disk_emulate_mode_sense w o).ret =
        ((mode_sense_header_length w.r.cmd + 8 +
          ((mode_pages_emitted w.s (cdb w.r.cmd.buf 2 &&& 0x3f)).map
            (fun pg => mode_page_length pg + 2)).sum : Nat) : Int)) ∧
    (¬ (w.s.type = TYPE_DISK ∧ cdb w.r.cmd.buf 1 &&& 0x8 = 0 ∧ w.bs.nb_sectors ≠ 0) →
      (cdb w.r.cmd.buf 0 = MODE_SENSE → (scsi_disk_emulate_mode_sense w o).outbuf 3 = 0) ∧
      (cdb w.r.cmd.buf 0 ≠ MODE_SENSE →
        (scsi_disk_emulate_mode_sense w o).outbuf 6 = 0 ∧
        (scsi_disk_emulate_mode_sense w o).outbuf 7 = 0) ∧
      (scsi_disk_emulate_mode_sense w o).ret =
        ((mode_sense_header_length w.r.cmd +
          ((mode_pages_emitted w.s (cdb w.r.cmd.buf 2 &&& 0x3f)).map
            (fun pg => mode_page_length pg + 2)).sum : Nat) : Int)) := by
  rw [mode_sense_parts] at hok ⊢
  obtain ⟨_, r2, r3, _⟩ := mode_sense_pages_ok w (mode_sense_head w o) hok
  obtain ⟨p1, _, p3, p4, p5⟩ := mode_sense_head_bytes w o
  have hlen : mode_sense_header_length w.r.cmd = 4 ∨ mode_sense_header_length w.r.cmd = 8 := by
    unfold mode_sense_header_length; split_ifs <;> simp
  have h8 : cdb w.r.cmd.buf 0 ≠ MODE_SENSE → mode_sense_header_length w.r.cmd = 8 := by
    intro h; unfold mode_sense_header_length; rw [if_neg h]
  refine ⟨fun hd => ?_, fun hd => ?_⟩
  · have hdesc : mode_sense_has_descriptor w = true := by
      simpa [mode_sense_has_descriptor] using hd
    rw [hdesc] at p1 p3 p4
    simp only [if_true] at p1 p3 p4
    obtain ⟨d0, d1, d2, d3, d4, d5, d6, d7⟩ := p5 hdesc
    have hcount : mode_sense_block_count w < 2 ^ 24 := by
      unfold mode_sense_block_count; split_ifs <;> omega
    have hcount2 : mode_sense_block_count w =
        (if w.bs.nb_sectors / (w.s.blocksize / 512) ≤ 0xffffff
          then w.bs.nb_sectors / (w.s.blocksize / 512) else 0) := by
      unfold mode_sense_block_count; split_ifs <;> omega
    have hsize : 0 * 65536 + (w.s.blocksize >>> 8) % 256 * 256 + 0 = w.s.blocksize := by
      simp only [Nat.shiftRight_eq_div_pow]
      omega
    refine ⟨?_, ?_, ?_, ?_, ?_, ?_, ?_⟩
    · intro h6
      rw [r3 3 (by omega) (by omega), (p3 h6).2.2]
    · intro h6
      have := h8 h6
      rw [r3 6 (by omega) (by omega), r3 7 (by omega) (by omega), (p4 h6).2.2.1,
        (p4 h6).2.2.2]
      exact ⟨rfl, rfl⟩
    · rw [r3 _ (by omega) (by omega), d0]
    · rw [r3 _ (by omega) (by omega), r3 _ (by omega) (by omega), r3 _ (by omega) (by omega),
        d1, d2, d3, be24_bytes _ hcount, hcount2]
    · rw [r3 _ (by omega) (by omega), d4]
    · rw [r3 _ (by omega) (by omega), r3 _ (by omega) (by omega), r3 _ (by omega) (by omega),
        d5, d6, d7]
      exact hsize
    · rw [r2, p1]
  · have hdesc : mode_sense_has_descriptor w = false := by
      simpa [mode_sense_has_descriptor] using hd
    rw [hdesc] at p1 p3 p4
    refine ⟨?_, ?_, ?_⟩
    · intro h6
      rw [r3 3 (by omega) (by omega), (p3 h6).2.2]; rfl
    · intro h6
      have := h8 h6
      rw [r3 6 (by omega) (by omega), r3 7 (by omega) (by omega), (p4 h6).2.2.1,
        (p4 h6).2.2.2]
      exact ⟨rfl, rfl⟩
    · rw [r2, p1]; simp

/-- C22 at a concrete input: MODE SENSE(6) for the CACHING page on the disk of
4096 blocks of 512 bytes answers with the descriptor `00 00 10 00 00 00 02 00`
behind the 4-byte header. -/
theorem mode_sense_block_descriptor_witness :
    (List.range 8).map (fun i =>
      (scsi_disk_emulate_mode_sense (example_world (cmd_mode_sense_6 0 0x08))
        (fun _ => 0)).outbuf (4 + i)) = [0x00, 0x00, 0x10, 0x00, 0x00, 0x00, 0x02, 0x00] ∧
    (scsi_disk_emulate_mode_sense (example_world (cmd_mode_sense_6 0 0x08))
      (fun _ => 0)).ret = 32 :=
  ⟨by decide,
   ((mode_sense_block_descriptor (example_world (cmd_mode_sense_6 0 0x08)) (fun _ => 0)
      (by decide) (by decide) (by decide) (by decide)).1
        ⟨by decide, by decide, by decide⟩).2.2.2.2.2.2.trans (by decide)⟩

/-- The block count of the descriptor is not capped at 0xffffff: on a disk of
`2^25` blocks of 512 bytes the three bytes are zero, where the cap would give
`ff ff ff`. -/
theorem mode_sense_block_count_16g :
    min (world_16g (cmd_mode_sense_6 0 0x08)).bs.nb_sectors 0xffffff = 0xffffff ∧
    0 ≤ (scsi_disk_emulate_mode_sense (world_16g (cmd_mode_sense_6 0 0x08)) (fun _ => 0)).ret ∧
    (List.range 8).map (fun i =>
      (scsi_disk_emulate_mode_sense (world_16g (cmd_mode_sense_6 0 0x08))
        (fun _ => 0)).outbuf (4 + i)) = [0x00, 0x00, 0x00, 0x00, 0x00, 0x00, 0x02, 0x00] := by
  decide

/-! ## C23: MODE SENSE, changeable values -/

/-- MODE SENSE with page control 1 (changeable values) for a page that is
valid for the device, in every state: the command succeeds, the page stands
behind the header and the block descriptor with its page code and page
length, and the part of its body inside the allocation length is zero for
every page but R_W_ERROR, whose body starts with 0x80. -/
theorem mode_sense_changeable_values (w : World) (o : Buf)
    (hpc : (cdb w.r.cmd.buf 2 &&& 0xc0) >>> 6 = 1)
    (hv : mode_page_valid w.s (cdb w.r.cmd.buf 2 &&& 0x3f) = true) :
    (scsi_disk_emulate_mode_sense w o).ret =
      (((mode_sense_head w o).2 + (mode_page_length (cdb w.r.cmd.buf 2 &&& 0x3f) + 2) : Nat)
        : Int) ∧
    (mode_sense_head w o).2 =
      mode_sense_header_length w.r.cmd + (if mode_sense_has_descriptor w then 8 else 0) ∧
    (scsi_disk_emulate_mode_sense w o).outbuf (mode_sense_head w o).2 =
      cdb w.r.cmd.buf 2 &&& 0x3f ∧
    (scsi_disk_emulate_mode_sense w o).outbuf ((mode_sense_head w o).2 + 1) =
      mode_page_length (cdb w.r.cmd.buf 2 &&& 0x3f) ∧
    (cdb w.r.cmd.buf 2 &&& 0x3f ≠ MODE_PAGE_R_W_ERROR →
      ∀ j, (mode_sense_head w o).2 + 2 ≤ j → j < w.r.cmd.xfer →
        (scsi_disk_emulate_mode_sense w o).outbuf j = 0) ∧
    (cdb w.r.cmd.buf 2 &&& 0x3f = MODE_PAGE_R_W_ERROR →
      (scsi_disk_emulate_mode_sense w o).outbuf ((mode_sense_head w o).2 + 2) = 0x80) := by
  have hc : (cdb w.r.cmd.buf 2 &&& 0xc0) >>> 6 ≠ 3 := by rw [hpc]; decide
  have hall : cdb w.r.cmd.buf 2 &&& 0x3f ≠ 0x3f := by
    intro h
    rw [h] at hv
    have := mode_page_valid_cases w.s 0x3f hv
    simp at this
  have hok : 0 ≤ (mode_sense_pages w (mode_sense_head w o)).ret :=
    (mode_sense_pages_ok_iff w _).mpr ⟨hc, Or.inr hv⟩
  rw [mode_sense_parts]
  obtain ⟨_, r2, _, r4⟩ := mode_sense_pages_ok w (mode_sense_head w o) hok
  obtain ⟨p1, p2, _, _, _⟩ := mode_sense_head_bytes w o
  obtain ⟨_, _, e3, e4, _, e6, e7⟩ := mode_sense_page_emitted w.s w.bs
    (cdb w.r.cmd.buf 2 &&& 0x3f) (mode_sense_head w o).1 (mode_sense_head w o).2
    ((cdb w.r.cmd.buf 2 &&& 0xc0) >>> 6) hv
  have h4 : 4 ≤ (mode_sense_head w o).2 := by
    rw [p1]; unfold mode_sense_header_length; split_ifs <;> omega
  refine ⟨?_, p1, ?_, ?_, ?_, ?_⟩
  · rw [r2]
    simp only [mode_pages_emitted, mode_pages_requested, if_neg hall, List.filter_cons, hv,
      if_true, List.filter_nil, List.map_cons, List.map_nil, List.sum_cons, List.sum_nil,
      add_zero]
  · rw [r4 hall _ (by omega), e3]
  · rw [r4 hall _ (by omega), e4]
  · intro hrw j hj hx
    rw [r4 hall _ (by omega), e6 hpc hrw j hj, p2 j (by omega), if_pos hx]
  · intro hrw
    rw [r4 hall _ (by omega), e7 hrw]

/-- C23 at the failing input: MODE SENSE(6) for the changeable values
(page control 1) of the R_W_ERROR page on the example disk, into a buffer
filled with 0xAA, succeeds with 24 bytes; the page stands at offset 12 with the header `01 0a`, and its body is
not zero: it starts with 0x80. -/
theorem mode_sense_changeable_rw_error :
    (scsi_disk_emulate_mode_sense (example_world (cmd_mode_sense_6 0 0x41)) (fun _ => 0xAA)).ret
      = 24 ∧
    (List.range 12).map (fun i =>
      (scsi_disk_emulate_mode_sense (example_world (cmd_mode_sense_6 0 0x41))
        (fun _ => 0xAA)).outbuf (12 + i)) = [0x01, 0x0a, 0x80, 0, 0, 0, 0, 0, 0, 0, 0, 0] := by
  decide

/-- The changeable values of the CACHING page on the example disk: the page
header `08 12` and a body of 18 zero bytes. -/
theorem mode_sense_changeable_caching_example :
    (List.range 20).map (fun i =>
      (scsi_disk_emulate_mode_sense (example_world (cmd_mode_sense_6 0 0x48))
        (fun _ => 0xAA)).outbuf (12 + i)) =
      [0x08, 0x12, 0, 0, 0, 0, 0, 0, 0, 0, 0, 0, 0, 0, 0, 0, 0, 0, 0, 0] := by
  decide

/-! ## C24: MODE SENSE, the mode data length -/

/-- The mode data length bytes of a MODE SENSE that succeeds, in terms of the
returned length. -/
theorem mode_sense_pages_length_bytes (w : World) (blk : Buf × Nat)
    (hok : 0 ≤ (mode_sense_pages w blk).ret) :
    (cdb w.r.cmd.buf 0 = MODE_SENSE →
      (mode_sense_pages w blk).outbuf 0 = ((mode_sense_pages w blk).ret.toNat - 1) % 256) ∧
    (cdb w.r.cmd.buf 0 ≠ MODE_SENSE →
      (mode_sense_pages w blk).outbuf 0 =
        (((mode_sense_pages w blk).ret.toNat - 2) >>> 8 &&& 0xff) % 256 ∧
      (mode_sense_pages w blk).outbuf 1 =
        (((mode_sense_pages w blk).ret.toNat - 2) &&& 0xff) % 256) := by
  obtain ⟨hc, hp⟩ := (mode_sense_pages_ok_iff w blk).mp hok
  by_cases hall : cdb w.r.cmd.buf 2 &&& 0x3f = 0x3f
  · simp only [mode_sense_pages, if_neg hc, hall, if_true]
    refine ⟨fun h6 => ?_, fun h6 => ?_⟩
    · simp only [if_pos h6, Int.toNat_ofNat, buf_set_eq]
    · simp only [if_neg h6, Int.toNat_ofNat, buf_set_eq]
      exact ⟨by rw [buf_set_ne _ _ _ _ (by omega), buf_set_eq], trivial⟩
  · have hv : mode_page_valid w.s (cdb w.r.cmd.buf 2 &&& 0x3f) = true := by
      rcases hp with hp | hp
      · exact absurd hp hall
      · exact hp
    obtain ⟨e1, _⟩ := mode_sense_page_emitted w.s w.bs
      (cdb w.r.cmd.buf 2 &&& 0x3f) blk.1 blk.2 ((cdb w.r.cmd.buf 2 &&& 0xc0) >>> 6) hv
    have hne : ¬ ((mode_sense_page w.s w.bs (cdb w.r.cmd.buf 2 &&& 0x3f)
        blk.1 blk.2 ((cdb w.r.cmd.buf 2 &&& 0xc0) >>> 6)).1 = -1) := by
      rw [e1]; omega
    simp only [mode_sense_pages, if_neg hc, if_neg hall, if_neg hne]
    refine ⟨fun h6 => ?_, fun h6 => ?_⟩
    · simp only [if_pos h6, Int.toNat_ofNat, buf_set_eq]
    · simp only [if_neg h6, Int.toNat_ofNat, buf_set_eq]
      exact ⟨by rw [buf_set_ne _ _ _ _ (by omega), buf_set_eq], trivial⟩

/-- The pages of any list that are valid for a device take no more room than
all the pages of the list that `mode_sense_page` knows. -/
theorem mode_pages_sum_le (s : SCSIDiskState) (l : List Nat) :
    ((l.filter (mode_page_valid s)).map (fun pg => mode_page_length pg + 2)).sum ≤
      (l.map (fun pg => if mode_page_length pg = 0 then 0 else mode_page_length pg + 2)).sum := by
  induction l with
  | nil => simp
  | cons pg l ih =>
    cases hv : mode_page_valid s pg
    · simp only [List.filter_cons, hv, List.map_cons, List.sum_cons]
      exact le_trans ih (Nat.le_add_left _ _)
    · have hne : ¬ mode_page_length pg = 0 := by
        rcases mode_page_valid_cases s pg hv with h | h | h | h | h | h <;> subst h <;> decide
      simp only [List.filter_cons, hv, if_true, List.map_cons, List.sum_cons, if_neg hne]
      omega

/-- The pages of a MODE SENSE take at most 126 bytes. -/
theorem mode_pages_emitted_le (s : SCSIDiskState) (page : Nat) :
    ((mode_pages_emitted s page).map (fun pg => mode_page_length pg + 2)).sum ≤ 126 := by
  unfold mode_pages_emitted mode_pages_requested
  refine le_trans (mode_pages_sum_le s _) ?_
  split_ifs
  · decide
  · simp only [List.map_cons, List.map_nil, List.sum_cons, List.sum_nil, add_zero]
    unfold mode_page_length
    split_ifs <;> omega

/-- C24: in the response of every MODE SENSE that succeeds, for every device
type and page request, the synthesized response has
`total = header + (8 if a block descriptor is emitted) + the sum of
(page length + 2) over the emitted pages` bytes, which is what the function
returns before the truncation to the allocation length; byte 0 of MODE
SENSE(6) holds `total - 1` and bytes 0..1 of MODE SENSE(10) hold `total - 2`,
most significant byte first; `total` is at most 142, so the value fits the
field. -/
theorem mode_sense_mode_data_length (w : World) (o : Buf)
    (hok : 0 ≤ (scsi_disk_emulate_mode_sense w o).ret) :
    ∃ total : Nat,
      total = mode_sense_header_length w.r.cmd +
        (if mode_sense_has_descriptor w then 8 else 0) +
        ((mode_pages_emitted w.s (cdb w.r.cmd.buf 2 &&& 0x3f)).map
          (fun pg => mode_page_length pg + 2)).sum ∧
      (scsi_disk_emulate_mode_sense w o).ret = (total : Int) ∧
      4 ≤ total ∧ total ≤ 142 ∧
      (cdb w.r.cmd.buf 0 = MODE_SENSE →
        (scsi_disk_emulate_mode_sense w o).outbuf 0 = total - 1) ∧
      (cdb w.r.cmd.buf 0 ≠ MODE_SENSE →
        (scsi_disk_emulate_mode_sense w o).outbuf 0 * 256 +
          (scsi_disk_emulate_mode_sense w o).outbuf 1 = total - 2) := by
  rw [mode_sense_parts] at hok ⊢
  obtain ⟨_, r2, _, _⟩ := mode_sense_pages_ok w (mode_sense_head w o) hok
  obtain ⟨l1, l2⟩ := mode_sense_pages_length_bytes w (mode_sense_head w o) hok
  obtain ⟨p1, _⟩ := mode_sense_head_bytes w o
  have hsum := mode_pages_emitted_le w.s (cdb w.r.cmd.buf 2 &&& 0x3f)
  have hlen : 4 ≤ mode_sense_header_length w.r.cmd ∧ mode_sense_header_length w.r.cmd ≤ 8 := by
    unfold mode_sense_header_length; split_ifs <;> omega
  have hd : (if mode_sense_has_descriptor w = true then 8 else 0) ≤ 8 := by
    split_ifs <;> omega
  rw [p1] at r2
  generalize hS : ((mode_pages_emitted w.s (cdb w.r.cmd.buf 2 &&& 0x3f)).map
    (fun pg => mode_page_length pg + 2)).sum = S at r2 hsum ⊢
  generalize hH : mode_sense_header_length w.r.cmd = H at r2 hlen ⊢
  generalize hDl : (if mode_sense_has_descriptor w = true then 8 else 0) = Dl at r2 hd ⊢
  refine ⟨H + Dl + S, rfl, r2, by omega, by omega, ?_, ?_⟩
  · intro h6
    rw [l1 h6, r2, Int.toNat_ofNat]
    omega
  · intro h6
    rw [(l2 h6).1, (l2 h6).2, r2, Int.toNat_ofNat]
    simp only [and_ff, Nat.shiftRight_eq_div_pow]
    omega

/-- C24 at concrete inputs: MODE SENSE(6) for all pages (page code 0x3f) on
the example disk returns 100 bytes and stores 99 in byte 0. -/
theorem mode_sense_mode_data_length_witness :
    (scsi_disk_emulate_mode_sense (example_world (cmd_mode_sense_6 0 0x3f))
      (fun _ => 0xAA)).ret = 100 ∧
    (scsi_disk_emulate_mode_sense (example_world (cmd_mode_sense_6 0 0x3f))
      (fun _ => 0xAA)).outbuf 0 = 99 := by
  obtain ⟨total, h1, h2, _, _, h5, _⟩ :=
    mode_sense_mode_data_length (example_world (cmd_mode_sense_6 0 0x3f)) (fun _ => 0xAA)
      (by decide)
  have ht : total = 100 := by rw [h1]; decide
  subst ht
  exact ⟨h2, h5 (by decide)⟩

/-! ## C25: the MMC commands on a device that is not a ROM -/

/-- The cases of the emulation switch for the five commands whose helper
tests the device type: on a device that is not a ROM each of them leaves
through `illegal_request` without touching the state. -/
theorem emulate_switch_rom_only (w : World) (o : Buf)
    (hop : cdb w.r.cmd.buf 0 = READ_DISC_INFORMATION ∨ cdb w.r.cmd.buf 0 = READ_DVD_STRUCTURE ∨
      cdb w.r.cmd.buf 0 = GET_CONFIGURATION ∨
      cdb w.r.cmd.buf 0 = GET_EVENT_STATUS_NOTIFICATION ∨
      cdb w.r.cmd.buf 0 = MECHANISM_STATUS)
    (ht : w.s.type ≠ TYPE_ROM) :
    (scsi_disk_emulate_switch w o).exit = .illegal_request ∧
    (scsi_disk_emulate_switch w o).w = w := by
  rcases hop with h | h | h | h | h
  all_goals simp only [scsi_disk_emulate_switch, h]
  all_goals simp only [TEST_UNIT_READY, INQUIRY, MODE_SENSE, MODE_SENSE_10, READ_TOC, RESERVE,
    RESERVE_10, RELEASE, RELEASE_10, START_STOP, ALLOW_MEDIUM_REMOVAL, READ_CAPACITY_10,
    REQUEST_SENSE, MECHANISM_STATUS, GET_CONFIGURATION, GET_EVENT_STATUS_NOTIFICATION,
    READ_DISC_INFORMATION, READ_DVD_STRUCTURE, SERVICE_ACTION_IN_16, Nat.reduceEqDiff,
    if_false, if_true, or_self, or_false, false_or]
  · simp only [scsi_read_disc_information, if_pos ht]
    exact ⟨by simp [EmuCase.ofLen], ofLen_w _ _ _⟩
  · simp only [scsi_read_dvd_structure, if_pos ht]
    exact ⟨by simp [EmuCase.ofLen], ofLen_w _ _ _⟩
  · simp only [scsi_get_configuration, if_pos ht]
    exact ⟨by simp [EmuCase.ofLen], ofLen_w _ _ _⟩
  · simp only [scsi_get_event_status_notification, if_pos ht]
    exact ⟨by simp [EmuCase.ofLen], ofLen_w _ _ _⟩
  · simp only [scsi_emulate_mechanism_status, if_pos ht]
    exact ⟨by simp [EmuCase.ofLen], ofLen_w _ _ _⟩

/-- C25 (as amended): READ DISC INFORMATION, READ DVD STRUCTURE, GET
CONFIGURATION, GET EVENT STATUS NOTIFICATION and MECHANISM STATUS, for every
CDB of these opcodes on a request without status, issued to a device that
is not a ROM and has a medium: `scsi_send_command` posts the sense
INVALID_FIELD (not INVALID_OPCODE) with CHECK_CONDITION exactly once, posts
no data, returns 0 and leaves device and backend as they were. -/
theorem rom_only_invalid_field (w : World)
    (hop : cdb w.r.cmd.buf 0 = READ_DISC_INFORMATION ∨ cdb w.r.cmd.buf 0 = READ_DVD_STRUCTURE ∨
      cdb w.r.cmd.buf 0 = GET_CONFIGURATION ∨
      cdb w.r.cmd.buf 0 = GET_EVENT_STATUS_NOTIFICATION ∨
      cdb w.r.cmd.buf 0 = MECHANISM_STATUS)
    (ht : w.s.type ≠ TYPE_ROM) (hst : w.r.status = -1)
    (hmed : w.s.tray_open = false ∧ w.bs.is_inserted = true) :
    (scsi_send_command w).2 = 0 ∧
    (scsi_send_command w).1.trace = w.trace ++
      [.scsi_req_build_sense .INVALID_FIELD, .scsi_req_complete CHECK_CONDITION] ∧
    (scsi_send_command w).1.r.status = CHECK_CONDITION ∧
    (scsi_send_command w).1.r.sense = some .INVALID_FIELD ∧
    (scsi_send_command w).1.s = w.s ∧ (scsi_send_command w).1.bs = w.bs := by
  have hm : ¬ (!no_medium_check (cdb w.r.cmd.buf 0) ∧
      (w.s.tray_open ∨ !w.bs.is_inserted)) := by
    simp [hmed.1, hmed.2]
  have he : is_emulated (cdb w.r.cmd.buf 0) = true := by
    rcases hop with h | h | h | h | h <;> rw [h] <;> decide
  obtain ⟨har, hat, hah, has, hab⟩ := emulate_alloc_r w
  have hcmd : (scsi_disk_emulate_alloc w).r.cmd = w.r.cmd := by rw [har]
  have hstat : (scsi_disk_emulate_alloc w).r.status = w.r.status := by rw [har]
  have hq : (scsi_disk_emulate_command w).2 = -1 ∧
      (scsi_disk_emulate_command w).1.trace = w.trace ++
        [.scsi_req_build_sense .INVALID_FIELD, .scsi_req_complete CHECK_CONDITION] ∧
      (scsi_disk_emulate_command w).1.r.status = CHECK_CONDITION ∧
      (scsi_disk_emulate_command w).1.r.sense = some .INVALID_FIELD ∧
      (scsi_disk_emulate_command w).1.s = w.s ∧ (scsi_disk_emulate_command w).1.bs = w.bs := by
    by_cases hbig : w.r.iov_base.isNone ∧ w.r.cmd.xfer > 65536
    · simp only [scsi_disk_emulate_command, if_pos hbig, hst, if_true]
      simp [scsi_check_condition, scsi_req_complete, scsi_req_build_sense, World.emit]
    · have hcase := emulate_switch_rom_only (scsi_disk_emulate_alloc w)
        ((scsi_disk_emulate_alloc w).r.iov_base.getD (fun _ => 0))
        (by rw [hcmd]; exact hop) (by rw [has]; exact ht)
      simp only [scsi_disk_emulate_command, if_neg hbig, hcase.1, hcase.2, hstat, hst, if_true]
      simp [scsi_check_condition, scsi_req_complete, scsi_req_build_sense, World.emit, hat,
        has, hab]
  obtain ⟨q1, q2, q3, q4, q5, q6⟩ := hq
  have hneg : (scsi_disk_emulate_command w).2 < 0 := by rw [q1]; decide
  simp only [scsi_send_command, if_neg hm, scsi_send_command_switch, he, if_true, hneg]
  simp [q2, q3, q4, q5, q6]

/-- C25 at a concrete input: GET CONFIGURATION on the example disk. -/
theorem rom_only_invalid_field_witness :
    (scsi_send_command (example_world cmd_get_configuration)).2 = 0 ∧
    (scsi_send_command (example_world cmd_get_configuration)).1.trace =
      (example_world cmd_get_configuration).trace ++
        [.scsi_req_build_sense .INVALID_FIELD, .scsi_req_complete CHECK_CONDITION] :=
  ⟨(rom_only_invalid_field (example_world cmd_get_configuration)
      (Or.inr (Or.inr (Or.inl (by decide)))) (by decide) (by decide)
      ⟨by decide, by decide⟩).1,
   (rom_only_invalid_field (example_world cmd_get_configuration)
      (Or.inr (Or.inr (Or.inl (by decide)))) (by decide) (by decide)
      ⟨by decide, by decide⟩).2.1⟩

/-- The sense of a ROM-only command on a DISK is not INVALID_OPCODE, and READ
TOC is not ROM-only: on the example disk, GET CONFIGURATION posts
INVALID_FIELD, and READ TOC (format 1) posts no sense and returns its 12
bytes. -/
theorem rom_only_on_disk :
    senses (scsi_send_command (example_world cmd_get_configuration)).1.trace
      = [.INVALID_FIELD] ∧
    senses (scsi_send_command (example_world cmd_read_toc_sessions)).1.trace = [] ∧
    statuses (scsi_send_command (example_world cmd_read_toc_sessions)).1.trace = [] ∧
    (scsi_send_command (example_world cmd_read_toc_sessions)).2 = 12 := by
  decide

/-- READ TOC does not look at the device type. -/
theorem read_toc_any_type (s : SCSIDiskState) (bs : BlockBackend) (host : Host)
    (cmd : SCSICommand) (o : Buf) (t : Nat) :
    scsi_disk_emulate_read_toc { s with type := t } bs host cmd o =
      scsi_disk_emulate_read_toc s bs host cmd o := rfl

/-! ## C26: START STOP UNIT -/

theorem emulate_switch_start_stop (w : World) (o : Buf) (h : cdb w.r.cmd.buf 0 = START_STOP) :
    scsi_disk_emulate_switch w o =
      if (scsi_disk_emulate_start_stop w).2 < 0 then ⟨(scsi_disk_emulate_start_stop w).1, o, .fail⟩
      else ⟨(scsi_disk_emulate_start_stop w).1, o, .brk 0⟩ := by
  simp only [scsi_disk_emulate_switch, h]
  simp only [TEST_UNIT_READY, INQUIRY, MODE_SENSE, MODE_SENSE_10, READ_TOC, RESERVE,
    RESERVE_10, RELEASE, RELEASE_10, START_STOP, ALLOW_MEDIUM_REMOVAL, READ_CAPACITY_10,
    REQUEST_SENSE, MECHANISM_STATUS, GET_CONFIGURATION, GET_EVENT_STATUS_NOTIFICATION,
    READ_DISC_INFORMATION, READ_DVD_STRUCTURE, SERVICE_ACTION_IN_16, Nat.reduceEqDiff,
    if_false, if_true, or_self, or_false, false_or]

theorem tail_s (w : World) : (scsi_send_command_tail w).1.s = w.s := by
  unfold scsi_send_command_tail
  simp only []
  split_ifs <;> rfl

theorem tail_bs (w : World) : (scsi_send_command_tail w).1.bs = w.bs := by
  unfold scsi_send_command_tail
  simp only []
  split_ifs <;> rfl

/-- START STOP UNIT through `scsi_send_command`, in terms of
`scsi_disk_emulate_start_stop` on the request with its buffer allocated: when
the helper fails the command returns 0 in the state the helper left; when it
succeeds the command is completed with GOOD. -/
theorem send_command_start_stop (w : World) (hop : cdb w.r.cmd.buf 0 = START_STOP)
    (hx : w.r.cmd.xfer ≤ 65536) (hsc : w.r.sector_count = 0) :
    (scsi_send_command w).2 = 0 ∧
    (scsi_send_command w).1.s = (scsi_disk_emulate_start_stop (scsi_disk_emulate_alloc w)).1.s ∧
    (scsi_send_command w).1.bs =
      (scsi_disk_emulate_start_stop (scsi_disk_emulate_alloc w)).1.bs ∧
    (scsi_send_command w).1.trace =
      (scsi_disk_emulate_start_stop (scsi_disk_emulate_alloc w)).1.trace ++
        (if (scsi_disk_emulate_start_stop (scsi_disk_emulate_alloc w)).2 < 0 then []
         else [.scsi_req_complete GOOD]) := by
  have hn : no_medium_check (cdb w.r.cmd.buf 0) = true := by rw [hop]; decide
  have he : is_emulated (cdb w.r.cmd.buf 0) = true := by rw [hop]; decide
  have hne : ¬(w.r.iov_base.isNone ∧ w.r.cmd.xfer > 65536) := fun h => by omega
  obtain ⟨har, hat, hah, has, hab⟩ := emulate_alloc_r w
  have hcmd : (scsi_disk_emulate_alloc w).r.cmd = w.r.cmd := by rw [har]
  rcases start_stop_summary (scsi_disk_emulate_alloc w) with
    ⟨q2, qr, _, _, _⟩ | ⟨q2, sense, qw, _⟩
  · have hlt : ¬ (scsi_disk_emulate_start_stop (scsi_disk_emulate_alloc w)).2 < 0 := by
      rw [q2]; decide
    have hmin : MIN_int_size 0 w.r.cmd.xfer = 0 := by
      unfold MIN_int_size
      split_ifs with h
      · rfl
      · have : w.r.cmd.xfer = 0 := by simpa using h
        rw [this]; rfl
    have hq : scsi_disk_emulate_command w =
        ({ (scsi_disk_emulate_start_stop (scsi_disk_emulate_alloc w)).1 with
            r := { (scsi_disk_emulate_start_stop (scsi_disk_emulate_alloc w)).1.r with
              iov_base := some ((scsi_disk_emulate_alloc w).r.iov_base.getD (fun _ => 0)) } },
          0) := by
      simp only [scsi_disk_emulate_command, if_neg hne,
        emulate_switch_start_stop _ _ (by rw [hcmd]; exact hop), if_neg hlt, qr, hcmd, hmin]
    have hneg : ¬ (scsi_disk_emulate_command w).2 < 0 := by rw [hq]; simp
    have hsc2 : (scsi_disk_emulate_alloc w).r.sector_count = 0 := by rw [har]; exact hsc
    simp only [scsi_send_command, hn, Bool.not_true, Bool.false_eq_true, false_and, if_false,
      scsi_send_command_switch, he, if_true, hneg, tail_s, tail_bs, tail_trace, if_neg hlt]
    refine ⟨?_, ?_, ?_, ?_⟩
    · rw [tail_ret _ (by simp [hq, qr, hsc2])]
      simp [hq, qr, hsc2]
    · rw [hq]
    · rw [hq]
    · simp [hq, qr, hsc2]
  · have hlt : (scsi_disk_emulate_start_stop (scsi_disk_emulate_alloc w)).2 < 0 := by
      rw [q2]; decide
    have hq : scsi_disk_emulate_command w =
        ({ (scsi_disk_emulate_start_stop (scsi_disk_emulate_alloc w)).1 with
            r := { (scsi_disk_emulate_start_stop (scsi_disk_emulate_alloc w)).1.r with
              iov_base := some ((scsi_disk_emulate_alloc w).r.iov_base.getD (fun _ => 0)) } },
          -1) := by
      simp only [scsi_disk_emulate_command, if_neg hne,
        emulate_switch_start_stop _ _ (by rw [hcmd]; exact hop), if_pos hlt]
    have hneg : (scsi_disk_emulate_command w).2 < 0 := by rw [hq]; simp
    simp only [scsi_send_command, hn, Bool.not_true, Bool.false_eq_true, false_and, if_false,
      scsi_send_command_switch, he, if_true, hneg, if_pos hlt]
    rw [hq]
    simp

/-- START STOP UNIT changes nothing when the tray is where the command wants
it and is not kept closed by the lock. -/
theorem start_stop_nop (w : World)
    (hkeep : decide (cdb w.r.cmd.buf 4 &&& 1 = 0) = w.s.tray_open)
    (hn : ¬ (cdb w.r.cmd.buf 4 &&& 1 = 0 ∧ w.s.tray_open = false ∧ w.s.tray_locked = true)) :
    scsi_disk_emulate_start_stop w = (w, 0) := by
  unfold scsi_disk_emulate_start_stop
  generalize cdb w.r.cmd.buf 4 &&& 1 = x at hkeep hn ⊢
  generalize cdb w.r.cmd.buf 4 &&& 2 = y
  by_cases h1 : w.s.type = TYPE_ROM ∧ decide (y ≠ 0) = true
  · have h2 : ¬ ((!decide (x ≠ 0)) = true ∧ (!w.s.tray_open) = true ∧
        w.s.tray_locked = true) := by
      intro h2
      apply hn
      simpa using h2
    have h3 : ¬ (w.s.tray_open ≠ !decide (x ≠ 0)) := by
      rw [← hkeep]
      simp
    simp only [if_pos h1, if_neg h2, if_neg h3]
  · simp only [if_neg h1]

/-- The three courses of `scsi_disk_emulate_start_stop`. -/
theorem start_stop_cases (w : World) :
    (w.s.type = TYPE_ROM ∧ cdb w.r.cmd.buf 4 &&& 2 ≠ 0 ∧ cdb w.r.cmd.buf 4 &&& 1 = 0 ∧
        w.s.tray_open = false ∧ w.s.tray_locked = true →
      scsi_disk_emulate_start_stop w =
        (scsi_check_condition w
          (if w.bs.is_inserted then .ILLEGAL_REQ_REMOVAL_PREVENTED
           else .NOT_READY_REMOVAL_PREVENTED), -1)) ∧
    (w.s.type = TYPE_ROM ∧ cdb w.r.cmd.buf 4 &&& 2 ≠ 0 ∧
        ¬ (cdb w.r.cmd.buf 4 &&& 1 = 0 ∧ w.s.tray_open = false ∧ w.s.tray_locked = true) →
      (scsi_disk_emulate_start_stop w).2 = 0 ∧
      (scsi_disk_emulate_start_stop w).1.s =
        { w.s with tray_open := decide (cdb w.r.cmd.buf 4 &&& 1 = 0) } ∧
      (scsi_disk_emulate_start_stop w).1.bs = w.bs ∧
      (scsi_disk_emulate_start_stop w).1.trace = w.trace ++
        (if w.s.tray_open ≠ decide (cdb w.r.cmd.buf 4 &&& 1 = 0)
          then [.bdrv_eject (decide (cdb w.r.cmd.buf 4 &&& 1 = 0))] else [])) ∧
    (¬ (w.s.type = TYPE_ROM ∧ cdb w.r.cmd.buf 4 &&& 2 ≠ 0) →
      scsi_disk_emulate_start_stop w = (w, 0)) := by
  refine ⟨?_, ?_, ?_⟩
  · rintro ⟨ht, hl, hs, ho, hk⟩
    unfold scsi_disk_emulate_start_stop
    generalize cdb w.r.cmd.buf 4 &&& 1 = x at hs
    generalize cdb w.r.cmd.buf 4 &&& 2 = y at hl
    simp [ht, hl, hs, ho, hk]
  · rintro ⟨ht, hl, hn⟩
    by_cases hkeep : decide (cdb w.r.cmd.buf 4 &&& 1 = 0) = w.s.tray_open
    · rw [start_stop_nop w hkeep hn, hkeep]
      exact ⟨rfl, rfl, rfl, by simp⟩
    · have hne : w.s.tray_open ≠ decide (cdb w.r.cmd.buf 4 &&& 1 = 0) := fun h => hkeep h.symm
      rw [if_pos hne]
      unfold scsi_disk_emulate_start_stop
      generalize cdb w.r.cmd.buf 4 &&& 1 = x at hn hkeep hne ⊢
      generalize cdb w.r.cmd.buf 4 &&& 2 = y at hl
      have ht5 : w.s.type = 5 := ht
      have h2 : ¬ ((!decide (x ≠ 0)) = true ∧ (!w.s.tray_open) = true ∧
          w.s.tray_locked = true) := by
        simpa using hn
      have h3 : w.s.tray_open ≠ !decide (x ≠ 0) := by
        simpa using hne
      have h1 : w.s.type = TYPE_ROM ∧ decide (y ≠ 0) = true := ⟨ht, by simpa using hl⟩
      simp only [if_pos h1, if_neg h2, if_pos h3]
      simp [World.emit]
  · intro hn
    unfold scsi_disk_emulate_start_stop
    generalize cdb w.r.cmd.buf 4 &&& 2 = y at hn
    have : ¬ (w.s.type = TYPE_ROM ∧ (decide (y ≠ 0)) = true) := by
      simpa using hn
    simp only [if_neg this]

/-- C26: START STOP UNIT through `scsi_send_command`, on a request with
nothing left to transfer and an allocation length of at most 65536; the
command returns 0 in every case. On a ROM with LOEJ set: if START is 0 and
the tray is closed and locked, the sense ILLEGAL_REQ_REMOVAL_PREVENTED (a
medium is inserted) or NOT_READY_REMOVAL_PREVENTED (none) is posted with
CHECK_CONDITION, and device and backend are as before (no eject); otherwise
the command is completed with GOOD, `tray_open` is `START == 0` afterwards,
and `bdrv_eject` has been called, with that value, exactly when `tray_open`
changed. On any other device type, or with LOEJ clear, the command is
completed with GOOD and device and backend are untouched. -/
theorem start_stop_unit (w : World) (hop : cdb w.r.cmd.buf 0 = START_STOP)
    (hx : w.r.cmd.xfer ≤ 65536) (hsc : w.r.sector_count = 0) :
    (scsi_send_command w).2 = 0 ∧
    (w.s.type = TYPE_ROM ∧ cdb w.r.cmd.buf 4 &&& 2 ≠ 0 ∧ cdb w.r.cmd.buf 4 &&& 1 = 0 ∧
        w.s.tray_open = false ∧ w.s.tray_locked = true →
      (scsi_send_command w).1.trace = w.trace ++
        [.scsi_req_build_sense (if w.bs.is_inserted then .ILLEGAL_REQ_REMOVAL_PREVENTED
            else .NOT_READY_REMOVAL_PREVENTED),
         .scsi_req_complete CHECK_CONDITION] ∧
      (scsi_send_command w).1.s = w.s ∧ (scsi_send_command w).1.bs = w.bs) ∧
    (w.s.type = TYPE_ROM ∧ cdb w.r.cmd.buf 4 &&& 2 ≠ 0 ∧
        ¬ (cdb w.r.cmd.buf 4 &&& 1 = 0 ∧ w.s.tray_open = false ∧ w.s.tray_locked = true) →
      (scsi_send_command w).1.trace = w.trace ++
        (if w.s.tray_open ≠ decide (cdb w.r.cmd.buf 4 &&& 1 = 0)
          then [.bdrv_eject (decide (cdb w.r.cmd.buf 4 &&& 1 = 0))] else []) ++
        [.scsi_req_complete GOOD] ∧
      (scsi_send_command w).1.s =
        { w.s with tray_open := decide (cdb w.r.cmd.buf 4 &&& 1 = 0) } ∧
      (scsi_send_command w).1.bs = w.bs) ∧
    (¬ (w.s.type = TYPE_ROM ∧ cdb w.r.cmd.buf 4 &&& 2 ≠ 0) →
      (scsi_send_command w).1.trace = w.trace ++ [.scsi_req_complete GOOD] ∧
      (scsi_send_command w).1.s = w.s ∧ (scsi_send_command w).1.bs = w.bs) := by
  obtain ⟨s1, s2, s3, s4⟩ := send_command_start_stop w hop hx hsc
  obtain ⟨har, hat, hah, has, hab⟩ := emulate_alloc_r w
  have hcmd : (scsi_disk_emulate_alloc w).r.cmd = w.r.cmd := by rw [har]
  obtain ⟨c1, c2, c3⟩ := start_stop_cases (scsi_disk_emulate_alloc w)
  simp only [has, hab, hat, hcmd] at c1 c2 c3
  refine ⟨s1, fun h => ?_, fun h => ?_, fun h => ?_⟩
  · rw [s2, s3, s4, c1 h]
    simp [check_condition_trace, hat, has, hab]
  · obtain ⟨d1, d2, d3, d4⟩ := c2 h
    rw [s2, s3, s4, d1, d2, d3, d4]
    simp
  · rw [s2, s3, s4, c3 h]
    simp [hat, has, hab]

/-- C26 at a concrete input: START STOP UNIT with LOEJ set and START clear
(eject) on a CD-ROM drive whose tray is closed and locked, with a medium. -/
theorem start_stop_unit_witness :
    (scsi_send_command (world_cdrom_locked (cmd_start_stop 2))).2 = 0 ∧
    (scsi_send_command (world_cdrom_locked (cmd_start_stop 2))).1.trace =
      [.scsi_req_build_sense .ILLEGAL_REQ_REMOVAL_PREVENTED,
       .scsi_req_complete CHECK_CONDITION] ∧
    (scsi_send_command (world_cdrom_locked (cmd_start_stop 2))).1.s.tray_open = false := by
  obtain ⟨h1, h2, _, _⟩ :=
    start_stop_unit (world_cdrom_locked (cmd_start_stop 2)) (by decide) (by decide) (by decide)
  obtain ⟨t1, t2, _⟩ := h2 ⟨by decide, by decide, by decide, by decide, by decide⟩
  exact ⟨h1, by rw [t1]; decide, by rw [t2]; decide⟩

/-- START STOP UNIT with LOEJ set and START clear on the same drive with the
tray unlocked: the medium is ejected, the tray is open, GOOD is posted. -/
theorem start_stop_eject_example :
    (scsi_send_command { world_cdrom_locked (cmd_start_stop 2) with
        s := { example_cdrom_locked with tray_locked := false } }).1.trace =
      [.bdrv_eject true, .scsi_req_complete GOOD] ∧
    (scsi_send_command { world_cdrom_locked (cmd_start_stop 2) with
        s := { example_cdrom_locked with tray_locked := false } }).1.s.tray_open = true := by
  decide

/-! ## C27: WRITE SAME -/

/-- The count field of a WRITE SAME CDB: 16 bits at bytes 7..8 of the 10-byte
form, 32 bits at bytes 10..13 of the 16-byte form. -/
theorem write_same_count_lt (buf : List Nat) :
    lduw_be_p buf 7 < 2 ^ 16 ∧ ldl_be_p buf 10 < 2 ^ 32 ∧
    ldl_be_p buf 10 &&& 0xffffffff = ldl_be_p buf 10 := by
  have h1 : lduw_be_p buf 7 < 2 ^ 16 := by unfold lduw_be_p; omega
  have h2 : ldl_be_p buf 10 < 2 ^ 32 := by unfold ldl_be_p; omega
  refine ⟨h1, h2, ?_⟩
  have h := Nat.and_pow_two_sub_one_eq_mod (ldl_be_p buf 10) 32
  norm_num at h
  rw [h]
  exact Nat.mod_eq_of_lt h2

/-- The cases `WRITE_SAME_10` and `WRITE_SAME_16` of `scsi_send_command`. -/
theorem switch_write_same (w : World)
    (hop : cdb w.r.cmd.buf 0 = WRITE_SAME_10 ∨ cdb w.r.cmd.buf 0 = WRITE_SAME_16) :
    scsi_send_command_switch w =
      if w.r.cmd.lba > w.s.max_lba then (scsi_check_condition w .LBA_OUT_OF_RANGE, false)
      else if cdb w.r.cmd.buf 1 &&& 0x8 = 0 then (scsi_check_condition w .INVALID_FIELD, false)
      else if w.bs.discard_ret < 0 then
        (scsi_check_condition
          (w.emit (.bdrv_discard (u64 (w.r.cmd.lba * (w.s.blocksize / 512)))
            (toInt32 (u32 ((if cdb w.r.cmd.buf 0 = WRITE_SAME_10 then lduw_be_p w.r.cmd.buf 7
              else ldl_be_p w.r.cmd.buf 10) * (w.s.blocksize / 512))))))
          .INVALID_FIELD, false)
      else
        (w.emit (.bdrv_discard (u64 (w.r.cmd.lba * (w.s.blocksize / 512)))
            (toInt32 (u32 ((if cdb w.r.cmd.buf 0 = WRITE_SAME_10 then lduw_be_p w.r.cmd.buf 7
              else ldl_be_p w.r.cmd.buf 10) * (w.s.blocksize / 512))))), true) := by
  have hne : is_emulated (cdb w.r.cmd.buf 0) = false ∧ cdb w.r.cmd.buf 0 ≠ SYNCHRONIZE_CACHE ∧
      is_read_op (cdb w.r.cmd.buf 0) = false ∧ is_write_op (cdb w.r.cmd.buf 0) = false ∧
      cdb w.r.cmd.buf 0 ≠ MODE_SELECT ∧ cdb w.r.cmd.buf 0 ≠ MODE_SELECT_10 ∧
      cdb w.r.cmd.buf 0 ≠ SEEK_10 := by
    rcases hop with h | h <;> rw [h] <;> decide
  obtain ⟨h1, h2, h3, h4, h5, h6, h7⟩ := hne
  have hlen : (if cdb w.r.cmd.buf 0 = WRITE_SAME_10 then toInt32 (lduw_be_p w.r.cmd.buf 7)
      else toInt32 (ldl_be_p w.r.cmd.buf 10 &&& 0xffffffff)) =
      toInt32 (if cdb w.r.cmd.buf 0 = WRITE_SAME_10 then lduw_be_p w.r.cmd.buf 7
        else ldl_be_p w.r.cmd.buf 10) := by
    rw [(write_same_count_lt w.r.cmd.buf).2.2]
    split_ifs <;> rfl
  unfold scsi_send_command_switch
  simp only [h1, h3, h4, Bool.false_eq_true, if_false, if_neg h2, if_neg h5, if_neg h6,
    if_neg h7, if_pos hop, hlen, decoded_count, World.emit]

/-- C27 (as amended): WRITE SAME(10) and WRITE SAME(16) with a medium present,
on a request with nothing left to transfer; `count` is the 16-bit field at
CDB bytes 7..8 or the 32-bit field at bytes 10..13. The command returns 0. If
`lba > max_lba` the sense LBA_OUT_OF_RANGE is posted with CHECK_CONDITION,
whatever the UNMAP bit. If `lba <= max_lba` and the UNMAP bit is clear,
INVALID_FIELD is posted with CHECK_CONDITION. In both cases `bdrv_discard` is
not called. If `lba <= max_lba`, the UNMAP bit is set and
`count * (blocksize/512)` fits an `int` (and the start 64 bits),
`bdrv_discard` is called exactly once, with the start `lba * (blocksize/512)`
and the length `count * (blocksize/512)`, and the request is completed with
GOOD when the discard succeeds and with INVALID_FIELD and CHECK_CONDITION
when it fails. -/
theorem write_same_unmap (w : World)
    (hop : cdb w.r.cmd.buf 0 = WRITE_SAME_10 ∨ cdb w.r.cmd.buf 0 = WRITE_SAME_16)
    (hmed : w.bs.is_inserted = true) (htray : w.s.tray_open = false)
    (hsc : w.r.sector_count = 0) (hiov : w.r.iov_len = 0) :
    (scsi_send_command w).2 = 0 ∧
    (w.r.cmd.lba > w.s.max_lba →
      (scsi_send_command w).1.trace = w.trace ++
        [.scsi_req_build_sense .LBA_OUT_OF_RANGE, .scsi_req_complete CHECK_CONDITION]) ∧
    (w.r.cmd.lba ≤ w.s.max_lba ∧ cdb w.r.cmd.buf 1 &&& 0x8 = 0 →
      (scsi_send_command w).1.trace = w.trace ++
        [.scsi_req_build_sense .INVALID_FIELD, .scsi_req_complete CHECK_CONDITION]) ∧
    (w.r.cmd.lba ≤ w.s.max_lba ∧ cdb w.r.cmd.buf 1 &&& 0x8 ≠ 0 ∧
        w.r.cmd.lba * (w.s.blocksize / 512) < 2 ^ 64 ∧
        (if cdb w.r.cmd.buf 0 = WRITE_SAME_10 then lduw_be_p w.r.cmd.buf 7
          else ldl_be_p w.r.cmd.buf 10) * (w.s.blocksize / 512) < 2 ^ 31 →
      (scsi_send_command w).1.trace = w.trace ++
        [.bdrv_discard (w.r.cmd.lba * (w.s.blocksize / 512))
          (((if cdb w.r.cmd.buf 0 = WRITE_SAME_10 then lduw_be_p w.r.cmd.buf 7
            else ldl_be_p w.r.cmd.buf 10) * (w.s.blocksize / 512) : Nat) : Int)] ++
        (if w.bs.discard_ret < 0
          then [.scsi_req_build_sense .INVALID_FIELD, .scsi_req_complete CHECK_CONDITION]
          else [.scsi_req_complete GOOD])) := by
  have hm := medium_present w hmed htray
  have hsw := switch_write_same w hop
  generalize hcount : (if cdb w.r.cmd.buf 0 = WRITE_SAME_10 then lduw_be_p w.r.cmd.buf 7
    else ldl_be_p w.r.cmd.buf 10) = count at hsw ⊢
  by_cases hlba : w.r.cmd.lba > w.s.max_lba
  · rw [if_pos hlba] at hsw
    simp only [scsi_send_command, if_neg hm, hsw]
    refine ⟨by simp, fun _ => ?_, fun h => absurd hlba (by omega), fun h => absurd hlba (by omega)⟩
    simp [check_condition_trace]
  · rw [if_neg hlba] at hsw
    by_cases hun : cdb w.r.cmd.buf 1 &&& 0x8 = 0
    · rw [if_pos hun] at hsw
      simp only [scsi_send_command, if_neg hm, hsw]
      refine ⟨by simp, fun h => absurd h hlba, fun _ => ?_, fun h => absurd hun h.2.1⟩
      simp [check_condition_trace]
    · rw [if_neg hun] at hsw
      by_cases hd : w.bs.discard_ret < 0
      · rw [if_pos hd] at hsw
        simp only [scsi_send_command, if_neg hm, hsw]
        refine ⟨by simp, fun h => absurd h hlba, fun h => absurd h.2 hun, fun h => ?_⟩
        obtain ⟨_, _, h64, h31⟩ := h
        have e1 : u64 (w.r.cmd.lba * (w.s.blocksize / 512)) =
            w.r.cmd.lba * (w.s.blocksize / 512) := Nat.mod_eq_of_lt h64
        have e2 : toInt32 (u32 (count * (w.s.blocksize / 512))) =
            ((count * (w.s.blocksize / 512) : Nat) : Int) := by
          have : u32 (count * (w.s.blocksize / 512)) = count * (w.s.blocksize / 512) :=
            Nat.mod_eq_of_lt (by omega)
          rw [this, toInt32_of_lt _ h31]
        simp [check_condition_trace, World.emit, e1, e2, hd]
      · rw [if_neg hd] at hsw
        simp only [scsi_send_command, if_neg hm, hsw, if_true]
        refine ⟨?_, fun h => absurd h hlba, fun h => absurd h.2 hun, fun h => ?_⟩
        · rw [tail_ret _ (by simp [World.emit, hsc, hiov])]
          simp [World.emit, hsc, hiov]
        · obtain ⟨_, _, h64, h31⟩ := h
          have e1 : u64 (w.r.cmd.lba * (w.s.blocksize / 512)) =
              w.r.cmd.lba * (w.s.blocksize / 512) := Nat.mod_eq_of_lt h64
          have e2 : toInt32 (u32 (count * (w.s.blocksize / 512))) =
              ((count * (w.s.blocksize / 512) : Nat) : Int) := by
            have : u32 (count * (w.s.blocksize / 512)) = count * (w.s.blocksize / 512) :=
              Nat.mod_eq_of_lt (by omega)
            rw [this, toInt32_of_lt _ h31]
          rw [tail_trace]
          simp [World.emit, e1, e2, hd, hsc, hiov]

/-- C27 at the scenario S5: WRITE SAME(16) without the UNMAP bit, at LBA 0 of
the example disk, posts INVALID_FIELD and calls no discard. -/
theorem write_same_unmap_witness :
    (scsi_send_command (example_world (cmd_write_same_16 0 0 0 1))).2 = 0 ∧
    (scsi_send_command (example_world (cmd_write_same_16 0 0 0 1))).1.trace =
      [.scsi_req_build_sense .INVALID_FIELD, .scsi_req_complete CHECK_CONDITION] := by
  obtain ⟨h1, _, h3, _⟩ := write_same_unmap (example_world (cmd_write_same_16 0 0 0 1))
    (Or.inr (by decide)) (by decide) (by decide) (by decide) (by decide)
  exact ⟨h1, (h3 ⟨by decide, by decide⟩).trans (by decide)⟩

/-- WRITE SAME(16) without the UNMAP bit is not always answered with
INVALID_FIELD: at LBA 200 of a disk whose last block is 100 (the medium was
changed for a smaller one) the sense is LBA_OUT_OF_RANGE. -/
theorem write_same_no_unmap_out_of_range :
    senses (scsi_send_command { example_world (cmd_write_same_16 0 200 0 1) with
      s := { example_disk with max_lba := 100 } }).1.trace = [.LBA_OUT_OF_RANGE] := by
  decide

/-- WRITE SAME(16) with UNMAP for 8 blocks at LBA 16 of a disk with 2048-byte
blocks: one discard of 32 sectors at sector 64, then GOOD. -/
theorem write_same_discard_example :
    (scsi_send_command (world_capacity_2048 (cmd_write_same_16 8 16 0 8))).1.trace =
      [.bdrv_discard 64 32, .scsi_req_complete GOOD] := by
  decide

/-- The length of the discard is an `int`: for the count 0x80000000 (CDB bytes
`80 00 00 00`) on the example disk the backend is asked to discard
`-2147483648` sectors. -/
theorem write_same_16_count_wraps :
    (scsi_send_command (example_world (cmd_write_same_16 8 0 0x80 0))).1.trace =
      [.bdrv_discard 0 (-2147483648), .scsi_req_complete GOOD] := by
  decide

/-! ## The buffered sink: the buffer and the drain loop -/

theorem buf_slice_length (b : Buf) (off n : Nat) : (b.slice off n).length = n := by
  simp [Buf.slice]

theorem buf_slice_add (b : Buf) (off n m : Nat) :
    b.slice off (n + m) = b.slice off n ++ b.slice (off + n) m := by
  simp only [Buf.slice, List.range_add, List.map_append, List.map_map]
  congr 1
  apply List.map_congr_left
  intro i _
  simp [Nat.add_assoc]

theorem buf_slice_congr (b c : Buf) (off n : Nat) (h : ∀ j, off ≤ j → j < off + n → b j = c j) :
    b.slice off n = c.slice off n := by
  simp only [Buf.slice]
  apply List.map_congr_left
  intro i hi
  exact h _ (by omega) (by have := List.mem_range.mp hi; omega)

theorem buf_slice_take (b : Buf) (off n k : Nat) (h : k ≤ n) :
    (b.slice off n).take k = b.slice off k := by
  obtain ⟨m, rfl⟩ := Nat.exists_eq_add_of_le h
  rw [buf_slice_add, List.take_left' (buf_slice_length _ _ _)]

theorem buf_slice_drop (b : Buf) (off n k : Nat) (h : k ≤ n) :
    (b.slice off n).drop k = b.slice (off + k) (n - k) := by
  obtain ⟨m, rfl⟩ := Nat.exists_eq_add_of_le h
  rw [buf_slice_add, List.drop_left' (buf_slice_length _ _ _)]
  simp

/-- The bytes a `memcpy` of byte values leaves at its destination. -/
theorem buf_slice_memcpy (b : Buf) (off : Nat) (l : List Nat) (hl : is_bytes l) :
    (b.memcpy off l).slice off l.length = l := by
  apply List.ext_getElem
  · simp [Buf.slice]
  · intro i h1 h2
    simp only [Buf.slice, List.getElem_map, List.getElem_range]
    rw [buf_memcpy_in _ _ _ _ (by omega) (by simp [Buf.slice] at h1; omega)]
    have hi : i < l.length := by simpa [Buf.slice] using h1
    have : off + i - off = i := by omega
    rw [this, List.getD_eq_getElem _ _ hi]
    exact Nat.mod_eq_of_lt (hl _ (List.getElem_mem _))

/-- `buffered_append` puts the bytes behind those the buffer holds and
touches nothing else but the capacity. -/
theorem buffered_append_effect (s : QEMUFileBuffered) (buf : List Nat)
    (hfit : s.buffer_size + buf.length < 2 ^ 64) (hb : is_bytes buf) :
    (buffered_append s buf).contents = s.contents ++ buf ∧
    (buffered_append s buf).buffer_size = s.buffer_size + buf.length ∧
    (buffered_append s buf).sent = s.sent ∧
    (buffered_append s buf).calls = s.calls ∧
    (buffered_append s buf).bytes_xfer = s.bytes_xfer ∧
    (buffered_append s buf).xfer_limit = s.xfer_limit ∧
    (buffered_append s buf).file_error = s.file_error ∧
    (buffered_append s buf).freeze_output = s.freeze_output ∧
    (buffered_append s buf).put_ready = s.put_ready ∧
    (buffered_append s buf).timer = s.timer ∧
    (buffered_append s buf).closed = s.closed := by
  have hsz : u64 (s.buffer_size + buf.length) = s.buffer_size + buf.length :=
    Nat.mod_eq_of_lt hfit
  have hbuf : (buffered_append s buf).buffer = s.buffer.memcpy s.buffer_size buf := by
    unfold buffered_append; simp only []; split_ifs <;> rfl
  have hsize : (buffered_append s buf).buffer_size = s.buffer_size + buf.length := by
    unfold buffered_append; simp only []; split_ifs <;> exact hsz
  refine ⟨?_, hsize, ?_, ?_, ?_, ?_, ?_, ?_, ?_, ?_, ?_⟩
  · unfold QEMUFileBuffered.contents
    rw [hsize, hbuf, buf_slice_add, Nat.zero_add, buf_slice_memcpy _ _ _ hb]
    congr 1
    apply buf_slice_congr
    intro j _ hj
    exact buf_memcpy_out _ _ _ _ (Or.inl (by omega))
  all_goals (unfold buffered_append; simp only []; split_ifs <;> rfl)

/-- What the drain loop does, for every sink that keeps its contract: it
advances the offset inside the buffer, hands the bytes it passes to the sink
in order, and touches neither the buffer nor the limit; a recorded error is
not positive. -/
theorem flush_loop_effect (sink : Sink) (hs : sink.within_offer) :
    ∀ (fuel : Nat) (s : QEMUFileBuffered) (off : Nat), off ≤ s.buffer_size →
      s.buffer_size < 2 ^ 64 → s.file_error ≤ 0 →
      off ≤ (buffered_flush_loop sink fuel s off).2 ∧
      (buffered_flush_loop sink fuel s off).2 ≤ s.buffer_size ∧
      (buffered_flush_loop sink fuel s off).1.sent =
        s.sent ++ s.buffer.slice off ((buffered_flush_loop sink fuel s off).2 - off) ∧
      (buffered_flush_loop sink fuel s off).1.buffer = s.buffer ∧
      (buffered_flush_loop sink fuel s off).1.buffer_size = s.buffer_size ∧
      (buffered_flush_loop sink fuel s off).1.buffer_capacity = s.buffer_capacity ∧
      (buffered_flush_loop sink fuel s off).1.xfer_limit = s.xfer_limit ∧
      (buffered_flush_loop sink fuel s off).1.file_error ≤ 0 ∧
      (buffered_flush_loop sink fuel s off).1.put_ready = s.put_ready ∧
      (buffered_flush_loop sink fuel s off).1.timer = s.timer ∧
      (buffered_flush_loop sink fuel s off).1.closed = s.closed := by
  intro fuel
  induction fuel with
  | zero =>
    intro s off h1 h2 h3
    simp [buffered_flush_loop, Buf.slice, h1, h3]
  | succ n ih =>
    intro s off h1 h2 h3
    unfold buffered_flush_loop
    by_cases hc : s.bytes_xfer < s.xfer_limit ∧ off < s.buffer_size
    · rw [if_pos hc]
      have hsub : sub64 s.buffer_size off = s.buffer_size - off := by
        unfold sub64; omega
      have hle := hs s.calls (sub64 s.buffer_size off)
      rw [hsub] at hle ⊢
      generalize sink s.calls (s.buffer_size - off) = ret at hle ⊢
      simp only []
      by_cases he : ret = -EAGAIN
      · rw [if_pos he]
        simp [Buf.slice, h1, h3]
      · rw [if_neg he]
        by_cases hz : ret ≤ 0
        · rw [if_pos hz]
          simp [Buf.slice, h1, hz]
        · rw [if_neg hz]
          have hr : (ret.toNat : Int) = ret := Int.toNat_of_nonneg (by omega)
          have hoff : u64 (off + ret.toNat) = off + ret.toNat := by
            unfold u64; omega
          rw [hoff]
          obtain ⟨i1, i2, i3, i4, i5, i6, i7, i8, i9, i10, i11⟩ :=
            ih { s with calls := s.calls + 1, bytes_xfer := u64 (s.bytes_xfer + ret.toNat),
                        sent := s.sent ++ s.buffer.slice off ret.toNat }
              (off + ret.toNat) (by simp only []; omega) h2 h3
          refine ⟨by omega, i2, ?_, i4, i5, i6, i7, i8, i9, i10, i11⟩
          rw [i3]
          simp only [List.append_assoc]
          congr 1
          rw [← buf_slice_add]
          congr 1
          omega
    · rw [if_neg hc]
      simp [Buf.slice, h1, h3]

theorem buf_slice_memmove (b : Buf) (src n : Nat) :
    (b.memmove 0 src n).slice 0 n = b.slice src n := by
  simp only [Buf.slice]
  apply List.map_congr_left
  intro i hi
  have := List.mem_range.mp hi
  simp [Buf.memmove, this]

/-- `buffered_flush` on a sink that keeps its contract: the bytes accepted
followed by the bytes still buffered are the same before and after, the
bytes still buffered stand at the start of the buffer, and the bytes accepted
are a prefix of what was buffered. -/
theorem buffered_flush_effect (sink : Sink) (hs : sink.within_offer) (s : QEMUFileBuffered)
    (hsz : s.buffer_size < 2 ^ 64) (herr : s.file_error ≤ 0) :
    (buffered_flush sink s).sent ++ (buffered_flush sink s).contents = s.sent ++ s.contents ∧
    (buffered_flush sink s).buffer_size ≤ s.buffer_size ∧
    (buffered_flush sink s).sent =
      s.sent ++ s.contents.take (s.buffer_size - (buffered_flush sink s).buffer_size) ∧
    (buffered_flush sink s).contents =
      s.contents.drop (s.buffer_size - (buffered_flush sink s).buffer_size) ∧
    (buffered_flush sink s).xfer_limit = s.xfer_limit ∧
    (buffered_flush sink s).file_error ≤ 0 ∧
    (buffered_flush sink s).put_ready = s.put_ready ∧
    (buffered_flush sink s).timer = s.timer ∧
    (buffered_flush sink s).closed = s.closed := by
  unfold buffered_flush
  by_cases he : s.file_error ≠ 0
  · rw [if_pos he]
    simp [QEMUFileBuffered.contents, Buf.slice, herr]
  · rw [if_neg he]
    obtain ⟨i1, i2, i3, i4, i5, i6, i7, i8, i9, i10, i11⟩ :=
      flush_loop_effect sink hs s.buffer_size s 0 (Nat.zero_le _) hsz herr
    generalize buffered_flush_loop sink s.buffer_size s 0 = q at *
    have hsub : sub64 q.1.buffer_size q.2 = s.buffer_size - q.2 := by
      rw [i5]; unfold sub64; omega
    simp only [QEMUFileBuffered.contents, hsub, i3, i4, i7, i9, i10, i11, buf_slice_memmove]
    have hk : s.buffer_size - (s.buffer_size - q.2) = q.2 := by omega
    rw [hk, buf_slice_take _ _ _ _ i2, buf_slice_drop _ _ _ _ i2]
    simp only [Nat.sub_zero, Nat.zero_add, List.append_assoc, and_true, true_and]
    refine ⟨?_, by omega, i8⟩
    congr 1
    have := buf_slice_add s.buffer 0 q.2 (s.buffer_size - q.2)
    rw [Nat.zero_add, Nat.add_sub_cancel' i2] at this
    exact this.symm

/-- `buffered_put_buffer` on a sink that keeps its contract, without a
pending error: it returns the size after taking the bytes over, behind those
it held. -/
theorem buffered_put_buffer_effect (sink : Sink) (hs : sink.within_offer)
    (s : QEMUFileBuffered) (buf : List Nat) (pos : Int)
    (hfit : s.buffer_size + buf.length < 2 ^ 64) (hb : is_bytes buf)
    (herr : s.file_error = 0) :
    (buffered_put_buffer sink s buf pos).2 = (buf.length : Int) ∧
    (buffered_put_buffer sink s buf pos).1.sent ++
        (buffered_put_buffer sink s buf pos).1.contents = s.sent ++ s.contents ++ buf ∧
    (buffered_put_buffer sink s buf pos).1.buffer_size ≤ s.buffer_size + buf.length ∧
    (buffered_put_buffer sink s buf pos).1.xfer_limit = s.xfer_limit ∧
    (buffered_put_buffer sink s buf pos).1.file_error ≤ 0 ∧
    (buffered_put_buffer sink s buf pos).1.timer = s.timer ∧
    (buffered_put_buffer sink s buf pos).1.closed = s.closed := by
  have he : ¬ s.file_error ≠ 0 := by simp [herr]
  have h2 : ∃ s2 : QEMUFileBuffered,
      (if ((buf.length : Int) > 0) then buffered_append { s with freeze_output := 0 } buf
        else { s with freeze_output := 0 }) = s2 ∧
      s2.contents = s.contents ++ buf ∧ s2.buffer_size = s.buffer_size + buf.length ∧
      s2.sent = s.sent ∧ s2.xfer_limit = s.xfer_limit ∧ s2.file_error = 0 ∧
      s2.timer = s.timer ∧ s2.closed = s.closed := by
    by_cases hpos : (buf.length : Int) > 0
    · rw [if_pos hpos]
      obtain ⟨a1, a2, a3, _, _, a6, a7, _, _, a10, a11⟩ :=
        buffered_append_effect { s with freeze_output := 0 } buf hfit hb
      exact ⟨_, rfl, a1, a2, a3, a6, by rw [a7]; exact herr, a10, a11⟩
    · rw [if_neg hpos]
      have hnil : buf = [] := by
        apply List.eq_nil_of_length_eq_zero
        omega
      subst hnil
      exact ⟨_, rfl, by simp [QEMUFileBuffered.contents], rfl, rfl, rfl, herr, rfl, rfl⟩
  obtain ⟨s2, e2, c1, c2, c3, c4, c5, c6, c7⟩ := h2
  obtain ⟨f1, f2, _, _, f5, f6, _, f8, f9⟩ :=
    buffered_flush_effect sink hs s2 (by omega) (by omega)
  unfold buffered_put_buffer
  simp only [if_neg he, e2]
  refine ⟨trivial, ?_, ?_, ?_, ?_, ?_, ?_⟩
  all_goals split_ifs
  all_goals simp only [QEMUFileBuffered.contents] at *
  all_goals first
    | (rw [f1, c1, c3, List.append_assoc])
    | omega
    | (rw [f5, c4])
    | exact f6
    | (rw [f8, c6])
    | (rw [f9, c7])

/-! ## C29: no byte is lost in the buffered sink -/

theorem example_sink_within_offer : example_sink.within_offer := by
  intro k n
  unfold example_sink EAGAIN
  split_ifs <;> omega

/-- One call from the event loop, on a sink that keeps its contract: the
bytes accepted followed by the bytes buffered grow by exactly the bytes the
call took over. -/
theorem buffered_step_effect (sink : Sink) (hs : sink.within_offer) (s : QEMUFileBuffered)
    (op : BufferedOp) (hsz : s.buffer_size < 2 ^ 64) (herr : s.file_error ≤ 0)
    (hfit : op.fits s) :
    (buffered_step sink s op).1.sent ++ (buffered_step sink s op).1.contents =
      s.sent ++ s.contents ++ (buffered_step sink s op).2 ∧
    (buffered_step sink s op).1.buffer_size < 2 ^ 64 ∧
    (buffered_step sink s op).1.file_error ≤ 0 := by
  unfold buffered_step
  by_cases hcl : s.closed = true
  · rw [if_pos hcl]
    exact ⟨by simp, hsz, herr⟩
  · rw [if_neg hcl]
    cases op with
    | put_buffer buf pos =>
      obtain ⟨_, hf, hb⟩ := hfit
      by_cases he : s.file_error = 0
      · obtain ⟨p1, p2, p3, _, p5, _, _⟩ :=
          buffered_put_buffer_effect sink hs s buf pos hf hb he
        simp only [p1, if_true]
        exact ⟨p2, by omega, p5⟩
      · have hne : s.file_error ≠ 0 := he
        have hres : buffered_put_buffer sink s buf pos = (s, s.file_error) := by
          unfold buffered_put_buffer
          simp only [if_pos hne]
        have hlen : ¬ s.file_error = (buf.length : Int) := by omega
        simp only [hres, if_neg hlen, List.append_nil]
        exact ⟨trivial, hsz, herr⟩
    | rate_tick now =>
      simp only [List.append_nil]
      unfold buffered_rate_tick
      by_cases he : s.file_error ≠ 0
      · rw [if_pos he]
        simp only [buffered_close, buffered_close_loop, QEMUFileBuffered.contents]
        exact ⟨trivial, hsz, herr⟩
      · rw [if_neg he]
        simp only []
        by_cases hfr : s.freeze_output ≠ 0
        · rw [if_pos hfr]
          simp only [QEMUFileBuffered.contents]
          exact ⟨trivial, hsz, herr⟩
        · rw [if_neg hfr]
          obtain ⟨_, p2, p3, _, p5, _, _⟩ :=
            buffered_put_buffer_effect sink hs
              { s with timer := some (now + 100), bytes_xfer := 0 } [] 0
              (by simpa using hsz) (by intro b hb; simp at hb) (by simpa using he)
          refine ⟨?_, ?_, p5⟩
          · rw [p2]; simp [QEMUFileBuffered.contents]
          · simp only [List.length_nil, Nat.add_zero] at p3
            omega

/-- The invariant of a sequence of calls, from every state. -/
theorem buffered_run_effect (sink : Sink) (hs : sink.within_offer) (ops : List BufferedOp) :
    ∀ s : QEMUFileBuffered, s.buffer_size < 2 ^ 64 → s.file_error ≤ 0 →
      buffered_run_fits sink s ops →
      (buffered_run sink s ops).1.sent ++ (buffered_run sink s ops).1.contents =
        s.sent ++ s.contents ++ (buffered_run sink s ops).2 := by
  induction ops with
  | nil => intro s _ _ _; simp [buffered_run]
  | cons op ops ih =>
    intro s hsz herr hfits
    obtain ⟨hfit, hrest⟩ := hfits
    obtain ⟨e1, e2, e3⟩ := buffered_step_effect sink hs s op hsz herr hfit
    have h := ih (buffered_step sink s op).1 e2 e3 hrest
    simp only [buffered_run]
    rw [h, e1]
    simp only [List.append_assoc]

/-- C29: for every sequence of `put_buffer` calls and ticks, on every sink
that accepts at most what it is offered (partial writes, would-block and
fatal errors included), started in a state without a positive error code and
with sizes that fit: the bytes the downstream sink has accepted, followed by
the buffer contents `buffer[0 .. buffer_size)`, are what they were at the
start followed by the bytes of all `put_buffer` calls that returned their
size, in order. (For a sink that a tick closed after a fatal error,
`contents` is what the buffer held when it was freed.) -/
theorem buffered_no_byte_lost (sink : Sink) (hs : sink.within_offer) (s : QEMUFileBuffered)
    (ops : List BufferedOp) (hsz : s.buffer_size < 2 ^ 64) (herr : s.file_error ≤ 0)
    (hfits : buffered_run_fits sink s ops) :
    (buffered_run sink s ops).1.sent ++ (buffered_run sink s ops).1.contents =
      s.sent ++ s.contents ++ (buffered_run sink s ops).2 :=
  buffered_run_effect sink hs ops s hsz herr hfits

/-- C29 at a concrete input: the sink of `example_sink` takes two bytes, then
would block, then takes one byte, then fails for good; five bytes are put,
a tick passes, two more bytes are put, a tick closes the sink. -/
theorem buffered_no_byte_lost_witness :
    (buffered_run example_sink (qemu_fopen_ops_buffered 100 0) example_ops).1.sent ++
      (buffered_run example_sink (qemu_fopen_ops_buffered 100 0) example_ops).1.contents =
    (qemu_fopen_ops_buffered 100 0).sent ++ (qemu_fopen_ops_buffered 100 0).contents ++
      (buffered_run example_sink (qemu_fopen_ops_buffered 100 0) example_ops).2 :=
  buffered_no_byte_lost example_sink example_sink_within_offer (qemu_fopen_ops_buffered 100 0)
    example_ops (by decide) (by decide)
    ⟨⟨by decide, by decide, by unfold is_bytes; decide⟩, trivial,
      ⟨by decide, by decide, by unfold is_bytes; decide⟩, trivial, trivial⟩

/-- The run of the example, evaluated: three bytes reached the sink, four
are left at the start of the buffer, the error is recorded and the sink is
closed. -/
theorem buffered_run_example :
    (buffered_run example_sink (qemu_fopen_ops_buffered 100 0) example_ops).1.sent = [1, 2, 3] ∧
    (buffered_run example_sink (qemu_fopen_ops_buffered 100 0) example_ops).1.contents
      = [4, 5, 6, 7] ∧
    (buffered_run example_sink (qemu_fopen_ops_buffered 100 0) example_ops).2
      = [1, 2, 3, 4, 5, 6, 7] ∧
    (buffered_run example_sink (qemu_fopen_ops_buffered 100 0) example_ops).1.file_error = -5 ∧
    (buffered_run example_sink (qemu_fopen_ops_buffered 100 0) example_ops).1.closed = true := by
  decide

/-! ## C30: the rate limit -/

/-- The drain loop and the transfer counter, for a sink that takes at most
`m` bytes per call: the limit is not touched, and a counter that is zero or
below `xfer_limit + m` stays so. -/
theorem flush_loop_bytes_xfer (sink : Sink) (m : Nat) (hm : ∀ k n, sink k n ≤ (m : Int)) :
    ∀ (fuel : Nat) (s : QEMUFileBuffered) (off : Nat), s.xfer_limit + m < 2 ^ 64 →
      (s.bytes_xfer = 0 ∨ s.bytes_xfer < s.xfer_limit + m) →
      (buffered_flush_loop sink fuel s off).1.xfer_limit = s.xfer_limit ∧
      ((buffered_flush_loop sink fuel s off).1.bytes_xfer = 0 ∨
        (buffered_flush_loop sink fuel s off).1.bytes_xfer < s.xfer_limit + m) := by
  intro fuel
  induction fuel with
  | zero => intro s off _ h; exact ⟨rfl, h⟩
  | succ n ih =>
    intro s off hl h
    unfold buffered_flush_loop
    by_cases hc : s.bytes_xfer < s.xfer_limit ∧ off < s.buffer_size
    · rw [if_pos hc]
      have hle := hm s.calls (sub64 s.buffer_size off)
      generalize sink s.calls (sub64 s.buffer_size off) = ret at hle ⊢
      simp only []
      by_cases he : ret = -EAGAIN
      · rw [if_pos he]; exact ⟨rfl, h⟩
      · rw [if_neg he]
        by_cases hz : ret ≤ 0
        · rw [if_pos hz]; exact ⟨rfl, h⟩
        · rw [if_neg hz]
          have hx : u64 (s.bytes_xfer + ret.toNat) = s.bytes_xfer + ret.toNat := by
            unfold u64; omega
          rw [hx]
          exact ih { s with calls := s.calls + 1, bytes_xfer := s.bytes_xfer + ret.toNat,
                            sent := s.sent ++ s.buffer.slice off ret.toNat }
            (u64 (off + ret.toNat)) hl (Or.inr (by simp only []; omega))
    · rw [if_neg hc]; exact ⟨rfl, h⟩

/-- `buffered_put_buffer` and the transfer counter, for a sink that takes at
most `m` bytes per call. -/
theorem put_buffer_bytes_xfer (sink : Sink) (m : Nat) (hm : ∀ k n, sink k n ≤ (m : Int))
    (s : QEMUFileBuffered) (buf : List Nat) (pos : Int) (hl : s.xfer_limit + m < 2 ^ 64)
    (h : s.bytes_xfer = 0 ∨ s.bytes_xfer < s.xfer_limit + m) :
    (buffered_put_buffer sink s buf pos).1.xfer_limit = s.xfer_limit ∧
    ((buffered_put_buffer sink s buf pos).1.bytes_xfer = 0 ∨
      (buffered_put_buffer sink s buf pos).1.bytes_xfer < s.xfer_limit + m) := by
  unfold buffered_put_buffer
  by_cases he : s.file_error ≠ 0
  · rw [if_pos he]; exact ⟨rfl, h⟩
  · rw [if_neg he]
    have h2 : ∃ s2 : QEMUFileBuffered,
        (if ((buf.length : Int) > 0) then buffered_append { s with freeze_output := 0 } buf
          else { s with freeze_output := 0 }) = s2 ∧
        s2.xfer_limit = s.xfer_limit ∧ s2.bytes_xfer = s.bytes_xfer := by
      refine ⟨_, rfl, ?_, ?_⟩
      · split_ifs
        · unfold buffered_append; simp only []; split_ifs <;> rfl
        · rfl
      · split_ifs
        · unfold buffered_append; simp only []; split_ifs <;> rfl
        · rfl
    obtain ⟨s2, e2, c1, c2⟩ := h2
    simp only [e2]
    have hf : (buffered_flush sink s2).xfer_limit = s.xfer_limit ∧
        ((buffered_flush sink s2).bytes_xfer = 0 ∨
          (buffered_flush sink s2).bytes_xfer < s.xfer_limit + m) := by
      unfold buffered_flush
      by_cases he2 : s2.file_error ≠ 0
      · rw [if_pos he2]; rw [c1, c2]; exact ⟨rfl, h⟩
      · rw [if_neg he2]
        obtain ⟨l1, l2⟩ := flush_loop_bytes_xfer sink m hm s2.buffer_size s2 0
          (by rw [c1]; exact hl) (by rw [c1, c2]; exact h)
        rw [c1] at l1 l2
        exact ⟨l1, l2⟩
    split_ifs <;> exact hf

/-- The transfer counter over a sequence of `put_buffer` calls, from every
state. -/
theorem bytes_xfer_run (sink : Sink) (m : Nat) (hm : ∀ k n, sink k n ≤ (m : Int))
    (puts : List (List Nat × Int)) :
    ∀ s : QEMUFileBuffered, s.xfer_limit + m < 2 ^ 64 →
      (s.bytes_xfer = 0 ∨ s.bytes_xfer < s.xfer_limit + m) →
      (buffered_run sink s (puts.map (fun p => .put_buffer p.1 p.2))).1.xfer_limit
        = s.xfer_limit ∧
      ((buffered_run sink s (puts.map (fun p => .put_buffer p.1 p.2))).1.bytes_xfer = 0 ∨
        (buffered_run sink s (puts.map (fun p => .put_buffer p.1 p.2))).1.bytes_xfer
          < s.xfer_limit + m) := by
  induction puts with
  | nil => intro s _ h; exact ⟨rfl, h⟩
  | cons p puts ih =>
    intro s hl h
    simp only [List.map_cons, buffered_run]
    have hstep : (buffered_step sink s (.put_buffer p.1 p.2)).1.xfer_limit = s.xfer_limit ∧
        ((buffered_step sink s (.put_buffer p.1 p.2)).1.bytes_xfer = 0 ∨
          (buffered_step sink s (.put_buffer p.1 p.2)).1.bytes_xfer < s.xfer_limit + m) := by
      unfold buffered_step
      split_ifs
      · exact ⟨rfl, h⟩
      · exact put_buffer_bytes_xfer sink m hm s p.1 p.2 hl h
    obtain ⟨q1, q2⟩ := ih (buffered_step sink s (.put_buffer p.1 p.2)).1
      (by rw [hstep.1]; exact hl) (by rw [hstep.1]; exact hstep.2)
    rw [hstep.1] at q1 q2
    exact ⟨q1, q2⟩

/-- C30 (as amended): for every sequence of `put_buffer` calls after a tick
(`bytes_xfer = 0`) and every downstream sink that takes at most `m` bytes in
one call: `xfer_limit` is not changed and `bytes_xfer` is zero or below
`xfer_limit + m`. The sink is only called while `bytes_xfer < xfer_limit`, but
what it then takes is not capped, so `bytes_xfer` can exceed `xfer_limit`, by
up to `m - 1`. -/
theorem bytes_xfer_bound (sink : Sink) (m : Nat) (hm : ∀ k n, sink k n ≤ (m : Int))
    (s : QEMUFileBuffered) (puts : List (List Nat × Int)) (hl : s.xfer_limit + m < 2 ^ 64)
    (h0 : s.bytes_xfer = 0) :
    (buffered_run sink s (puts.map (fun p => .put_buffer p.1 p.2))).1.xfer_limit
      = s.xfer_limit ∧
    ((buffered_run sink s (puts.map (fun p => .put_buffer p.1 p.2))).1.bytes_xfer = 0 ∨
      (buffered_run sink s (puts.map (fun p => .put_buffer p.1 p.2))).1.bytes_xfer
        < s.xfer_limit + m) :=
  bytes_xfer_run sink m hm puts s hl (Or.inl h0)

/-- C30 at a concrete input: after the first `put_buffer` of the example the
counter of the example sink, which takes at most two bytes per call, is
below `10 + 2`. -/
theorem bytes_xfer_bound_witness :
    (buffered_run example_sink (qemu_fopen_ops_buffered 100 0)
      ([([1, 2, 3, 4, 5], (0 : Int))].map (fun p => .put_buffer p.1 p.2))).1.bytes_xfer = 0 ∨
    (buffered_run example_sink (qemu_fopen_ops_buffered 100 0)
      ([([1, 2, 3, 4, 5], (0 : Int))].map (fun p => .put_buffer p.1 p.2))).1.bytes_xfer
        < (qemu_fopen_ops_buffered 100 0).xfer_limit + 2 :=
  (bytes_xfer_bound example_sink 2
    (by intro k n; unfold example_sink EAGAIN; split_ifs <;> omega)
    (qemu_fopen_ops_buffered 100 0) [([1, 2, 3, 4, 5], 0)] (by decide) (by decide)).2

/-- The counter exceeds the limit: with `xfer_limit = 10`, one `put_buffer` of
30 bytes to a sink that takes all it is offered leaves `bytes_xfer = 30`. -/
theorem bytes_xfer_exceeds_limit :
    (qemu_fopen_ops_buffered 100 0).bytes_xfer = 0 ∧
    (buffered_put_buffer greedy_sink (qemu_fopen_ops_buffered 100 0)
      (List.replicate 30 0) 0).1.xfer_limit = 10 ∧
    (buffered_put_buffer greedy_sink (qemu_fopen_ops_buffered 100 0)
      (List.replicate 30 0) 0).1.bytes_xfer = 30 := by
  decide

/-! ## C28: a sink that would block -/

/-- The drain loop on a sink that takes the amounts `rs` one after the
other and then would block, the counter staying below the limit and bytes
being left: it stops frozen behind the bytes taken. -/
theorem flush_loop_accepts (sink : Sink) (rs : List Nat) :
    ∀ (fuel : Nat) (s : QEMUFileBuffered) (off : Nat), rs.length < fuel →
      s.buffer_size < 2 ^ 64 → s.xfer_limit < 2 ^ 64 → (∀ r ∈ rs, 0 < r) →
      off + rs.sum < s.buffer_size → s.bytes_xfer + rs.sum < s.xfer_limit →
      (∀ i (hi : i < rs.length),
        sink (s.calls + i) (s.buffer_size - off - (rs.take i).sum) =
          ((rs.get ⟨i, hi⟩ : Nat) : Int)) →
      sink (s.calls + rs.length) (s.buffer_size - off - rs.sum) = -EAGAIN →
      (buffered_flush_loop sink fuel s off).2 = off + rs.sum ∧
      (buffered_flush_loop sink fuel s off).1.freeze_output = 1 ∧
      (buffered_flush_loop sink fuel s off).1.bytes_xfer = s.bytes_xfer + rs.sum ∧
      (buffered_flush_loop sink fuel s off).1.sent = s.sent ++ s.buffer.slice off rs.sum ∧
      (buffered_flush_loop sink fuel s off).1.calls = s.calls + rs.length + 1 ∧
      (buffered_flush_loop sink fuel s off).1.buffer = s.buffer ∧
      (buffered_flush_loop sink fuel s off).1.buffer_size = s.buffer_size ∧
      (buffered_flush_loop sink fuel s off).1.file_error = s.file_error ∧
      (buffered_flush_loop sink fuel s off).1.xfer_limit = s.xfer_limit := by
  induction rs with
  | nil =>
    intro fuel s off hf hsz hlim _ hoff hx _ hblock
    obtain ⟨n, rfl⟩ : ∃ n, fuel = n + 1 := ⟨fuel - 1, by simp at hf; omega⟩
    simp only [List.sum_nil, Nat.add_zero, List.length_nil, Nat.sub_zero] at hoff hx hblock ⊢
    have hc : s.bytes_xfer < s.xfer_limit ∧ off < s.buffer_size := ⟨hx, hoff⟩
    have hsub : sub64 s.buffer_size off = s.buffer_size - off := by unfold sub64; omega
    unfold buffered_flush_loop
    simp only [if_pos hc, hsub, hblock, if_true]
    simp [Buf.slice]
  | cons r rs ih =>
    intro fuel s off hf hsz hlim hpos hoff hx hacc hblock
    obtain ⟨n, rfl⟩ : ∃ n, fuel = n + 1 := ⟨fuel - 1, by simp at hf; omega⟩
    simp only [List.sum_cons, List.length_cons] at hoff hx hblock hf ⊢
    have hr : 0 < r := hpos r (List.mem_cons_self _ _)
    have hc : s.bytes_xfer < s.xfer_limit ∧ off < s.buffer_size := ⟨by omega, by omega⟩
    have hsub : sub64 s.buffer_size off = s.buffer_size - off := by unfold sub64; omega
    have h0 := hacc 0 (by simp)
    simp only [List.take_zero, List.sum_nil, Nat.sub_zero, Nat.add_zero, List.get_eq_getElem,
      List.getElem_cons_zero] at h0
    have hne : ¬ ((r : Int) = -EAGAIN) := by unfold EAGAIN; omega
    have hnz : ¬ ((r : Int) ≤ 0) := by omega
    have hx64 : u64 (s.bytes_xfer + r) = s.bytes_xfer + r := by unfold u64; omega
    have ho64 : u64 (off + r) = off + r := by unfold u64; omega
    unfold buffered_flush_loop
    simp only [if_pos hc, hsub, h0, if_neg hne, if_neg hnz, Int.toNat_ofNat, hx64, ho64]
    obtain ⟨i1, i2, i3, i4, i5, i6, i7, i8, i9⟩ :=
      ih n { s with calls := s.calls + 1, bytes_xfer := s.bytes_xfer + r,
                    sent := s.sent ++ s.buffer.slice off r } (off + r)
        (by omega) hsz hlim (fun x hx => hpos x (List.mem_cons_of_mem _ hx))
        (by simp only []; omega) (by simp only []; omega)
        (by
          intro i hi
          have h := hacc (i + 1) (by simp; omega)
          simp only [List.take_succ_cons, List.sum_cons, List.get_eq_getElem,
            List.getElem_cons_succ] at h
          simp only [List.get_eq_getElem]
          rw [← h]
          congr 1
          · omega
          · omega)
        (by
          simp only []
          rw [← hblock]
          congr 1
          · omega
          · omega)
    refine ⟨by rw [i1]; omega, i2, by rw [i3]; simp only []; omega, ?_,
      by rw [i5]; simp only []; omega, i6, i7, i8, i9⟩
    rw [i4]
    simp only [List.append_assoc]
    rw [← buf_slice_add]

/-- C28: `put_buffer(data, pos, size)` with `size > 0` on a state without
pending error, when the downstream sink takes the amounts `rs` (a total of
`a = rs.sum` bytes, less than what is buffered, with `bytes_xfer + a` below
`xfer_limit`) and then would block: the call returns `size`; afterwards
`freeze_output` is set, exactly the first `a` buffered bytes have been handed
to the sink, `bytes_xfer` has grown by `a`, `buffer_size` is the old size plus
`size` minus `a`, the buffer holds the unsent suffix from offset 0 on, and no
error is recorded. -/
theorem put_buffer_would_block (sink : Sink) (s : QEMUFileBuffered) (buf : List Nat)
    (pos : Int) (rs : List Nat)
    (herr : s.file_error = 0) (hsize : 0 < buf.length) (hb : is_bytes buf)
    (hfit : s.buffer_size + buf.length < 2 ^ 64) (hlim : s.xfer_limit < 2 ^ 64)
    (hpos : ∀ r ∈ rs, 0 < r) (hsum : rs.sum < s.buffer_size + buf.length)
    (hxs : s.bytes_xfer + rs.sum < s.xfer_limit)
    (hacc : ∀ i (hi : i < rs.length),
      sink (s.calls + i) (s.buffer_size + buf.length - (rs.take i).sum) =
        ((rs.get ⟨i, hi⟩ : Nat) : Int))
    (hblock : sink (s.calls + rs.length) (s.buffer_size + buf.length - rs.sum) = -EAGAIN) :
    (buffered_put_buffer sink s buf pos).2 = (buf.length : Int) ∧
    (buffered_put_buffer sink s buf pos).1.freeze_output = 1 ∧
    (buffered_put_buffer sink s buf pos).1.sent =
      s.sent ++ (s.contents ++ buf).take rs.sum ∧
    (buffered_put_buffer sink s buf pos).1.bytes_xfer = s.bytes_xfer + rs.sum ∧
    (buffered_put_buffer sink s buf pos).1.buffer_size =
      s.buffer_size + buf.length - rs.sum ∧
    (buffered_put_buffer sink s buf pos).1.contents = (s.contents ++ buf).drop rs.sum ∧
    (buffered_put_buffer sink s buf pos).1.file_error = 0 := by
  have he : ¬ s.file_error ≠ 0 := by simp [herr]
  have hpos2 : ((buf.length : Int) > 0) := by omega
  have hnz : ¬ (pos = 0 ∧ (buf.length : Int) = 0) := by omega
  obtain ⟨a1, a2, a3, a4, a5, a6, a7, _, _, _, _⟩ :=
    buffered_append_effect { s with freeze_output := 0 } buf hfit hb
  generalize hs2 : buffered_append { s with freeze_output := 0 } buf = s2 at a1 a2 a3 a4 a5 a6 a7
  simp only [] at a1 a2 a3 a4 a5 a6 a7
  have he2 : ¬ s2.file_error ≠ 0 := by rw [a7]; exact he
  have hlen : rs.length ≤ rs.sum := by
    clear hacc hblock hsum hxs
    induction rs with
    | nil => simp
    | cons r rs ih =>
      have h1 := hpos r (List.mem_cons_self _ _)
      have h2 := ih (fun x hx => hpos x (List.mem_cons_of_mem _ hx))
      simp only [List.length_cons, List.sum_cons]
      omega
  obtain ⟨l1, l2, l3, l4, _, l6, l7, l8, _⟩ :=
    flush_loop_accepts sink rs s2.buffer_size s2 0 (by rw [a2]; omega) (by rw [a2]; exact hfit)
      (by rw [a6]; exact hlim) hpos (by rw [a2]; omega) (by rw [a5, a6]; exact hxs)
      (by
        intro i hi
        rw [a4, a2, Nat.sub_zero]
        exact hacc i hi)
      (by rw [a4, a2, Nat.sub_zero]; exact hblock)
  have hcont : s2.buffer.slice 0 s2.buffer_size = s.buffer.slice 0 s.buffer_size ++ buf := a1
  unfold buffered_put_buffer
  simp only [if_neg he, if_pos hpos2, hs2, if_neg hnz]
  unfold buffered_flush
  simp only [if_neg he2]
  generalize buffered_flush_loop sink s2.buffer_size s2 0 = q at l1 l2 l3 l4 l6 l7 l8
  have hsub : sub64 q.1.buffer_size rs.sum = s.buffer_size + buf.length - rs.sum := by
    rw [l7, a2]; unfold sub64; omega
  simp only [QEMUFileBuffered.contents, l1, Nat.zero_add, hsub, buf_slice_memmove, l2, l3, l4,
    l6, l8, a3, a5, a7, herr, true_and, and_true]
  refine ⟨?_, ?_⟩
  · rw [← hcont, buf_slice_take _ _ _ _ (by rw [a2]; omega)]
  · rw [← hcont, buf_slice_drop _ _ _ _ (by rw [a2]; omega), a2, Nat.zero_add]


/-- C28 at the scenario S6: `xfer_limit` 1,000,000 (a bandwidth of 10,000,000
bytes per second), one `put_buffer` of 3,000,000 bytes, the sink takes 400,000
and then would block: the output is frozen, 400,000 bytes are counted and
2,600,000 are left in the buffer. -/
theorem put_buffer_would_block_witness :
    (buffered_put_buffer sink_s6 (qemu_fopen_ops_buffered 10000000 0)
      (List.replicate 3000000 0) 0).1.freeze_output = 1 ∧
    (buffered_put_buffer sink_s6 (qemu_fopen_ops_buffered 10000000 0)
      (List.replicate 3000000 0) 0).1.bytes_xfer = 400000 ∧
    (buffered_put_buffer sink_s6 (qemu_fopen_ops_buffered 10000000 0)
      (List.replicate 3000000 0) 0).1.buffer_size = 2600000 := by
  obtain ⟨_, h2, _, h4, h5, _, _⟩ :=
    put_buffer_would_block sink_s6 (qemu_fopen_ops_buffered 10000000 0)
      (List.replicate 3000000 0) 0 [400000] rfl
      (by rw [List.length_replicate]; decide)
      (by intro b hb; rw [List.eq_of_mem_replicate hb]; decide)
      (by rw [List.length_replicate]; decide) (by decide) (by decide)
      (by rw [List.length_replicate]; decide) (by decide)
      (by
        intro i hi
        have h0 : i = 0 := by simpa using hi
        subst h0
        rfl)
      rfl
  refine ⟨h2, ?_, ?_⟩
  · rw [h4]; rfl
  · rw [h5, List.length_replicate]; rfl

/-! ## C31: the rate-limit query -/

/-- C31 (as amended): for every state, `buffered_rate_limit` leaves the state
as it is; it returns the recorded error code when one is recorded; otherwise
it returns 1 exactly when `freeze_output` is set or `bytes_xfer` is above
`xfer_limit` (strictly: with `bytes_xfer = xfer_limit` it returns 0, although
`buffered_flush` stops draining there), and 0 in the remaining case. -/
theorem rate_limit_query (s : QEMUFileBuffered) :
    (buffered_rate_limit s).1 = s ∧
    (s.file_error ≠ 0 → (buffered_rate_limit s).2 = s.file_error) ∧
    (s.file_error = 0 →
      ((buffered_rate_limit s).2 = 1 ↔ (s.freeze_output ≠ 0 ∨ s.bytes_xfer > s.xfer_limit)) ∧
      ((buffered_rate_limit s).2 = 0 ↔ (s.freeze_output = 0 ∧ s.bytes_xfer ≤ s.xfer_limit)) ∧
      ((buffered_rate_limit s).2 = 0 ∨ (buffered_rate_limit s).2 = 1)) := by
  unfold buffered_rate_limit
  by_cases he : s.file_error ≠ 0
  · simp only [if_pos he]
    exact ⟨trivial, fun _ => trivial, fun h => absurd h he⟩
  · by_cases hf : s.freeze_output ≠ 0
    · simp only [if_neg he, if_pos hf]
      refine ⟨trivial, fun h => absurd h he, fun _ => ⟨?_, ?_, Or.inr trivial⟩⟩
      · exact ⟨fun _ => Or.inl hf, fun _ => trivial⟩
      · exact ⟨fun h => absurd h (by decide), fun h => absurd h.1 hf⟩
    · by_cases hx : s.bytes_xfer > s.xfer_limit
      · simp only [if_neg he, if_neg hf, if_pos hx]
        refine ⟨trivial, fun h => absurd h he, fun _ => ⟨?_, ?_, Or.inr trivial⟩⟩
        · exact ⟨fun _ => Or.inr hx, fun _ => trivial⟩
        · exact ⟨fun h => absurd h (by decide), fun h => absurd h.2 (by omega)⟩
      · simp only [if_neg he, if_neg hf, if_neg hx]
        refine ⟨trivial, fun h => absurd h he, fun _ => ⟨?_, ?_, Or.inl trivial⟩⟩
        · refine ⟨fun h => absurd h (by decide), fun h => ?_⟩
          rcases h with h | h
          · exact absurd h hf
          · exact absurd h hx
        · exact ⟨fun _ => ⟨by simpa using hf, by omega⟩, fun _ => trivial⟩

/-- The counter at the limit: with `bytes_xfer = xfer_limit = 10`, twenty
bytes buffered and the output not frozen, the rate-limit query answers 0,
while a further `buffered_flush` does not call the sink and leaves the twenty
bytes in the buffer. -/
theorem rate_limit_at_limit :
    buffered_at_limit.bytes_xfer = 10 ∧ buffered_at_limit.xfer_limit = 10 ∧
    buffered_at_limit.freeze_output = 0 ∧ buffered_at_limit.buffer_size = 20 ∧
    (buffered_rate_limit buffered_at_limit).2 = 0 ∧
    (buffered_flush sink_ten buffered_at_limit).calls = buffered_at_limit.calls ∧
    (buffered_flush sink_ten buffered_at_limit).buffer_size = 20 := by
  decide

/-! ## C32: the tick -/

/-- The drain loop does not touch the timer. -/
theorem flush_loop_timer (sink : Sink) :
    ∀ (fuel : Nat) (s : QEMUFileBuffered) (off : Nat),
      (buffered_flush_loop sink fuel s off).1.timer = s.timer := by
  intro fuel
  induction fuel with
  | zero => intro s off; rfl
  | succ n ih =>
    intro s off
    unfold buffered_flush_loop
    simp only []
    split_ifs
    · rfl
    · rfl
    · rw [ih]
    · rfl

/-- `buffered_put_buffer` does not touch the timer. -/
theorem put_buffer_timer (sink : Sink) (s : QEMUFileBuffered) (buf : List Nat) (pos : Int) :
    (buffered_put_buffer sink s buf pos).1.timer = s.timer := by
  have ha : ∀ t : QEMUFileBuffered, (buffered_append t buf).timer = t.timer := by
    intro t; unfold buffered_append; simp only []; split_ifs <;> rfl
  have hf : ∀ t : QEMUFileBuffered, (buffered_flush sink t).timer = t.timer := by
    intro t; unfold buffered_flush
    split_ifs
    · rfl
    · simp only []; rw [flush_loop_timer]
  unfold buffered_put_buffer
  simp only []
  split_ifs <;> simp only [hf, ha]

/-- With a pending error the drain loop of `buffered_close` does not run,
whatever the number of rounds it is followed for. -/
theorem buffered_close_error (sink : Sink) (n : Nat) (s : QEMUFileBuffered)
    (he : s.file_error ≠ 0) :
    buffered_close sink n s = { s with xfer_limit := INT_MAX, timer := none, closed := true } := by
  have hl : buffered_close_loop sink n { s with xfer_limit := INT_MAX } =
      { s with xfer_limit := INT_MAX } := by
    cases n with
    | zero => rfl
    | succ m =>
      have hc : ¬ (({ s with xfer_limit := INT_MAX } : QEMUFileBuffered).file_error = 0 ∧
          ({ s with xfer_limit := INT_MAX } : QEMUFileBuffered).buffer_size ≠ 0) :=
        fun h => he h.1
      simp only [buffered_close_loop, if_neg hc]
  unfold buffered_close
  rw [hl]

/-- C32 (as amended): a tick at the time `now`, in every state and for every
sink. If an error is pending the sink is closed (timer deleted, state
freed) without draining. Otherwise the timer is re-armed for `now + 100`; if
the output is frozen nothing else happens, `bytes_xfer` included; if it is
not frozen `bytes_xfer` is reset to 0 and `put_buffer(NULL, 0, 0)` is
invoked. -/
theorem rate_tick_effect (sink : Sink) (s : QEMUFileBuffered) (now : Int) :
    (s.file_error ≠ 0 →
      buffered_rate_tick sink s now =
        { s with xfer_limit := INT_MAX, timer := none, closed := true }) ∧
    (s.file_error = 0 → (buffered_rate_tick sink s now).timer = some (now + 100)) ∧
    (s.file_error = 0 ∧ s.freeze_output ≠ 0 →
      buffered_rate_tick sink s now = { s with timer := some (now + 100) }) ∧
    (s.file_error = 0 ∧ s.freeze_output = 0 →
      buffered_rate_tick sink s now =
        (buffered_put_buffer sink { s with timer := some (now + 100), bytes_xfer := 0 }
          [] 0).1) := by
  refine ⟨fun he => ?_, fun he => ?_, fun h => ?_, fun h => ?_⟩
  · unfold buffered_rate_tick
    rw [if_pos he, buffered_close_error sink 0 s he]
  · have hne : ¬ s.file_error ≠ 0 := by simp [he]
    unfold buffered_rate_tick
    simp only [if_neg hne]
    split_ifs
    · rfl
    · rw [put_buffer_timer]
  · have hne : ¬ s.file_error ≠ 0 := by simp [h.1]
    unfold buffered_rate_tick
    simp only [if_neg hne, if_pos h.2]
  · have hne : ¬ s.file_error ≠ 0 := by simp [h.1]
    have hnf : ¬ s.freeze_output ≠ 0 := by simp [h.2]
    unfold buffered_rate_tick
    simp only [if_neg hne, if_neg hnf]

/-- The counter is not reset while the output is frozen: a tick on a frozen
sink with `bytes_xfer = 5` re-arms the timer and leaves `bytes_xfer = 5`. -/
theorem rate_tick_frozen_keeps_counter :
    buffered_frozen.file_error = 0 ∧
    (buffered_rate_tick greedy_sink buffered_frozen 1000).bytes_xfer = 5 ∧
    (buffered_rate_tick greedy_sink buffered_frozen 1000).timer = some 1100 := by
  decide
/-! ## C33: the media change callback -/

/-- C33 (as amended): for every device state and both values of `load`,
`scsi_cd_change_media_cb` sets the pending unit attention to
UNIT_ATTENTION_NO_MEDIUM (not MEDIUM_CHANGED), `media_changed` to `load`,
`tray_open` to `!load`, `media_event` to true and `eject_request` to false,
and leaves the rest of the device as it is; MEDIUM_CHANGED becomes the
pending unit attention when that first one has been reported, after a load,
and not after an unload. -/
theorem change_media_unit_attention (s : SCSIDiskState) (load : Bool) :
    (scsi_cd_change_media_cb s load).unit_attention = .UNIT_ATTENTION_NO_MEDIUM ∧
    (scsi_cd_change_media_cb s load).media_changed = load ∧
    (scsi_cd_change_media_cb s load).tray_open = (!load) ∧
    (scsi_cd_change_media_cb s load).media_event = true ∧
    (scsi_cd_change_media_cb s load).eject_request = false ∧
    { scsi_cd_change_media_cb s load with
        media_changed := s.media_changed, tray_open := s.tray_open,
        unit_attention := s.unit_attention, media_event := s.media_event,
        eject_request := s.eject_request } = s ∧
    (scsi_disk_unit_attention_reported (scsi_cd_change_media_cb s true)).unit_attention
      = .MEDIUM_CHANGED ∧
    (scsi_disk_unit_attention_reported (scsi_cd_change_media_cb s false)).unit_attention
      = .UNIT_ATTENTION_NO_MEDIUM := by
  refine ⟨rfl, rfl, rfl, rfl, rfl, rfl, rfl, rfl⟩

/-- After a media change the pending unit attention is not MEDIUM_CHANGED:
on the example disk it is UNIT_ATTENTION_NO_MEDIUM, for a load as for an
unload. -/
theorem change_media_not_medium_changed :
    (scsi_cd_change_media_cb example_disk true).unit_attention ≠ .MEDIUM_CHANGED ∧
    (scsi_cd_change_media_cb example_disk false).unit_attention ≠ .MEDIUM_CHANGED ∧
    (scsi_cd_change_media_cb example_disk true).unit_attention = .UNIT_ATTENTION_NO_MEDIUM := by
  decide

/-! ## C34: MEDIUM_CHANGED is raised once -/

/-- C34: for every device state. After a media load
(`scsi_cd_change_media_cb` with `load = true`) the first
`scsi_disk_unit_attention_reported` sets the pending unit attention to
MEDIUM_CHANGED and clears `media_changed`; any number of further calls
leaves the device as it is, and so does every call on a device whose
`media_changed` is clear; no call changes `tray_open`, `tray_locked`,
`media_event` or `eject_request`. -/
theorem unit_attention_one_shot (s : SCSIDiskState) :
    (scsi_disk_unit_attention_reported (scsi_cd_change_media_cb s true)).unit_attention
      = .MEDIUM_CHANGED ∧
    (scsi_disk_unit_attention_reported (scsi_cd_change_media_cb s true)).media_changed
      = false ∧
    (∀ n : Nat, Nat.iterate scsi_disk_unit_attention_reported n
        (scsi_disk_unit_attention_reported (scsi_cd_change_media_cb s true)) =
      scsi_disk_unit_attention_reported (scsi_cd_change_media_cb s true)) ∧
    (s.media_changed = false → scsi_disk_unit_attention_reported s = s) ∧
    (scsi_disk_unit_attention_reported s).tray_open = s.tray_open ∧
    (scsi_disk_unit_attention_reported s).tray_locked = s.tray_locked ∧
    (scsi_disk_unit_attention_reported s).media_event = s.media_event ∧
    (scsi_disk_unit_attention_reported s).eject_request = s.eject_request := by
  have hfix : ∀ t : SCSIDiskState, t.media_changed = false →
      scsi_disk_unit_attention_reported t = t := by
    intro t ht
    unfold scsi_disk_unit_attention_reported
    simp [ht]
  refine ⟨rfl, rfl, ?_, hfix s, ?_, ?_, ?_, ?_⟩
  · intro n
    induction n with
    | zero => rfl
    | succ n ih =>
      rw [Function.iterate_succ_apply', ih]
      exact hfix _ rfl
  all_goals (unfold scsi_disk_unit_attention_reported; split_ifs <;> rfl)
/-! ## C35: the chunk of `scsi_init_iovec` -/

/-- C35 at the failing input: READ(16) of `2^23` blocks of 512 bytes at LBA 0
of a disk of `2^25` blocks is accepted with `sector_count = 8388608` and no bounce buffer yet;
`scsi_init_iovec(r, SCSI_DMA_BUF_SIZE)` then allocates the buffer, sets the
iovec length to 0 and returns 0, where `min(sector_count, 256)` is 256: the
product `sector_count * 512` is `2^32`, which is 0 in 32 bits. -/
theorem init_iovec_4g_no_progress :
    (scsi_send_command (world_big_disk cmd_read16_4g)).1.r.sector_count = 8388608 ∧
    (scsi_send_command (world_big_disk cmd_read16_4g)).1.r.iov_base.isNone = true ∧
    (scsi_init_iovec (scsi_send_command (world_big_disk cmd_read16_4g)).1
      SCSI_DMA_BUF_SIZE).1.r.buflen = 131072 ∧
    (scsi_init_iovec (scsi_send_command (world_big_disk cmd_read16_4g)).1
      SCSI_DMA_BUF_SIZE).1.r.iov_len = 0 ∧
    (scsi_init_iovec (scsi_send_command (world_big_disk cmd_read16_4g)).1
      SCSI_DMA_BUF_SIZE).2 = 0 ∧
    min 8388608 (SCSI_DMA_BUF_SIZE / 512) = 256 := by
  decide

/-! ## C36: the range of a read or write -/

/-- C36 at the failing input: READ(10) of two blocks at the last block of the
example disk (`max_lba = 4095`, 512-byte blocks) is accepted: no sense is
posted, the request is set up for the sectors 4095 and 4096, and 1024 is
returned, although the medium ends at sector 4096. -/
theorem read_past_end_accepted :
    (example_world cmd_read10_last_two).s.max_lba = 4095 ∧
    senses (scsi_send_command (example_world cmd_read10_last_two)).1.trace = [] ∧
    statuses (scsi_send_command (example_world cmd_read10_last_two)).1.trace = [] ∧
    (scsi_send_command (example_world cmd_read10_last_two)).2 = 1024 ∧
    (scsi_send_command (example_world cmd_read10_last_two)).1.r.sector = 4095 ∧
    (scsi_send_command (example_world cmd_read10_last_two)).1.r.sector_count = 2 ∧
    ¬ ((scsi_send_command (example_world cmd_read10_last_two)).1.r.sector +
        (scsi_send_command (example_world cmd_read10_last_two)).1.r.sector_count ≤
      ((example_world cmd_read10_last_two).s.max_lba + 1) *
        ((example_world cmd_read10_last_two).s.blocksize / 512)) := by
  decide
/-! ## C37: `max_lba` after a reset and after READ CAPACITY -/

/-- C37 at the failing input: a medium of three sectors in a device with
2048-byte blocks holds no whole block. `scsi_disk_reset` stores `max_lba = 0`;
READ CAPACITY(10) and READ CAPACITY(16) succeed and store
`max_lba = 2^64 - 1`, the decrement of zero blocks. -/
theorem read_capacity_small_medium :
    (scsi_disk_reset (world_small_medium cmd_read_capacity_10).s
      (world_small_medium cmd_read_capacity_10).bs).max_lba = 0 ∧
    (scsi_disk_emulate_command (world_small_medium cmd_read_capacity_10)).2 = 8 ∧
    (scsi_disk_emulate_command (world_small_medium cmd_read_capacity_10)).1.s.max_lba
      = 18446744073709551615 ∧
    0 ≤ (scsi_disk_emulate_command (world_small_medium cmd_read_capacity_16)).2 ∧
    (scsi_disk_emulate_command (world_small_medium cmd_read_capacity_16)).1.s.max_lba
      = 18446744073709551615 := by
  decide

/-- On a medium that holds at least one block (block size a non-zero
multiple of 512), `scsi_disk_reset` and the successful cases of READ
CAPACITY(10) and READ CAPACITY(16) store the same `max_lba`, the number of
blocks minus one, and that block lies on the medium. -/
theorem max_lba_agreement (w : World) (o : Buf)
    (hbs : 512 ∣ w.s.blocksize) (hbs0 : 0 < w.s.blocksize)
    (hone : w.s.blocksize / 512 ≤ w.bs.nb_sectors) (h64 : w.bs.nb_sectors < 2 ^ 64)
    (hlba : w.r.cmd.lba = 0) (hsa : cdb w.r.cmd.buf 1 &&& 31 = SAI_READ_CAPACITY_16) :
    (scsi_disk_reset w.s w.bs).max_lba = w.bs.nb_sectors / (w.s.blocksize / 512) - 1 ∧
    (scsi_disk_emulate_read_capacity_10 w o).exit = .brk 8 ∧
    (scsi_disk_emulate_read_capacity_10 w o).w.s.max_lba = (scsi_disk_reset w.s w.bs).max_lba ∧
    (scsi_disk_emulate_service_action_in_16 w o).exit = .brk (toInt32 w.r.cmd.xfer) ∧
    (scsi_disk_emulate_service_action_in_16 w o).w.s.max_lba
      = (scsi_disk_reset w.s w.bs).max_lba ∧
    (scsi_disk_reset w.s w.bs).max_lba * (w.s.blocksize / 512) < w.bs.nb_sectors := by
  obtain ⟨k, hk⟩ := hbs
  have hk0 : 0 < k := by omega
  have hdiv : w.s.blocksize / 512 = k := by omega
  rw [hdiv] at hone ⊢
  have hb1 : 1 ≤ w.bs.nb_sectors / k := (Nat.one_le_div_iff hk0).mpr hone
  have hble : w.bs.nb_sectors / k ≤ w.bs.nb_sectors := Nat.div_le_self _ _
  have hmul : w.bs.nb_sectors / k * k ≤ w.bs.nb_sectors := Nat.div_mul_le_self _ _
  have hnb : w.bs.nb_sectors ≠ 0 := by omega
  have hsub : sub64 (w.bs.nb_sectors / k) 1 = w.bs.nb_sectors / k - 1 := by
    generalize w.bs.nb_sectors / k = blocks at hb1 hble
    unfold sub64; omega
  have hreset : (scsi_disk_reset w.s w.bs).max_lba = w.bs.nb_sectors / k - 1 := by
    have hne : w.bs.nb_sectors / k ≠ 0 := by omega
    simp only [scsi_disk_reset, scsi_device_purge_requests, hdiv, if_pos hne, hsub]
  have hnc10 : ¬(cdb w.r.cmd.buf 8 &&& 1 = 0 ∧ w.r.cmd.lba ≠ 0) := fun h => h.2 hlba
  have hnc16 : ¬(cdb w.r.cmd.buf 14 &&& 1 = 0 ∧ w.r.cmd.lba ≠ 0) := fun h => h.2 hlba
  refine ⟨hreset, ?_, ?_, ?_, ?_, ?_⟩
  · simp only [scsi_disk_emulate_read_capacity_10, if_neg hnb, if_neg hnc10]
  · rw [hreset]
    simp only [scsi_disk_emulate_read_capacity_10, if_neg hnb, if_neg hnc10, hdiv, hsub]
  · simp only [scsi_disk_emulate_service_action_in_16, if_pos hsa, if_neg hnb, if_neg hnc16]
  · rw [hreset]
    simp only [scsi_disk_emulate_service_action_in_16, if_pos hsa, if_neg hnb, if_neg hnc16,
      hdiv, hsub]
  · rw [hreset]
    have : (w.bs.nb_sectors / k - 1) * k + k = w.bs.nb_sectors / k * k := by
      have := Nat.sub_add_cancel hb1
      calc (w.bs.nb_sectors / k - 1) * k + k = (w.bs.nb_sectors / k - 1 + 1) * k := by ring
        _ = w.bs.nb_sectors / k * k := by rw [this]
    omega

/-- The agreement at a concrete input: on the example disk (4096 blocks of
512 bytes) the reset and READ CAPACITY(10) store `max_lba = 4095`. -/
theorem max_lba_agreement_example :
    (scsi_disk_reset example_disk example_backend).max_lba = 4095 ∧
    (scsi_disk_emulate_command (example_world cmd_read_capacity_10)).1.s.max_lba = 4095 := by
  decide
/-! ## C38: the length byte of the EVPD pages -/

/-- The result of an EVPD INQUIRY that succeeds: the length `n` and a buffer
whose byte 3 was stored last, as `n - 4`; `n - 4` is at most 255 unless the
page is 0x83 on a device without serial, with a WWN and a device name of
more than 239 bytes. -/
theorem inquiry_evpd_result (s : SCSIDiskState) (bs : BlockBackend) (cmd : SCSICommand)
    (outbuf : Buf) (hevpd : cdb cmd.buf 1 &&& 0x1 ≠ 0)
    (hok : 0 ≤ (scsi_disk_emulate_inquiry s bs cmd outbuf).1) :
    ∃ (n : Nat) (b : Buf),
      scsi_disk_emulate_inquiry s bs cmd outbuf = ((n : Int), Buf.set b 3 (n - 4)) ∧ 4 ≤ n ∧
      ((cdb cmd.buf 2 = 0x83 →
          s.serial.isSome ∨ s.wwn = 0 ∨ bs.device_name.length ≤ 239) → n - 4 ≤ 255) := by
  by_cases h00 : cdb cmd.buf 2 = 0x00
  · by_cases hs : s.serial.isSome = true
    all_goals by_cases hd : s.type = TYPE_DISK
    all_goals simp only [scsi_disk_emulate_inquiry, if_pos hevpd, h00, if_true, hs, hd, if_false,
      Bool.false_eq_true]
    all_goals exact ⟨_, _, rfl, by omega, fun _ => by omega⟩
  · by_cases h80 : cdb cmd.buf 2 = 0x80
    · cases hser : s.serial with
      | none =>
        exfalso
        simp only [scsi_disk_emulate_inquiry, if_pos hevpd, h80, hser] at hok
        simp only [Nat.reduceEqDiff, if_false, if_true] at hok
        exact absurd hok (by decide)
      | some serial =>
        simp only [scsi_disk_emulate_inquiry, if_pos hevpd, h80, hser]
        simp only [Nat.reduceEqDiff, if_false, if_true]
        refine ⟨_, _, rfl, by omega, fun _ => ?_⟩
        split_ifs <;> omega
    · by_cases h83 : cdb cmd.buf 2 = 0x83
      · rw [inquiry_page_83 s bs cmd outbuf hevpd h83 _ _ rfl rfl]
        have ht : ((s.serial.getD bs.device_name).take
            (if s.serial.isSome then 20 else 247)).length ≤
            (if s.serial.isSome then 20 else 247) := by
          rw [List.length_take]; exact Nat.min_le_left _ _
        have ht2 : ((s.serial.getD bs.device_name).take
            (if s.serial.isSome then 20 else 247)).length ≤
            (s.serial.getD bs.device_name).length := by
          rw [List.length_take]; exact Nat.min_le_right _ _
        generalize ((s.serial.getD bs.device_name).take
            (if s.serial.isSome then 20 else 247)).length = t at ht ht2
        by_cases hw : s.wwn ≠ 0
        · rw [if_pos hw]
          refine ⟨_, _, rfl, by omega, fun hfit => ?_⟩
          rcases hfit h83 with h | h | h
          · rw [if_pos h] at ht; omega
          · exact absurd h hw
          · cases hser : s.serial with
            | none => rw [hser] at ht2; simp only [Option.getD_none] at ht2; omega
            | some serial => rw [hser] at ht; simp at ht; omega
        · rw [if_neg hw]
          refine ⟨_, _, rfl, by omega, fun _ => ?_⟩
          split_ifs at ht <;> omega
      · by_cases hb0 : cdb cmd.buf 2 = 0xb0
        · by_cases hrom : s.type = TYPE_ROM
          · exfalso
            simp only [scsi_disk_emulate_inquiry, if_pos hevpd, hb0, hrom] at hok
            simp only [Nat.reduceEqDiff, if_false, if_true] at hok
            exact absurd hok (by decide)
          · simp only [scsi_disk_emulate_inquiry, if_pos hevpd, hb0, if_neg hrom]
            simp only [Nat.reduceEqDiff, if_false, if_true]
            exact ⟨_, _, rfl, by omega, fun _ => by omega⟩
        · by_cases hb2 : cdb cmd.buf 2 = 0xb2
          · simp only [scsi_disk_emulate_inquiry, if_pos hevpd, hb2]
            simp only [Nat.reduceEqDiff, if_false, if_true]
            exact ⟨_, _, rfl, by omega, fun _ => by omega⟩
          · exfalso
            simp only [scsi_disk_emulate_inquiry, if_pos hevpd, if_neg h00, if_neg h80,
              if_neg h83, if_neg hb0, if_neg hb2] at hok
            exact absurd hok (by decide)

/-- Where the assertion of the EVPD branch holds: for every device
configuration and every EVPD page `scsi_disk_emulate_inquiry` accepts (it returns a length), provided that on
page 0x83 a serial is configured, or the WWN is zero, or the device name has
at most 239 bytes: the assertion `buflen - start <= 255` holds, and header
byte 3 is the number of bytes after the 4-byte header. -/
theorem evpd_length_byte (s : SCSIDiskState) (bs : BlockBackend) (cmd : SCSICommand)
    (outbuf : Buf) (hevpd : cdb cmd.buf 1 &&& 0x1 ≠ 0)
    (hok : 0 ≤ (scsi_disk_emulate_inquiry s bs cmd outbuf).1)
    (hfit : cdb cmd.buf 2 = 0x83 →
      s.serial.isSome ∨ s.wwn = 0 ∨ bs.device_name.length ≤ 239) :
    assert_evpd_length (scsi_disk_emulate_inquiry s bs cmd outbuf).1 ∧
    4 ≤ (scsi_disk_emulate_inquiry s bs cmd outbuf).1 ∧
    ((scsi_disk_emulate_inquiry s bs cmd outbuf).2 3 : Int) =
      (scsi_disk_emulate_inquiry s bs cmd outbuf).1 - 4 := by
  obtain ⟨n, b, h, h4, hle⟩ := inquiry_evpd_result s bs cmd outbuf hevpd hok
  have h255 := hle hfit
  rw [h]
  refine ⟨?_, ?_, ?_⟩
  · simp only [assert_evpd_length]; omega
  · simp only []; omega
  · simp only [buf_set_eq]
    have : (n - 4) % 256 = n - 4 := Nat.mod_eq_of_lt (by omega)
    rw [this]; omega

/-- The EVPD length byte at a concrete input: page 0x83 of the disk with the serial "QM00001"
and a WWN has 27 bytes, 23 of them after the header, and byte 3 holds 23. -/
theorem evpd_length_byte_witness :
    (scsi_disk_emulate_inquiry example_disk_serial example_backend
      (cmd_inquiry_evpd 0x83) (fun _ => 0)).1 = 27 ∧
    assert_evpd_length (scsi_disk_emulate_inquiry example_disk_serial example_backend
      (cmd_inquiry_evpd 0x83) (fun _ => 0)).1 ∧
    ((scsi_disk_emulate_inquiry example_disk_serial example_backend
      (cmd_inquiry_evpd 0x83) (fun _ => 0)).2 3 : Int) =
      (scsi_disk_emulate_inquiry example_disk_serial example_backend
        (cmd_inquiry_evpd 0x83) (fun _ => 0)).1 - 4 :=
  ⟨by decide,
   (evpd_length_byte example_disk_serial example_backend (cmd_inquiry_evpd 0x83) (fun _ => 0)
      (by decide) (by decide) (fun _ => Or.inl (by decide))).1,
   (evpd_length_byte example_disk_serial example_backend (cmd_inquiry_evpd 0x83) (fun _ => 0)
      (by decide) (by decide) (fun _ => Or.inl (by decide))).2.2⟩

theorem label_done_iov (w : World) :
    (label_done w).r.iov_len = w.r.iov_len ∧ (label_done w).r.buflen = w.r.buflen := by
  unfold label_done
  split_ifs <;> exact ⟨rfl, rfl⟩

theorem clear_aiocb_iov (w : World) :
    (clear_aiocb w).r.iov_len = w.r.iov_len ∧ (clear_aiocb w).r.buflen = w.r.buflen ∧
    (clear_aiocb w).r.iov_base = w.r.iov_base := by
  rw [clear_aiocb_r]
  exact ⟨rfl, rfl, rfl⟩

theorem write_do_fua_iov (w : World) :
    (scsi_write_do_fua w).r.iov_len = w.r.iov_len ∧
    (scsi_write_do_fua w).r.buflen = w.r.buflen := by
  unfold scsi_write_do_fua
  split_ifs
  · exact ⟨rfl, rfl⟩
  · exact label_done_iov _

/-- After `scsi_init_iovec` the iovec lies inside the buffer, whatever it was
before. -/
theorem init_iovec_iov_ok (w : World) (size : Nat) (h : w.r.buflen < 2 ^ 32) :
    iov_within_buffer (scsi_init_iovec w size).1.r := by
  have hu : u32 size < 2 ^ 32 := by unfold u32; exact Nat.mod_lt _ (by norm_num)
  cases hb : w.r.iov_base with
  | none =>
    simp only [scsi_init_iovec, hb, iov_within_buffer]
    exact ⟨Nat.min_le_right _ _, hu⟩
  | some b =>
    simp only [scsi_init_iovec, hb, iov_within_buffer]
    exact ⟨Nat.min_le_right _ _, h⟩

/-- The length `scsi_init_iovec` gives the iovec: the bytes of the sectors
still to transfer (a 32-bit product), at most the buffer. -/
theorem init_iovec_iov_len (w : World) (size : Nat) :
    (scsi_init_iovec w size).1.r.iov_len =
      min (u32 (w.r.sector_count * 512)) (scsi_init_iovec w size).1.r.buflen := by
  cases hb : w.r.iov_base <;> simp only [scsi_init_iovec, hb]

theorem iov_ok_of_eq (r t : SCSIDiskReq) (h1 : t.iov_len = r.iov_len)
    (h2 : t.buflen = r.buflen) (h : iov_within_buffer r) : iov_within_buffer t := by
  unfold iov_within_buffer at *
  rw [h1, h2]
  exact h

theorem flush_complete_iov (w : World) (ret : Int) :
    (scsi_flush_complete w ret).r.iov_len = w.r.iov_len ∧
    (scsi_flush_complete w ret).r.buflen = w.r.buflen := by
  simp only [scsi_flush_complete]
  split_ifs
  · exact ⟨(label_done_iov _).1.trans (by simp), (label_done_iov _).2.trans (by simp)⟩
  · exact ⟨(label_done_iov _).1.trans (by simp [scsi_req_complete]),
      (label_done_iov _).2.trans (by simp [scsi_req_complete])⟩

theorem dma_complete_iov (w : World) (ret : Int) :
    (scsi_dma_complete w ret).r.iov_len = w.r.iov_len ∧
    (scsi_dma_complete w ret).r.buflen = w.r.buflen := by
  obtain ⟨c1, c2, _⟩ := clear_aiocb_iov w
  simp only [scsi_dma_complete]
  split_ifs
  · exact ⟨(label_done_iov _).1.trans (by simp [c1]), (label_done_iov _).2.trans (by simp [c2])⟩
  · exact ⟨(write_do_fua_iov _).1.trans (by simp [c1]),
      (write_do_fua_iov _).2.trans (by simp [c2])⟩
  · exact ⟨(label_done_iov _).1.trans (by simp [scsi_req_complete, c1]),
      (label_done_iov _).2.trans (by simp [scsi_req_complete, c2])⟩

theorem read_complete_iov (w : World) (ret : Int) :
    (scsi_read_complete w ret).r.iov_len = w.r.iov_len ∧
    (scsi_read_complete w ret).r.buflen = w.r.buflen := by
  obtain ⟨c1, c2, _⟩ := clear_aiocb_iov w
  simp only [scsi_read_complete]
  split_ifs
  · exact ⟨(label_done_iov _).1.trans (by simp [c1]), (label_done_iov _).2.trans (by simp [c2])⟩
  · exact ⟨(label_done_iov _).1.trans (by simp [scsi_req_data, c1]),
      (label_done_iov _).2.trans (by simp [scsi_req_data, c2])⟩

theorem do_read_iov_ok (w : World) (ret : Int) (h : iov_within_buffer w.r) :
    iov_within_buffer (scsi_do_read w ret).r := by
  obtain ⟨c1, c2, _⟩ := clear_aiocb_iov w
  simp only [scsi_do_read]
  split_ifs
  · exact iov_ok_of_eq _ _ ((label_done_iov _).1.trans (by simp [c1]))
      ((label_done_iov _).2.trans (by simp [c2])) h
  · exact iov_ok_of_eq _ _ (by simp [c1]) (by simp [c2]) h
  · refine iov_ok_of_eq _ _ (label_done_iov _).1 (label_done_iov _).2 ?_
    split
    · exact iov_ok_of_eq _ _ (by simp [World.submit, scsi_req_ref, c1])
        (by simp [World.submit, scsi_req_ref, c2]) h
    · refine iov_ok_of_eq _ _ rfl rfl (init_iovec_iov_ok _ _ ?_)
      simp [scsi_req_ref, c2]
      exact h.2

theorem write_complete_iov_ok (w : World) (ret : Int) (h : iov_within_buffer w.r) :
    iov_within_buffer (scsi_write_complete w ret).r := by
  obtain ⟨c1, c2, _⟩ := clear_aiocb_iov w
  simp only [scsi_write_complete]
  split_ifs
  · exact iov_ok_of_eq _ _ ((label_done_iov _).1.trans (by simp [c1]))
      ((label_done_iov _).2.trans (by simp [c2])) h
  · exact iov_ok_of_eq _ _ ((write_do_fua_iov _).1.trans (by simp [c1]))
      ((write_do_fua_iov _).2.trans (by simp [c2])) h
  · refine iov_ok_of_eq _ _ ((label_done_iov _).1.trans rfl) ((label_done_iov _).2.trans rfl)
      (init_iovec_iov_ok _ _ ?_)
    simp [c2]
    exact h.2

theorem run_callback_iov_ok (cb : Callback) (w : World) (ret : Int)
    (h : iov_within_buffer w.r) : iov_within_buffer (run_callback cb w ret).r := by
  cases cb
  · exact iov_ok_of_eq _ _ (flush_complete_iov w ret).1 (flush_complete_iov w ret).2 h
  · exact iov_ok_of_eq _ _ (dma_complete_iov w ret).1 (dma_complete_iov w ret).2 h
  · exact iov_ok_of_eq _ _ (read_complete_iov w ret).1 (read_complete_iov w ret).2 h
  · exact do_read_iov_ok w ret h
  · exact write_complete_iov_ok w ret h

theorem read_data_iov_ok (w : World) (h : iov_within_buffer w.r) :
    iov_within_buffer (scsi_read_data w).r := by
  simp only [scsi_read_data]
  split_ifs
  · exact h
  · exact h
  · exact iov_ok_of_eq _ _ (read_complete_iov _ _).1 (read_complete_iov _ _).2 h
  · exact iov_ok_of_eq _ _ (read_complete_iov _ _).1 (read_complete_iov _ _).2 h
  · exact h
  · exact do_read_iov_ok _ _ h

theorem write_data_iov_ok (w : World) (h : iov_within_buffer w.r) :
    iov_within_buffer (scsi_write_data w).r := by
  simp only [scsi_write_data]
  split_ifs
  · exact write_complete_iov_ok _ _ h
  · exact write_complete_iov_ok _ _ h
  · exact write_complete_iov_ok _ _ h
  · exact iov_ok_of_eq _ _ (dma_complete_iov _ _).1 (dma_complete_iov _ _).2 h
  · exact write_complete_iov_ok _ _ h
  · split
    · exact h
    · exact h

theorem request_step_iov_ok (w : World) (op : RequestOp) (h : iov_within_buffer w.r) :
    iov_within_buffer (request_step w op).r := by
  cases op
  · exact read_data_iov_ok w h
  · exact write_data_iov_ok w h
  · exact run_callback_iov_ok _ w _ h
theorem tail_iov (w : World) :
    (scsi_send_command_tail w).1.r.iov_len = w.r.iov_len ∧
    (scsi_send_command_tail w).1.r.buflen = w.r.buflen ∧
    (scsi_send_command_tail w).1.r.iov_base = w.r.iov_base := by
  unfold scsi_send_command_tail
  simp only []
  split_ifs <;> exact ⟨rfl, rfl, rfl⟩

/-- The buffer of the request after `scsi_disk_emulate_command`: the iovec
length is not touched, and the buffer is the one the head of the function
allocates, unless the allocation length is refused. -/
theorem emulate_command_iov (w : World) :
    (scsi_disk_emulate_command w).1.r.iov_len = w.r.iov_len ∧
    (scsi_disk_emulate_command w).1.r.buflen =
      (if w.r.iov_base.isNone ∧ w.r.cmd.xfer > 65536 then w.r.buflen
       else (scsi_disk_emulate_alloc w).r.buflen) ∧
    ((scsi_disk_emulate_command w).1.r.iov_base = none →
      w.r.iov_base.isNone ∧ w.r.cmd.xfer > 65536) := by
  unfold scsi_disk_emulate_command
  by_cases hbig : w.r.iov_base.isNone ∧ w.r.cmd.xfer > 65536
  · rw [if_pos hbig, if_pos hbig]
    split_ifs
    · rw [check_condition_r]
      exact ⟨rfl, rfl, fun _ => hbig⟩
    · exact ⟨rfl, rfl, fun _ => hbig⟩
  · rw [if_neg hbig, if_neg hbig]
    simp only []
    obtain ⟨har, _, _, _, _⟩ := emulate_alloc_r w
    have hil : (scsi_disk_emulate_alloc w).r.iov_len = w.r.iov_len := by rw [har]
    generalize scsi_disk_emulate_alloc w = w0 at hil ⊢
    generalize (w0.r.iov_base.getD fun _ => 0) = o
    have hc : (scsi_disk_emulate_switch w0 o).w.r.iov_len = w0.r.iov_len ∧
        (scsi_disk_emulate_switch w0 o).w.r.buflen = w0.r.buflen := by
      rcases emulate_switch_summary w0 o with ⟨hr, _⟩ | ⟨sense, hcw, _⟩
      · rw [hr]; exact ⟨rfl, rfl⟩
      · rw [hcw, check_condition_r]; exact ⟨rfl, rfl⟩
    generalize scsi_disk_emulate_switch w0 o = c at hc
    obtain ⟨h1, h2⟩ := hc
    cases c.exit with
    | brk n => exact ⟨h1.trans hil, h2, fun h => by simp at h⟩
    | illegal_request =>
      simp only []
      split_ifs
      · rw [check_condition_r]
        exact ⟨h1.trans hil, h2, fun h => by simp at h⟩
      · exact ⟨h1.trans hil, h2, fun h => by simp at h⟩
    | fail => exact ⟨h1.trans hil, h2, fun h => by simp at h⟩

theorem MIN_int_size_le (n : Int) (x : Nat) (hx : x < 2 ^ 31) :
    ((MIN_int_size n x) % 2 ^ 64).toNat ≤ x := by
  unfold MIN_int_size
  split_ifs with h
  · omega
  · rw [toInt32_of_lt _ hx]
    omega

/-- On a fresh request the second `switch` of `scsi_send_command` leaves the
iovec inside the buffer. For an emulated command that has a response buffer,
the buffer has `max(4096, xfer)` bytes and the iovec at most `xfer`. -/
theorem switch_iov_ok (w : World) (cmd : SCSICommand) (sg : Option Nat)
    (hfresh : w.r = fresh_request cmd sg) :
    iov_within_buffer (scsi_send_command_switch w).1.r ∧
    (is_emulated (cdb cmd.buf 0) = true →
      (scsi_send_command_switch w).1.r.iov_base ≠ none →
      (scsi_send_command_switch w).1.r.buflen = max 4096 cmd.xfer ∧
      (scsi_send_command_switch w).1.r.iov_len ≤ cmd.xfer) := by
  have hcmd : w.r.cmd = cmd := by rw [hfresh]; rfl
  have hib : w.r.iov_base = none := by rw [hfresh]; rfl
  have hil : w.r.iov_len = 0 := by rw [hfresh]; rfl
  have hbl : w.r.buflen = 0 := by rw [hfresh]; rfl
  have h0 : iov_within_buffer w.r := by
    unfold iov_within_buffer; rw [hil, hbl]; exact ⟨Nat.le_refl _, by norm_num⟩
  by_cases he : is_emulated (cdb w.r.cmd.buf 0) = true
  · obtain ⟨e1, e2, e3⟩ := emulate_command_iov w
    rw [switch_emulated w he]
    by_cases hbig : w.r.iov_base.isNone ∧ w.r.cmd.xfer > 65536
    · rw [if_pos hbig] at e2
      have hneg : (scsi_disk_emulate_command w).2 < 0 := by
        have : (scsi_disk_emulate_command w).2 = -1 := by
          unfold scsi_disk_emulate_command
          rw [if_pos hbig]
        rw [this]; decide
      have hnone : (scsi_disk_emulate_command w).1.r.iov_base = none := by
        unfold scsi_disk_emulate_command
        rw [if_pos hbig]
        split_ifs
        · rw [check_condition_r]; exact hib
        · exact hib
      rw [if_pos hneg]
      exact ⟨iov_ok_of_eq _ _ e1 e2 h0, fun _ hne => absurd hnone hne⟩
    · rw [if_neg hbig] at e2
      have hx : w.r.cmd.xfer ≤ 65536 := by
        by_contra hgt
        exact hbig ⟨by rw [hib]; rfl, by omega⟩
      have hal : (scsi_disk_emulate_alloc w).r.buflen = max 4096 w.r.cmd.xfer := by
        unfold scsi_disk_emulate_alloc
        rw [hib]
        simp only []
        unfold u32
        omega
      rw [hal] at e2
      split_ifs with hneg
      · refine ⟨?_, fun _ _ => ⟨by rw [e2, hcmd], by rw [e1, hil]; exact Nat.zero_le _⟩⟩
        unfold iov_within_buffer
        rw [e1, e2, hil]
        omega
      · have hret : ((scsi_disk_emulate_command w).2 % 2 ^ 64).toNat ≤ w.r.cmd.xfer := by
          obtain ⟨new, bl, ib, _, _, hs⟩ := emulate_command_summary w
          rcases hs with ⟨_, _, _, ⟨n, hn, _, _⟩ | ⟨hm, _⟩⟩ | ⟨_, _, _, hm, _⟩
          · rw [hn]; exact MIN_int_size_le n _ (by omega)
          · rw [hm] at hneg; exact absurd (by decide) hneg
          · rw [hm] at hneg; exact absurd (by decide) hneg
        refine ⟨?_, fun _ _ => ⟨?_, ?_⟩⟩
        · unfold iov_within_buffer
          simp only []
          rw [e2]
          omega
        · simp only []
          rw [e2, hcmd]
        · simp only []
          rw [← hcmd]
          exact hret
  · have hne : ¬ is_emulated (cdb cmd.buf 0) = true := by rw [← hcmd]; exact he
    refine ⟨?_, fun h => absurd h hne⟩
    have hem' : is_emulated (cdb w.r.cmd.buf 0) = false := by simpa using he
    by_cases hsync : cdb w.r.cmd.buf 0 = SYNCHRONIZE_CACHE
    · have hsw : scsi_send_command_switch w =
          ((((scsi_req_ref w).emit (.bdrv_acct_start 0 .BDRV_ACCT_FLUSH)).submit
            (.bdrv_aio_flush .scsi_flush_complete) .scsi_flush_complete), false) := by
        unfold scsi_send_command_switch
        simp only []
        rw [hem']
        simp only [Bool.false_eq_true, if_false]
        rw [if_pos hsync]
      rw [hsw]
      exact iov_ok_of_eq _ _ rfl rfl h0
    by_cases hrw : is_read_op (cdb w.r.cmd.buf 0) = true ∨ is_write_op (cdb w.r.cmd.buf 0) = true
    · rw [switch_rw w hrw]
      unfold scsi_send_command_rw
      simp only []
      split_ifs
      · rw [check_condition_r]; exact h0
      · exact h0
    · have hr : is_read_op (cdb w.r.cmd.buf 0) = false := by
        cases h : is_read_op (cdb w.r.cmd.buf 0)
        · rfl
        · exact absurd (Or.inl h) hrw
      have hw : is_write_op (cdb w.r.cmd.buf 0) = false := by
        cases h : is_write_op (cdb w.r.cmd.buf 0)
        · rfl
        · exact absurd (Or.inr h) hrw
      unfold scsi_send_command_switch
      simp only [hem', if_neg hsync, hr, hw, Bool.false_eq_true, if_false]
      split_ifs
      all_goals exact h0

/-- On a fresh request `scsi_send_command` leaves the iovec inside the
buffer. For an emulated command that has a response buffer, the buffer has
`max(4096, xfer)` bytes and the iovec at most `xfer`. -/
theorem send_command_iov_ok (w : World) (cmd : SCSICommand) (sg : Option Nat)
    (hfresh : w.r = fresh_request cmd sg) :
    iov_within_buffer (scsi_send_command w).1.r ∧
    (is_emulated (cdb cmd.buf 0) = true → (scsi_send_command w).1.r.iov_base ≠ none →
      (scsi_send_command w).1.r.buflen = max 4096 cmd.xfer ∧
      (scsi_send_command w).1.r.iov_len ≤ cmd.xfer) := by
  have hib : w.r.iov_base = none := by rw [hfresh]; rfl
  have hil : w.r.iov_len = 0 := by rw [hfresh]; rfl
  have hbl : w.r.buflen = 0 := by rw [hfresh]; rfl
  have h0 : iov_within_buffer w.r := by
    unfold iov_within_buffer; rw [hil, hbl]; exact ⟨Nat.le_refl _, by norm_num⟩
  obtain ⟨s1, s2⟩ := switch_iov_ok w cmd sg hfresh
  unfold scsi_send_command
  simp only []
  split_ifs with hmed hbrk
  · refine ⟨?_, fun _ hne => absurd ?_ hne⟩
    · rw [check_condition_r]; exact h0
    · rw [check_condition_r]; exact hib
  · obtain ⟨t1, t2, t3⟩ := tail_iov (scsi_send_command_switch w).1
    rw [t1, t2, t3]
    exact ⟨iov_ok_of_eq _ _ t1 t2 s1, s2⟩
  · exact ⟨s1, s2⟩

/-- Every state of a run keeps the iovec inside the buffer. -/
theorem request_run_iov_ok (w : World) (cmd : SCSICommand) (sg : Option Nat)
    (hfresh : w.r = fresh_request cmd sg) (ops : List RequestOp) :
    iov_within_buffer (request_run w ops).r := by
  unfold request_run
  have h := (send_command_iov_ok w cmd sg hfresh).1
  generalize (scsi_send_command w).1 = v at h
  induction ops generalizing v with
  | nil => exact h
  | cons op ops ih => exact ih _ (request_step_iov_ok v op h)
/-- Reading back a 32-bit value of any size: its low 32 bits. -/
theorem qemu_get_put_be32s_mod (v : Nat) (rest : QEMUFile) :
    qemu_get_be32s (qemu_put_be32s [] v ++ rest) = (v % 2 ^ 32, rest) := by
  simp only [qemu_get_be32s, qemu_put_be32s, ldl_be_p, cdb, List.nil_append, List.cons_append,
    List.getD_cons_zero, List.getD_cons_succ, List.drop_succ_cons, List.drop_zero,
    Prod.mk.injEq, and_true]
  omega

/-- Reading a 64-bit value consumes exactly the bytes written for it. -/
theorem qemu_get_put_be64s_rest (v : Nat) (rest : QEMUFile) :
    (qemu_get_be64s (qemu_put_be64s [] v ++ rest)).2 = rest := by
  have h1 : qemu_put_be64s [] v ++ rest =
      qemu_put_be32s [] (v / 2 ^ 32) ++ (qemu_put_be32s [] v ++ rest) := by
    simp [qemu_put_be64s, qemu_put_be32s]
  simp only [qemu_get_be64s, h1, qemu_get_put_be32s_mod]

/-- The assertion of `scsi_disk_load_request` holds on the stream
`scsi_disk_save_request` writes for a request whose iovec lies inside its
buffer, when the loading request has the direction and the retry flag of the
saved one. -/
theorem load_assertion_of_iov_ok (r : SCSIDiskReq) (l : World) (rest : QEMUFile)
    (hok : iov_within_buffer r) (hmode : l.r.cmd.mode = r.cmd.mode)
    (hretry : l.r.retry = r.retry) :
    scsi_disk_load_request_assertion l (scsi_disk_save_request [] r ++ rest) := by
  obtain ⟨hle, hbl⟩ := hok
  have hu : r.buflen % 2 ^ 32 = r.buflen := Nat.mod_eq_of_lt hbl
  have hul : u32 r.iov_len = r.iov_len := Nat.mod_eq_of_lt (by omega)
  have hil : r.iov_len % 2 ^ 32 = r.iov_len := Nat.mod_eq_of_lt (by omega)
  by_cases h0 : r.buflen = 0
  · have e : scsi_disk_save_request [] r ++ rest =
        qemu_put_be64s [] r.sector ++ (qemu_put_be32s [] r.sector_count ++
          (qemu_put_be32s [] r.buflen ++ rest)) := by
      simp only [scsi_disk_save_request, h0, ne_eq, not_true_eq_false, if_false]
      rw [qemu_put_be32s_append, qemu_put_be32s_append (qemu_put_be64s [] r.sector)]
      simp only [List.append_assoc]
    simp only [scsi_disk_load_request_assertion, e, qemu_get_put_be64s_rest,
      qemu_get_put_be32s_mod, h0, Nat.zero_mod, ne_eq, not_true_eq_false, if_false]
  · by_cases ht : r.cmd.mode = .SCSI_XFER_TO_DEV
    · unfold scsi_disk_load_request_assertion
      simp only [init_iovec_r_cmd, hmode, ht, if_true, ite_self]
    · by_cases hr : r.retry = true
      · unfold scsi_disk_load_request_assertion
        simp only [init_iovec_r_cmd, init_iovec_r_retry, hmode, hretry, ht, hr, if_false,
          Bool.not_true, Bool.false_eq_true, if_true, ite_self]
      · have hr2 : r.retry = false := by simpa using hr
        have e : scsi_disk_save_request [] r ++ rest =
            qemu_put_be64s [] r.sector ++ (qemu_put_be32s [] r.sector_count ++
              (qemu_put_be32s [] r.buflen ++ (qemu_put_be32s [] r.iov_len ++
                (qemu_put_buffer [] (r.iov_base.getD (fun _ => 0)) r.iov_len ++ rest)))) := by
          simp only [scsi_disk_save_request, h0, ne_eq, not_false_eq_true, if_true, ht,
            if_false, hr2, Bool.not_false, hul]
          rw [qemu_put_buffer_append, qemu_put_be32s_append, qemu_put_be32s_append
            (qemu_put_be32s (qemu_put_be64s [] r.sector) r.sector_count),
            qemu_put_be32s_append (qemu_put_be64s [] r.sector)]
          simp only [List.append_assoc]
        have hb : ∀ v : World, v.r.buflen = r.buflen →
            (scsi_init_iovec v r.buflen).1.r.buflen = r.buflen := by
          intro v hv
          cases hib : v.r.iov_base with
          | none => simp only [scsi_init_iovec, hib]; exact hu
          | some b => simp only [scsi_init_iovec, hib]; exact hv
        simp only [scsi_disk_load_request_assertion, e, qemu_get_put_be64s_rest,
          qemu_get_put_be32s_mod, hu, hil, h0, ne_eq, not_false_eq_true, if_true,
          init_iovec_r_cmd, init_iovec_r_retry, hmode, hretry, ht, hr2, if_false,
          Bool.not_false, assert_load_request]
        rw [hb _ rfl]
        exact hle

/-- C40: for every device, backend and host, every command and every
sequence of steps after `scsi_send_command` on a fresh request
(`scsi_read_data`, `scsi_write_data`, any completion callback with any
result): the iovec lies inside the bounce buffer, `iov_len <= buflen`. After
`scsi_send_command` an emulated command that has a response buffer has
`buflen = max(4096, xfer)` and `iov_len <= xfer`; `scsi_init_iovec` sets
`iov_len = min(sector_count * 512, buflen)`, the product taken in 32 bits.
Consequently the assertion of `scsi_disk_load_request` holds on the stream
`scsi_disk_save_request` writes from any of these states, for a loading
request of the same direction and retry flag. -/
theorem iov_len_within_buflen (w : World) (cmd : SCSICommand) (sg : Option Nat)
    (hfresh : w.r = fresh_request cmd sg) (ops : List RequestOp) :
    (request_run w ops).r.iov_len ≤ (request_run w ops).r.buflen ∧
    (is_emulated (cdb cmd.buf 0) = true → (request_run w []).r.iov_base ≠ none →
      (request_run w []).r.buflen = max 4096 cmd.xfer ∧
      (request_run w []).r.iov_len ≤ min cmd.xfer (request_run w []).r.buflen) ∧
    (∀ (v : World) (size : Nat),
      (scsi_init_iovec v size).1.r.iov_len =
        min (u32 (v.r.sector_count * 512)) (scsi_init_iovec v size).1.r.buflen) ∧
    (∀ (l : World) (rest : QEMUFile),
      l.r.cmd.mode = (request_run w ops).r.cmd.mode →
      l.r.retry = (request_run w ops).r.retry →
      scsi_disk_load_request_assertion l
        (scsi_disk_save_request [] (request_run w ops).r ++ rest)) := by
  have hok := request_run_iov_ok w cmd sg hfresh ops
  refine ⟨hok.1, fun he hne => ?_, init_iovec_iov_len, fun l rest hm hr => ?_⟩
  · obtain ⟨h1, h2⟩ := (send_command_iov_ok w cmd sg hfresh).2 he hne
    have h3 := (send_command_iov_ok w cmd sg hfresh).1.1
    exact ⟨h1, Nat.le_min.mpr ⟨h2, h3⟩⟩
  · exact load_assertion_of_iov_ok _ l rest hok hm hr

set_option maxRecDepth 100000 in
/-- C40 at a concrete input: READ(10) of one block on the example disk, the
read submitted and completed. The iovec has 512 bytes in a buffer of 131072,
and the stream saved from this state passes the assertion of the load. -/
theorem iov_len_within_buflen_witness :
    (request_run (example_world cmd_read10_one)
      [.read_data, .complete .scsi_read_complete 0]).r.iov_len = 512 ∧
    (request_run (example_world cmd_read10_one)
      [.read_data, .complete .scsi_read_complete 0]).r.buflen = 131072 ∧
    (request_run (example_world cmd_read10_one)
      [.read_data, .complete .scsi_read_complete 0]).r.iov_len ≤
      (request_run (example_world cmd_read10_one)
        [.read_data, .complete .scsi_read_complete 0]).r.buflen ∧
    scsi_disk_load_request_assertion (example_world cmd_read10_one)
      (scsi_disk_save_request [] (request_run (example_world cmd_read10_one)
        [.read_data, .complete .scsi_read_complete 0]).r ++ []) := by
  exact ⟨by decide, by decide,
    (iov_len_within_buflen (example_world cmd_read10_one) cmd_read10_one
      none rfl [.read_data, .complete .scsi_read_complete 0]).1,
    (iov_len_within_buflen (example_world cmd_read10_one) cmd_read10_one
      none rfl [.read_data, .complete .scsi_read_complete 0]).2.2.2 _ [] (by decide) (by decide)⟩

/-- The assertion of the load is a real test: on the stream saved from a
request with `iov_len = 5000` and `buflen = 4096`, which no run produces, it
fails; on the stream of an INQUIRY response it holds. -/
theorem load_assertion_example :
    ¬ scsi_disk_load_request_assertion (example_world cmd_inquiry_36)
      (scsi_disk_save_request [] request_iov_too_long) ∧
    (request_run (example_world cmd_inquiry_36) []).r.iov_len = 36 ∧
    (request_run (example_world cmd_inquiry_36) []).r.buflen = 4096 ∧
    scsi_disk_load_request_assertion (example_world cmd_inquiry_36)
      (scsi_disk_save_request [] (request_run (example_world cmd_inquiry_36) []).r) := by
  refine ⟨?_, by decide, by decide, ?_⟩
  · unfold scsi_disk_load_request_assertion assert_load_request
    decide
  · simpa only [List.append_nil] using
      load_assertion_of_iov_ok (request_run (example_world cmd_inquiry_36) []).r
        (example_world cmd_inquiry_36) []
        (request_run_iov_ok _ cmd_inquiry_36 none rfl []) rfl rfl

/-! ## C10: `scsi_cancel_io` -/

theorem cancels_append (a b : List Event) : cancels (a ++ b) = cancels a ++ cancels b := by
  simp [cancels, List.filterMap_append]

theorem label_done_trace (w : World) : (label_done w).trace = w.trace := by
  unfold label_done
  split_ifs <;> rfl

theorem check_ret_cancels (w : World) (ret : Int) :
    cancels (check_ret w ret).1.trace = cancels w.trace := by
  simp only [check_ret, scsi_handle_rw_error]
  split_ifs <;>
    simp [cancels, scsi_req_retry, scsi_check_condition, scsi_req_complete,
      scsi_req_build_sense, World.emit, List.filterMap_append]

theorem clear_aiocb_cancels (w : World) : cancels (clear_aiocb w).trace = cancels w.trace := by
  rw [clear_aiocb_trace]
  split_ifs <;> simp [cancels, List.filterMap_append]

theorem write_do_fua_cancels (w : World) :
    cancels (scsi_write_do_fua w).trace = cancels w.trace := by
  unfold scsi_write_do_fua
  split_ifs
  · simp [cancels, World.submit, World.emit, List.filterMap_append]
  · rw [label_done_trace]
    simp [cancels, scsi_req_complete, World.emit, List.filterMap_append]

theorem flush_complete_cancels (w : World) (ret : Int) :
    cancels (scsi_flush_complete w ret).trace = cancels w.trace := by
  have h := check_ret_cancels (w.emit .bdrv_acct_done) ret
  simp only [scsi_flush_complete]
  split_ifs
  · rw [label_done_trace, h]
    simp [cancels, List.filterMap_append]
  · rw [label_done_trace]
    simp only [scsi_req_complete, emit_trace, cancels_append, h]
    simp [cancels, List.filterMap_append]

theorem dma_complete_cancels (w : World) (ret : Int) :
    cancels (scsi_dma_complete w ret).trace = cancels w.trace := by
  have h := (check_ret_cancels (clear_aiocb w) ret).trans (clear_aiocb_cancels w)
  simp only [scsi_dma_complete]
  split_ifs
  · rw [label_done_trace, h]
  · rw [write_do_fua_cancels]
    exact h
  · rw [label_done_trace]
    simp only [scsi_req_complete, emit_trace, cancels_append, h]
    simp [cancels]

theorem read_complete_cancels (w : World) (ret : Int) :
    cancels (scsi_read_complete w ret).trace = cancels w.trace := by
  have h := (check_ret_cancels (clear_aiocb w) ret).trans (clear_aiocb_cancels w)
  simp only [scsi_read_complete]
  split_ifs
  · rw [label_done_trace, h]
  · rw [label_done_trace]
    simp only [scsi_req_data, emit_trace, cancels_append, h]
    simp [cancels]

theorem do_read_cancels (w : World) (ret : Int) :
    cancels (scsi_do_read w ret).trace = cancels w.trace := by
  have h := (check_ret_cancels (clear_aiocb w) ret).trans (clear_aiocb_cancels w)
  simp only [scsi_do_read]
  split_ifs
  · rw [label_done_trace, h]
  · exact h
  · rw [label_done_trace]
    split
    · simp only [World.submit, emit_trace, cancels_append, scsi_req_ref, h]
      simp [cancels]
    · simp only [World.submit, emit_trace, cancels_append, init_iovec_trace, scsi_req_ref, h]
      simp [cancels]

theorem write_complete_cancels (w : World) (ret : Int) :
    cancels (scsi_write_complete w ret).trace = cancels w.trace := by
  have h := (check_ret_cancels (clear_aiocb w) ret).trans (clear_aiocb_cancels w)
  simp only [scsi_write_complete]
  split_ifs
  · rw [label_done_trace, h]
  · rw [write_do_fua_cancels]
    exact h
  · rw [label_done_trace]
    simp only [scsi_req_data, emit_trace, cancels_append, init_iovec_trace, h]
    simp [cancels]

/-- No completion callback calls `bdrv_aio_cancel`. -/
theorem run_callback_cancels (cb : Callback) (w : World) (ret : Int) :
    cancels (run_callback cb w ret).trace = cancels w.trace := by
  cases cb
  · exact flush_complete_cancels w ret
  · exact dma_complete_cancels w ret
  · exact read_complete_cancels w ret
  · exact do_read_cancels w ret
  · exact write_complete_cancels w ret

/-- The two cases of C10 at concrete inputs: cancelling the flush of a
SYNCHRONIZE CACHE in flight on `example_backend`, whose cancel does not
complete the operation, and cancelling a request that has nothing in
flight. -/
theorem scsi_cancel_io_example :
    (scsi_cancel_io (scsi_send_command (example_world cmd_synchronize_cache)).1).trace =
      (scsi_send_command (example_world cmd_synchronize_cache)).1.trace ++
        [.bdrv_aio_cancel ⟨0, .scsi_flush_complete⟩] ∧
    (scsi_cancel_io (scsi_send_command (example_world cmd_synchronize_cache)).1).r.refcount
      = 1 ∧
    (scsi_cancel_io (example_world cmd_read10_one)).trace = [] ∧
    (scsi_cancel_io (example_world cmd_read10_one)).r.refcount = 1 := by
  refine ⟨?_, ?_, ?_, ?_⟩ <;> decide
/-! ## C12: the reference of a submission -/

/-- C12 (code bug): SYNCHRONIZE CACHE on a backend that stops the machine on
write errors. The request has one reference; `scsi_send_command` takes a
second one for the flush it submits. The flush fails with errno 5:
`scsi_flush_complete` stops the machine, marks the request for retry and
releases the reference of the submission (1 left), but leaves the handle of
the finished flush in `r->req.aiocb`. The request has no status and waits for
its retry. When the bus cancels it now, `scsi_cancel_io` finds the stale
handle, calls `bdrv_aio_cancel` on it and releases the reference of the
submission a second time: no reference is left on a request the bus still
holds. -/
theorem flush_reference_released_twice :
    world_sync_stop.r.refcount = 1 ∧
    (scsi_send_command world_sync_stop).1.r.refcount = 2 ∧
    (scsi_send_command world_sync_stop).1.r.aiocb = some ⟨0, .scsi_flush_complete⟩ ∧
    world_sync_retry.r.refcount = 1 ∧
    world_sync_retry.r.aiocb = some ⟨0, .scsi_flush_complete⟩ ∧
    world_sync_retry.r.status = -1 ∧ world_sync_retry.r.retry = true ∧
    world_sync_retry.r.io_canceled = false ∧
    world_sync_retry.trace =
      [.bdrv_acct_start 0 .BDRV_ACCT_FLUSH, .bdrv_aio_flush .scsi_flush_complete,
       .bdrv_acct_done, .bdrv_emit_qmp_error_event .BDRV_ACTION_STOP false, .vm_stop,
       .bdrv_iostatus_set_err 5, .scsi_req_retry] ∧
    (cancel_request world_sync_retry).trace =
      world_sync_retry.trace ++ [.bdrv_aio_cancel ⟨0, .scsi_flush_complete⟩] ∧
    (cancel_request world_sync_retry).r.refcount = 0 := by
  refine ⟨?_, ?_, ?_, ?_, ?_, ?_, ?_, ?_, ?_, ?_, ?_⟩ <;> decide

/-- The stale handle is the work of `scsi_flush_complete` alone: the other
four callbacks clear `r->req.aiocb` when they start, so a cancel after their
stop/retry exit finds no handle and releases nothing. On the WRITE(10) of
`world_write_fua_stop` whose write fails with errno 5 the count goes from 2
to 1 and stays 1 through the cancel. -/
theorem write_retry_released_once :
    world_write_fua_stop.r.refcount = 2 ∧
    (backend_complete world_write_fua_stop (-5)).r.refcount = 1 ∧
    (backend_complete world_write_fua_stop (-5)).r.aiocb = none ∧
    (backend_complete world_write_fua_stop (-5)).r.retry = true ∧
    (cancel_request (backend_complete world_write_fua_stop (-5))).r.refcount = 1 := by
  refine ⟨?_, ?_, ?_, ?_, ?_⟩ <;> decide
/-! ## C14 and C15: READ CAPACITY on a medium smaller than one block -/

/-- C14 (code bug): READ CAPACITY(10) with PMI and LBA zero on a medium of 7
sectors in a device with 4096-byte blocks (`nb_sectors` is not zero, the
block size is a multiple of 512 below 32768). The medium holds
`7 / 8 = 0` blocks. The command succeeds with 8 bytes and posts nothing; it
stores `max_lba = 2^64 - 1`, the decrement of zero, and the payload is
`FF FF FF FF 00 00 10 00`: a last block address of `2^32 - 1` for a medium
without a single block. -/
theorem read_capacity_10_no_block :
    (world_capacity_4096_7 cmd_read_capacity_10).bs.nb_sectors = 7 ∧
    (world_capacity_4096_7 cmd_read_capacity_10).s.blocksize = 4096 ∧
    (world_capacity_4096_7 cmd_read_capacity_10).bs.nb_sectors /
      ((world_capacity_4096_7 cmd_read_capacity_10).s.blocksize / 512) = 0 ∧
    (scsi_send_command (world_capacity_4096_7 cmd_read_capacity_10)).2 = 8 ∧
    (scsi_send_command (world_capacity_4096_7 cmd_read_capacity_10)).1.trace = [] ∧
    (scsi_send_command (world_capacity_4096_7 cmd_read_capacity_10)).1.s.max_lba
      = 18446744073709551615 ∧
    (List.range 8).map ((scsi_send_command
      (world_capacity_4096_7 cmd_read_capacity_10)).1.r.iov_base.getD (fun _ => 0))
      = [0xFF, 0xFF, 0xFF, 0xFF, 0x00, 0x00, 0x10, 0x00] := by
  refine ⟨?_, ?_, ?_, ?_, ?_, ?_, ?_⟩ <;> decide

/-- C15 (code bug): SERVICE ACTION IN(16) / READ CAPACITY(16) with PMI and LBA
zero and allocation length 32 on a medium of one sector in a device with
1024-byte blocks. The medium holds `1 / 2 = 0` blocks. The command succeeds
with 32 bytes and posts nothing; it stores `max_lba = 2^64 - 1` and the
payload starts `FF FF FF FF FF FF FF FF 00 00 04 00`: a last block address
of `2^64 - 1` for a medium without a single block. -/
theorem read_capacity_16_no_block :
    (world_capacity_1024_1 cmd_read_capacity_16).bs.nb_sectors = 1 ∧
    (world_capacity_1024_1 cmd_read_capacity_16).s.blocksize = 1024 ∧
    (world_capacity_1024_1 cmd_read_capacity_16).bs.nb_sectors /
      ((world_capacity_1024_1 cmd_read_capacity_16).s.blocksize / 512) = 0 ∧
    (scsi_send_command (world_capacity_1024_1 cmd_read_capacity_16)).2 = 32 ∧
    (scsi_send_command (world_capacity_1024_1 cmd_read_capacity_16)).1.trace = [] ∧
    (scsi_send_command (world_capacity_1024_1 cmd_read_capacity_16)).1.s.max_lba
      = 18446744073709551615 ∧
    (List.range 12).map ((scsi_send_command
      (world_capacity_1024_1 cmd_read_capacity_16)).1.r.iov_base.getD (fun _ => 0))
      = [0xFF, 0xFF, 0xFF, 0xFF, 0xFF, 0xFF, 0xFF, 0xFF, 0x00, 0x00, 0x04, 0x00] := by
  refine ⟨?_, ?_, ?_, ?_, ?_, ?_, ?_⟩ <;> decide

/-- READ CAPACITY(16) with an allocation length above 65536, which the
16-byte CDB can carry, returns no payload: on the example disk an allocation
length of 65537 is answered with INVALID_FIELD, no buffer is allocated and
`max_lba` is left as it was. -/
theorem read_capacity_16_allocation_limit :
    (scsi_send_command (example_world cmd_read_capacity_16_64k)).2 = 0 ∧
    (scsi_send_command (example_world cmd_read_capacity_16_64k)).1.trace =
      [.scsi_req_build_sense .INVALID_FIELD, .scsi_req_complete CHECK_CONDITION] ∧
    (scsi_send_command (example_world cmd_read_capacity_16_64k)).1.r.iov_base.isNone = true ∧
    (scsi_send_command (example_world cmd_read_capacity_16_64k)).1.s.max_lba = 4095 := by
  refine ⟨?_, ?_, ?_, ?_⟩ <;> decide
/-! ## C39: TEST UNIT READY -/

/-- The case `TEST_UNIT_READY` of the `switch` of `scsi_disk_emulate_command`:
the assertion, then `break`. -/
theorem emulate_switch_test_unit_ready (w : World) (o : Buf)
    (hop : cdb w.r.cmd.buf 0 = TEST_UNIT_READY) :
    scsi_disk_emulate_switch w o =
      ⟨c_assert w (!w.s.tray_open && w.bs.is_inserted), o, .brk 0⟩ := by
  simp only [scsi_disk_emulate_switch, hop, if_true]

/-- The assertion of the `TEST_UNIT_READY` case is a real test: when
`scsi_disk_emulate_command` is entered with the tray open, which
`scsi_send_command` never does for this opcode, `abort` is called. -/
theorem test_unit_ready_unguarded_aborts :
    (scsi_disk_emulate_command (world_tray_open cmd_test_unit_ready)).1.trace = [.abort] ∧
    (scsi_send_command (world_tray_open cmd_test_unit_ready)).1.trace =
      [.scsi_req_build_sense .NO_MEDIUM, .scsi_req_complete CHECK_CONDITION] := by
  refine ⟨?_, ?_⟩ <;> decide

/-- C39: TEST UNIT READY through `scsi_send_command`, for every device,
backend and request. The assertion of the `TEST_UNIT_READY` case never fails:
no run of `scsi_send_command` calls `abort`. With the tray open or no medium
the medium check at the head of `scsi_send_command` posts NO_MEDIUM and
returns 0, and `scsi_disk_emulate_command` is not called. With the tray
closed and a medium inserted the command is passed to
`scsi_disk_emulate_command`, and the assertion holds in the state it is
tested in (after the buffer allocation); on a request with nothing left to
transfer and an allocation length of at most 65536 the command is then
completed with GOOD, as the only call into the bus, `scsi_send_command`
returns 0 and device and backend are untouched. -/
theorem test_unit_ready_good (w : World) (hop : cdb w.r.cmd.buf 0 = TEST_UNIT_READY) :
    (∃ new, (scsi_send_command w).1.trace = w.trace ++ new ∧ Event.abort ∉ new) ∧
    (w.s.tray_open = true ∨ w.bs.is_inserted = false →
      scsi_send_command w = (scsi_check_condition w .NO_MEDIUM, 0)) ∧
    (w.s.tray_open = false ∧ w.bs.is_inserted = true →
      (scsi_send_command w =
        if (scsi_disk_emulate_command w).2 < 0 then ((scsi_disk_emulate_command w).1, 0)
        else scsi_send_command_tail
          { (scsi_disk_emulate_command w).1 with
            r := { (scsi_disk_emulate_command w).1.r with
              iov_len := ((scsi_disk_emulate_command w).2 % 2 ^ 64).toNat } }) ∧
      assert_test_unit_ready (scsi_disk_emulate_alloc w) ∧
      (w.r.cmd.xfer ≤ 65536 → w.r.sector_count = 0 →
        (scsi_send_command w).2 = 0 ∧
        (scsi_send_command w).1.r.status = GOOD ∧
        (scsi_send_command w).1.trace = w.trace ++ [.scsi_req_complete GOOD] ∧
        (scsi_send_command w).1.s = w.s ∧ (scsi_send_command w).1.bs = w.bs)) := by
  have hn : no_medium_check (cdb w.r.cmd.buf 0) = false := by rw [hop]; decide
  have he : is_emulated (cdb w.r.cmd.buf 0) = true := by rw [hop]; decide
  obtain ⟨har, hat, hah, has, hab⟩ := emulate_alloc_r w
  have hcmd : (scsi_disk_emulate_alloc w).r.cmd = w.r.cmd := by rw [har]
  have hmin : MIN_int_size 0 w.r.cmd.xfer = 0 := by
    unfold MIN_int_size
    split_ifs with h
    · rfl
    · have : w.r.cmd.xfer = 0 := by simpa using h
      rw [this]; rfl
  -- the medium check
  have hno : w.s.tray_open = true ∨ w.bs.is_inserted = false →
      scsi_send_command w = (scsi_check_condition w .NO_MEDIUM, 0) := by
    intro h
    have hc : (!no_medium_check (cdb w.r.cmd.buf 0)) = true ∧
        (w.s.tray_open = true ∨ (!w.bs.is_inserted) = true) := by
      rw [hn]
      refine ⟨rfl, ?_⟩
      rcases h with h | h
      · exact Or.inl h
      · exact Or.inr (by rw [h]; rfl)
    simp only [scsi_send_command]
    rw [if_pos hc]
  -- the dispatch
  have hyes : w.s.tray_open = false ∧ w.bs.is_inserted = true →
      scsi_send_command w =
        if (scsi_disk_emulate_command w).2 < 0 then ((scsi_disk_emulate_command w).1, 0)
        else scsi_send_command_tail
          { (scsi_disk_emulate_command w).1 with
            r := { (scsi_disk_emulate_command w).1.r with
              iov_len := ((scsi_disk_emulate_command w).2 % 2 ^ 64).toNat } } := by
    intro h
    have hc : ¬ ((!no_medium_check (cdb w.r.cmd.buf 0)) = true ∧
        (w.s.tray_open = true ∨ (!w.bs.is_inserted) = true)) := by
      rw [h.1, h.2]
      simp
    simp only [scsi_send_command]
    rw [if_neg hc, switch_emulated w he]
    by_cases hq : (scsi_disk_emulate_command w).2 < 0
    · simp only [if_pos hq, Bool.false_eq_true, if_false]
    · simp only [if_neg hq, if_true]
  -- what `scsi_disk_emulate_command` does with the medium ready
  have hemu : w.s.tray_open = false ∧ w.bs.is_inserted = true →
      ¬(w.r.iov_base.isNone ∧ w.r.cmd.xfer > 65536) →
      scsi_disk_emulate_command w =
        ({ scsi_disk_emulate_alloc w with
            r := { (scsi_disk_emulate_alloc w).r with
              iov_base := some ((scsi_disk_emulate_alloc w).r.iov_base.getD (fun _ => 0)) } },
          0) := by
    intro h hne
    have hassert : c_assert (scsi_disk_emulate_alloc w)
        (!(scsi_disk_emulate_alloc w).s.tray_open && (scsi_disk_emulate_alloc w).bs.is_inserted)
        = scsi_disk_emulate_alloc w := by
      rw [has, hab, h.1, h.2]
      rfl
    simp only [scsi_disk_emulate_command, if_neg hne,
      emulate_switch_test_unit_ready _ _ (hcmd.symm ▸ hop), hassert, hcmd, hmin]
  refine ⟨?_, hno, fun h => ⟨hyes h, ?_, fun hx hsc => ?_⟩⟩
  · by_cases hm : w.s.tray_open = true ∨ w.bs.is_inserted = false
    · rw [hno hm]
      exact ⟨_, check_condition_trace _ _, by simp⟩
    · have h : w.s.tray_open = false ∧ w.bs.is_inserted = true := by
        refine ⟨?_, ?_⟩
        · cases ht : w.s.tray_open
          · rfl
          · exact absurd (Or.inl ht) hm
        · cases hi : w.bs.is_inserted
          · exact absurd (Or.inr hi) hm
          · rfl
      rw [hyes h]
      by_cases hne : w.r.iov_base.isNone ∧ w.r.cmd.xfer > 65536
      · have hq : scsi_disk_emulate_command w =
            ((if w.r.status = -1 then scsi_check_condition w .INVALID_FIELD else w), -1) := by
          unfold scsi_disk_emulate_command
          rw [if_pos hne]
        rw [hq, if_pos (show ((-1 : Int)) < 0 by decide)]
        simp only []
        split_ifs
        · exact ⟨_, check_condition_trace _ _, by simp⟩
        · exact ⟨[], by simp, by simp⟩
      · rw [hemu h hne, if_neg (show ¬ ((0 : Int)) < 0 by decide), tail_trace]
        simp only [hat]
        split_ifs
        · exact ⟨_, rfl, by simp⟩
        · exact ⟨[], by simp, by simp⟩
  · unfold assert_test_unit_ready
    rw [has, hab]
    exact h
  · have hne : ¬(w.r.iov_base.isNone ∧ w.r.cmd.xfer > 65536) := fun h => by omega
    have hsc2 : (scsi_disk_emulate_alloc w).r.sector_count = 0 := by rw [har]; exact hsc
    rw [hyes h, hemu h hne, if_neg (show ¬ ((0 : Int)) < 0 by decide)]
    refine ⟨?_, ?_, ?_, ?_, ?_⟩
    · rw [tail_ret _ (by simp [hsc2])]
      simp [hsc2]
    · rw [tail_status]
      simp [hsc2]
    · rw [tail_trace]
      simp [hsc2, hat]
    · rw [tail_s]; exact has
    · rw [tail_bs]; exact hab

/-- C39 at a concrete input: TEST UNIT READY on the example disk (tray
closed, medium inserted). -/
theorem test_unit_ready_good_witness :
    assert_test_unit_ready (scsi_disk_emulate_alloc (example_world cmd_test_unit_ready)) ∧
    (scsi_send_command (example_world cmd_test_unit_ready)).2 = 0 ∧
    (scsi_send_command (example_world cmd_test_unit_ready)).1.r.status = GOOD ∧
    (scsi_send_command (example_world cmd_test_unit_ready)).1.trace =
      [.scsi_req_complete GOOD] :=
  ⟨((test_unit_ready_good (example_world cmd_test_unit_ready) (by decide)).2.2
      ⟨by decide, by decide⟩).2.1,
   (((test_unit_ready_good (example_world cmd_test_unit_ready) (by decide)).2.2
      ⟨by decide, by decide⟩).2.2 (by decide) (by decide)).1,
   (((test_unit_ready_good (example_world cmd_test_unit_ready) (by decide)).2.2
      ⟨by decide, by decide⟩).2.2 (by decide) (by decide)).2.1,
   (((test_unit_ready_good (example_world cmd_test_unit_ready) (by decide)).2.2
      ⟨by decide, by decide⟩).2.2 (by decide) (by decide)).2.2.1⟩

end ScsiDisk
